import Mathlib

/-!
# Parallel-recovery log dispatcher (`dispatcher.cpp`)

A shallow embedding of the record-dispatch engine of
`src/gausskernel/storage/access/transam/parallel_recovery/dispatcher.cpp`.

* The dispatcher object (`LogDispatcher`) is threaded explicitly through every
  function.  Calls into the page workers and the transaction worker
  (`AddPageRedoItem`, `AddTxnRedoItem`, `ProcessPendingRecords`,
  `DumpDispatcher`) are recorded, in call order, in the ghost field `trace`;
  the queue of a worker is the subsequence of the enqueues addressed to it.
* These calls, and the item pool behind `CreateRedoItem` / `CreateLSNMarker`,
  belong to other files: they are taken to return (a full queue or an
  exhausted pool makes the real calls wait).
* `ereport(PANIC, ...)` ends the computation: a function that can reach one
  returns a `Res`, whose `panic` alternative keeps the trace produced so far.
* Constants, configuration macros and helper predicates that are declared in
  headers or files outside `dispatcher.cpp` are the fields of `Env`; every
  general theorem holds for all of their values.
* Counters (`chosedWorkerIds`, `chosedWorkerCount`, `pendingCount`) are `Nat`
  or `Int` without wrap-around: a record adds at most one hit per block
  reference or relation file, far below 2^32.
-/

namespace parallel_recovery

/-! ## Data model -/

/-- The physical relation identifier `RelFileNode`. -/
structure RelFileNode where
  spcNode : Nat
  dbNode : Nat
  relNode : Nat
  bucketNode : Int
deriving DecidableEq, Repr, Inhabited

/-- The page key `BufferTag` filled in by `INIT_BUFFERTAG(tag, node, forkNum, block)`. -/
structure BufferTag where
  rnode : RelFileNode
  forkNum : Int
  blockNum : Nat
deriving DecidableEq, Repr, Inhabited

/-- One slot of `XLogReaderState::blocks`: the fields the dispatcher reads. -/
structure DecodedBkpBlock where
  in_use : Bool
  rnode : RelFileNode
  forknum : Int
  blkno : Nat
deriving DecidableEq, Repr, Inhabited

/-- The decoded record (`XLogReaderState`): the fields the dispatcher reads.
`blocks` lists the slots `blocks[0]`, `blocks[1]`, ...; a slot past the end of
the list is an unused one (`in_use = false`). -/
structure XLogReaderState where
  ReadRecPtr : Nat
  EndRecPtr : Nat
  xl_rmid : Nat
  xl_info : Nat
  xl_term : Nat
  max_block_id : Int
  blocks : List DecodedBkpBlock
  main_data : List Nat
deriving DecidableEq, Repr, Inhabited

/-- Whether a `RedoItem` was made by `CreateRedoItem` (the real item, with the
record's payload) or by `CreateLSNMarker` (no payload). -/
inductive ItemKind where
  | real
  | lsnMarker
deriving DecidableEq, Repr, Inhabited

/-- The unit of work handed to the workers (`RedoItem`).  `id` is ghost state:
it stands for the address of the item, so that two enqueues of one item can be
told from enqueues of two items with equal contents. -/
structure RedoItem where
  id : Nat
  kind : ItemKind
  record : XLogReaderState
  shareCount : Nat
  designatedWorker : Nat
  expectedTLIs : List Nat
  recordXTime : Int
  sharewithtrxn : Bool
  blockbytrxn : Bool
  imcheckpoint : Bool
deriving DecidableEq, Repr, Inhabited

/-- The `ereport(WARNING, ...)` calls of the dispatch functions. -/
inductive WarnMsg where
  | DispatchSyncTxnRecord_maybe_some_error
  | DispatchToSpecPageWorker_maybe_some_error
  | DispatchGinRecord_warnninginfo
  | DispatchGistRecord_warnninginfo
deriving DecidableEq, Repr, Inhabited

/-- The calls the dispatcher makes on its collaborators, in program order. -/
inductive Event where
  | AddPageRedoItem (worker : Nat) (item : RedoItem)
  | AddTxnRedoItem (item : RedoItem)
  | ProcessPendingRecords (fullSync : Bool)
  | DumpDispatcher
  | WARNING (msg : WarnMsg)
deriving DecidableEq, Repr, Inhabited

/-- The `ereport(PANIC, ...)` sites reachable from `DispatchRedoRecordToFile`;
`null_rm_dispatch` is the call through a `NULL` `rm_dispatch` pointer of a
zero-initialised table row. -/
inductive PanicMsg where
  | AddWorkerToSet_input_work_id_error
  | DispatchRedoRecord_encounter_fatal_error
  | DispatchRedoRecord_could_not_be_here
  | null_rm_dispatch
deriving DecidableEq, Repr, Inhabited

/-- The lifecycle state `g_instance.comm_cxt.predo_cxt.state`. -/
inductive knl_parallel_redo_state where
  | REDO_INIT
  | REDO_STARTING_BEGIN
  | REDO_STARTING_END
  | REDO_IN_PROGRESS
  | REDO_DONE
deriving DecidableEq, Repr, Inhabited

/-- The dispatcher object `LogDispatcher` (the fields used by the dispatch
path), with two ghost fields: `trace`, the calls made on the workers so far,
and `itemSeq`, the number of items created so far. -/
structure LogDispatcher where
  pageWorkerCount : Nat
  totalWorkerCount : Nat
  chosedWorkerIds : Nat → Nat
  chosedWorkerCount : Nat
  pendingCount : Int
  pendingMax : Int
  maxItemNum : Nat
  curItemNum : Nat
  totalCostTime : Nat
  txnCostTime : Nat
  pprCostTime : Nat
  trace : List Event
  itemSeq : Nat

/-- Result of a function that can reach `ereport(PANIC, ...)`: a normal return
with the value and the dispatcher state, or the PANIC with the calls made on
the workers before it. -/
inductive Res (α : Type) where
  | ok (val : α) (d : LogDispatcher)
  | panic (msg : PanicMsg) (trace : List Event)

/-- Sequencing of two steps; a PANIC in the first one skips the second. -/
def Res.andThen {α β : Type} (r : Res α) (f : α → LogDispatcher → Res β) : Res β :=
  match r with
  | Res.ok a d => f a d
  | Res.panic m t => Res.panic m t

/-- The trace at the end of a computation, whether it returned or not. -/
def Res.trace {α : Type} : Res α → List Event
  | Res.ok _ d => d.trace
  | Res.panic _ t => t

/-- Whether the computation returned to its caller. -/
def Res.returned {α : Type} : Res α → Bool
  | Res.ok _ _ => true
  | Res.panic _ _ => false

/-- The PANIC a computation ended with, if any. -/
def Res.panicMsg {α : Type} : Res α → Option PanicMsg
  | Res.ok _ _ => none
  | Res.panic m _ => some m

/-- The value a computation returned, if it returned. -/
def Res.val? {α : Type} : Res α → Option α
  | Res.ok a _ => some a
  | Res.panic _ _ => none

/-- Everything `dispatcher.cpp` takes from other files: resource-manager ids,
opcodes and masks (headers), build and configuration switches, thread-local
recovery state, and the helper predicates and payload decoders of other
translation units. -/
structure Env where
  -- resource-manager ids (rmgrlist.h)
  RM_MAX_ID : Nat
  RM_XLOG_ID : Nat
  RM_XACT_ID : Nat
  RM_SMGR_ID : Nat
  RM_CLOG_ID : Nat
  RM_DBASE_ID : Nat
  RM_TBLSPC_ID : Nat
  RM_MULTIXACT_ID : Nat
  RM_RELMAP_ID : Nat
  RM_STANDBY_ID : Nat
  RM_HEAP2_ID : Nat
  RM_HEAP_ID : Nat
  RM_BTREE_ID : Nat
  RM_HASH_ID : Nat
  RM_GIN_ID : Nat
  RM_GIST_ID : Nat
  RM_SEQ_ID : Nat
  RM_SPGIST_ID : Nat
  RM_SLOT_ID : Nat
  RM_HEAP3_ID : Nat
  RM_BARRIER_ID : Nat
  RM_MOT_ID : Nat
  -- opcode masks
  XLR_INFO_MASK : Nat
  XLOG_HEAP_OPMASK : Nat
  XLOG_MULTIXACT_MASK : Nat
  -- opcodes
  XLOG_CHECKPOINT_SHUTDOWN : Nat
  XLOG_FPI : Nat
  XLOG_FPI_FOR_HINT : Nat
  XLOG_XACT_COMMIT : Nat
  XLOG_XACT_COMMIT_COMPACT : Nat
  XLOG_SMGR_CREATE : Nat
  XLOG_SMGR_TRUNCATE : Nat
  CLOG_ZEROPAGE : Nat
  CLOG_TRUNCATE : Nat
  XLOG_DBASE_CREATE : Nat
  XLOG_DBASE_DROP : Nat
  XLOG_TBLSPC_CREATE : Nat
  XLOG_TBLSPC_DROP : Nat
  XLOG_TBLSPC_RELATIVE_CREATE : Nat
  XLOG_MULTIXACT_ZERO_OFF_PAGE : Nat
  XLOG_MULTIXACT_CREATE_ID : Nat
  XLOG_RELMAP_UPDATE : Nat
  XLOG_STANDBY_LOCK : Nat
  XLOG_RUNNING_XACTS : Nat
  XLOG_STANDBY_CSN : Nat
  XLOG_STANDBY_CSN_ABORTED : Nat
  XLOG_HEAP2_FREEZE : Nat
  XLOG_HEAP2_PAGE_UPGRADE : Nat
  XLOG_HEAP2_CLEANUP_INFO : Nat
  XLOG_HEAP2_MULTI_INSERT : Nat
  XLOG_HEAP2_BCM : Nat
  XLOG_HEAP2_LOGICAL_NEWPAGE : Nat
  XLOG_HEAP_INSERT : Nat
  XLOG_HEAP_INPLACE : Nat
  XLOG_BTREE_INSERT_LEAF : Nat
  XLOG_BTREE_REUSE_PAGE : Nat
  XLOG_GIN_CREATE_INDEX : Nat
  XLOG_GIN_DELETE_LISTPAGE : Nat
  XLOG_GIN_VACUUM_DATA_LEAF_PAGE : Nat
  XLOG_GIST_PAGE_UPDATE : Nat
  XLOG_GIST_PAGE_SPLIT : Nat
  XLOG_GIST_CREATE_INDEX : Nat
  XLOG_SEQ_LOG : Nat
  XLOG_SPGIST_CREATE_INDEX : Nat
  XLOG_SPGIST_VACUUM_REDIRECT : Nat
  XLOG_SLOT_CREATE : Nat
  XLOG_TERM_LOG : Nat
  XLOG_HEAP3_NEW_CID : Nat
  XLOG_HEAP3_REWRITE : Nat
  COLUMN_STORE : Nat
  -- worker designations (redo_item.h)
  ANY_WORKER : Nat
  ALL_WORKER : Nat
  TRXN_WORKER : Nat
  -- standby states (HotStandbyState) and the thread-local standbyState
  STANDBY_INITIALIZED : Nat
  STANDBY_SNAPSHOT_READY : Nat
  standbyState : Nat
  -- build and configuration switches
  ENABLE_MULTIPLE_NODES : Bool
  SUPPORT_FPAGE_DISPATCH : Bool
  SUPPORT_HOT_STANDBY : Bool
  InHotStandby : Bool
  IS_DN_MULTI_STANDYS_MODE : Bool
  enable_mix_replication : Bool
  get_real_recovery_parallelism : Int
  -- helper predicates of other translation units
  IsCheckPoint : XLogReaderState → Bool
  IsDataBaseDrop : XLogReaderState → Bool
  IsSmgrTruncate : XLogReaderState → Bool
  IsGinVacuumPages : XLogReaderState → Bool
  IsGistPageUpdate : XLogReaderState → Bool
  IsSpgistVacuum : XLogReaderState → Bool
  -- the hash of a page key (`tag_hash(&tag, sizeof(tag))`)
  tag_hash : BufferTag → Nat
  -- `XactGetRelFiles(record, &xnodes, &nrels)`: the array (`none` for NULL),
  -- each entry already converted by `ColFileNodeCopy` to its `filenode`, and nrels
  XactGetRelFiles : XLogReaderState → Option (List RelFileNode) × Int
  -- payload decoders: the cast of `XLogRecGetData(record)` followed by
  -- `RelFileNodeCopy(.., XLogRecGetBucketId(record))`
  xl_smgr_create_rnode : XLogReaderState → RelFileNode
  xl_smgr_truncate_rnode : XLogReaderState → RelFileNode
  xl_heap_bcm_node : XLogReaderState → RelFileNode
  xl_heap_logical_newpage_node : XLogReaderState → RelFileNode
  xl_heap_logical_newpage_type : XLogReaderState → Nat
  xl_heap_logical_newpage_hasdata : XLogReaderState → Bool
  ginxlogDeleteListPages_ndeleted : XLogReaderState → Int
  gistxlogPageSplit_npage : XLogReaderState → Int
  -- the shareCount and designatedWorker `CreateLSNMarker` gives a marker
  lsnMarkerShareCount : Nat
  lsnMarkerDesignatedWorker : Nat

/-! ## Constants of `dispatcher.cpp` -/

def XLOG_INFO_SHIFT_SIZE : Nat := 4

def MAX_PENDING : Int := 1

def MAX_PENDING_STANDBY : Int := 1

/-! ## Record accessors -/

/-- The macro `XLogRecGetRmid(record)`; `RmgrId` is `uint8`. -/
def XLogRecGetRmid (record : XLogReaderState) : Nat := record.xl_rmid % 256

/-- The macro `XLogRecGetInfo(record)`; `xl_info` is `uint8`. -/
def XLogRecGetInfo (record : XLogReaderState) : Nat := record.xl_info % 256

/-- The C expression `x & ~m` on unsigned values: the bits of `m` cleared in `x`. -/
def andNot (x m : Nat) : Nat := x ^^^ (x &&& m)

/-- The recurring expression `XLogRecGetInfo(record) & (~XLR_INFO_MASK)`. -/
def infoOp (env : Env) (record : XLogReaderState) : Nat :=
  andNot (XLogRecGetInfo record) env.XLR_INFO_MASK

/-- Slot `record->blocks[i]`. -/
def blockAt (record : XLogReaderState) (i : Nat) : DecodedBkpBlock :=
  record.blocks.getD i { in_use := false, rnode := default, forknum := 0, blkno := 0 }

/-! ## Collaborators: item creation and the worker queues -/

/-- Modelled from the spec: `CreateRedoItem` (redo_item.cpp, not part of this
file) takes a slot of the Redo Item Pool and fills it with a copy of the
record, `expectedConsumers` (shareCount) and the designation; the three flags
start cleared.  The pool is taken to deliver a slot; each call yields a new
item (`id`). -/
def CreateRedoItem (record : XLogReaderState) (shareCount designatedWorker : Nat)
    (expectedTLIs : List Nat) (recordXTime : Int) (_buseoriginal : Bool)
    (d : LogDispatcher) : RedoItem × LogDispatcher :=
  ({ id := d.itemSeq, kind := ItemKind.real, record := record, shareCount := shareCount,
     designatedWorker := designatedWorker, expectedTLIs := expectedTLIs,
     recordXTime := recordXTime, sharewithtrxn := false, blockbytrxn := false,
     imcheckpoint := false },
   { d with itemSeq := d.itemSeq + 1 })

/-- Modelled from the spec: `CreateLSNMarker` (redo_item.cpp, not part of this
file) makes a degenerate Redo Item carrying the record's log position and no
payload. -/
def CreateLSNMarker (env : Env) (record : XLogReaderState) (expectedTLIs : List Nat)
    (_buseoriginal : Bool) (d : LogDispatcher) : RedoItem × LogDispatcher :=
  ({ id := d.itemSeq, kind := ItemKind.lsnMarker, record := { record with main_data := [] },
     shareCount := env.lsnMarkerShareCount,
     designatedWorker := env.lsnMarkerDesignatedWorker, expectedTLIs := expectedTLIs,
     recordXTime := 0, sharewithtrxn := false, blockbytrxn := false, imcheckpoint := false },
   { d with itemSeq := d.itemSeq + 1 })

/-- The call `AddPageRedoItem(g_dispatcher->pageWorkers[worker], item)`. -/
def AddPageRedoItem (worker : Nat) (item : RedoItem) (d : LogDispatcher) : LogDispatcher :=
  { d with trace := d.trace ++ [Event.AddPageRedoItem worker item] }

/-- The call `AddTxnRedoItem(g_dispatcher->txnWorker, item)`. -/
def AddTxnRedoItem (item : RedoItem) (d : LogDispatcher) : LogDispatcher :=
  { d with trace := d.trace ++ [Event.AddTxnRedoItem item] }

/-- An `ereport(WARNING, ...)`: logged, control flow goes on. -/
def ereportWARNING (msg : WarnMsg) (d : LogDispatcher) : LogDispatcher :=
  { d with trace := d.trace ++ [Event.WARNING msg] }

/-- A loop `for (uint32 i = 0; i < n; i++) body` whose body cannot PANIC. -/
def forWorkers (n : Nat) (body : Nat → LogDispatcher → LogDispatcher)
    (d : LogDispatcher) : LogDispatcher :=
  (List.range n).foldl (fun acc i => body i acc) d

/-- A loop over `xs` whose body can PANIC. -/
def forEachRes {α : Type} (xs : List α) (body : α → LogDispatcher → Res Unit)
    (d : LogDispatcher) : Res Unit :=
  match xs with
  | [] => Res.ok () d
  | x :: rest => (body x d).andThen (fun _ d1 => forEachRes rest body d1)

/-! ## Lifecycle helpers -/

def OnHotStandBy (env : Env) : Bool :=
  decide (env.standbyState ≥ env.STANDBY_INITIALIZED)

/-- `CreateDispatcher`: a zero-filled dispatcher (`MemoryContextAllocZero`)
with `pendingMax` set; the lifecycle state becomes `REDO_STARTING_BEGIN`.
`chosedWorkerIds` is not allocated yet. -/
def CreateDispatcher (env : Env) : LogDispatcher × knl_parallel_redo_state :=
  ({ pageWorkerCount := 0, totalWorkerCount := 0, chosedWorkerIds := fun _ => 0,
     chosedWorkerCount := 0, pendingCount := 0,
     pendingMax := if OnHotStandBy env then MAX_PENDING_STANDBY else MAX_PENDING,
     maxItemNum := 0, curItemNum := 0, totalCostTime := 0, txnCostTime := 0,
     pprCostTime := 0, trace := [], itemSeq := 0 },
   knl_parallel_redo_state.REDO_STARTING_BEGIN)

def GetPageWorkerCount (g_dispatcher : Option LogDispatcher) : Nat :=
  match g_dispatcher with
  | none => 0
  | some d => d.pageWorkerCount

/-- `DumpDispatcher`: diagnostic output only. -/
def DumpDispatcher (d : LogDispatcher) : LogDispatcher :=
  { d with trace := d.trace ++ [Event.DumpDispatcher] }

/-! ## Worker selection -/

def ResetChosedWorkerList (d : LogDispatcher) : LogDispatcher :=
  { d with
    chosedWorkerCount := 0,
    chosedWorkerIds := fun i => if i < d.pageWorkerCount then 0 else d.chosedWorkerIds i }

def GetWorkerId (env : Env) (g_dispatcher : Option LogDispatcher) (node : RelFileNode)
    (block : Nat) (forkNum : Int) : Nat :=
  let workerCount := GetPageWorkerCount g_dispatcher
  if workerCount = 0 then env.ANY_WORKER
  else env.tag_hash { rnode := node, forkNum := forkNum, blockNum := block } % workerCount

/-- The counters `chosedWorkerCount` and `chosedWorkerIds[id]` are kept as natural numbers:
between two calls of `ResetChosedWorkerList` a record adds one hit for each block reference
in use, relation file or page worker.  `AddWorkerToSet_uint32` is the same step on the 32-bit
fields; the two agree while the counters are below 2^32 - 1. -/
def AddWorkerToSet (id : Nat) (d : LogDispatcher) : Res Unit :=
  if id ≥ d.pageWorkerCount then
    Res.panic PanicMsg.AddWorkerToSet_input_work_id_error d.trace
  else
    let d1 : LogDispatcher := if d.chosedWorkerIds id = 0 then
        { d with chosedWorkerCount := d.chosedWorkerCount + 1 } else d
    let hits : Nat → Nat := Function.update d1.chosedWorkerIds id (d1.chosedWorkerIds id + 1)
    Res.ok () { d1 with chosedWorkerIds := hits }

def GetWorkerIds (env : Env) (record : XLogReaderState) (designatedWorker : Nat)
    (rnodedispatch : Bool) (d : LogDispatcher) : Res Unit :=
  (forEachRes (List.range (record.max_block_id + 1).toNat)
    (fun i acc =>
      let block := blockAt record i
      if block.in_use != true then Res.ok () acc
      else
        let id := if rnodedispatch then GetWorkerId env (some acc) block.rnode 0 0
          else GetWorkerId env (some acc) block.rnode block.blkno 0
        AddWorkerToSet id acc) d).andThen
  (fun _ d1 =>
    if designatedWorker ≠ env.ANY_WORKER then
      if designatedWorker < GetPageWorkerCount (some d1) then AddWorkerToSet designatedWorker d1
      else Res.ok () d1
    else Res.ok () d1)

/-! ## Record predicates -/

def XactWillRemoveRelFiles (env : Env) (record : XLogReaderState) : Bool :=
  if XLogRecGetRmid record ≠ env.RM_XACT_ID then false
  else decide ((env.XactGetRelFiles record).2 > 0)

def XLogWillChangeStandbyState (env : Env) (record : XLogReaderState) : Bool :=
  if env.standbyState < env.STANDBY_INITIALIZED ∨
      env.standbyState = env.STANDBY_SNAPSHOT_READY then false
  else if XLogRecGetRmid record = env.RM_XLOG_ID ∧
      infoOp env record = env.XLOG_CHECKPOINT_SHUTDOWN then true
  else false

def StandbyWillChangeStandbyState (env : Env) (record : XLogReaderState) : Bool :=
  if env.standbyState < env.STANDBY_SNAPSHOT_READY ∧
      XLogRecGetRmid record = env.RM_STANDBY_ID ∧
      infoOp env record = env.XLOG_RUNNING_XACTS then true
  else false

def RmgrRecordInfoValid (env : Env) (record : XLogReaderState) (minInfo maxInfo : Nat) : Bool :=
  let info0 := infoOp env record
  let info1 := if XLogRecGetRmid record = env.RM_HEAP2_ID ∨ XLogRecGetRmid record = env.RM_HEAP_ID
    then info0 &&& env.XLOG_HEAP_OPMASK else info0
  let info2 := if XLogRecGetRmid record = env.RM_MULTIXACT_ID
    then info1 &&& env.XLOG_MULTIXACT_MASK else info1
  let info := info2 >>> XLOG_INFO_SHIFT_SIZE
  let minInfo1 := (minInfo % 256) >>> XLOG_INFO_SHIFT_SIZE
  let maxInfo1 := (maxInfo % 256) >>> XLOG_INFO_SHIFT_SIZE
  if info ≥ minInfo1 ∧ info ≤ maxInfo1 then true else false

def RmgrGistRecordInfoValid (env : Env) (record : XLogReaderState) (_minInfo _maxInfo : Nat) :
    Bool :=
  let info := infoOp env record
  if info = env.XLOG_GIST_PAGE_UPDATE ∨ info = env.XLOG_GIST_PAGE_SPLIT ∨
      info = env.XLOG_GIST_CREATE_INDEX then true
  else false

/-! ## Fan-out patterns -/

/-- `ProcessPendingRecords(fullSync)`: the drain of the page-worker queues and
`ApplyReadyTxnLogRecords(txnWorker, fullSync)`; the polling of the workers is
taken to come to an end.  The call is recorded, and under the guard the
pending counter is reset. -/
def ProcessPendingRecords (env : Env) (fullSync : Bool) (d : LogDispatcher) : LogDispatcher :=
  let d1 : LogDispatcher := { d with trace := d.trace ++ [Event.ProcessPendingRecords fullSync] }
  if env.get_real_recovery_parallelism > 1 ∧ GetPageWorkerCount (some d1) > 0 then
    { d1 with pendingCount := 0 }
  else d1

def DispatchSyncTxnRecord (env : Env) (record : XLogReaderState) (expectedTLIs : List Nat)
    (recordXTime : Int) (designatedWorker : Nat) (d : LogDispatcher) : LogDispatcher :=
  let p := CreateRedoItem record (d.chosedWorkerCount + 1) designatedWorker expectedTLIs
    recordXTime true d
  let item : RedoItem := { p.1 with sharewithtrxn := true, blockbytrxn := false }
  let d1 := if p.2.chosedWorkerCount ≠ 1 ∧ XLogRecGetRmid item.record ≠ env.RM_XACT_ID then
      ereportWARNING WarnMsg.DispatchSyncTxnRecord_maybe_some_error p.2 else p.2
  let d2 := forWorkers d1.pageWorkerCount (fun i acc =>
    if acc.chosedWorkerIds i > 0 then AddPageRedoItem i item acc
    else
      let m := CreateLSNMarker env record expectedTLIs false acc
      AddPageRedoItem i m.1 m.2) d1
  AddTxnRedoItem item d2

def DispatchToOnePageWorker (env : Env) (record : XLogReaderState) (rnode : RelFileNode)
    (expectedTLIs : List Nat) (d : LogDispatcher) : LogDispatcher :=
  let workerId := GetWorkerId env (some d) rnode 0 0
  let p := CreateRedoItem record 1 env.ANY_WORKER expectedTLIs 0 true d
  AddPageRedoItem workerId p.1 p.2

def DispatchTxnRecord (env : Env) (record : XLogReaderState) (expectedTLIs : List Nat)
    (recordXTime : Int) (imcheckpoint : Bool) (d : LogDispatcher) : LogDispatcher :=
  let d1 := forWorkers d.pageWorkerCount (fun i acc =>
    let m := CreateLSNMarker env record expectedTLIs false acc
    AddPageRedoItem i m.1 m.2) d
  let p := CreateRedoItem record 1 env.ANY_WORKER expectedTLIs recordXTime true d1
  let trxnItem : RedoItem := { p.1 with imcheckpoint := imcheckpoint }
  AddTxnRedoItem trxnItem p.2

def DispatchRecordWithoutPage (env : Env) (record : XLogReaderState) (expectedTLIs : List Nat)
    (d : LogDispatcher) : LogDispatcher :=
  let p := CreateRedoItem record d.pageWorkerCount env.ANY_WORKER expectedTLIs 0 true d
  forWorkers p.2.pageWorkerCount (fun i acc => AddPageRedoItem i p.1 acc) p.2

def DispatchRecordWithPages (env : Env) (record : XLogReaderState) (expectedTLIs : List Nat)
    (rnodedispatch : Bool) (d : LogDispatcher) : Res Unit :=
  (GetWorkerIds env record env.ANY_WORKER rnodedispatch d).andThen (fun _ d1 =>
    let p := CreateRedoItem record d1.chosedWorkerCount env.ANY_WORKER expectedTLIs 0 true d1
    Res.ok () (forWorkers p.2.pageWorkerCount (fun i acc =>
      if acc.chosedWorkerIds i > 0 then AddPageRedoItem i p.1 acc else acc) p.2))

def DispatchToSpecPageWorker (env : Env) (record : XLogReaderState) (expectedTLIs : List Nat)
    (waittrxnsync : Bool) (d : LogDispatcher) : LogDispatcher :=
  let p := CreateRedoItem record d.chosedWorkerCount env.ANY_WORKER expectedTLIs 0 true d
  let item : RedoItem := { p.1 with sharewithtrxn := false, blockbytrxn := waittrxnsync }
  let d1 := if p.2.chosedWorkerCount ≠ 1 then
      ereportWARNING WarnMsg.DispatchToSpecPageWorker_maybe_some_error p.2 else p.2
  let d2 := forWorkers d1.pageWorkerCount (fun i acc =>
    if acc.chosedWorkerIds i > 0 then AddPageRedoItem i item acc
    else
      let m := CreateLSNMarker env record expectedTLIs false acc
      AddPageRedoItem i m.1 m.2) d1
  let m := CreateLSNMarker env record expectedTLIs false d2
  AddTxnRedoItem m.1 m.2

/-! ## Dispatch strategies (the `rm_dispatch` functions) -/

def DispatchBarrierRecord (env : Env) (record : XLogReaderState) (expectedTLIs : List Nat)
    (recordXTime : Int) (d : LogDispatcher) : Res Bool :=
  Res.ok false (DispatchTxnRecord env record expectedTLIs recordXTime false d)

def DispatchRepSlotRecord (env : Env) (record : XLogReaderState) (expectedTLIs : List Nat)
    (recordXTime : Int) (d : LogDispatcher) : Res Bool :=
  Res.ok false (DispatchTxnRecord env record expectedTLIs recordXTime false d)

def DispatchHeap3Record (env : Env) (record : XLogReaderState) (expectedTLIs : List Nat)
    (recordXTime : Int) (d : LogDispatcher) : Res Bool :=
  Res.ok false (DispatchTxnRecord env record expectedTLIs recordXTime false d)

def DispatchDefaultRecord (env : Env) (record : XLogReaderState) (expectedTLIs : List Nat)
    (recordXTime : Int) (d : LogDispatcher) : Res Bool :=
  Res.ok true (DispatchTxnRecord env record expectedTLIs recordXTime false d)

def DispatchXLogRecord (env : Env) (record : XLogReaderState) (expectedTLIs : List Nat)
    (recordXTime : Int) (d : LogDispatcher) : Res Bool :=
  let info := infoOp env record
  if env.IsCheckPoint record then
    let p := CreateRedoItem record (d.pageWorkerCount + 1) env.ALL_WORKER expectedTLIs
      recordXTime true d
    let d1 := forWorkers p.2.pageWorkerCount (fun i acc => AddPageRedoItem i p.1 acc) p.2
    let d2 := AddTxnRedoItem p.1 d1
    Res.ok (XLogWillChangeStandbyState env record) d2
  else if info = env.XLOG_FPI ∨ info = env.XLOG_FPI_FOR_HINT then
    if env.SUPPORT_FPAGE_DISPATCH then
      (DispatchRecordWithPages env record expectedTLIs true d).andThen
        (fun _ d1 => Res.ok false d1)
    else Res.ok false (DispatchRecordWithoutPage env record expectedTLIs d)
  else Res.ok false (DispatchTxnRecord env record expectedTLIs recordXTime false d)

def DispatchRelMapRecord (env : Env) (record : XLogReaderState) (expectedTLIs : List Nat)
    (recordXTime : Int) (d : LogDispatcher) : Res Bool :=
  Res.ok false (DispatchTxnRecord env record expectedTLIs recordXTime false d)

def DispatchXactRecord (env : Env) (record : XLogReaderState) (expectedTLIs : List Nat)
    (recordXTime : Int) (d : LogDispatcher) : Res Bool :=
  if XactWillRemoveRelFiles env record then
    let chosen : Res Unit :=
      if env.SUPPORT_FPAGE_DISPATCH then
        let xnodes := (env.XactGetRelFiles record).1
        let nrels := (env.XactGetRelFiles record).2
        match xnodes with
        | none => Res.ok () d
        | some nodes =>
          forEachRes (List.range nrels.toNat) (fun i acc =>
            AddWorkerToSet (GetWorkerId env (some acc) (nodes.getD i default) 0 0) acc) d
      else
        forEachRes (List.range d.pageWorkerCount) (fun i acc => AddWorkerToSet i acc) d
    chosen.andThen (fun _ d1 =>
      Res.ok false (DispatchSyncTxnRecord env record expectedTLIs recordXTime env.ALL_WORKER d1))
  else Res.ok false (DispatchTxnRecord env record expectedTLIs recordXTime false d)

def DispatchStandbyRecord (env : Env) (record : XLogReaderState) (expectedTLIs : List Nat)
    (recordXTime : Int) (d : LogDispatcher) : Res Bool :=
  let isNeedFullSync := StandbyWillChangeStandbyState env record
  Res.ok isNeedFullSync (DispatchTxnRecord env record expectedTLIs recordXTime false d)

def DispatchMultiXactRecord (env : Env) (record : XLogReaderState) (expectedTLIs : List Nat)
    (recordXTime : Int) (d : LogDispatcher) : Res Bool :=
  Res.ok false (DispatchTxnRecord env record expectedTLIs recordXTime false d)

def DispatchHeapRecord (env : Env) (record : XLogReaderState) (expectedTLIs : List Nat)
    (_recordXTime : Int) (d : LogDispatcher) : Res Bool :=
  if record.max_block_id ≥ 0 then
    (DispatchRecordWithPages env record expectedTLIs env.SUPPORT_FPAGE_DISPATCH d).andThen
      (fun _ d1 => Res.ok false d1)
  else Res.ok false (DispatchRecordWithoutPage env record expectedTLIs d)

def DispatchSeqRecord (env : Env) (record : XLogReaderState) (expectedTLIs : List Nat)
    (_recordXTime : Int) (d : LogDispatcher) : Res Bool :=
  (DispatchRecordWithPages env record expectedTLIs env.SUPPORT_FPAGE_DISPATCH d).andThen
    (fun _ d1 => Res.ok false d1)

def DispatchDataBaseRecord (env : Env) (record : XLogReaderState) (expectedTLIs : List Nat)
    (recordXTime : Int) (d : LogDispatcher) : Res Bool :=
  if env.IsDataBaseDrop record then
    let p := CreateRedoItem record (d.pageWorkerCount + 1) env.ALL_WORKER expectedTLIs
      recordXTime true d
    let item : RedoItem := { p.1 with imcheckpoint := true }
    let d1 := forWorkers p.2.pageWorkerCount (fun i acc => AddPageRedoItem i item acc) p.2
    Res.ok true (AddTxnRedoItem item d1)
  else
    let d1 := DispatchRecordWithoutPage env record expectedTLIs d
    let m := CreateLSNMarker env record expectedTLIs false d1
    let txnItem : RedoItem := { m.1 with imcheckpoint := true }
    Res.ok false (AddTxnRedoItem txnItem m.2)

def DispatchTableSpaceRecord (env : Env) (record : XLogReaderState) (expectedTLIs : List Nat)
    (recordXTime : Int) (d : LogDispatcher) : Res Bool :=
  let info := infoOp env record
  if info = env.XLOG_TBLSPC_DROP then
    Res.ok true (DispatchTxnRecord env record expectedTLIs recordXTime true d)
  else
    let d1 := DispatchRecordWithoutPage env record expectedTLIs d
    let m := CreateLSNMarker env record expectedTLIs false d1
    let trxnItem : RedoItem := { m.1 with imcheckpoint := true }
    Res.ok false (AddTxnRedoItem trxnItem m.2)

def DispatchSmgrRecord (env : Env) (record : XLogReaderState) (expectedTLIs : List Nat)
    (recordXTime : Int) (d : LogDispatcher) : Res Bool :=
  let info := infoOp env record
  if info = env.XLOG_SMGR_CREATE then
    if env.SUPPORT_FPAGE_DISPATCH then
      Res.ok false (DispatchToOnePageWorker env record (env.xl_smgr_create_rnode record)
        expectedTLIs d)
    else Res.ok false (DispatchRecordWithoutPage env record expectedTLIs d)
  else if env.IsSmgrTruncate record then
    let chosen : Res Unit :=
      if env.SUPPORT_FPAGE_DISPATCH then
        AddWorkerToSet (GetWorkerId env (some d) (env.xl_smgr_truncate_rnode record) 0 0) d
      else
        forEachRes (List.range d.pageWorkerCount) (fun i acc => AddWorkerToSet i acc) d
    chosen.andThen (fun _ d1 =>
      Res.ok false (DispatchSyncTxnRecord env record expectedTLIs recordXTime env.ALL_WORKER d1))
  else Res.ok false d

def DispatchCLogRecord (env : Env) (record : XLogReaderState) (expectedTLIs : List Nat)
    (recordXTime : Int) (d : LogDispatcher) : Res Bool :=
  Res.ok false (DispatchTxnRecord env record expectedTLIs recordXTime false d)

def DispatchHashRecord (env : Env) (record : XLogReaderState) (expectedTLIs : List Nat)
    (recordXTime : Int) (d : LogDispatcher) : Res Bool :=
  Res.ok true (DispatchTxnRecord env record expectedTLIs recordXTime false d)

def DispatchBtreeRecord (env : Env) (record : XLogReaderState) (expectedTLIs : List Nat)
    (recordXTime : Int) (d : LogDispatcher) : Res Bool :=
  let info := infoOp env record
  if info = env.XLOG_BTREE_REUSE_PAGE then
    Res.ok false (DispatchTxnRecord env record expectedTLIs recordXTime false d)
  else
    (DispatchRecordWithPages env record expectedTLIs true d).andThen
      (fun _ d1 => Res.ok false d1)

def DispatchGinRecord (env : Env) (record : XLogReaderState) (expectedTLIs : List Nat)
    (_recordXTime : Int) (d : LogDispatcher) : Res Bool :=
  let info := infoOp env record
  let d0 := if info = env.XLOG_GIN_DELETE_LISTPAGE ∧
      env.ginxlogDeleteListPages_ndeleted record ≠ record.max_block_id then
      ereportWARNING WarnMsg.DispatchGinRecord_warnninginfo d else d
  if env.IsGinVacuumPages record ∧ env.SUPPORT_HOT_STANDBY then
    (GetWorkerIds env record env.ANY_WORKER true d0).andThen (fun _ d1 =>
      Res.ok false (DispatchToSpecPageWorker env record expectedTLIs true d1))
  else
    (DispatchRecordWithPages env record expectedTLIs true d0).andThen
      (fun _ d1 => Res.ok false d1)

def DispatchGistRecord (env : Env) (record : XLogReaderState) (expectedTLIs : List Nat)
    (_recordXTime : Int) (d : LogDispatcher) : Res Bool :=
  let info := infoOp env record
  let d0 := if info = env.XLOG_GIST_PAGE_SPLIT ∧
      env.gistxlogPageSplit_npage record ≠ record.max_block_id then
      ereportWARNING WarnMsg.DispatchGistRecord_warnninginfo d else d
  if env.IsGistPageUpdate record ∧ env.SUPPORT_HOT_STANDBY then
    (GetWorkerIds env record env.ANY_WORKER true d0).andThen (fun _ d1 =>
      Res.ok false (DispatchToSpecPageWorker env record expectedTLIs true d1))
  else
    (DispatchRecordWithPages env record expectedTLIs true d0).andThen
      (fun _ d1 => Res.ok false d1)

def DispatchSpgistRecord (env : Env) (record : XLogReaderState) (expectedTLIs : List Nat)
    (recordXTime : Int) (d : LogDispatcher) : Res Bool :=
  if env.IsSpgistVacuum record ∧ env.SUPPORT_HOT_STANDBY then
    let info := infoOp env record
    (GetWorkerIds env record env.ANY_WORKER true d).andThen (fun _ d1 =>
      if info = env.XLOG_SPGIST_VACUUM_REDIRECT ∧ env.InHotStandby then
        Res.ok false
          (DispatchSyncTxnRecord env record expectedTLIs recordXTime env.TRXN_WORKER d1)
      else Res.ok false (DispatchToSpecPageWorker env record expectedTLIs true d1))
  else
    (DispatchRecordWithPages env record expectedTLIs true d).andThen
      (fun _ d1 => Res.ok false d1)

def DispatchHeap2VacuumRecord (env : Env) (record : XLogReaderState) (expectedTLIs : List Nat)
    (recordXTime : Int) (d : LogDispatcher) : Res Bool :=
  let info := infoOp env record &&& env.XLOG_HEAP_OPMASK
  if info = env.XLOG_HEAP2_CLEANUP_INFO then
    Res.ok false (DispatchTxnRecord env record expectedTLIs recordXTime false d)
  else
    (DispatchRecordWithPages env record expectedTLIs env.SUPPORT_FPAGE_DISPATCH d).andThen
      (fun _ d1 => Res.ok false d1)

def DispatchHeap2Record (env : Env) (record : XLogReaderState) (expectedTLIs : List Nat)
    (recordXTime : Int) (d : LogDispatcher) : Res Bool :=
  let info := infoOp env record &&& env.XLOG_HEAP_OPMASK
  if info = env.XLOG_HEAP2_MULTI_INSERT ∨ info = env.XLOG_HEAP2_PAGE_UPGRADE then
    (DispatchRecordWithPages env record expectedTLIs env.SUPPORT_FPAGE_DISPATCH d).andThen
      (fun _ d1 => Res.ok false d1)
  else if info = env.XLOG_HEAP2_BCM then
    if env.SUPPORT_FPAGE_DISPATCH then
      Res.ok false (DispatchToOnePageWorker env record (env.xl_heap_bcm_node record)
        expectedTLIs d)
    else Res.ok false (DispatchRecordWithoutPage env record expectedTLIs d)
  else if info = env.XLOG_HEAP2_LOGICAL_NEWPAGE then
    if env.IS_DN_MULTI_STANDYS_MODE then
      if env.xl_heap_logical_newpage_type record = env.COLUMN_STORE ∧
          env.xl_heap_logical_newpage_hasdata record then
        if env.SUPPORT_FPAGE_DISPATCH then
          Res.ok false (DispatchToOnePageWorker env record
            (env.xl_heap_logical_newpage_node record) expectedTLIs d)
        else Res.ok false (DispatchRecordWithoutPage env record expectedTLIs d)
      else Res.ok false d
    else
      if ¬ env.enable_mix_replication then
        Res.ok true (DispatchTxnRecord env record expectedTLIs recordXTime false d)
      else Res.ok false d
  else DispatchHeap2VacuumRecord env record expectedTLIs recordXTime d

def DispatchMotRecord (env : Env) (record : XLogReaderState) (expectedTLIs : List Nat)
    (recordXTime : Int) (d : LogDispatcher) : Res Bool :=
  Res.ok false (DispatchTxnRecord env record expectedTLIs recordXTime false d)

/-! ## The routing table and the dispatch entry point -/

structure RmgrDispatchData where
  rm_dispatch : Option (Env → XLogReaderState → List Nat → Int → LogDispatcher → Res Bool)
  rm_loginfovalid : Option (Env → XLogReaderState → Nat → Nat → Bool)
  rm_id : Nat
  rm_mininfo : Nat
  rm_maxinfo : Nat

/-- The initialisers of `g_dispatchTable`, in source order. -/
def g_dispatchTable (env : Env) : List RmgrDispatchData :=
  [ ⟨some DispatchXLogRecord, some RmgrRecordInfoValid, env.RM_XLOG_ID,
      env.XLOG_CHECKPOINT_SHUTDOWN, env.XLOG_FPI⟩,
    ⟨some DispatchXactRecord, some RmgrRecordInfoValid, env.RM_XACT_ID,
      env.XLOG_XACT_COMMIT, env.XLOG_XACT_COMMIT_COMPACT⟩,
    ⟨some DispatchSmgrRecord, some RmgrRecordInfoValid, env.RM_SMGR_ID,
      env.XLOG_SMGR_CREATE, env.XLOG_SMGR_TRUNCATE⟩,
    ⟨some DispatchCLogRecord, some RmgrRecordInfoValid, env.RM_CLOG_ID,
      env.CLOG_ZEROPAGE, env.CLOG_TRUNCATE⟩,
    ⟨some DispatchDataBaseRecord, some RmgrRecordInfoValid, env.RM_DBASE_ID,
      env.XLOG_DBASE_CREATE, env.XLOG_DBASE_DROP⟩,
    ⟨some DispatchTableSpaceRecord, some RmgrRecordInfoValid, env.RM_TBLSPC_ID,
      env.XLOG_TBLSPC_CREATE, env.XLOG_TBLSPC_RELATIVE_CREATE⟩,
    ⟨some DispatchMultiXactRecord, some RmgrRecordInfoValid, env.RM_MULTIXACT_ID,
      env.XLOG_MULTIXACT_ZERO_OFF_PAGE, env.XLOG_MULTIXACT_CREATE_ID⟩,
    ⟨some DispatchRelMapRecord, some RmgrRecordInfoValid, env.RM_RELMAP_ID,
      env.XLOG_RELMAP_UPDATE, env.XLOG_RELMAP_UPDATE⟩,
    (if env.ENABLE_MULTIPLE_NODES then
      ⟨some DispatchStandbyRecord, some RmgrRecordInfoValid, env.RM_STANDBY_ID,
        env.XLOG_STANDBY_LOCK, env.XLOG_STANDBY_CSN⟩
    else
      ⟨some DispatchStandbyRecord, some RmgrRecordInfoValid, env.RM_STANDBY_ID,
        env.XLOG_STANDBY_LOCK, env.XLOG_STANDBY_CSN_ABORTED⟩),
    ⟨some DispatchHeap2Record, some RmgrRecordInfoValid, env.RM_HEAP2_ID,
      env.XLOG_HEAP2_FREEZE, env.XLOG_HEAP2_LOGICAL_NEWPAGE⟩,
    ⟨some DispatchHeapRecord, some RmgrRecordInfoValid, env.RM_HEAP_ID,
      env.XLOG_HEAP_INSERT, env.XLOG_HEAP_INPLACE⟩,
    ⟨some DispatchBtreeRecord, some RmgrRecordInfoValid, env.RM_BTREE_ID,
      env.XLOG_BTREE_INSERT_LEAF, env.XLOG_BTREE_REUSE_PAGE⟩,
    ⟨some DispatchHashRecord, none, env.RM_HASH_ID, 0, 0⟩,
    ⟨some DispatchGinRecord, some RmgrRecordInfoValid, env.RM_GIN_ID,
      env.XLOG_GIN_CREATE_INDEX, env.XLOG_GIN_VACUUM_DATA_LEAF_PAGE⟩,
    ⟨some DispatchGistRecord, some RmgrGistRecordInfoValid, env.RM_GIST_ID, 0, 0⟩,
    ⟨some DispatchSeqRecord, some RmgrRecordInfoValid, env.RM_SEQ_ID,
      env.XLOG_SEQ_LOG, env.XLOG_SEQ_LOG⟩,
    ⟨some DispatchSpgistRecord, some RmgrRecordInfoValid, env.RM_SPGIST_ID,
      env.XLOG_SPGIST_CREATE_INDEX, env.XLOG_SPGIST_VACUUM_REDIRECT⟩,
    ⟨some DispatchRepSlotRecord, some RmgrRecordInfoValid, env.RM_SLOT_ID,
      env.XLOG_SLOT_CREATE, env.XLOG_TERM_LOG⟩,
    ⟨some DispatchHeap3Record, some RmgrRecordInfoValid, env.RM_HEAP3_ID,
      env.XLOG_HEAP3_NEW_CID, env.XLOG_HEAP3_REWRITE⟩ ] ++
  (if env.ENABLE_MULTIPLE_NODES then
    [ ⟨some DispatchBarrierRecord, none, env.RM_BARRIER_ID, 0, 0⟩ ] else []) ++
  [ ⟨some DispatchMotRecord, none, env.RM_MOT_ID, 0, 0⟩ ]

/-- Row `g_dispatchTable[rmid]` of the array of `RM_MAX_ID + 1` rows: a row
without an initialiser is zero-filled. -/
def dispatchRow (env : Env) (rmid : Nat) : RmgrDispatchData :=
  (g_dispatchTable env).getD rmid ⟨none, none, 0, 0, 0⟩

/-- The malformed-record test at the head of `DispatchRedoRecordToFile`
(the value of `fatalerror`). -/
def fatalerror (env : Env) (record : XLogReaderState) : Bool :=
  let rmid := XLogRecGetRmid record
  if rmid ≤ env.RM_MAX_ID then
    let indexid := (dispatchRow env rmid).rm_id
    if (indexid != rmid) ||
        (match (dispatchRow env rmid).rm_loginfovalid with
          | some valid => valid env record (dispatchRow env rmid).rm_mininfo
              (dispatchRow env rmid).rm_maxinfo == false
          | none => false) then true
    else false
  else true

/-- The strategy call of `DispatchRedoRecordToFile`: the row's `rm_dispatch`,
or `DispatchDefaultRecord` with the result overwritten by `true`. -/
def runStrategy (env : Env) (record : XLogReaderState) (expectedTLIs : List Nat)
    (recordXTime : Int) (d : LogDispatcher) : Res Bool :=
  if fatalerror env record ≠ true then
    match (dispatchRow env (XLogRecGetRmid record)).rm_dispatch with
    | some dispatch => dispatch env record expectedTLIs recordXTime d
    | none => Res.panic PanicMsg.null_rm_dispatch d.trace
  else
    (DispatchDefaultRecord env record expectedTLIs recordXTime d).andThen
      (fun _ d1 => Res.ok true d1)

/-- `DispatchRedoRecordToFile`.  The bookkeeping of the record's term and of
`redoItemIdx`, which the dispatch does not read, is left out. -/
def DispatchRedoRecordToFile (env : Env) (g_dispatcher : Option LogDispatcher)
    (record : XLogReaderState) (expectedTLIs : List Nat) (recordXTime : Int) : Res Unit :=
  match g_dispatcher with
  | none => Res.panic PanicMsg.DispatchRedoRecord_could_not_be_here []
  | some d =>
    if env.get_real_recovery_parallelism > 1 ∧ GetPageWorkerCount (some d) > 0 then
      (runStrategy env record expectedTLIs recordXTime (ResetChosedWorkerList d)).andThen
        (fun isNeedFullSync d1 =>
          let d2 : LogDispatcher :=
            if isNeedFullSync then ProcessPendingRecords env true d1
            else
              let d1a : LogDispatcher := { d1 with pendingCount := d1.pendingCount + 1 }
              if d1a.pendingCount ≥ d1a.pendingMax then ProcessPendingRecords env false d1a
              else d1a
          if fatalerror env record = true then
            Res.panic PanicMsg.DispatchRedoRecord_encounter_fatal_error (DumpDispatcher d2).trace
          else Res.ok () d2)
    else Res.panic PanicMsg.DispatchRedoRecord_could_not_be_here d.trace

/-! ## Items as they appear in a trace -/

/-- The LSN marker `CreateLSNMarker` returns when called with `itemSeq = id`. -/
def markerItem (env : Env) (record : XLogReaderState) (expectedTLIs : List Nat) (id : Nat) :
    RedoItem :=
  { id := id, kind := ItemKind.lsnMarker, record := { record with main_data := [] },
    shareCount := env.lsnMarkerShareCount,
    designatedWorker := env.lsnMarkerDesignatedWorker, expectedTLIs := expectedTLIs,
    recordXTime := 0, sharewithtrxn := false, blockbytrxn := false, imcheckpoint := false }

/-- The real item `CreateRedoItem` returns when called with `itemSeq = id`. -/
def realItem (record : XLogReaderState) (shareCount designatedWorker : Nat)
    (expectedTLIs : List Nat) (recordXTime : Int) (id : Nat) : RedoItem :=
  { id := id, kind := ItemKind.real, record := record, shareCount := shareCount,
    designatedWorker := designatedWorker, expectedTLIs := expectedTLIs,
    recordXTime := recordXTime, sharewithtrxn := false, blockbytrxn := false,
    imcheckpoint := false }

/-- The number of page workers below `i` that are not in the chosen set. -/
def unchosenBelow (hits : Nat → Nat) (i : Nat) : Nat :=
  ((List.range i).filter (fun j => hits j = 0)).length

/-! ## Observations on a trace -/

/-- The items enqueued to page worker `w`, in enqueue order. -/
def pageQueue (w : Nat) (trace : List Event) : List RedoItem :=
  trace.filterMap (fun e =>
    match e with
    | Event.AddPageRedoItem w1 item => if w1 = w then some item else none
    | _ => none)

/-- The items enqueued to the transaction worker, in enqueue order. -/
def txnQueue (trace : List Event) : List RedoItem :=
  trace.filterMap (fun e =>
    match e with
    | Event.AddTxnRedoItem item => some item
    | _ => none)

/-- An enqueue to a page worker or to the transaction worker. -/
def Event.isEnqueue : Event → Bool
  | Event.AddPageRedoItem _ _ => true
  | Event.AddTxnRedoItem _ => true
  | _ => false

/-! ## Vocabulary of the statements -/

/-- The log position of a record: its start and end pointers. -/
def lsnOf (r : XLogReaderState) : Nat × Nat := (r.ReadRecPtr, r.EndRecPtr)

/-- Some slot `blocks[i]`, `i <= max_block_id`, is in use. -/
def hasInUseBlock (record : XLogReaderState) : Bool :=
  (List.range (record.max_block_id + 1).toNat).any (fun i => (blockAt record i).in_use)

/-- `d1` differs from `d` at most in the chosen worker set. -/
def ChosenOnly (d d1 : LogDispatcher) : Prop :=
  d1 = { d with chosedWorkerIds := d1.chosedWorkerIds, chosedWorkerCount := d1.chosedWorkerCount }

/-- `d1` differs from `d` at most in the chosen worker set and in WARNINGs
appended to the trace. -/
def Prepared (d d1 : LogDispatcher) : Prop :=
  ∃ ws : List WarnMsg,
    d1 = { d with chosedWorkerIds := d1.chosedWorkerIds,
                  chosedWorkerCount := d1.chosedWorkerCount,
                  trace := d.trace ++ ws.map Event.WARNING }

/-- The events of one dispatch call for `record` over `n` page workers: only
enqueues and warnings, at most one entry per worker, each carrying the
record's log position. -/
structure Fanout (n : Nat) (record : XLogReaderState) (evs : List Event) : Prop where
  events : ∀ e ∈ evs, e.isEnqueue = true ∨ ∃ m, e = Event.WARNING m
  page_le_one : ∀ w, (pageQueue w evs).length ≤ 1
  page_bound : ∀ w, n ≤ w → pageQueue w evs = []
  page_lsn : ∀ w, ∀ it ∈ pageQueue w evs, lsnOf it.record = lsnOf record
  txn_le_one : (txnQueue evs).length ≤ 1
  txn_lsn : ∀ it ∈ txnQueue evs, lsnOf it.record = lsnOf record

/-- The real item of `record` is enqueued to some page worker or to the
transaction worker by one of `evs`. -/
def realDelivered (record : XLogReaderState) (evs : List Event) : Prop :=
  (∃ w, ∃ it ∈ pageQueue w evs, it.kind = ItemKind.real ∧ it.record = record) ∨
  (∃ it ∈ txnQueue evs, it.kind = ItemKind.real ∧ it.record = record)

/-- The guards of the `XLOG_HEAP2_LOGICAL_NEWPAGE` branch of `DispatchHeap2Record`
under which the record is given to no worker. -/
def heap2NewpageSkipped (env : Env) (record : XLogReaderState) : Bool :=
  decide (XLogRecGetRmid record = env.RM_HEAP2_ID) &&
  decide (infoOp env record &&& env.XLOG_HEAP_OPMASK = env.XLOG_HEAP2_LOGICAL_NEWPAGE) &&
  (if env.IS_DN_MULTI_STANDYS_MODE then
     !(decide (env.xl_heap_logical_newpage_type record = env.COLUMN_STORE) &&
       env.xl_heap_logical_newpage_hasdata record)
   else env.enable_mix_replication)

/-- The fall-through of `DispatchSmgrRecord`: neither a create nor a truncate. -/
def smgrSkipped (env : Env) (record : XLogReaderState) : Bool :=
  decide (XLogRecGetRmid record = env.RM_SMGR_ID) &&
  decide (infoOp env record ≠ env.XLOG_SMGR_CREATE) && !(env.IsSmgrTruncate record)

/-- The resource managers whose strategy can route a record by its block
references (`GetWorkerIds`). -/
def pageRouted (env : Env) (record : XLogReaderState) : Bool :=
  decide (XLogRecGetRmid record = env.RM_XLOG_ID ∨ XLogRecGetRmid record = env.RM_HEAP2_ID ∨
    XLogRecGetRmid record = env.RM_HEAP_ID ∨ XLogRecGetRmid record = env.RM_BTREE_ID ∨
    XLogRecGetRmid record = env.RM_GIN_ID ∨ XLogRecGetRmid record = env.RM_GIST_ID ∨
    XLogRecGetRmid record = env.RM_SEQ_ID ∨ XLogRecGetRmid record = env.RM_SPGIST_ID)

/-- What every dispatch strategy does on a dispatcher with at least one page
worker: it returns, leaves the worker count and the pending counters alone, and
appends the events of one fan-out; the real item is delivered unless `exc`. -/
def StratOK (record : XLogReaderState) (d : LogDispatcher) (r : Res Bool) (exc : Prop) : Prop :=
  ∃ b d1 evs, r = Res.ok b d1 ∧ d1.pageWorkerCount = d.pageWorkerCount ∧
    d1.pendingCount = d.pendingCount ∧ d1.pendingMax = d.pendingMax ∧
    d1.trace = d.trace ++ evs ∧ Fanout d.pageWorkerCount record evs ∧
    (realDelivered record evs ∨ exc)

/-- A record the routing table rejects: its resource-manager id is out of
range, or the row found for it names another id, or the row has a validity
predicate and that predicate rejects the record's opcode. -/
def malformed (env : Env) (record : XLogReaderState) : Prop :=
  XLogRecGetRmid record > env.RM_MAX_ID ∨
  (dispatchRow env (XLogRecGetRmid record)).rm_id ≠ XLogRecGetRmid record ∨
  ∃ valid, (dispatchRow env (XLogRecGetRmid record)).rm_loginfovalid = some valid ∧
    valid env record (dispatchRow env (XLogRecGetRmid record)).rm_mininfo
      (dispatchRow env (XLogRecGetRmid record)).rm_maxinfo = false

/-- The records whose real item `DispatchRedoRecordToFile` may give to no
worker: the skipped heap2 new-page and smgr records, and records of a
page-routed resource manager without a block reference in use. -/
def notDelivered (env : Env) (record : XLogReaderState) : Prop :=
  heap2NewpageSkipped env record = true ∨ smgrSkipped env record = true ∨
    (pageRouted env record = true ∧ hasInUseBlock record = false)

/-- `DispatchRedoRecordToFile` over a sequence of records, each with its
`expectedTLIs` and `recordXTime`; a PANIC ends the sequence. -/
def dispatchAll (env : Env) (d : LogDispatcher) :
    List (XLogReaderState × List Nat × Int) → Res Unit
  | [] => Res.ok () d
  | r :: rest =>
    (DispatchRedoRecordToFile env (some d) r.1 r.2.1 r.2.2).andThen
      (fun _ d1 => dispatchAll env d1 rest)

/-! ## A concrete configuration for evaluating the model

The values follow the openGauss headers for a single-node build; they serve as
inputs of the closed examples below. -/

def sampleRmid (record : XLogReaderState) : Nat := record.xl_rmid % 256

def sampleInfo (record : XLogReaderState) : Nat := (record.xl_info % 256) / 16 * 16

def sampleNode (record : XLogReaderState) : RelFileNode :=
  { spcNode := record.main_data.getD 0 0, dbNode := record.main_data.getD 1 0,
    relNode := record.main_data.getD 2 0, bucketNode := -1 }

def sampleEnv : Env where
  RM_MAX_ID := 19
  RM_XLOG_ID := 0
  RM_XACT_ID := 1
  RM_SMGR_ID := 2
  RM_CLOG_ID := 3
  RM_DBASE_ID := 4
  RM_TBLSPC_ID := 5
  RM_MULTIXACT_ID := 6
  RM_RELMAP_ID := 7
  RM_STANDBY_ID := 8
  RM_HEAP2_ID := 9
  RM_HEAP_ID := 10
  RM_BTREE_ID := 11
  RM_HASH_ID := 12
  RM_GIN_ID := 13
  RM_GIST_ID := 14
  RM_SEQ_ID := 15
  RM_SPGIST_ID := 16
  RM_SLOT_ID := 17
  RM_HEAP3_ID := 18
  RM_BARRIER_ID := 20
  RM_MOT_ID := 19
  XLR_INFO_MASK := 0x0F
  XLOG_HEAP_OPMASK := 0x70
  XLOG_MULTIXACT_MASK := 0x70
  XLOG_CHECKPOINT_SHUTDOWN := 0x00
  XLOG_FPI := 0xB0
  XLOG_FPI_FOR_HINT := 0xA0
  XLOG_XACT_COMMIT := 0x00
  XLOG_XACT_COMMIT_COMPACT := 0x60
  XLOG_SMGR_CREATE := 0x10
  XLOG_SMGR_TRUNCATE := 0x20
  CLOG_ZEROPAGE := 0x00
  CLOG_TRUNCATE := 0x10
  XLOG_DBASE_CREATE := 0x00
  XLOG_DBASE_DROP := 0x10
  XLOG_TBLSPC_CREATE := 0x00
  XLOG_TBLSPC_DROP := 0x10
  XLOG_TBLSPC_RELATIVE_CREATE := 0x20
  XLOG_MULTIXACT_ZERO_OFF_PAGE := 0x00
  XLOG_MULTIXACT_CREATE_ID := 0x20
  XLOG_RELMAP_UPDATE := 0x00
  XLOG_STANDBY_LOCK := 0x00
  XLOG_RUNNING_XACTS := 0x10
  XLOG_STANDBY_CSN := 0x20
  XLOG_STANDBY_CSN_ABORTED := 0x40
  XLOG_HEAP2_FREEZE := 0x00
  XLOG_HEAP2_PAGE_UPGRADE := 0x20
  XLOG_HEAP2_CLEANUP_INFO := 0x30
  XLOG_HEAP2_MULTI_INSERT := 0x50
  XLOG_HEAP2_BCM := 0x60
  XLOG_HEAP2_LOGICAL_NEWPAGE := 0x70
  XLOG_HEAP_INSERT := 0x00
  XLOG_HEAP_INPLACE := 0x70
  XLOG_BTREE_INSERT_LEAF := 0x00
  XLOG_BTREE_REUSE_PAGE := 0xD0
  XLOG_GIN_CREATE_INDEX := 0x00
  XLOG_GIN_DELETE_LISTPAGE := 0x80
  XLOG_GIN_VACUUM_DATA_LEAF_PAGE := 0x90
  XLOG_GIST_PAGE_UPDATE := 0x00
  XLOG_GIST_PAGE_SPLIT := 0x30
  XLOG_GIST_CREATE_INDEX := 0x50
  XLOG_SEQ_LOG := 0x00
  XLOG_SPGIST_CREATE_INDEX := 0x00
  XLOG_SPGIST_VACUUM_REDIRECT := 0xA0
  XLOG_SLOT_CREATE := 0x00
  XLOG_TERM_LOG := 0x40
  XLOG_HEAP3_NEW_CID := 0x00
  XLOG_HEAP3_REWRITE := 0x10
  COLUMN_STORE := 1
  ANY_WORKER := 4294967295
  ALL_WORKER := 4294967293
  TRXN_WORKER := 4294967294
  STANDBY_INITIALIZED := 1
  STANDBY_SNAPSHOT_READY := 3
  standbyState := 1
  ENABLE_MULTIPLE_NODES := false
  SUPPORT_FPAGE_DISPATCH := true
  SUPPORT_HOT_STANDBY := true
  InHotStandby := false
  IS_DN_MULTI_STANDYS_MODE := true
  enable_mix_replication := false
  get_real_recovery_parallelism := 4
  IsCheckPoint := fun r => sampleRmid r == 0 && (sampleInfo r == 0x00 || sampleInfo r == 0x10)
  IsDataBaseDrop := fun r => sampleRmid r == 4 && sampleInfo r == 0x10
  IsSmgrTruncate := fun r => sampleRmid r == 2 && sampleInfo r == 0x20
  IsGinVacuumPages := fun r => sampleRmid r == 13 && (sampleInfo r == 0x40 || sampleInfo r == 0x90)
  IsGistPageUpdate := fun r => sampleRmid r == 14 && sampleInfo r == 0x00
  IsSpgistVacuum := fun r =>
    sampleRmid r == 16 && (sampleInfo r == 0x80 || sampleInfo r == 0x90 || sampleInfo r == 0xA0)
  tag_hash := fun tag =>
    tag.rnode.spcNode + tag.rnode.dbNode + tag.rnode.relNode + tag.forkNum.toNat + tag.blockNum
  XactGetRelFiles := fun r =>
    (some (r.main_data.map (fun n => { spcNode := 0, dbNode := 0, relNode := n, bucketNode := -1 })),
      (r.main_data.length : Int))
  xl_smgr_create_rnode := sampleNode
  xl_smgr_truncate_rnode := sampleNode
  xl_heap_bcm_node := sampleNode
  xl_heap_logical_newpage_node := sampleNode
  xl_heap_logical_newpage_type := fun r => r.main_data.getD 3 0
  xl_heap_logical_newpage_hasdata := fun r => r.main_data.getD 4 0 != 0
  ginxlogDeleteListPages_ndeleted := fun r => r.max_block_id
  gistxlogPageSplit_npage := fun r => r.max_block_id
  lsnMarkerShareCount := 0
  lsnMarkerDesignatedWorker := 4294967293

/-- A dispatcher in steady state with `n` ready page workers and nothing
dispatched yet. -/
def sampleDispatcher (n : Nat) : LogDispatcher :=
  { pageWorkerCount := n, totalWorkerCount := n, chosedWorkerIds := fun _ => 0,
    chosedWorkerCount := 0, pendingCount := 0, pendingMax := 1, maxItemNum := (n + 1) * 10,
    curItemNum := 0, totalCostTime := 0, txnCostTime := 0, pprCostTime := 0, trace := [],
    itemSeq := 0 }

/-- A record without block references. -/
def sampleRecord (rmid info lsn : Nat) (main_data : List Nat) : XLogReaderState :=
  { ReadRecPtr := lsn, EndRecPtr := lsn + 8, xl_rmid := rmid, xl_info := info, xl_term := 0,
    max_block_id := -1, blocks := [], main_data := main_data }

/-- A record with one in-use block reference (block `blkno` of relation `rel`). -/
def sampleBlockRecord (rmid info lsn rel blkno : Nat) : XLogReaderState :=
  { ReadRecPtr := lsn, EndRecPtr := lsn + 8, xl_rmid := rmid, xl_info := info, xl_term := 0,
    max_block_id := 0,
    blocks := [{ in_use := true,
                 rnode := { spcNode := 1, dbNode := 1, relNode := rel, bucketNode := -1 },
                 forknum := 0, blkno := blkno }],
    main_data := [] }

/-- The sample configuration once the standby state has reached
`STANDBY_SNAPSHOT_READY`. -/
def sampleEnvSnapshotReady : Env := { sampleEnv with standbyState := 3 }

/-- The sample configuration with hot standby off (`STANDBY_DISABLED`). -/
def sampleEnvNoStandby : Env := { sampleEnv with standbyState := 0 }

/-- Three accepted records with increasing log positions: a heap insert, a
tablespace drop and a commit that removes two relation files. -/
def sampleRecords : List (XLogReaderState × List Nat × Int) :=
  [(sampleBlockRecord 10 0 100 7 5, [], 0), (sampleRecord 5 0x10 200 [], [], 0),
   (sampleRecord 1 0 300 [4, 5], [], 0)]

/-! ## Vocabulary for the worker selector -/

/-- The number of page workers below `n` with a hit count above 0. -/
def distinctChosen (n : Nat) (hits : Nat → Nat) : Nat :=
  ((List.range n).filter (fun w => decide (hits w > 0))).length

/-- A sequence of `AddWorkerToSet` calls, one per element of `ids`, in order. -/
def addWorkersToSet (ids : List Nat) (d : LogDispatcher) : Res Unit :=
  forEachRes ids (fun id acc => AddWorkerToSet id acc) d

/-- The ids the block loop of `GetWorkerIds` computes, one per block reference in use, in
slot order. -/
def blockWorkerIds (env : Env) (g_dispatcher : Option LogDispatcher)
    (record : XLogReaderState) (rnodedispatch : Bool) : List Nat :=
  ((List.range (record.max_block_id + 1).toNat).filter
      (fun i => (blockAt record i).in_use)).map
    (fun i =>
      if rnodedispatch then GetWorkerId env g_dispatcher (blockAt record i).rnode 0 0
      else GetWorkerId env g_dispatcher (blockAt record i).rnode (blockAt record i).blkno 0)

/-- A record with two block references in use, block 0 of relation `rel1` and block 0 of
relation `rel2`. -/
def sampleTwoRelRecord (rmid info lsn rel1 rel2 : Nat) : XLogReaderState :=
  { ReadRecPtr := lsn, EndRecPtr := lsn + 8, xl_rmid := rmid, xl_info := info, xl_term := 0,
    max_block_id := 1,
    blocks := [{ in_use := true,
                 rnode := { spcNode := 1, dbNode := 1, relNode := rel1, bucketNode := -1 },
                 forknum := 0, blkno := 0 },
               { in_use := true,
                 rnode := { spcNode := 1, dbNode := 1, relNode := rel2, bucketNode := -1 },
                 forknum := 0, blkno := 0 }],
    main_data := [] }

/-- A record with one block reference in use, block `blkno` of fork `forknum` of relation
`rel`. -/
def sampleForkRecord (rmid info lsn rel forknum blkno : Nat) : XLogReaderState :=
  { ReadRecPtr := lsn, EndRecPtr := lsn + 8, xl_rmid := rmid, xl_info := info, xl_term := 0,
    max_block_id := 0,
    blocks := [{ in_use := true,
                 rnode := { spcNode := 1, dbNode := 1, relNode := rel, bucketNode := -1 },
                 forknum := forknum, blkno := blkno }],
    main_data := [] }

/-- The sample configuration built without `SUPPORT_FPAGE_DISPATCH`: heap records are
routed block by block. -/
def sampleEnvBlockDispatch : Env := { sampleEnv with SUPPORT_FPAGE_DISPATCH := false }

/-- The hit counts of the page workers below `n` at the end of a computation that
returned. -/
def Res.hits {α : Type} (r : Res α) (n : Nat) : Option (List Nat) :=
  match r with
  | Res.ok _ d => some ((List.range n).map d.chosedWorkerIds)
  | Res.panic _ _ => none

/-- The key `GetWorkerIds` builds for a block reference in block-granularity routing:
relation, fork 0, block number. -/
def blockRoutingTag (block : DecodedBkpBlock) : BufferTag :=
  { rnode := block.rnode, forkNum := 0, blockNum := block.blkno }

/-- The full page key of a block reference: relation, the block's fork, block number. -/
def fullPageTag (block : DecodedBkpBlock) : BufferTag :=
  { rnode := block.rnode, forkNum := block.forknum, blockNum := block.blkno }

/-! ## Worker start-up -/

def ITEM_QUQUE_SIZE_RATIO : Nat := 10

def MAX_REDO_WAIT_LOOP : Nat := 24000

/-- A page worker handle (`PageRedoWorker`): the fields `dispatcher.cpp` reads and
writes, `id` and `tid.thid`. -/
structure PageRedoWorker where
  id : Nat
  thid : Nat
deriving DecidableEq, Repr, Inhabited

/-- Constants of other headers that the start-up and the item pool use. -/
structure WorkerEnv where
  PAGE_WORK_QUEUE_SIZE : Nat
  PAGE_REDO_WORKER_INVALID : Nat
  PAGE_REDO_WORKER_READY : Nat
  MOST_FAST_RECOVERY_LIMIT : Nat
  OUTPUT_WAIT_COUNT : Nat
  PRINT_ALL_WAIT_COUNT : Nat

/-- What the other threads and the other files do during `StartRecoveryWorkers`:
`threadStateAtEntry i` is `pageRedoThreadStatusList[i].threadState` on entry;
`StartTxnRedoWorker` tells whether that call returns a worker (not `NULL`);
`StartPageRedoWorker i` is the result of that call (`none` for `NULL`);
`palloc_chosedWorkerIds` is the content of the memory `palloc` returns for
`chosedWorkerIds`; `threadState k i` is the value the `k`-th scan of the thread status
list reads for slot `i`. -/
structure StartupOracle where
  threadStateAtEntry : Nat → Nat
  StartTxnRedoWorker : Bool
  StartPageRedoWorker : Nat → Option PageRedoWorker
  palloc_chosedWorkerIds : Nat → Nat
  threadState : Nat → Nat → Nat

/-- The calls of `GetXlogReader` on its collaborators, in program order. -/
inductive PoolCall where
  | WARNING_GetXlogReader_Allocated_record_buffer_failed (curItemNum maxItemNum : Nat)
  | ProcessTrxnRecords (fullSync : Bool)
  | HandleStartupProcInterrupts
deriving DecidableEq, Repr, Inhabited

/-- The dispatcher object with the state around it that the start-up and the item pool
write: `g_dispatcher->pageWorkers`, whether `g_dispatcher->txnWorker` is not `NULL`,
`g_instance.comm_cxt.predo_cxt.totalNum` and `.state`, and the three lists of the Redo Item
Pool: `g_dispatcher->freeHead` (linked by `freeNext`, pushed by the workers),
`g_dispatcher->freeStateHead` (linked by `freeNext`, owned by the dispatcher thread) and
`g_dispatcher->allocatedRedoItem` (linked by `allocatedNext`), each as the list of the items
reached from its head; an item is named by its position in the order of allocation.
`exitCode` is `g_dispatcher->exitCode`, read as `uint32`.
`scans` and `calls` are ghost state: the number of scans of the thread status list made so
far, and the calls made by `GetXlogReader`. -/
structure Recovery where
  dispatcher : LogDispatcher
  pageWorkers : List PageRedoWorker
  txnWorker : Bool
  totalNum : Nat
  state : knl_parallel_redo_state
  scans : Nat
  freeHead : List Nat
  freeStateHead : List Nat
  allocatedRedoItem : List Nat
  calls : List PoolCall
  exitCode : Nat

/-- The `ereport(PANIC, ...)` sites of the start-up code. -/
inductive StartupPanic where
  | CheckAlivePageWorkers_thread_is_still_alive
  | StartPageRedoWorkers_we_need_at_least_one_worker_thread
  | WaitWorkerReady_failed_no_worker_is_ready_for_work
deriving DecidableEq, Repr, Inhabited

def RearrangeWorkers (wenv : WorkerEnv) (threadState : Nat → Nat) (r : Recovery) : Recovery :=
  let slots := List.range r.totalNum
  let tmpReadyPageWorkers :=
    (slots.filter (fun i => threadState i = wenv.PAGE_REDO_WORKER_READY)).map
      (fun i => r.pageWorkers.getD i default)
  let tmpUnReadyPageWorkers :=
    (slots.filter (fun i => ¬ threadState i = wenv.PAGE_REDO_WORKER_READY)).map
      (fun i => r.pageWorkers.getD i default)
  let nextReadyIndex := tmpReadyPageWorkers.length
  let ready := (List.range nextReadyIndex).map
    (fun i => { tmpReadyPageWorkers.getD i default with id := i })
  { r with
    pageWorkers := ready ++ tmpUnReadyPageWorkers ++ r.pageWorkers.drop r.totalNum,
    dispatcher := { r.dispatcher with pageWorkerCount := nextReadyIndex } }

def GetReadyWorker (wenv : WorkerEnv) (threadState : Nat → Nat) (totalNum : Nat) : Nat :=
  (List.range totalNum).foldl
    (fun readyWorkerCnt i =>
      if threadState i = wenv.PAGE_REDO_WORKER_READY then readyWorkerCnt + 1
      else readyWorkerCnt) 0

/-- The polling loop of `WaitWorkerReady`, with `fuel` iterations left: the value of
`waitLoop` when the loop is left. -/
def WaitWorkerReady_loop (wenv : WorkerEnv) (threadState : Nat → Nat → Nat)
    (totalNum scans : Nat) : Nat → Nat → Nat
  | 0, waitLoop => waitLoop
  | fuel + 1, waitLoop =>
    if GetReadyWorker wenv (threadState (scans + waitLoop)) totalNum = totalNum then waitLoop
    else WaitWorkerReady_loop wenv threadState totalNum scans fuel (waitLoop + 1)

def WaitWorkerReady (wenv : WorkerEnv) (oracle : StartupOracle) (r : Recovery) :
    Except StartupPanic Recovery :=
  let waitLoop := WaitWorkerReady_loop wenv oracle.threadState r.totalNum r.scans
    MAX_REDO_WAIT_LOOP 0
  let polls := if waitLoop < MAX_REDO_WAIT_LOOP then waitLoop + 1 else MAX_REDO_WAIT_LOOP
  let r1 : Recovery := { r with state := knl_parallel_redo_state.REDO_STARTING_END }
  let readyWorkerCnt := GetReadyWorker wenv (oracle.threadState (r.scans + polls)) r.totalNum
  if waitLoop = MAX_REDO_WAIT_LOOP ∧ readyWorkerCnt = 0 then
    Except.error StartupPanic.WaitWorkerReady_failed_no_worker_is_ready_for_work
  else
    Except.ok (RearrangeWorkers wenv (oracle.threadState (r.scans + polls + 1))
      { r1 with scans := r.scans + polls + 2 })

/-- `CheckAlivePageWorkers`: the value it leaves in `totalNum`, unless it PANICs. -/
def CheckAlivePageWorkers (wenv : WorkerEnv) (oracle : StartupOracle) :
    Except StartupPanic Nat :=
  if (List.range wenv.MOST_FAST_RECOVERY_LIMIT).all
      (fun i => oracle.threadStateAtEntry i = wenv.PAGE_REDO_WORKER_INVALID) then
    Except.ok 0
  else Except.error StartupPanic.CheckAlivePageWorkers_thread_is_still_alive

/-- The spawn loop of `StartPageRedoWorkers`, with `fuel = parallelism - started`
iterations left: the workers in `pageWorkers[0 .. started)` when the loop is left. -/
def StartPageRedoWorkers_loop (oracle : StartupOracle) :
    Nat → Nat → List PageRedoWorker → List PageRedoWorker
  | 0, _, pageWorkers => pageWorkers
  | fuel + 1, started, pageWorkers =>
    match oracle.StartPageRedoWorker started with
    | none => pageWorkers
    | some worker => StartPageRedoWorkers_loop oracle fuel (started + 1) (pageWorkers ++ [worker])

def StartPageRedoWorkers (wenv : WorkerEnv) (oracle : StartupOracle) (parallelism : Nat)
    (r : Recovery) : Except StartupPanic Recovery :=
  let pageWorkers := StartPageRedoWorkers_loop oracle parallelism 0 []
  let started := pageWorkers.length
  if started = 0 then
    Except.error StartupPanic.StartPageRedoWorkers_we_need_at_least_one_worker_thread
  else
    Except.ok { r with
      pageWorkers := pageWorkers,
      totalNum := started,
      dispatcher := { r.dispatcher with
        totalWorkerCount := started,
        maxItemNum := ((started + 1) * wenv.PAGE_WORK_QUEUE_SIZE * ITEM_QUQUE_SIZE_RATIO)
          % 2 ^ 32,
        chosedWorkerIds := oracle.palloc_chosedWorkerIds,
        chosedWorkerCount := 0 } }

/-- `StartRecoveryWorkers`: `none` stands for `g_dispatcher == NULL`, the outcome when the
recovery parallelism is not above 1. -/
def StartRecoveryWorkers (env : Env) (wenv : WorkerEnv) (oracle : StartupOracle) :
    Except StartupPanic (Option Recovery) :=
  if env.get_real_recovery_parallelism > 1 then
    match CheckAlivePageWorkers wenv oracle with
    | Except.error e => Except.error e
    | Except.ok totalNum =>
      let created := CreateDispatcher env
      let r0 : Recovery :=
        { dispatcher := created.1, pageWorkers := [], txnWorker := oracle.StartTxnRedoWorker,
          totalNum := totalNum, state := created.2, scans := 0,
          freeHead := [], freeStateHead := [], allocatedRedoItem := [], calls := [], exitCode := 0 }
      let r1 : Except StartupPanic Recovery :=
        if r0.txnWorker then
          StartPageRedoWorkers wenv oracle env.get_real_recovery_parallelism.toNat r0
        else Except.ok r0
      match r1 with
      | Except.error e => Except.error e
      | Except.ok r1 =>
        match WaitWorkerReady wenv oracle r1 with
        | Except.error e => Except.error e
        | Except.ok r2 =>
          Except.ok (some { r2 with state := knl_parallel_redo_state.REDO_IN_PROGRESS })
  else Except.ok none

/-- Sample constants: the worker states are `INVALID = 0`, `START = 1`, `READY = 2`,
`EXIT = 3`. -/
def sampleWorkerEnv : WorkerEnv :=
  { PAGE_WORK_QUEUE_SIZE := 4096, PAGE_REDO_WORKER_INVALID := 0, PAGE_REDO_WORKER_READY := 2,
    MOST_FAST_RECOVERY_LIMIT := 20, OUTPUT_WAIT_COUNT := 0xFFFFFFF,
    PRINT_ALL_WAIT_COUNT := 0x7FFFFFFFF }

/-- A start in which every call succeeds and the first `ready` page workers report ready
at once, the others never. -/
def sampleStart (ready : Nat) : StartupOracle :=
  { threadStateAtEntry := fun _ => 0,
    StartTxnRedoWorker := true,
    StartPageRedoWorker := fun i => some { id := i, thid := 100 + i },
    palloc_chosedWorkerIds := fun _ => 0,
    threadState := fun _ i => if i < ready then 2 else 1 }

/-- Whether a `StartRecoveryWorkers` call returned and left a dispatcher. -/
def startedDispatcher : Except StartupPanic (Option Recovery) → Bool
  | Except.ok (some _) => true
  | _ => false

/-! ## The Redo Item Pool -/

/-- What the other threads do while `GetXlogReader` loops: `released k` lists the items
pushed with `FreeRedoItem` (by the page workers, or by the transaction records applied
from `ProcessTrxnRecords`) after iteration `k - 1` and before iteration `k` of the loop;
`palloc_extended k` tells whether the allocation of iteration `k`, if attempted, returns
an item (not `NULL`). -/
structure PoolOracle where
  released : Nat → List Nat
  palloc_extended : Nat → Bool

/-- `FreeRedoItem`: when the compare-and-swap succeeds, `item` is the head of `freeHead`
and its `freeNext` is the old head. -/
def FreeRedoItem (item : Nat) (r : Recovery) : Recovery :=
  { r with freeHead := item :: r.freeHead }

/-- One pass through the body of the `do ... while` loop of `GetXlogReader`, with the
local counter `count` and the outcome `palloc_ok` of `palloc_extended`, should it be
called.  The result is `retReaderState` (the item whose `record` it points to, `none` for
`NULL`), `isNew`, the counter and the state.  `curItemNum < maxItemNum` before the
increment, so the `uint32` increment does not wrap. -/
def GetXlogReader_iteration (wenv : WorkerEnv) (palloc_ok : Bool) (count : Nat)
    (r : Recovery) : Option Nat × Bool × Nat × Recovery :=
  match r.freeStateHead with
  | item :: freeNext => (some item, false, count, { r with freeStateHead := freeNext })
  | [] =>
    let head := r.freeHead
    let r1 : Recovery := { r with freeHead := [] }
    let got : Option Nat × Bool × Recovery :=
      match head with
      | item :: freeNext => (some item, false, { r1 with freeStateHead := freeNext })
      | [] =>
        if r1.dispatcher.maxItemNum > r1.dispatcher.curItemNum then
          if palloc_ok then
            let item := r1.dispatcher.curItemNum
            (some item, true,
              { r1 with
                allocatedRedoItem := item :: r1.allocatedRedoItem,
                dispatcher := { r1.dispatcher with
                  curItemNum := r1.dispatcher.curItemNum + 1 } })
          else (none, false, r1)
        else (none, false, r1)
    let count1 := (count + 1) % 2 ^ 64
    let r2 := got.2.2
    let r3 : Recovery :=
      if count1 &&& wenv.OUTPUT_WAIT_COUNT = wenv.OUTPUT_WAIT_COUNT then
        let r30 : Recovery := { r2 with
          calls := r2.calls ++
            [PoolCall.WARNING_GetXlogReader_Allocated_record_buffer_failed
              r2.dispatcher.curItemNum r2.dispatcher.maxItemNum] }
        if count1 &&& wenv.PRINT_ALL_WAIT_COUNT = wenv.PRINT_ALL_WAIT_COUNT then
          { r30 with dispatcher := DumpDispatcher r30.dispatcher }
        else r30
      else r2
    let r4 : Recovery :=
      if got.1 = none then
        { r3 with
          calls := r3.calls ++
            [PoolCall.ProcessTrxnRecords false, PoolCall.HandleStartupProcInterrupts] }
      else r3
    (got.1, got.2.1, count1, r4)

/-- The `do ... while (retReaderState == NULL)` loop of `GetXlogReader` from its
iteration `k` on, run for at most `fuel` iterations: the item and `isNew` with which
`InitReaderStateByOld` is then called, or `none` when the loop is still running after
`fuel` iterations. -/
def GetXlogReader_loop (wenv : WorkerEnv) (oracle : PoolOracle) :
    Nat → Nat → Nat → Recovery → Option (Nat × Bool) × Recovery
  | 0, _, _, r => (none, r)
  | fuel + 1, k, count, r =>
    let r0 := (oracle.released k).foldl (fun acc item => FreeRedoItem item acc) r
    let it := GetXlogReader_iteration wenv (oracle.palloc_extended k) count r0
    match it.1 with
    | some item => (some (item, it.2.1), it.2.2.2)
    | none => GetXlogReader_loop wenv oracle fuel (k + 1) it.2.2.1 it.2.2.2

def GetXlogReader (wenv : WorkerEnv) (oracle : PoolOracle) (fuel : Nat) (r : Recovery) :
    Option (Nat × Bool) × Recovery :=
  GetXlogReader_loop wenv oracle fuel 0 0 r

/-- A step of the life of the pool: a `GetXlogReader` call of the dispatcher thread, run
for at most `fuel` iterations, or a `FreeRedoItem` call of a worker between two such
calls. -/
inductive PoolStep where
  | acquire (oracle : PoolOracle) (fuel : Nat)
  | release (item : Nat)

/-- The state after a sequence of pool steps. -/
def poolRun (wenv : WorkerEnv) : List PoolStep → Recovery → Recovery
  | [], r => r
  | PoolStep.acquire oracle fuel :: rest, r =>
    poolRun wenv rest (GetXlogReader wenv oracle fuel r).2
  | PoolStep.release item :: rest, r => poolRun wenv rest (FreeRedoItem item r)

/-- A started dispatcher with three page workers, an empty pool and the capacity
`maxItemNum`. -/
def samplePool (maxItemNum : Nat) : Recovery :=
  { dispatcher := { sampleDispatcher 3 with maxItemNum := maxItemNum },
    pageWorkers := [{ id := 0, thid := 100 }, { id := 1, thid := 101 }, { id := 2, thid := 102 }],
    txnWorker := true, totalNum := 3, state := knl_parallel_redo_state.REDO_IN_PROGRESS,
    scans := 3, freeHead := [], freeStateHead := [], allocatedRedoItem := [], calls := [], exitCode := 0 }

/-- No worker releases an item and every allocation succeeds. -/
def sampleQuiet : PoolOracle := { released := fun _ => [], palloc_extended := fun _ => true }

/-! ## Vocabulary for the rearrangement -/

/-- The slots below `totalNum` whose state reads READY, in increasing order. -/
def readySlots (wenv : WorkerEnv) (threadState : Nat → Nat) (totalNum : Nat) : List Nat :=
  (List.range totalNum).filter (fun i => threadState i = wenv.PAGE_REDO_WORKER_READY)

/-- The slots below `totalNum` whose state does not read READY, in increasing order. -/
def unreadySlots (wenv : WorkerEnv) (threadState : Nat → Nat) (totalNum : Nat) : List Nat :=
  (List.range totalNum).filter (fun i => ¬ threadState i = wenv.PAGE_REDO_WORKER_READY)

/-- Four spawned page workers, with ids 0 to 3 and threads 100 to 103, before the
rearrangement. -/
def sampleSpawned : Recovery :=
  { dispatcher := { sampleDispatcher 0 with totalWorkerCount := 4 },
    pageWorkers := [{ id := 0, thid := 100 }, { id := 1, thid := 101 }, { id := 2, thid := 102 },
      { id := 3, thid := 103 }],
    txnWorker := true, totalNum := 4, state := knl_parallel_redo_state.REDO_STARTING_END,
    scans := 0, freeHead := [], freeStateHead := [], allocatedRedoItem := [], calls := [], exitCode := 0 }

/-- A scan that reads READY (2) for the slots 1 and 3 and START (1) for the others. -/
def sampleStates13 : Nat → Nat := fun i => if i = 1 ∨ i = 3 then 2 else 1

/-- A start in which `StartTxnRedoWorker` returns `NULL`. -/
def sampleStartNoTxn : StartupOracle := { sampleStart 4 with StartTxnRedoWorker := false }

/-- The opcode `RmgrRecordInfoValid` compares: `XLogRecGetInfo(record)` with the
`XLR_INFO_MASK` bits cleared and the mask of the resource manager applied. -/
def maskedOpcode (env : Env) (record : XLogReaderState) : Nat :=
  let info0 := infoOp env record
  let info1 := if XLogRecGetRmid record = env.RM_HEAP2_ID ∨ XLogRecGetRmid record = env.RM_HEAP_ID
    then info0 &&& env.XLOG_HEAP_OPMASK else info0
  if XLogRecGetRmid record = env.RM_MULTIXACT_ID
    then info1 &&& env.XLOG_MULTIXACT_MASK else info1

/-! ## Shutdown -/

/-- The fields of `g_instance.comm_cxt.predo_cxt` that outlive the dispatcher object, with
the ghost counter of the scans of the thread status list. -/
structure RedoContext where
  totalNum : Nat
  state : knl_parallel_redo_state
  scans : Nat
deriving DecidableEq, Repr, Inhabited

/-- The state the shutdown code works on: `g_dispatcher` points to a dispatcher (`live`), or
`g_dispatcher == NULL` (`destroyed`). -/
inductive Global where
  | live (r : Recovery)
  | destroyed (c : RedoContext)

def Global.totalNum : Global → Nat
  | Global.live r => r.totalNum
  | Global.destroyed c => c.totalNum

def Global.scans : Global → Nat
  | Global.live r => r.scans
  | Global.destroyed c => c.scans

def Global.state : Global → knl_parallel_redo_state
  | Global.live r => r.state
  | Global.destroyed c => c.state

/-- The ghost counter of scans set to `n`. -/
def Global.withScans (n : Nat) : Global → Global
  | Global.live r => Global.live { r with scans := n }
  | Global.destroyed c => Global.destroyed { c with scans := n }

/-- Whether `g_dispatcher == NULL`. -/
def DispatchPtrIsNull : Global → Bool
  | Global.live _ => false
  | Global.destroyed _ => true

inductive Signal where
  | SIGTERM
  | SIGUSR2
deriving DecidableEq, Repr, Inhabited

/-- The calls of the shutdown code on its collaborators, in program order. -/
inductive StopCall where
  | gs_signal_send (slot : Nat) (signal : Signal)
  | WARNING_Dispatch_kill_failed (slot : Nat)
  | WARNING_StopRecoveryWorkers_wait_page_work_exit
  | DumpDispatcher
  | pfree_item (item : Nat)
  | DestroyPageRedoWorker (worker : PageRedoWorker)
  | DestroyTxnRedoWorker
  | MemoryContextDelete_parallelRedoCtx
deriving DecidableEq, Repr, Inhabited

/-- What the other threads do during the shutdown: `threadState k i` is the value the
`k`-th scan of the thread status list reads for slot `i`; `gs_signal_send i` tells whether
the signal sent to the thread of slot `i` is delivered (the call returns 0). -/
structure StopOracle where
  threadState : Nat → Nat → Nat
  gs_signal_send : Nat → Bool

def DispathCouldExit (wenv : WorkerEnv) (threadState : Nat → Nat) (totalNum : Nat) : Bool :=
  (List.range totalNum).all (fun i => ¬ threadState i = wenv.PAGE_REDO_WORKER_READY)

def SendSingalToPageWorker (wenv : WorkerEnv) (oracle : StopOracle) (threadState : Nat → Nat)
    (totalNum : Nat) (signal : Signal) : List StopCall :=
  ((List.range totalNum).filter (fun i => threadState i = wenv.PAGE_REDO_WORKER_READY)).flatMap
    (fun i =>
      if oracle.gs_signal_send i then [StopCall.gs_signal_send i signal]
      else [StopCall.gs_signal_send i signal, StopCall.WARNING_Dispatch_kill_failed i])

/-- `DumpDispatcher()` at shutdown: without a dispatcher `GetPageWorkerCount()` is 0 and
nothing is printed. -/
def Global.dump : Global → Global
  | Global.live r => Global.live { r with dispatcher := DumpDispatcher r.dispatcher }
  | Global.destroyed c => Global.destroyed c

/-- `FreeAllocatedRedoItem`: while there is a dispatcher and its inventory is not empty, the
head of the inventory is unlinked and freed. -/
def FreeAllocatedRedoItem : Global → List StopCall × Global
  | Global.destroyed c => ([], Global.destroyed c)
  | Global.live r =>
    (r.allocatedRedoItem.map StopCall.pfree_item, Global.live { r with allocatedRedoItem := [] })

/-- `DestroyRecoveryWorkers`: with a dispatcher, the page workers `pageWorkers[0 ..
totalWorkerCount)` and the transaction worker are destroyed, the memory context is deleted
when the recovery parallelism is above 1, and `g_dispatcher` is set to `NULL`.  The `pfree`
of `chosedWorkerIds` is not recorded. -/
def DestroyRecoveryWorkers (env : Env) : Global → List StopCall × Global
  | Global.destroyed c => ([], Global.destroyed c)
  | Global.live r =>
    ((List.range r.dispatcher.totalWorkerCount).map
        (fun i => StopCall.DestroyPageRedoWorker (r.pageWorkers.getD i default)) ++
      (if r.txnWorker then [StopCall.DestroyTxnRedoWorker] else []) ++
      (if env.get_real_recovery_parallelism > 1 then
        [StopCall.MemoryContextDelete_parallelRedoCtx] else []),
     Global.destroyed { totalNum := r.totalNum, state := r.state, scans := r.scans })

/-- How the `while (!DispathCouldExit())` loop of `StopRecoveryWorkers` ends: it is left
after the scan numbered `scans - 1`, it raises the PANIC `wait too long`, or it is still
running after the iterations it was given. -/
inductive StopLoop where
  | exited (scans : Nat) (calls : List StopCall)
  | panicked (scans : Nat) (calls : List StopCall)
  | running (scans : Nat) (calls : List StopCall)

/-- The `while (!DispathCouldExit())` loop of `StopRecoveryWorkers`, run for at most `fuel`
tests of its condition, from the value `count` of the counter and the scan `scans`. -/
def StopRecoveryWorkers_loop (wenv : WorkerEnv) (oracle : StopOracle) (totalNum : Nat) :
    Nat → Nat → Nat → List StopCall → StopLoop
  | 0, _, scans, calls => StopLoop.running scans calls
  | fuel + 1, count, scans, calls =>
    if DispathCouldExit wenv (oracle.threadState scans) totalNum then
      StopLoop.exited (scans + 1) calls
    else
      let count1 := (count + 1) % 2 ^ 64
      if count1 &&& wenv.OUTPUT_WAIT_COUNT = wenv.OUTPUT_WAIT_COUNT then
        let calls1 := calls ++ [StopCall.WARNING_StopRecoveryWorkers_wait_page_work_exit]
        if count1 &&& wenv.PRINT_ALL_WAIT_COUNT = wenv.PRINT_ALL_WAIT_COUNT then
          StopLoop.panicked (scans + 1) (calls1 ++ [StopCall.DumpDispatcher])
        else StopRecoveryWorkers_loop wenv oracle totalNum fuel count1 (scans + 1) calls1
      else StopRecoveryWorkers_loop wenv oracle totalNum fuel count1 (scans + 1) calls

/-- The outcome of `StopRecoveryWorkers`: it returned, it raised the PANIC
`StopRecoveryWorkers wait too long!!!`, or its loop is still running after the iterations it
was given; with the calls made and the state reached. -/
inductive StopRes where
  | returned (calls : List StopCall) (g : Global)
  | panic (calls : List StopCall) (g : Global)
  | running (calls : List StopCall) (g : Global)

def StopRecoveryWorkers (env : Env) (wenv : WorkerEnv) (oracle : StopOracle) (fuel : Nat)
    (g : Global) : StopRes :=
  let signalled := SendSingalToPageWorker wenv oracle (oracle.threadState g.scans) g.totalNum
    Signal.SIGTERM
  match StopRecoveryWorkers_loop wenv oracle g.totalNum fuel 0 (g.scans + 1) signalled with
  | StopLoop.running scans calls => StopRes.running calls (g.withScans scans)
  | StopLoop.panicked scans calls => StopRes.panic calls (g.withScans scans).dump
  | StopLoop.exited scans calls =>
    let freed := FreeAllocatedRedoItem (g.withScans scans)
    let destroyed := DestroyRecoveryWorkers env freed.2
    StopRes.returned (calls ++ freed.1 ++ destroyed.1) destroyed.2

/-- A shutdown during which every page worker leaves the READY state before the `leave`-th
scan of the thread status list. -/
def sampleStop (leave : Nat) : StopOracle :=
  { threadState := fun k _ => if k < leave then 2 else 3, gs_signal_send := fun _ => true }

/-- Sample wait counts with few bits, for shutdown loops that can be evaluated. -/
def sampleShortWait : WorkerEnv :=
  { sampleWorkerEnv with OUTPUT_WAIT_COUNT := 0x3, PRINT_ALL_WAIT_COUNT := 0x7 }

/-- The state after a shutdown of three page workers: no dispatcher, `scans` scans made. -/
def sampleDestroyed (scans : Nat) : Global :=
  Global.destroyed
    { totalNum := 3, state := knl_parallel_redo_state.REDO_IN_PROGRESS, scans := scans }

/-- A dispatcher with three page workers and the items 1 and 0 in its inventory. -/
def sampleLive : Global := Global.live { samplePool 2 with allocatedRedoItem := [1, 0] }

/-- Whether the value `count` of the counter of `StopRecoveryWorkers` makes the loop raise
its PANIC: both `(count & OUTPUT_WAIT_COUNT) == OUTPUT_WAIT_COUNT` and
`(count & PRINT_ALL_WAIT_COUNT) == PRINT_ALL_WAIT_COUNT` hold. -/
def fatalCount (wenv : WorkerEnv) (count : Nat) : Prop :=
  count &&& wenv.OUTPUT_WAIT_COUNT = wenv.OUTPUT_WAIT_COUNT ∧
  count &&& wenv.PRINT_ALL_WAIT_COUNT = wenv.PRINT_ALL_WAIT_COUNT

instance (wenv : WorkerEnv) (count : Nat) : Decidable (fatalCount wenv count) := by
  unfold fatalCount
  exact inferInstance

/-- The warnings `StopRecoveryWorkers` logs while its counter takes the `n` values from
`lo` on: one for each value whose bits include `OUTPUT_WAIT_COUNT`. -/
def waitWarnings (wenv : WorkerEnv) (lo n : Nat) : List StopCall :=
  ((List.range' lo n).filter
    (fun m => m &&& wenv.OUTPUT_WAIT_COUNT = wenv.OUTPUT_WAIT_COUNT)).map
    (fun _ => StopCall.WARNING_StopRecoveryWorkers_wait_page_work_exit)

/-! ## End of recovery -/

/-- The calls of `SendRecoveryEndMarkToWorkersAndWaitForFinish` on the workers, in program
order.  `slot` stands for the worker `g_dispatcher->pageWorkers[slot]`; `accepted` is the
value `SendPageRedoEndMark` returned. -/
inductive EndCall where
  | ApplyReadyTxnLogRecords (forceAll : Bool)
  | SendPageRedoEndMark (slot : Nat) (accepted : Bool)
  | WARNING_RecoveryEndMark (blockcnt : Nat)
  | WaitPageRedoWorkerReachLastMark (slot : Nat)
deriving DecidableEq, Repr, Inhabited

/-- What the page workers do at the end of recovery: `SendPageRedoEndMark slot attempt`
tells whether the queue of the worker of `slot` takes the end mark at the `attempt`-th try
(counted from 0). -/
structure EndOracle where
  SendPageRedoEndMark : Nat → Nat → Bool

/-- The loop `while (!SendPageRedoEndMark(pageWorkers[slot]))` with its body, run for at
most `fuel` calls of `SendPageRedoEndMark`, from the try numbered `attempt` and the value
`blockcnt` of the `uint64` counter.  `none` when the loop is still running after `fuel`
calls. -/
def SendPageRedoEndMark_loop (wenv : WorkerEnv) (oracle : EndOracle) (slot : Nat) :
    Nat → Nat → Nat → List EndCall → Option (List EndCall)
  | 0, _, _, _ => none
  | fuel + 1, attempt, blockcnt, calls =>
    if oracle.SendPageRedoEndMark slot attempt then
      some (calls ++ [EndCall.SendPageRedoEndMark slot true])
    else
      let blockcnt1 := (blockcnt + 1) % 2 ^ 64
      let calls1 := calls ++
        [EndCall.SendPageRedoEndMark slot false, EndCall.ApplyReadyTxnLogRecords false]
      let calls2 :=
        if blockcnt1 &&& wenv.OUTPUT_WAIT_COUNT = wenv.OUTPUT_WAIT_COUNT then
          calls1 ++ [EndCall.WARNING_RecoveryEndMark blockcnt1]
        else calls1
      SendPageRedoEndMark_loop wenv oracle slot fuel (attempt + 1) blockcnt1 calls2

/-- The loop `for (i = 0; i < pageWorkerCount; i++)` that sends the end marks, over the
slots still to serve; every inner loop starts with `blockcnt = 0`. -/
def SendPageRedoEndMark_all (wenv : WorkerEnv) (oracle : EndOracle) (fuel : Nat) :
    List Nat → List EndCall → Option (List EndCall)
  | [], calls => some calls
  | slot :: rest, calls =>
    match SendPageRedoEndMark_loop wenv oracle slot fuel 0 0 calls with
    | none => none
    | some calls1 => SendPageRedoEndMark_all wenv oracle fuel rest calls1

/-- `SendRecoveryEndMarkToWorkersAndWaitForFinish(code)`, each retry loop run for at most
`fuel` calls of `SendPageRedoEndMark`; `none` when a retry loop is still running then.  The
`int` argument is stored as `uint32`. -/
def SendRecoveryEndMarkToWorkersAndWaitForFinish (env : Env) (wenv : WorkerEnv)
    (oracle : EndOracle) (fuel : Nat) (code : Int) : Global → Option (List EndCall × Global)
  | Global.destroyed c => some ([], Global.destroyed c)
  | Global.live r =>
    if env.get_real_recovery_parallelism > 1 ∧ GetPageWorkerCount (some r.dispatcher) > 0 then
      let r1 := { r with exitCode := (code % 2 ^ 32).toNat }
      match SendPageRedoEndMark_all wenv oracle fuel (List.range r1.dispatcher.pageWorkerCount)
          [EndCall.ApplyReadyTxnLogRecords true] with
      | none => none
      | some calls =>
        some (calls ++ [EndCall.ApplyReadyTxnLogRecords true] ++
            (List.range r1.dispatcher.pageWorkerCount).map
              EndCall.WaitPageRedoWorkerReachLastMark,
          Global.live { r1 with state := knl_parallel_redo_state.REDO_DONE })
    else some ([], Global.live r)

/-- `GetDispatcherExitCode`: the `uint32` exit code read as `int`. -/
def GetDispatcherExitCode (r : Recovery) : Int :=
  if r.exitCode % 2 ^ 32 < 2 ^ 31 then (r.exitCode % 2 ^ 32 : Nat)
  else ((r.exitCode % 2 ^ 32 : Nat) : Int) - 2 ^ 32

/-- The slots whose end mark was accepted, in the order of the calls. -/
def acceptedSlots (calls : List EndCall) : List Nat :=
  calls.filterMap (fun c =>
    match c with
    | EndCall.SendPageRedoEndMark slot true => some slot
    | _ => none)

/-- The slots whose end mark was refused, once for each refusal, in the order of the
calls. -/
def rejectedSlots (calls : List EndCall) : List Nat :=
  calls.filterMap (fun c =>
    match c with
    | EndCall.SendPageRedoEndMark slot false => some slot
    | _ => none)

/-- The slots waited on with `WaitPageRedoWorkerReachLastMark`, in the order of the calls. -/
def waitedSlots (calls : List EndCall) : List Nat :=
  calls.filterMap (fun c =>
    match c with
    | EndCall.WaitPageRedoWorkerReachLastMark slot => some slot
    | _ => none)

/-- Page workers that take the end mark at the try numbered by their slot. -/
def sampleEnd : EndOracle := { SendPageRedoEndMark := fun slot attempt => slot ≤ attempt }

/-! ## Reader states of the pool -/

/-- One slot of `XLogReaderState::blocks`: the payload fields.  A pointer is an address
(`uintptr_t`), `0` is `NULL`. -/
structure BlockPayload where
  has_image : Bool
  has_data : Bool
  bkp_image : Nat
  data : Nat
  data_len : Nat
  data_bufsz : Nat
deriving DecidableEq, Repr, Inhabited

/-- The buffer and payload fields of an `XLogReaderState`, as `InitReaderStateByOld` and
`CopyDataFromOldReader` see them.  `blocks` lists the slots `blocks[0 .. XLR_MAX_BLOCK_ID]`;
the fields not listed are copied by the structure assignment and not touched again. -/
structure ReaderPayload where
  isPRProcess : Bool
  decoded_record : Nat
  main_data : Nat
  main_data_len : Nat
  main_data_bufsz : Nat
  max_block_id : Int
  blocks : List BlockPayload
  readRecordBuf : Nat
  readRecordBufSize : Nat
deriving DecidableEq, Repr, Inhabited

def InitReaderStateByOld (XLR_MAX_BLOCK_ID : Nat) (newState oldState : ReaderPayload)
    (isNew : Bool) : ReaderPayload :=
  if isNew then
    { oldState with
      main_data := 0, main_data_len := 0, main_data_bufsz := 0,
      blocks := (List.range (XLR_MAX_BLOCK_ID + 1)).map (fun i =>
        { oldState.blocks.getD i default with data := 0, data_len := 0, data_bufsz := 0 }),
      readRecordBuf := 0, readRecordBufSize := 0 }
  else
    let mData := newState.main_data
    let mDSize := newState.main_data_bufsz
    let bData := fun i => (newState.blocks.getD i default).data
    let bDSize := fun i => (newState.blocks.getD i default).data_bufsz
    let rrBuf := newState.readRecordBuf
    let rrBufSize := newState.readRecordBufSize
    { oldState with
      main_data := mData, main_data_len := 0, main_data_bufsz := mDSize,
      blocks := (List.range (XLR_MAX_BLOCK_ID + 1)).map (fun i =>
        { oldState.blocks.getD i default with
          data := bData i, data_len := 0, data_bufsz := bDSize i }),
      readRecordBuf := rrBuf, readRecordBufSize := rrBufSize }

/-- The address `base + (p - origin)`, computed on `uintptr_t`. -/
def rebase (base p origin : Nat) : Nat :=
  (base % 2 ^ 64 + (p % 2 ^ 64 + 2 ^ 64 - origin % 2 ^ 64) % 2 ^ 64) % 2 ^ 64

/-- A call `memcpy_s(dest, destMax, src, count)`. -/
structure MemCopy where
  dest : Nat
  destMax : Nat
  src : Nat
  count : Nat
deriving DecidableEq, Repr, Inhabited

/-- The body of the `for` loop of `CopyDataFromOldReader` for one block: `b` is the slot
`newReaderState->blocks[i]`, `o` the slot `oldReaderState->blocks[i]`. -/
def CopyDataFromOldReader_block (newDecoded oldDecoded : Nat) (b o : BlockPayload) :
    BlockPayload :=
  let b1 : BlockPayload :=
    if b.has_image then { b with bkp_image := rebase newDecoded o.bkp_image oldDecoded }
    else b
  if b1.has_data then { b1 with data := o.data, data_len := o.data_len } else b1

/-- The part of `CopyDataFromOldReader` after the `memcpy_s`: `decoded_record` is set, the
blocks `0 .. max_block_id` and the main data are fixed up. -/
def CopyDataFromOldReader_pointers (newReaderState oldReaderState : ReaderPayload) :
    ReaderPayload :=
  let n2 : ReaderPayload :=
    { newReaderState with decoded_record := newReaderState.readRecordBuf }
  let blocks := (List.range n2.blocks.length).map (fun (i : Nat) =>
    if (i : Int) ≤ n2.max_block_id then
      CopyDataFromOldReader_block n2.decoded_record oldReaderState.decoded_record
        (n2.blocks.getD i default) (oldReaderState.blocks.getD i default)
    else n2.blocks.getD i default)
  let n3 : ReaderPayload := { n2 with blocks := blocks }
  if oldReaderState.main_data_len > 0 then
    { n3 with
      main_data := rebase n3.decoded_record oldReaderState.main_data
        oldReaderState.decoded_record,
      main_data_len := oldReaderState.main_data_len }
  else n3

/-- `CopyDataFromOldReader`.  `allocate_recordbuf reclength` is the outcome of the call
`allocate_recordbuf(newReaderState, reclength)` of the reader module: `none` when it fails,
else the buffer and the size it leaves in `readRecordBuf` and `readRecordBufSize`.  The
result is `none` for the PANIC `Allocated record buffer failed!`, else the `memcpy_s` call
made and the new reader state. -/
def CopyDataFromOldReader (allocate_recordbuf : Nat → Option (Nat × Nat))
    (newReaderState oldReaderState : ReaderPayload) : Option (MemCopy × ReaderPayload) :=
  let allocated : Option ReaderPayload :=
    if newReaderState.readRecordBuf = 0 ∨
        oldReaderState.readRecordBufSize > newReaderState.readRecordBufSize then
      match allocate_recordbuf oldReaderState.readRecordBufSize with
      | none => none
      | some (buf, size) =>
        some { newReaderState with readRecordBuf := buf, readRecordBufSize := size }
    else some newReaderState
  match allocated with
  | none => none
  | some n1 =>
    let copy : MemCopy :=
      { dest := n1.readRecordBuf, destMax := n1.readRecordBufSize,
        src := oldReaderState.readRecordBuf, count := oldReaderState.readRecordBufSize }
    some (copy, CopyDataFromOldReader_pointers n1 oldReaderState)

/-- How a call of `NewReaderState` ends. -/
inductive NewReaderRes where
  | same (readerState : ReaderPayload)
  | PANIC_NewReaderState_Dispatch_is_null
  | PANIC_Allocated_record_buffer_failed
  | running
  | pooled (item : Nat) (copy : Option MemCopy) (retReaderState : ReaderPayload)
      (r : Recovery)
deriving Inhabited

/-- `NewReaderState`.  `records item` is the reader state held in the pool item `item`
before the call (all zero for an item `palloc_extended` has just made); the `GetXlogReader`
loop is run for at most `fuel` iterations (`running` when it has not found an item
then).  `pooled item copy state r` is the return of `&item->record`, with the state it
holds on return. -/
def NewReaderState (wenv : WorkerEnv) (oracle : PoolOracle) (fuel : Nat)
    (allocate_recordbuf : Nat → Option (Nat × Nat)) (XLR_MAX_BLOCK_ID : Nat)
    (records : Nat → ReaderPayload) (g : Global) (readerState : ReaderPayload)
    (bCopyState : Bool) : NewReaderRes :=
  if ¬ readerState.isPRProcess then NewReaderRes.same readerState
  else
    match g with
    | Global.destroyed _ => NewReaderRes.PANIC_NewReaderState_Dispatch_is_null
    | Global.live r =>
      match GetXlogReader wenv oracle fuel r with
      | (none, _) => NewReaderRes.running
      | (some (item, isNew), r1) =>
        let retReaderState :=
          InitReaderStateByOld XLR_MAX_BLOCK_ID (records item) readerState isNew
        if bCopyState then
          match CopyDataFromOldReader allocate_recordbuf retReaderState readerState with
          | none => NewReaderRes.PANIC_Allocated_record_buffer_failed
          | some (copy, state) => NewReaderRes.pooled item (some copy) state r1
        else NewReaderRes.pooled item none retReaderState r1

/-- Whether the address `p` lies in the buffer of `size` bytes at `buf`. -/
def inBuffer (buf size p : Nat) : Prop := buf ≤ p ∧ p < buf + size

instance (buf size p : Nat) : Decidable (inBuffer buf size p) := by
  unfold inBuffer
  exact inferInstance

/-- The reader state of the decoder after it has decoded a record with one block that has
an image and data, and 8 bytes of main data, into its record buffer of 0x2000 bytes at
0x1000. -/
def sampleDecoder : ReaderPayload :=
  { isPRProcess := true, decoded_record := 0x1000,
    main_data := 0x1040, main_data_len := 8, main_data_bufsz := 0, max_block_id := 0,
    blocks := [{ has_image := true, has_data := true, bkp_image := 0x1020, data := 0x1030,
                 data_len := 16, data_bufsz := 0 },
               { has_image := false, has_data := false, bkp_image := 0, data := 0,
                 data_len := 0, data_bufsz := 0 }],
    readRecordBuf := 0x1000, readRecordBufSize := 0x2000 }

/-- An allocator that places every record buffer at 0x9000, with the size asked for. -/
def sampleAllocate : Nat → Option (Nat × Nat) := fun reclength => some (0x9000, reclength)

/-! ## Restart points and replay positions -/

/-- What the page workers report when the dispatcher file asks them:
`IsRecoveryRestartPointSafe slot restartPoint` is the result of that call for the worker
`pageWorkers[slot]`; `RedoWorkerIsIdle slot` likewise; `GetCompletedReadEndPtr slot` is the
pair `(read, end)` that call stores. -/
structure WorkerStatus where
  IsRecoveryRestartPointSafe : Nat → Nat → Bool
  RedoWorkerIsIdle : Nat → Bool
  GetCompletedReadEndPtr : Nat → Nat × Nat

/-- The calls of `IsRecoveryRestartPointSafeForWorkers` that leave a trace: the message
logged for a worker that is not safe, and `SetWorkerRestartPoint(pageWorkers[slot],
restartPoint)`. -/
inductive RestartCall where
  | LOG_IsRecoveryRestartPointSafeForWorkers (workerId restartPoint : Nat)
  | SetWorkerRestartPoint (slot restartPoint : Nat)
deriving DecidableEq, Repr, Inhabited

/-- The first loop of `IsRecoveryRestartPointSafeForWorkers` over the slots `slots`: the
flag `safe` and the messages logged so far. -/
def IsRecoveryRestartPointSafeForWorkers_check (status : WorkerStatus) (restartPoint : Nat)
    (slots : List Nat) (acc : Bool × List RestartCall) : Bool × List RestartCall :=
  slots.foldl (fun acc i =>
    if ¬ status.IsRecoveryRestartPointSafe i restartPoint then
      (false, acc.2 ++ [RestartCall.LOG_IsRecoveryRestartPointSafeForWorkers i restartPoint])
    else acc) acc

/-- The second loop of `IsRecoveryRestartPointSafeForWorkers` over the slots `slots`; the
restart point `SetWorkerRestartPoint` sets for a worker is kept in `restartPoints`. -/
def IsRecoveryRestartPointSafeForWorkers_set (restartPoint : Nat) (slots : List Nat)
    (acc : List RestartCall × (Nat → Nat)) : List RestartCall × (Nat → Nat) :=
  slots.foldl (fun acc i =>
    (acc.1 ++ [RestartCall.SetWorkerRestartPoint i restartPoint],
      Function.update acc.2 i restartPoint)) acc

/-- `IsRecoveryRestartPointSafeForWorkers(restartPoint)`: the value returned, the calls made
and the restart points of the workers afterwards (`restartPoints slot` before the call). -/
def IsRecoveryRestartPointSafeForWorkers (env : Env) (status : WorkerStatus)
    (g_dispatcher : Option LogDispatcher) (restartPoints : Nat → Nat) (restartPoint : Nat) :
    Bool × List RestartCall × (Nat → Nat) :=
  if env.get_real_recovery_parallelism > 1 ∧ GetPageWorkerCount g_dispatcher > 0 then
    let pageWorkerCount := GetPageWorkerCount g_dispatcher
    let checked := IsRecoveryRestartPointSafeForWorkers_check status restartPoint
      (List.range pageWorkerCount) (true, [])
    if checked.1 then
      let done := IsRecoveryRestartPointSafeForWorkers_set restartPoint
        (List.range pageWorkerCount) (checked.2, restartPoints)
      (true, done.1, done.2)
    else (false, checked.2, restartPoints)
  else (true, [], restartPoints)

/-- `GetReplayedRecPtrFromWorkers`: the pair `(*readPtr, *endPtr)`.  `XLByteLT(a, b)` is
`a < b`; `MAX_XLOG_REC_PTR` is a constant of another header. -/
def GetReplayedRecPtrFromWorkers (MAX_XLOG_REC_PTR : Nat) (status : WorkerStatus)
    (d : LogDispatcher) : Nat × Nat :=
  (List.range d.pageWorkerCount).foldl (fun (acc : Nat × Nat) i =>
    if ¬ status.RedoWorkerIsIdle i then
      let read := (status.GetCompletedReadEndPtr i).1
      let end1 := (status.GetCompletedReadEndPtr i).2
      if end1 < acc.2 then (read, end1) else acc
    else acc) (MAX_XLOG_REC_PTR, MAX_XLOG_REC_PTR)

/-- Sample workers: the one of slot 1 is idle; the others have completed the records
`(90, 100)`, `(70, 80)` (slot 2) and `(75, 80)` (slot 3); slot 1 is not safe for restart
points above 50. -/
def sampleStatus : WorkerStatus :=
  { IsRecoveryRestartPointSafe := fun slot restartPoint => slot ≠ 1 ∨ restartPoint ≤ 50,
    RedoWorkerIsIdle := fun slot => slot = 1,
    GetCompletedReadEndPtr := fun slot =>
      if slot = 2 then (70, 80) else if slot = 3 then (75, 80) else (90, 100) }

/-- Sample workers none of which is idle, each reporting the pair `(5, 2^64 - 1)`. -/
def sampleStatusAtMax : WorkerStatus :=
  { IsRecoveryRestartPointSafe := fun _ _ => true,
    RedoWorkerIsIdle := fun _ => false,
    GetCompletedReadEndPtr := fun _ => (5, 18446744073709551615) }

/-! ## Vocabulary for the expected consumers -/

/-- The items of the enqueue events of a list of events, to a page worker or to the
transaction worker, in order. -/
def enqueued (evs : List Event) : List RedoItem :=
  evs.filterMap (fun e =>
    match e with
    | Event.AddPageRedoItem _ item => some item
    | Event.AddTxnRedoItem item => some item
    | _ => none)

/-- The number of enqueues of the item `id` (the ghost address of the item) in a list of
events. -/
def enqueueCount (id : Nat) (evs : List Event) : Nat :=
  ((enqueued evs).filter (fun it => decide (it.id = id))).length

/-- Every real item enqueued by `evs` has as `shareCount` (its `expectedConsumers`) the
number of its enqueues in `evs`. -/
def ShareOK (evs : List Event) : Prop :=
  ∀ it ∈ enqueued evs, it.kind = ItemKind.real → it.shareCount = enqueueCount it.id evs

/-- The events of a fan-out pattern that gave `K` as `expectedConsumers` to
`CreateRedoItem`: every real item enqueued carries `K` and is enqueued `K` times; if no real
item is enqueued at all, `K` is 0. -/
def PatternShare (K : Nat) (evs : List Event) : Prop :=
  (∀ it ∈ enqueued evs, it.kind = ItemKind.real →
    it.shareCount = K ∧ enqueueCount it.id evs = K) ∧
  ((∀ it ∈ enqueued evs, it.kind ≠ ItemKind.real) → K = 0)

/-- The chosen-worker count is the number of page workers with a hit count above 0. -/
def ChosenCounted (d : LogDispatcher) : Prop :=
  d.chosedWorkerCount = distinctChosen d.pageWorkerCount d.chosedWorkerIds

/-- What every dispatch strategy does about `expectedConsumers`: it returns, and the real
items among the events it appended carry the number of their enqueues. -/
def ShareStrat (d : LogDispatcher) (r : Res Bool) : Prop :=
  ∃ b d1 evs, r = Res.ok b d1 ∧ d1.trace = d.trace ++ evs ∧ ShareOK evs

/-- A start in which every call succeeds and the four page workers read READY at the scans
0 and 1 and the state 3 (exited) from the scan 2 on. -/
def sampleStartLeaving : StartupOracle :=
  { sampleStart 4 with threadState := fun k _ => if k < 2 then 2 else 3 }

/-- A start in which every call succeeds and the page workers report ready one after the
other: the worker of slot `i` reads READY from the scan `i + 1` on. -/
def sampleStartGradual : StartupOracle :=
  { sampleStart 4 with threadState := fun k i => if i < k then 2 else 1 }

/-- A record with two block references in use, both of relation `rel`: block `blk1` of the
main fork and block `blk2` of fork 1. -/
def sampleTwoBlockRecord (rmid info lsn rel blk1 blk2 : Nat) : XLogReaderState :=
  { ReadRecPtr := lsn, EndRecPtr := lsn + 8, xl_rmid := rmid, xl_info := info, xl_term := 0,
    max_block_id := 1,
    blocks := [{ in_use := true,
                 rnode := { spcNode := 1, dbNode := 1, relNode := rel, bucketNode := -1 },
                 forknum := 0, blkno := blk1 },
               { in_use := true,
                 rnode := { spcNode := 1, dbNode := 1, relNode := rel, bucketNode := -1 },
                 forknum := 1, blkno := blk2 }],
    main_data := [] }

/-- A record whose only slot, `blocks[0]`, is not in use. -/
def sampleUnusedSlotRecord (rmid info lsn rel : Nat) : XLogReaderState :=
  { ReadRecPtr := lsn, EndRecPtr := lsn + 8, xl_rmid := rmid, xl_info := info, xl_term := 0,
    max_block_id := 0,
    blocks := [{ in_use := false,
                 rnode := { spcNode := 1, dbNode := 1, relNode := rel, bucketNode := -1 },
                 forknum := 0, blkno := 0 }],
    main_data := [] }

/-- `AddWorkerToSet` on the 32-bit fields: `chosedWorkerCount` and the entries of
`chosedWorkerIds` are `uint32`, so `chosedWorkerCount += 1` and `++chosedWorkerIds[id]` wrap
at 2^32.  It is the step `AddWorkerToSet` as long as neither counter is at its largest
value, 2^32 - 1. -/
def AddWorkerToSet_uint32 (id : Nat) (d : LogDispatcher) : Res Unit :=
  if id ≥ d.pageWorkerCount then
    Res.panic PanicMsg.AddWorkerToSet_input_work_id_error d.trace
  else
    let d1 : LogDispatcher := if d.chosedWorkerIds id = 0 then
        { d with chosedWorkerCount := (d.chosedWorkerCount + 1) % 2 ^ 32 } else d
    let hits : Nat → Nat :=
      Function.update d1.chosedWorkerIds id ((d1.chosedWorkerIds id + 1) % 2 ^ 32)
    Res.ok () { d1 with chosedWorkerIds := hits }

/-- A sequence of `AddWorkerToSet` calls on the 32-bit fields, one per element of `ids`, in
order. -/
def addWorkersToSet_uint32 (ids : List Nat) (d : LogDispatcher) : Res Unit :=
  forEachRes ids (fun id acc => AddWorkerToSet_uint32 id acc) d

/-- The value of `chosedWorkerCount` as a 32-bit field. -/
def wrapChosedWorkerCount (d : LogDispatcher) : LogDispatcher :=
  { d with chosedWorkerCount := d.chosedWorkerCount % 2 ^ 32 }

/-! ## The fan-out of a record, branch by branch -/

/-- The fan-out a dispatch strategy ends in, seen from the page workers.
`everyWorker`: every page worker is enqueued one entry and the real item reaches a worker
(`DispatchTxnRecord`, `DispatchSyncTxnRecord`, `DispatchRecordWithoutPage`, the broadcast of
a checkpoint or database drop).
`specWorkers`: `GetWorkerIds` by relation, then `DispatchToSpecPageWorker`: the real item to
the workers of the block references in use, an LSN marker to every other page worker and to
the transaction worker.
`withPages rd`: `DispatchRecordWithPages` with `rnodedispatch = rd`: the real item to the
workers of the block references in use, nothing to anybody else.
`oneWorker rnode`: `DispatchToOnePageWorker` for `rnode`.
`nobody`: the strategy returns without an enqueue. -/
inductive FanoutPattern where
  | everyWorker
  | specWorkers
  | withPages (rnodedispatch : Bool)
  | oneWorker (rnode : RelFileNode)
  | nobody
deriving DecidableEq, Repr

/-- The branch `DispatchXLogRecord` takes. -/
def patternOfXLog (env : Env) (record : XLogReaderState) : FanoutPattern :=
  let info := infoOp env record
  if env.IsCheckPoint record then FanoutPattern.everyWorker
  else if info = env.XLOG_FPI ∨ info = env.XLOG_FPI_FOR_HINT then
    if env.SUPPORT_FPAGE_DISPATCH then FanoutPattern.withPages true
    else FanoutPattern.everyWorker
  else FanoutPattern.everyWorker

/-- The branch `DispatchSmgrRecord` takes. -/
def patternOfSmgr (env : Env) (record : XLogReaderState) : FanoutPattern :=
  let info := infoOp env record
  if info = env.XLOG_SMGR_CREATE then
    if env.SUPPORT_FPAGE_DISPATCH then FanoutPattern.oneWorker (env.xl_smgr_create_rnode record)
    else FanoutPattern.everyWorker
  else if env.IsSmgrTruncate record then FanoutPattern.everyWorker
  else FanoutPattern.nobody

/-- The branch `DispatchHeap2Record` takes, `DispatchHeap2VacuumRecord` included. -/
def patternOfHeap2 (env : Env) (record : XLogReaderState) : FanoutPattern :=
  let info := infoOp env record &&& env.XLOG_HEAP_OPMASK
  if info = env.XLOG_HEAP2_MULTI_INSERT ∨ info = env.XLOG_HEAP2_PAGE_UPGRADE then
    FanoutPattern.withPages env.SUPPORT_FPAGE_DISPATCH
  else if info = env.XLOG_HEAP2_BCM then
    if env.SUPPORT_FPAGE_DISPATCH then FanoutPattern.oneWorker (env.xl_heap_bcm_node record)
    else FanoutPattern.everyWorker
  else if info = env.XLOG_HEAP2_LOGICAL_NEWPAGE then
    if env.IS_DN_MULTI_STANDYS_MODE then
      if env.xl_heap_logical_newpage_type record = env.COLUMN_STORE ∧
          env.xl_heap_logical_newpage_hasdata record then
        if env.SUPPORT_FPAGE_DISPATCH then
          FanoutPattern.oneWorker (env.xl_heap_logical_newpage_node record)
        else FanoutPattern.everyWorker
      else FanoutPattern.nobody
    else
      if ¬ env.enable_mix_replication then FanoutPattern.everyWorker
      else FanoutPattern.nobody
  else if info = env.XLOG_HEAP2_CLEANUP_INFO then FanoutPattern.everyWorker
  else FanoutPattern.withPages env.SUPPORT_FPAGE_DISPATCH

/-- The branch `DispatchHeapRecord` takes. -/
def patternOfHeap (env : Env) (record : XLogReaderState) : FanoutPattern :=
  if record.max_block_id ≥ 0 then FanoutPattern.withPages env.SUPPORT_FPAGE_DISPATCH
  else FanoutPattern.everyWorker

/-- The branch `DispatchBtreeRecord` takes. -/
def patternOfBtree (env : Env) (record : XLogReaderState) : FanoutPattern :=
  if infoOp env record = env.XLOG_BTREE_REUSE_PAGE then FanoutPattern.everyWorker
  else FanoutPattern.withPages true

/-- The branch `DispatchGinRecord` takes. -/
def patternOfGin (env : Env) (record : XLogReaderState) : FanoutPattern :=
  if env.IsGinVacuumPages record ∧ env.SUPPORT_HOT_STANDBY then FanoutPattern.specWorkers
  else FanoutPattern.withPages true

/-- The branch `DispatchGistRecord` takes. -/
def patternOfGist (env : Env) (record : XLogReaderState) : FanoutPattern :=
  if env.IsGistPageUpdate record ∧ env.SUPPORT_HOT_STANDBY then FanoutPattern.specWorkers
  else FanoutPattern.withPages true

/-- The branch `DispatchSpgistRecord` takes. -/
def patternOfSpgist (env : Env) (record : XLogReaderState) : FanoutPattern :=
  if env.IsSpgistVacuum record ∧ env.SUPPORT_HOT_STANDBY then
    if infoOp env record = env.XLOG_SPGIST_VACUUM_REDIRECT ∧ env.InHotStandby then
      FanoutPattern.everyWorker
    else FanoutPattern.specWorkers
  else FanoutPattern.withPages true

/-- The fan-out `DispatchRedoRecordToFile` runs for a record: that of
`DispatchDefaultRecord` (a `DispatchTxnRecord`) for a malformed record, else that of the
branch taken by the strategy of row `g_dispatchTable[rmid]`.  The rows 0, 2, 9, 10, 11, 13,
14, 15 and 16 of the table hold `DispatchXLogRecord`, `DispatchSmgrRecord`,
`DispatchHeap2Record`, `DispatchHeapRecord`, `DispatchBtreeRecord`, `DispatchGinRecord`,
`DispatchGistRecord`, `DispatchSeqRecord` and `DispatchSpgistRecord`; the strategy of every
other row ends in `DispatchTxnRecord`, `DispatchSyncTxnRecord`,
`DispatchRecordWithoutPage` or the broadcast of a database drop. -/
def patternOf (env : Env) (record : XLogReaderState) : FanoutPattern :=
  if fatalerror env record = true then FanoutPattern.everyWorker
  else
    match XLogRecGetRmid record with
    | 0 => patternOfXLog env record
    | 2 => patternOfSmgr env record
    | 9 => patternOfHeap2 env record
    | 10 => patternOfHeap env record
    | 11 => patternOfBtree env record
    | 13 => patternOfGin env record
    | 14 => patternOfGist env record
    | 15 => FanoutPattern.withPages env.SUPPORT_FPAGE_DISPATCH
    | 16 => patternOfSpgist env record
    | _ => FanoutPattern.everyWorker

/-- Whether the fan-out of the record gives its real item to no worker: the strategy
returns without an enqueue, or it hands the real item to the workers of the block
references in use and the record has none. -/
def reachesNobody (env : Env) (record : XLogReaderState) : Bool :=
  match patternOf env record with
  | FanoutPattern.nobody => true
  | FanoutPattern.specWorkers => !hasInUseBlock record
  | FanoutPattern.withPages _ => !hasInUseBlock record
  | _ => false

/-- What the events `evs` of one strategy call, started on the dispatcher `d`, are for each
fan-out. -/
def PatternEffect (env : Env) (record : XLogReaderState) (d : LogDispatcher) :
    FanoutPattern → List Event → Prop
  | FanoutPattern.everyWorker, evs =>
    (∀ w, w < d.pageWorkerCount → pageQueue w evs ≠ []) ∧ realDelivered record evs
  | FanoutPattern.specWorkers, evs =>
    (∀ w, w < d.pageWorkerCount → pageQueue w evs ≠ []) ∧
    (∀ w, ∀ it ∈ pageQueue w evs,
      (it.kind = ItemKind.real ↔ w ∈ blockWorkerIds env (some d) record true) ∧
      (it.kind = ItemKind.real → it.record = record)) ∧
    (∀ it ∈ txnQueue evs, it.kind = ItemKind.lsnMarker)
  | FanoutPattern.withPages rd, evs =>
    (∀ w, pageQueue w evs ≠ [] ↔ w ∈ blockWorkerIds env (some d) record rd) ∧
    (∀ w, ∀ it ∈ pageQueue w evs, it.kind = ItemKind.real ∧ it.record = record) ∧
    txnQueue evs = []
  | FanoutPattern.oneWorker rnode, evs =>
    (∀ w, pageQueue w evs ≠ [] ↔ w = GetWorkerId env (some d) rnode 0 0) ∧
    (∀ w, ∀ it ∈ pageQueue w evs, it.kind = ItemKind.real ∧ it.record = record) ∧
    txnQueue evs = []
  | FanoutPattern.nobody, evs => (∀ w, pageQueue w evs = []) ∧ txnQueue evs = []

/-- The strategy call `r`, started on the dispatcher `d`, returns after the fan-out `p`. -/
def RunsPattern (env : Env) (record : XLogReaderState) (d : LogDispatcher) (r : Res Bool)
    (p : FanoutPattern) : Prop :=
  ∃ b d1 evs, r = Res.ok b d1 ∧ d1.trace = d.trace ++ evs ∧ PatternEffect env record d p evs

/-- No page worker is in the chosen set: the state `ResetChosedWorkerList` leaves. -/
def Unchosen (d : LogDispatcher) : Prop :=
  ∀ w, w < d.pageWorkerCount → d.chosedWorkerIds w = 0

/-! # Theorems -/

/-! ## Basic facts -/

@[simp] theorem Res.andThen_ok {α β : Type} (a : α) (d : LogDispatcher)
    (f : α → LogDispatcher → Res β) : (Res.ok a d).andThen f = f a d := rfl

@[simp] theorem Res.andThen_panic {α β : Type} (m : PanicMsg) (t : List Event)
    (f : α → LogDispatcher → Res β) : (Res.panic m t : Res α).andThen f = Res.panic m t := rfl

theorem forWorkers_zero (body : Nat → LogDispatcher → LogDispatcher) (d : LogDispatcher) :
    forWorkers 0 body d = d := by
  simp [forWorkers]

theorem forWorkers_succ (n : Nat) (body : Nat → LogDispatcher → LogDispatcher)
    (d : LogDispatcher) : forWorkers (n + 1) body d = body n (forWorkers n body d) := by
  simp [forWorkers, List.range_succ, List.foldl_append]

theorem CreateLSNMarker_fst (env : Env) (record : XLogReaderState) (tlis : List Nat) (b : Bool)
    (d : LogDispatcher) :
    (CreateLSNMarker env record tlis b d).1 = markerItem env record tlis d.itemSeq := rfl

theorem CreateRedoItem_fst (record : XLogReaderState) (sc dw : Nat) (tlis : List Nat) (xt : Int)
    (b : Bool) (d : LogDispatcher) :
    (CreateRedoItem record sc dw tlis xt b d).1 = realItem record sc dw tlis xt d.itemSeq := rfl

/-- The marker loop of `DispatchTxnRecord`: one new marker per page worker, in index order. -/
theorem forWorkers_markers (env : Env) (record : XLogReaderState) (tlis : List Nat) (n : Nat)
    (d : LogDispatcher) :
    forWorkers n (fun i acc =>
        AddPageRedoItem i (CreateLSNMarker env record tlis false acc).1
          (CreateLSNMarker env record tlis false acc).2) d
      = { d with
          trace := d.trace ++ (List.range n).map (fun i =>
            Event.AddPageRedoItem i (markerItem env record tlis (d.itemSeq + i))),
          itemSeq := d.itemSeq + n } := by
  induction n with
  | zero => simp [forWorkers_zero]
  | succ k ih =>
    rw [forWorkers_succ, ih]
    simp [AddPageRedoItem, CreateLSNMarker, markerItem, List.range_succ, List.map_append,
      Nat.add_assoc]

/-- The broadcast loop: the same item to every page worker, in index order. -/
theorem forWorkers_broadcast (item : RedoItem) (n : Nat) (d : LogDispatcher) :
    forWorkers n (fun i acc => AddPageRedoItem i item acc) d
      = { d with
          trace := d.trace ++ (List.range n).map (fun i => Event.AddPageRedoItem i item) } := by
  induction n with
  | zero => simp [forWorkers_zero]
  | succ k ih =>
    rw [forWorkers_succ, ih]
    simp [AddPageRedoItem, List.range_succ, List.map_append]

theorem unchosenBelow_succ (hits : Nat → Nat) (k : Nat) :
    unchosenBelow hits (k + 1) = unchosenBelow hits k + (if hits k = 0 then 1 else 0) := by
  unfold unchosenBelow
  by_cases h : hits k = 0 <;> simp [List.range_succ, List.filter_append, h]

/-- The loop of `DispatchSyncTxnRecord` and `DispatchToSpecPageWorker`: the item to the
chosen workers, a new marker to each of the others, in index order. -/
theorem forWorkers_chosen_markers (env : Env) (record : XLogReaderState) (tlis : List Nat)
    (item : RedoItem) (n : Nat) (d : LogDispatcher) :
    forWorkers n (fun i acc =>
        if acc.chosedWorkerIds i > 0 then AddPageRedoItem i item acc
        else AddPageRedoItem i (CreateLSNMarker env record tlis false acc).1
          (CreateLSNMarker env record tlis false acc).2) d
      = { d with
          trace := d.trace ++ (List.range n).map (fun i =>
            Event.AddPageRedoItem i
              (if d.chosedWorkerIds i > 0 then item
               else markerItem env record tlis (d.itemSeq + unchosenBelow d.chosedWorkerIds i))),
          itemSeq := d.itemSeq + unchosenBelow d.chosedWorkerIds n } := by
  induction n with
  | zero => simp [forWorkers_zero, unchosenBelow]
  | succ k ih =>
    rw [forWorkers_succ, ih]
    by_cases h : d.chosedWorkerIds k > 0
    · have h0 : d.chosedWorkerIds k ≠ 0 := by omega
      simp [AddPageRedoItem, List.range_succ, List.map_append, h, unchosenBelow_succ, h0]
    · have h0 : d.chosedWorkerIds k = 0 := by omega
      simp [AddPageRedoItem, CreateLSNMarker, markerItem, List.range_succ, List.map_append,
        unchosenBelow_succ, h0, Nat.add_assoc]

/-- The loop of `DispatchRecordWithPages`: the item to the chosen workers only. -/
theorem forWorkers_chosen_only (item : RedoItem) (n : Nat) (d : LogDispatcher) :
    forWorkers n (fun i acc =>
        if acc.chosedWorkerIds i > 0 then AddPageRedoItem i item acc else acc) d
      = { d with
          trace := d.trace ++
            ((List.range n).filter (fun i => decide (d.chosedWorkerIds i > 0))).map
              (fun i => Event.AddPageRedoItem i item) } := by
  induction n with
  | zero => simp [forWorkers_zero]
  | succ k ih =>
    rw [forWorkers_succ, ih]
    by_cases h : d.chosedWorkerIds k > 0
    · simp [AddPageRedoItem, List.range_succ, List.filter_append, List.map_append, h]
    · simp [List.range_succ, List.filter_append, h]

/-! ## Queues of a trace -/

theorem pageQueue_append (w : Nat) (a b : List Event) :
    pageQueue w (a ++ b) = pageQueue w a ++ pageQueue w b := by
  simp [pageQueue, List.filterMap_append]

theorem txnQueue_append (a b : List Event) :
    txnQueue (a ++ b) = txnQueue a ++ txnQueue b := by
  simp [txnQueue, List.filterMap_append]

@[simp] theorem pageQueue_nil (w : Nat) : pageQueue w [] = [] := rfl

@[simp] theorem txnQueue_nil : txnQueue [] = [] := rfl

theorem pageQueue_range_map (w n : Nat) (f : Nat → RedoItem) :
    pageQueue w ((List.range n).map (fun i => Event.AddPageRedoItem i (f i)))
      = if w < n then [f w] else [] := by
  induction n with
  | zero => simp
  | succ k ih =>
    rw [List.range_succ, List.map_append, pageQueue_append, ih]
    by_cases h1 : w < k
    · have h2 : w < k + 1 := by omega
      have h3 : k ≠ w := by omega
      simp [h1, h2, pageQueue, h3]
    · by_cases h4 : w = k
      · subst h4
        simp [pageQueue]
      · have h2 : ¬ w < k + 1 := by omega
        have h3 : k ≠ w := by omega
        simp [h1, h2, pageQueue, h3]

theorem pageQueue_range_filter_map (w n : Nat) (p : Nat → Bool) (item : RedoItem) :
    pageQueue w (((List.range n).filter p).map (fun i => Event.AddPageRedoItem i item))
      = if w < n ∧ p w = true then [item] else [] := by
  induction n with
  | zero => simp
  | succ k ih =>
    rw [List.range_succ, List.filter_append, List.map_append, pageQueue_append, ih]
    by_cases h1 : w < k
    · have h2 : w < k + 1 := by omega
      have h3 : k ≠ w := by omega
      by_cases hk : p k = true <;> simp [h1, h2, pageQueue, h3, hk]
    · by_cases h4 : w = k
      · subst h4
        by_cases hk : p w = true <;> simp [pageQueue, hk]
      · have h2 : ¬ w < k + 1 := by omega
        have h3 : k ≠ w := by omega
        by_cases hk : p k = true <;> simp [h1, h2, pageQueue, h3, hk]

theorem txnQueue_page_events (l : List (Nat × RedoItem)) :
    txnQueue (l.map (fun x => Event.AddPageRedoItem x.1 x.2)) = [] := by
  induction l with
  | nil => rfl
  | cons x xs ih =>
    simp [txnQueue]

theorem txnQueue_range_map (n : Nat) (f : Nat → RedoItem) :
    txnQueue ((List.range n).map (fun i => Event.AddPageRedoItem i (f i))) = [] := by
  have h := txnQueue_page_events ((List.range n).map (fun i => (i, f i)))
  simpa [List.map_map, Function.comp] using h

theorem txnQueue_filter_map (l : List Nat) (item : RedoItem) :
    txnQueue (l.map (fun i => Event.AddPageRedoItem i item)) = [] := by
  have h := txnQueue_page_events (l.map (fun i => (i, item)))
  simpa [List.map_map, Function.comp] using h

/-! ## The fan-out patterns, as traces -/

theorem DispatchTxnRecord_eq (env : Env) (record : XLogReaderState) (tlis : List Nat)
    (xt : Int) (im : Bool) (d : LogDispatcher) :
    DispatchTxnRecord env record tlis xt im d
      = { d with
          trace := d.trace ++
            ((List.range d.pageWorkerCount).map (fun i =>
              Event.AddPageRedoItem i (markerItem env record tlis (d.itemSeq + i))) ++
            [Event.AddTxnRedoItem
              { realItem record 1 env.ANY_WORKER tlis xt (d.itemSeq + d.pageWorkerCount) with
                imcheckpoint := im }]),
          itemSeq := d.itemSeq + d.pageWorkerCount + 1 } := by
  unfold DispatchTxnRecord
  simp only [forWorkers_markers]
  simp [AddTxnRedoItem, CreateRedoItem, realItem]

theorem DispatchRecordWithoutPage_eq (env : Env) (record : XLogReaderState) (tlis : List Nat)
    (d : LogDispatcher) :
    DispatchRecordWithoutPage env record tlis d
      = { d with
          trace := d.trace ++ (List.range d.pageWorkerCount).map (fun i =>
            Event.AddPageRedoItem i
              (realItem record d.pageWorkerCount env.ANY_WORKER tlis 0 d.itemSeq)),
          itemSeq := d.itemSeq + 1 } := by
  unfold DispatchRecordWithoutPage
  simp only [forWorkers_broadcast]
  simp [CreateRedoItem, realItem]

theorem DispatchToOnePageWorker_eq (env : Env) (record : XLogReaderState) (rnode : RelFileNode)
    (tlis : List Nat) (d : LogDispatcher) :
    DispatchToOnePageWorker env record rnode tlis d
      = { d with
          trace := d.trace ++ [Event.AddPageRedoItem (GetWorkerId env (some d) rnode 0 0)
            (realItem record 1 env.ANY_WORKER tlis 0 d.itemSeq)],
          itemSeq := d.itemSeq + 1 } := by
  simp [DispatchToOnePageWorker, AddPageRedoItem, CreateRedoItem, realItem]

/-- The item `DispatchSyncTxnRecord` shares between the chosen page workers and the
transaction worker. -/
theorem DispatchSyncTxnRecord_eq (env : Env) (record : XLogReaderState) (tlis : List Nat)
    (xt : Int) (dw : Nat) (d : LogDispatcher) :
    DispatchSyncTxnRecord env record tlis xt dw d
      = { d with
          trace := d.trace ++
            ((if d.chosedWorkerCount ≠ 1 ∧ XLogRecGetRmid record ≠ env.RM_XACT_ID then
                [Event.WARNING WarnMsg.DispatchSyncTxnRecord_maybe_some_error] else []) ++
             (List.range d.pageWorkerCount).map (fun i =>
               Event.AddPageRedoItem i
                (if d.chosedWorkerIds i > 0 then
                  { realItem record (d.chosedWorkerCount + 1) dw tlis xt d.itemSeq with
                    sharewithtrxn := true, blockbytrxn := false }
                 else markerItem env record tlis
                  (d.itemSeq + 1 + unchosenBelow d.chosedWorkerIds i))) ++
             [Event.AddTxnRedoItem
                { realItem record (d.chosedWorkerCount + 1) dw tlis xt d.itemSeq with
                  sharewithtrxn := true, blockbytrxn := false }]),
          itemSeq := d.itemSeq + 1 + unchosenBelow d.chosedWorkerIds d.pageWorkerCount } := by
  unfold DispatchSyncTxnRecord
  simp only [forWorkers_chosen_markers]
  by_cases h : d.chosedWorkerCount ≠ 1 ∧ XLogRecGetRmid record ≠ env.RM_XACT_ID
  · simp [AddTxnRedoItem, CreateRedoItem, realItem, ereportWARNING, h]
  · simp [AddTxnRedoItem, CreateRedoItem, realItem, ereportWARNING, h]

theorem DispatchToSpecPageWorker_eq (env : Env) (record : XLogReaderState) (tlis : List Nat)
    (wait : Bool) (d : LogDispatcher) :
    DispatchToSpecPageWorker env record tlis wait d
      = { d with
          trace := d.trace ++
            ((if d.chosedWorkerCount ≠ 1 then
                [Event.WARNING WarnMsg.DispatchToSpecPageWorker_maybe_some_error] else []) ++
             (List.range d.pageWorkerCount).map (fun i =>
               Event.AddPageRedoItem i
                (if d.chosedWorkerIds i > 0 then
                  { realItem record d.chosedWorkerCount env.ANY_WORKER tlis 0 d.itemSeq with
                    sharewithtrxn := false, blockbytrxn := wait }
                 else markerItem env record tlis
                  (d.itemSeq + 1 + unchosenBelow d.chosedWorkerIds i))) ++
             [Event.AddTxnRedoItem (markerItem env record tlis
                (d.itemSeq + 1 + unchosenBelow d.chosedWorkerIds d.pageWorkerCount))]),
          itemSeq := d.itemSeq + 1 + unchosenBelow d.chosedWorkerIds d.pageWorkerCount + 1 } := by
  unfold DispatchToSpecPageWorker
  simp only [forWorkers_chosen_markers]
  by_cases h : d.chosedWorkerCount ≠ 1
  · simp [AddTxnRedoItem, CreateRedoItem, CreateLSNMarker, markerItem, realItem,
      ereportWARNING, h]
  · simp [AddTxnRedoItem, CreateRedoItem, CreateLSNMarker, markerItem, realItem,
      ereportWARNING, h]

/-! ## The chosen worker set -/

theorem ChosenOnly.chosen_refl (d : LogDispatcher) : ChosenOnly d d := rfl

theorem ChosenOnly.trans {a b c : LogDispatcher} (h1 : ChosenOnly a b) (h2 : ChosenOnly b c) :
    ChosenOnly a c := by
  unfold ChosenOnly at *
  rw [h2, h1]

theorem ChosenOnly.count_eq {a b : LogDispatcher} (h : ChosenOnly a b) :
    b.pageWorkerCount = a.pageWorkerCount := by
  unfold ChosenOnly at h
  rw [h]

theorem ChosenOnly.prepared {a b : LogDispatcher} (h : ChosenOnly a b) : Prepared a b := by
  refine ⟨[], ?_⟩
  unfold ChosenOnly at h
  simpa using h

theorem GetWorkerId_lt (env : Env) (d : LogDispatcher) (node : RelFileNode) (block : Nat)
    (forkNum : Int) (hn : 0 < d.pageWorkerCount) :
    GetWorkerId env (some d) node block forkNum < d.pageWorkerCount := by
  have h0 : d.pageWorkerCount ≠ 0 := by omega
  simp [GetWorkerId, GetPageWorkerCount, h0]
  exact Nat.mod_lt _ hn

/-- `AddWorkerToSet` with an id below the worker count returns, touches only the chosen
set, leaves `id` chosen and lowers no hit count. -/
theorem AddWorkerToSet_ok (id : Nat) (d : LogDispatcher) (hid : id < d.pageWorkerCount) :
    ∃ d1, AddWorkerToSet id d = Res.ok () d1 ∧ ChosenOnly d d1 ∧
      0 < d1.chosedWorkerIds id ∧ ∀ w, d.chosedWorkerIds w ≤ d1.chosedWorkerIds w := by
  have hge : ¬ id ≥ d.pageWorkerCount := by omega
  unfold AddWorkerToSet
  simp only [hge, if_false]
  refine ⟨_, rfl, ?_, ?_, ?_⟩
  · unfold ChosenOnly
    by_cases h : d.chosedWorkerIds id = 0 <;> simp [h]
  · by_cases h : d.chosedWorkerIds id = 0 <;> simp [h]
  · intro w
    by_cases h : d.chosedWorkerIds id = 0 <;> by_cases hw : w = id <;>
      simp [h, hw, Function.update]

/-- A loop whose every step returns and keeps an invariant returns and keeps it. -/
theorem forEachRes_inv {α : Type} (P : LogDispatcher → Prop) (xs : List α)
    (body : α → LogDispatcher → Res Unit)
    (hstep : ∀ x ∈ xs, ∀ acc, P acc → ∃ acc1, body x acc = Res.ok () acc1 ∧ P acc1)
    (d : LogDispatcher) (h0 : P d) :
    ∃ d1, forEachRes xs body d = Res.ok () d1 ∧ P d1 := by
  induction xs generalizing d with
  | nil => exact ⟨d, rfl, h0⟩
  | cons x rest ih =>
    obtain ⟨acc1, hb, hp⟩ := hstep x (List.mem_cons_self _ _) d h0
    have hrest : ∀ y ∈ rest, ∀ acc, P acc → ∃ acc1, body y acc = Res.ok () acc1 ∧ P acc1 :=
      fun y hy => hstep y (List.mem_cons_of_mem _ hy)
    obtain ⟨d1, hd1, hp1⟩ := ih hrest acc1 hp
    refine ⟨d1, ?_, hp1⟩
    simp [forEachRes, hb, hd1]

/-! ## Queues of the event lists of the patterns -/

@[simp] theorem pageQueue_single_page (w v : Nat) (it : RedoItem) :
    pageQueue w [Event.AddPageRedoItem v it] = if v = w then [it] else [] := by
  by_cases h : v = w <;> simp [pageQueue, h]

@[simp] theorem pageQueue_single_txn (w : Nat) (it : RedoItem) :
    pageQueue w [Event.AddTxnRedoItem it] = [] := rfl

@[simp] theorem pageQueue_single_warn (w : Nat) (m : WarnMsg) :
    pageQueue w [Event.WARNING m] = [] := rfl

@[simp] theorem pageQueue_single_pending (w : Nat) (b : Bool) :
    pageQueue w [Event.ProcessPendingRecords b] = [] := rfl

@[simp] theorem pageQueue_single_dump (w : Nat) : pageQueue w [Event.DumpDispatcher] = [] := rfl

@[simp] theorem txnQueue_single_page (v : Nat) (it : RedoItem) :
    txnQueue [Event.AddPageRedoItem v it] = [] := rfl

@[simp] theorem txnQueue_single_txn (it : RedoItem) :
    txnQueue [Event.AddTxnRedoItem it] = [it] := rfl

@[simp] theorem txnQueue_single_warn (m : WarnMsg) : txnQueue [Event.WARNING m] = [] := rfl

@[simp] theorem txnQueue_single_pending (b : Bool) :
    txnQueue [Event.ProcessPendingRecords b] = [] := rfl

@[simp] theorem txnQueue_single_dump : txnQueue [Event.DumpDispatcher] = [] := rfl

@[simp] theorem pageQueue_warnings (w : Nat) (ws : List WarnMsg) :
    pageQueue w (ws.map Event.WARNING) = [] := by
  induction ws with
  | nil => rfl
  | cons m rest ih => simp [pageQueue]

@[simp] theorem txnQueue_warnings (ws : List WarnMsg) :
    txnQueue (ws.map Event.WARNING) = [] := by
  induction ws with
  | nil => rfl
  | cons m rest ih => simp [txnQueue]

@[simp] theorem pageQueue_cons_page (w v : Nat) (it : RedoItem) (l : List Event) :
    pageQueue w (Event.AddPageRedoItem v it :: l)
      = (if v = w then [it] else []) ++ pageQueue w l := by
  by_cases h : v = w <;> simp [pageQueue, h]

@[simp] theorem pageQueue_cons_txn (w : Nat) (it : RedoItem) (l : List Event) :
    pageQueue w (Event.AddTxnRedoItem it :: l) = pageQueue w l := rfl

@[simp] theorem pageQueue_cons_warn (w : Nat) (m : WarnMsg) (l : List Event) :
    pageQueue w (Event.WARNING m :: l) = pageQueue w l := rfl

@[simp] theorem pageQueue_cons_pending (w : Nat) (b : Bool) (l : List Event) :
    pageQueue w (Event.ProcessPendingRecords b :: l) = pageQueue w l := rfl

@[simp] theorem pageQueue_cons_dump (w : Nat) (l : List Event) :
    pageQueue w (Event.DumpDispatcher :: l) = pageQueue w l := rfl

@[simp] theorem txnQueue_cons_page (v : Nat) (it : RedoItem) (l : List Event) :
    txnQueue (Event.AddPageRedoItem v it :: l) = txnQueue l := rfl

@[simp] theorem txnQueue_cons_txn (it : RedoItem) (l : List Event) :
    txnQueue (Event.AddTxnRedoItem it :: l) = it :: txnQueue l := rfl

@[simp] theorem txnQueue_cons_warn (m : WarnMsg) (l : List Event) :
    txnQueue (Event.WARNING m :: l) = txnQueue l := rfl

@[simp] theorem txnQueue_cons_pending (b : Bool) (l : List Event) :
    txnQueue (Event.ProcessPendingRecords b :: l) = txnQueue l := rfl

@[simp] theorem txnQueue_cons_dump (l : List Event) :
    txnQueue (Event.DumpDispatcher :: l) = txnQueue l := rfl

/-! ## Fan-out shapes -/

theorem Fanout.nil (n : Nat) (record : XLogReaderState) : Fanout n record [] := by
  constructor <;> simp

theorem Fanout.add_warnings {n : Nat} {record : XLogReaderState} {evs : List Event}
    (ws : List WarnMsg) (h : Fanout n record evs) :
    Fanout n record (ws.map Event.WARNING ++ evs) := by
  constructor
  · intro e he
    rcases List.mem_append.mp he with h1 | h1
    · obtain ⟨m, _, hm⟩ := List.mem_map.mp h1
      exact Or.inr ⟨m, hm.symm⟩
    · exact h.events e h1
  · intro w
    simpa [pageQueue_append] using h.page_le_one w
  · intro w hw
    simpa [pageQueue_append] using h.page_bound w hw
  · intro w it hit
    have : it ∈ pageQueue w evs := by simpa [pageQueue_append] using hit
    exact h.page_lsn w it this
  · simpa [txnQueue_append] using h.txn_le_one
  · intro it hit
    have : it ∈ txnQueue evs := by simpa [txnQueue_append] using hit
    exact h.txn_lsn it this

/-- One entry for every page worker, then one for the transaction worker. -/
theorem Fanout.range_then_txn (n : Nat) (record : XLogReaderState) (f : Nat → RedoItem)
    (t : RedoItem) (hf : ∀ i, lsnOf (f i).record = lsnOf record)
    (ht : lsnOf t.record = lsnOf record) :
    Fanout n record
      ((List.range n).map (fun i => Event.AddPageRedoItem i (f i)) ++
        [Event.AddTxnRedoItem t]) := by
  constructor
  · intro e he
    rcases List.mem_append.mp he with h1 | h1
    · obtain ⟨i, _, hi⟩ := List.mem_map.mp h1
      left
      rw [← hi]
      rfl
    · left
      simp at h1
      rw [h1]
      rfl
  · intro w
    rw [pageQueue_append, pageQueue_range_map]
    by_cases h : w < n <;> simp [h]
  · intro w hw
    rw [pageQueue_append, pageQueue_range_map]
    have h : ¬ w < n := by omega
    simp [h]
  · intro w it hit
    rw [pageQueue_append, pageQueue_range_map] at hit
    by_cases h : w < n
    · simp [h] at hit
      rw [hit]
      exact hf w
    · simp [h] at hit
  · rw [txnQueue_append, txnQueue_range_map]
    simp
  · intro it hit
    rw [txnQueue_append, txnQueue_range_map] at hit
    simp at hit
    rw [hit]
    exact ht

/-- One entry for every page worker, none for the transaction worker. -/
theorem Fanout.range_only (n : Nat) (record : XLogReaderState) (f : Nat → RedoItem)
    (hf : ∀ i, lsnOf (f i).record = lsnOf record) :
    Fanout n record ((List.range n).map (fun i => Event.AddPageRedoItem i (f i))) := by
  constructor
  · intro e he
    obtain ⟨i, _, hi⟩ := List.mem_map.mp he
    left
    rw [← hi]
    rfl
  · intro w
    rw [pageQueue_range_map]
    by_cases h : w < n <;> simp [h]
  · intro w hw
    rw [pageQueue_range_map]
    have h : ¬ w < n := by omega
    simp [h]
  · intro w it hit
    rw [pageQueue_range_map] at hit
    by_cases h : w < n
    · simp [h] at hit
      rw [hit]
      exact hf w
    · simp [h] at hit
  · rw [txnQueue_range_map]
    simp
  · intro it hit
    rw [txnQueue_range_map] at hit
    simp at hit

/-- The same item for the page workers selected by `p`, nothing else. -/
theorem Fanout.filter_only (n : Nat) (record : XLogReaderState) (p : Nat → Bool)
    (item : RedoItem) (hitem : lsnOf item.record = lsnOf record) :
    Fanout n record (((List.range n).filter p).map (fun i => Event.AddPageRedoItem i item)) := by
  constructor
  · intro e he
    obtain ⟨i, _, hi⟩ := List.mem_map.mp he
    left
    rw [← hi]
    rfl
  · intro w
    rw [pageQueue_range_filter_map]
    by_cases h : w < n ∧ p w = true <;> simp [h]
  · intro w hw
    rw [pageQueue_range_filter_map]
    have h : ¬ (w < n ∧ p w = true) := by omega
    simp [h]
  · intro w it hit
    rw [pageQueue_range_filter_map] at hit
    by_cases h : w < n ∧ p w = true
    · simp [h] at hit
      rw [hit]
      exact hitem
    · simp [h] at hit
  · rw [txnQueue_filter_map]
    simp
  · intro it hit
    rw [txnQueue_filter_map] at hit
    simp at hit

/-- One item for one page worker. -/
theorem Fanout.one (n : Nat) (record : XLogReaderState) (v : Nat) (item : RedoItem)
    (hv : v < n) (hitem : lsnOf item.record = lsnOf record) :
    Fanout n record [Event.AddPageRedoItem v item] := by
  constructor
  · intro e he
    simp at he
    left
    rw [he]
    rfl
  · intro w
    by_cases h : v = w <;> simp [h]
  · intro w hw
    have h : v ≠ w := by omega
    simp [h]
  · intro w it hit
    by_cases h : v = w
    · simp [h] at hit
      rw [hit]
      exact hitem
    · simp [h] at hit
  · simp
  · intro it hit
    simp at hit

/-! ## `GetWorkerIds` -/

/-- The block loop of `GetWorkerIds`, from any list of slot indices. -/
theorem GetWorkerIds_loop (env : Env) (record : XLogReaderState) (rd : Bool) (xs : List Nat)
    (d : LogDispatcher) (hn : 0 < d.pageWorkerCount) :
    ∃ d1, forEachRes xs
        (fun i acc =>
          let block := blockAt record i
          if block.in_use != true then Res.ok () acc
          else
            let id := if rd then GetWorkerId env (some acc) block.rnode 0 0
              else GetWorkerId env (some acc) block.rnode block.blkno 0
            AddWorkerToSet id acc) d = Res.ok () d1 ∧
      ChosenOnly d d1 ∧ (∀ w, d.chosedWorkerIds w ≤ d1.chosedWorkerIds w) ∧
      ((∃ i ∈ xs, (blockAt record i).in_use = true) →
        ∃ w, w < d.pageWorkerCount ∧ 0 < d1.chosedWorkerIds w) := by
  induction xs generalizing d with
  | nil =>
    refine ⟨d, rfl, ChosenOnly.chosen_refl d, fun w => Nat.le_refl _, ?_⟩
    rintro ⟨i, hi, _⟩
    simp at hi
  | cons x rest ih =>
    by_cases hx : (blockAt record x).in_use = true
    · have hlt : (if rd then GetWorkerId env (some d) (blockAt record x).rnode 0 0
          else GetWorkerId env (some d) (blockAt record x).rnode (blockAt record x).blkno 0)
          < d.pageWorkerCount := by
        by_cases hrd : rd = true
        · simp only [hrd, if_true]
          exact GetWorkerId_lt env d _ _ _ hn
        · simp only [hrd]
          exact GetWorkerId_lt env d _ _ _ hn
      obtain ⟨d0, hd0, hc0, hpos, hmono⟩ := AddWorkerToSet_ok _ d hlt
      have hn0 : 0 < d0.pageWorkerCount := by rw [hc0.count_eq]; exact hn
      obtain ⟨d1, hd1, hc1, hmono1, _⟩ := ih d0 hn0
      refine ⟨d1, ?_, hc0.trans hc1, fun w => Nat.le_trans (hmono w) (hmono1 w), ?_⟩
      · simp only [forEachRes, hx, bne_self_eq_false, Bool.false_eq_true, if_false, hd0,
          Res.andThen_ok]
        exact hd1
      · intro _
        exact ⟨_, hlt, Nat.lt_of_lt_of_le hpos (hmono1 _)⟩
    · obtain ⟨d1, hd1, hc1, hmono1, hex⟩ := ih d hn
      have hx2 : (blockAt record x).in_use = false := by simpa using hx
      refine ⟨d1, ?_, hc1, hmono1, ?_⟩
      · simp only [forEachRes, hx2, Res.andThen_ok]
        simpa using hd1
      · rintro ⟨i, hi, hiu⟩
        rcases List.mem_cons.mp hi with h | h
        · subst h
          exact absurd hiu hx
        · exact hex ⟨i, h, hiu⟩

/-- On a dispatcher with a page worker `GetWorkerIds` returns, touches only the chosen set,
and chooses a worker when the record has a block reference in use. -/
theorem GetWorkerIds_ok (env : Env) (record : XLogReaderState) (dw : Nat) (rd : Bool)
    (d : LogDispatcher) (hn : 0 < d.pageWorkerCount) :
    ∃ d1, GetWorkerIds env record dw rd d = Res.ok () d1 ∧ ChosenOnly d d1 ∧
      (hasInUseBlock record = true → ∃ w, w < d.pageWorkerCount ∧ 0 < d1.chosedWorkerIds w) := by
  obtain ⟨d0, hd0, hc0, _, hex⟩ :=
    GetWorkerIds_loop env record rd (List.range (record.max_block_id + 1).toNat) d hn
  have hblk : hasInUseBlock record = true → ∃ w, w < d.pageWorkerCount ∧
      0 < d0.chosedWorkerIds w := by
    intro hb
    apply hex
    simpa [hasInUseBlock, List.any_eq_true] using hb
  unfold GetWorkerIds
  rw [hd0]
  simp only [Res.andThen_ok]
  by_cases h1 : dw ≠ env.ANY_WORKER
  · by_cases h2 : dw < GetPageWorkerCount (some d0)
    · have h2a : dw < d0.pageWorkerCount := h2
      obtain ⟨d1, hd1, hc1, _, hmono⟩ := AddWorkerToSet_ok dw d0 h2a
      refine ⟨d1, ?_, hc0.trans hc1, ?_⟩
      · rw [if_pos h1, if_pos h2]
        exact hd1
      · intro hb
        obtain ⟨w, hw, hpos⟩ := hblk hb
        exact ⟨w, hw, Nat.lt_of_lt_of_le hpos (hmono w)⟩
    · refine ⟨d0, ?_, hc0, hblk⟩
      rw [if_pos h1, if_neg h2]
  · refine ⟨d0, ?_, hc0, hblk⟩
    rw [if_neg h1]

/-! ## From patterns to strategies -/

theorem Prepared.prep_refl (d : LogDispatcher) : Prepared d d := ⟨[], by simp⟩

theorem Prepared.warn (m : WarnMsg) (d : LogDispatcher) : Prepared d (ereportWARNING m d) :=
  ⟨[m], by simp [ereportWARNING]⟩

theorem Prepared.prep_count_eq {a b : LogDispatcher} (h : Prepared a b) :
    b.pageWorkerCount = a.pageWorkerCount := by
  obtain ⟨ws, h⟩ := h
  rw [h]

theorem Prepared.then_chosen {a b c : LogDispatcher} (h1 : Prepared a b) (h2 : ChosenOnly b c) :
    Prepared a c := by
  obtain ⟨ws, h1⟩ := h1
  refine ⟨ws, ?_⟩
  unfold ChosenOnly at h2
  rw [h2, h1]

theorem realDelivered.after_warnings {record : XLogReaderState} {evs : List Event}
    (ws : List WarnMsg) (h : realDelivered record evs) :
    realDelivered record (ws.map Event.WARNING ++ evs) := by
  rcases h with ⟨w, it, hit, h⟩ | ⟨it, hit, h⟩
  · exact Or.inl ⟨w, it, by simpa [pageQueue_append] using hit, h⟩
  · exact Or.inr ⟨it, by simpa [txnQueue_append] using hit, h⟩

theorem StratOK.mono {record : XLogReaderState} {d : LogDispatcher} {r : Res Bool}
    {exc exc1 : Prop} (h : StratOK record d r exc) (himp : exc → exc1) :
    StratOK record d r exc1 := by
  obtain ⟨b, d1, evs, h1, h2, h3, h4, h5, h6, h7⟩ := h
  exact ⟨b, d1, evs, h1, h2, h3, h4, h5, h6, h7.imp id himp⟩

/-- A prepared state followed by the events `E` of one fan-out. -/
theorem StratOK.intro {record : XLogReaderState} {d d1 d2 : LogDispatcher} {exc : Prop}
    (b : Bool) (E : List Event) (k : Nat) (hprep : Prepared d d1)
    (hd2 : d2 = { d1 with trace := d1.trace ++ E, itemSeq := k })
    (hF : Fanout d.pageWorkerCount record E) (hR : realDelivered record E ∨ exc) :
    StratOK record d (Res.ok b d2) exc := by
  obtain ⟨ws, hws⟩ := hprep
  refine ⟨b, d2, ws.map Event.WARNING ++ E, rfl, ?_, ?_, ?_, ?_, hF.add_warnings ws, ?_⟩
  · rw [hd2, hws]
  · rw [hd2, hws]
  · rw [hd2, hws]
  · rw [hd2, hws]
    simp
  · exact hR.imp (realDelivered.after_warnings ws) id

theorem lsnOf_marker (env : Env) (record : XLogReaderState) (tlis : List Nat) (id : Nat) :
    lsnOf (markerItem env record tlis id).record = lsnOf record := rfl

theorem StratOK_nothing {record : XLogReaderState} {d d1 : LogDispatcher} {exc : Prop}
    (b : Bool) (hprep : Prepared d d1) (hexc : exc) : StratOK record d (Res.ok b d1) exc :=
  StratOK.intro b [] d1.itemSeq hprep (by simp) (Fanout.nil _ _) (Or.inr hexc)

theorem StratOK_txn (env : Env) {record : XLogReaderState} {d d1 : LogDispatcher} {exc : Prop}
    (tlis : List Nat) (xt : Int) (im b : Bool) (hprep : Prepared d d1) :
    StratOK record d (Res.ok b (DispatchTxnRecord env record tlis xt im d1)) exc := by
  refine StratOK.intro b _ _ hprep (DispatchTxnRecord_eq env record tlis xt im d1) ?_ ?_
  · rw [hprep.prep_count_eq]
    exact Fanout.range_then_txn _ _ _ _ (fun i => lsnOf_marker _ _ _ _) rfl
  · left
    right
    refine ⟨{ realItem record 1 env.ANY_WORKER tlis xt (d1.itemSeq + d1.pageWorkerCount) with
      imcheckpoint := im }, ?_, rfl, rfl⟩
    rw [txnQueue_append, txnQueue_range_map]
    simp

theorem StratOK_withoutPage (env : Env) {record : XLogReaderState} {d d1 : LogDispatcher}
    {exc : Prop} (tlis : List Nat) (b : Bool) (hprep : Prepared d d1)
    (hn : 0 < d.pageWorkerCount) :
    StratOK record d (Res.ok b (DispatchRecordWithoutPage env record tlis d1)) exc := by
  refine StratOK.intro b _ _ hprep (DispatchRecordWithoutPage_eq env record tlis d1) ?_ ?_
  · rw [hprep.prep_count_eq]
    exact Fanout.range_only _ _ _ (fun i => rfl)
  · left
    left
    refine ⟨0, realItem record d1.pageWorkerCount env.ANY_WORKER tlis 0 d1.itemSeq, ?_,
      rfl, rfl⟩
    rw [pageQueue_range_map, hprep.prep_count_eq]
    simp [hn]

/-- `DispatchRecordWithoutPage` followed by an LSN marker, flagged `imcheckpoint`, for the
transaction worker (database and tablespace records other than drops). -/
theorem StratOK_withoutPage_marker (env : Env) {record : XLogReaderState}
    {d d1 : LogDispatcher} {exc : Prop} (tlis : List Nat) (b : Bool) (hprep : Prepared d d1)
    (hn : 0 < d.pageWorkerCount) :
    StratOK record d
      (Res.ok b (AddTxnRedoItem
        { (CreateLSNMarker env record tlis false
            (DispatchRecordWithoutPage env record tlis d1)).1 with imcheckpoint := true }
        (CreateLSNMarker env record tlis false
            (DispatchRecordWithoutPage env record tlis d1)).2)) exc := by
  refine StratOK.intro b
    ((List.range d1.pageWorkerCount).map (fun i => Event.AddPageRedoItem i
        (realItem record d1.pageWorkerCount env.ANY_WORKER tlis 0 d1.itemSeq)) ++
      [Event.AddTxnRedoItem
        { markerItem env record tlis (d1.itemSeq + 1) with imcheckpoint := true }])
    (d1.itemSeq + 1 + 1) hprep ?_ ?_ ?_
  · rw [DispatchRecordWithoutPage_eq]
    simp [AddTxnRedoItem, CreateLSNMarker, markerItem]
  · rw [hprep.prep_count_eq]
    exact Fanout.range_then_txn _ _ _ _ (fun i => rfl) rfl
  · left
    left
    refine ⟨0, realItem record d1.pageWorkerCount env.ANY_WORKER tlis 0 d1.itemSeq, ?_,
      rfl, rfl⟩
    rw [pageQueue_append, pageQueue_range_map, hprep.prep_count_eq]
    simp [hn]

/-- The same real item to every page worker and to the transaction worker (checkpoints and
database drops). -/
theorem StratOK_broadcast {record : XLogReaderState} {d d1 : LogDispatcher} {exc : Prop}
    (item : RedoItem) (b : Bool) (k : Nat) (hprep : Prepared d d1) (p2 : LogDispatcher)
    (hp2 : p2 = { d1 with itemSeq := k })
    (hkind : item.kind = ItemKind.real) (hrec : item.record = record) :
    StratOK record d
      (Res.ok b (AddTxnRedoItem item
        (forWorkers p2.pageWorkerCount (fun i acc => AddPageRedoItem i item acc) p2))) exc := by
  subst hp2
  refine StratOK.intro b
    ((List.range d1.pageWorkerCount).map (fun i => Event.AddPageRedoItem i item) ++
      [Event.AddTxnRedoItem item]) k hprep ?_ ?_ ?_
  · rw [forWorkers_broadcast]
    simp [AddTxnRedoItem]
  · rw [hprep.prep_count_eq]
    exact Fanout.range_then_txn _ _ _ _ (fun i => by rw [hrec]) (by rw [hrec])
  · left
    right
    refine ⟨item, ?_, hkind, hrec⟩
    rw [txnQueue_append, txnQueue_range_map]
    simp

theorem StratOK_onePage (env : Env) {record : XLogReaderState} {d d1 : LogDispatcher}
    {exc : Prop} (rnode : RelFileNode) (tlis : List Nat) (b : Bool) (hprep : Prepared d d1)
    (hn : 0 < d.pageWorkerCount) :
    StratOK record d (Res.ok b (DispatchToOnePageWorker env record rnode tlis d1)) exc := by
  have hn1 : 0 < d1.pageWorkerCount := by rw [hprep.prep_count_eq]; exact hn
  refine StratOK.intro b _ _ hprep (DispatchToOnePageWorker_eq env record rnode tlis d1) ?_ ?_
  · refine Fanout.one _ _ _ _ ?_ rfl
    rw [← hprep.prep_count_eq]
    exact GetWorkerId_lt env d1 rnode 0 0 hn1
  · left
    left
    exact ⟨GetWorkerId env (some d1) rnode 0 0,
      realItem record 1 env.ANY_WORKER tlis 0 d1.itemSeq, by simp, rfl, rfl⟩

theorem StratOK_sync (env : Env) {record : XLogReaderState} {d d1 : LogDispatcher}
    {exc : Prop} (tlis : List Nat) (xt : Int) (dw : Nat) (b : Bool) (hprep : Prepared d d1) :
    StratOK record d (Res.ok b (DispatchSyncTxnRecord env record tlis xt dw d1)) exc := by
  by_cases hc : d1.chosedWorkerCount ≠ 1 ∧ XLogRecGetRmid record ≠ env.RM_XACT_ID
  · have hprep1 : Prepared d
        (ereportWARNING WarnMsg.DispatchSyncTxnRecord_maybe_some_error d1) := by
      obtain ⟨ws, hws⟩ := hprep
      refine ⟨ws ++ [WarnMsg.DispatchSyncTxnRecord_maybe_some_error], ?_⟩
      simp only [ereportWARNING]
      rw [hws]
      simp
    refine StratOK.intro b
      ((List.range d1.pageWorkerCount).map (fun i => Event.AddPageRedoItem i
          (if d1.chosedWorkerIds i > 0 then
            { realItem record (d1.chosedWorkerCount + 1) dw tlis xt d1.itemSeq with
              sharewithtrxn := true, blockbytrxn := false }
           else markerItem env record tlis (d1.itemSeq + 1 + unchosenBelow d1.chosedWorkerIds i))) ++
        [Event.AddTxnRedoItem
          { realItem record (d1.chosedWorkerCount + 1) dw tlis xt d1.itemSeq with
            sharewithtrxn := true, blockbytrxn := false }])
      (d1.itemSeq + 1 + unchosenBelow d1.chosedWorkerIds d1.pageWorkerCount) hprep1 ?_ ?_ ?_
    · rw [DispatchSyncTxnRecord_eq, if_pos hc]
      simp [ereportWARNING]
    · rw [hprep.prep_count_eq]
      refine Fanout.range_then_txn _ _ _ _ (fun i => ?_) rfl
      by_cases h : d1.chosedWorkerIds i > 0 <;> simp [h, lsnOf, markerItem, realItem]
    · left
      right
      refine ⟨{ realItem record (d1.chosedWorkerCount + 1) dw tlis xt d1.itemSeq with
        sharewithtrxn := true, blockbytrxn := false }, ?_, rfl, rfl⟩
      rw [txnQueue_append, txnQueue_range_map]
      simp
  · refine StratOK.intro b
      ((List.range d1.pageWorkerCount).map (fun i => Event.AddPageRedoItem i
          (if d1.chosedWorkerIds i > 0 then
            { realItem record (d1.chosedWorkerCount + 1) dw tlis xt d1.itemSeq with
              sharewithtrxn := true, blockbytrxn := false }
           else markerItem env record tlis (d1.itemSeq + 1 + unchosenBelow d1.chosedWorkerIds i))) ++
        [Event.AddTxnRedoItem
          { realItem record (d1.chosedWorkerCount + 1) dw tlis xt d1.itemSeq with
            sharewithtrxn := true, blockbytrxn := false }])
      (d1.itemSeq + 1 + unchosenBelow d1.chosedWorkerIds d1.pageWorkerCount) hprep ?_ ?_ ?_
    · rw [DispatchSyncTxnRecord_eq, if_neg hc]
      simp
    · rw [hprep.prep_count_eq]
      refine Fanout.range_then_txn _ _ _ _ (fun i => ?_) rfl
      by_cases h : d1.chosedWorkerIds i > 0 <;> simp [h, lsnOf, markerItem, realItem]
    · left
      right
      refine ⟨{ realItem record (d1.chosedWorkerCount + 1) dw tlis xt d1.itemSeq with
        sharewithtrxn := true, blockbytrxn := false }, ?_, rfl, rfl⟩
      rw [txnQueue_append, txnQueue_range_map]
      simp

theorem Prepared.then_warn {a b : LogDispatcher} (m : WarnMsg) (h : Prepared a b) :
    Prepared a (ereportWARNING m b) := by
  obtain ⟨ws, hws⟩ := h
  refine ⟨ws ++ [m], ?_⟩
  simp only [ereportWARNING]
  rw [hws]
  simp

theorem StratOK_spec (env : Env) {record : XLogReaderState} {d d1 : LogDispatcher}
    (tlis : List Nat) (wait b : Bool) (hprep : Prepared d d1)
    (hch : hasInUseBlock record = true →
      ∃ w, w < d.pageWorkerCount ∧ 0 < d1.chosedWorkerIds w) :
    StratOK record d (Res.ok b (DispatchToSpecPageWorker env record tlis wait d1))
      (hasInUseBlock record = false) := by
  have hF : Fanout d.pageWorkerCount record
      ((List.range d1.pageWorkerCount).map (fun i => Event.AddPageRedoItem i
          (if d1.chosedWorkerIds i > 0 then
            { realItem record d1.chosedWorkerCount env.ANY_WORKER tlis 0 d1.itemSeq with
              sharewithtrxn := false, blockbytrxn := wait }
           else markerItem env record tlis (d1.itemSeq + 1 + unchosenBelow d1.chosedWorkerIds i))) ++
        [Event.AddTxnRedoItem (markerItem env record tlis
          (d1.itemSeq + 1 + unchosenBelow d1.chosedWorkerIds d1.pageWorkerCount))]) := by
    rw [hprep.prep_count_eq]
    refine Fanout.range_then_txn _ _ _ _ (fun i => ?_) rfl
    by_cases h : d1.chosedWorkerIds i > 0 <;> simp [h, lsnOf, markerItem, realItem]
  have hR : realDelivered record
      ((List.range d1.pageWorkerCount).map (fun i => Event.AddPageRedoItem i
          (if d1.chosedWorkerIds i > 0 then
            { realItem record d1.chosedWorkerCount env.ANY_WORKER tlis 0 d1.itemSeq with
              sharewithtrxn := false, blockbytrxn := wait }
           else markerItem env record tlis (d1.itemSeq + 1 + unchosenBelow d1.chosedWorkerIds i))) ++
        [Event.AddTxnRedoItem (markerItem env record tlis
          (d1.itemSeq + 1 + unchosenBelow d1.chosedWorkerIds d1.pageWorkerCount))]) ∨
      hasInUseBlock record = false := by
    by_cases hb : hasInUseBlock record = true
    · obtain ⟨w, hw, hpos⟩ := hch hb
      left
      left
      refine ⟨w, { realItem record d1.chosedWorkerCount env.ANY_WORKER tlis 0 d1.itemSeq with
        sharewithtrxn := false, blockbytrxn := wait }, ?_, rfl, rfl⟩
      rw [pageQueue_append, pageQueue_range_map, hprep.prep_count_eq]
      simp [hw, hpos]
    · right
      simpa using hb
  by_cases hc : d1.chosedWorkerCount ≠ 1
  · refine StratOK.intro b _
      (d1.itemSeq + 1 + unchosenBelow d1.chosedWorkerIds d1.pageWorkerCount + 1)
      (hprep.then_warn WarnMsg.DispatchToSpecPageWorker_maybe_some_error) ?_ hF hR
    rw [DispatchToSpecPageWorker_eq, if_pos hc]
    simp [ereportWARNING]
  · refine StratOK.intro b _
      (d1.itemSeq + 1 + unchosenBelow d1.chosedWorkerIds d1.pageWorkerCount + 1) hprep ?_ hF hR
    rw [DispatchToSpecPageWorker_eq, if_neg hc]
    simp

/-- A continuation run after `GetWorkerIds`. -/
theorem StratOK_afterIds (env : Env) {record : XLogReaderState} {d d1 : LogDispatcher}
    {exc : Prop} (dw : Nat) (rd : Bool) (k : LogDispatcher → Res Bool) (hprep : Prepared d d1)
    (hn : 0 < d.pageWorkerCount)
    (hk : ∀ d2, Prepared d d2 →
      (hasInUseBlock record = true → ∃ w, w < d.pageWorkerCount ∧ 0 < d2.chosedWorkerIds w) →
      StratOK record d (k d2) exc) :
    StratOK record d ((GetWorkerIds env record dw rd d1).andThen (fun _ d2 => k d2)) exc := by
  have hn1 : 0 < d1.pageWorkerCount := by rw [hprep.prep_count_eq]; exact hn
  obtain ⟨d2, hd2, hc2, hch⟩ := GetWorkerIds_ok env record dw rd d1 hn1
  rw [hd2, Res.andThen_ok]
  refine hk d2 (hprep.then_chosen hc2) ?_
  intro hb
  obtain ⟨w, hw, hpos⟩ := hch hb
  exact ⟨w, by rw [← hprep.prep_count_eq]; exact hw, hpos⟩

theorem StratOK_withPages (env : Env) {record : XLogReaderState} {d d1 : LogDispatcher}
    (tlis : List Nat) (rd b : Bool) (hprep : Prepared d d1) (hn : 0 < d.pageWorkerCount) :
    StratOK record d
      ((DispatchRecordWithPages env record tlis rd d1).andThen (fun _ d2 => Res.ok b d2))
      (hasInUseBlock record = false) := by
  have hn1 : 0 < d1.pageWorkerCount := by rw [hprep.prep_count_eq]; exact hn
  obtain ⟨d2, hd2, hc2, hch⟩ := GetWorkerIds_ok env record env.ANY_WORKER rd d1 hn1
  have hprep2 : Prepared d d2 := hprep.then_chosen hc2
  unfold DispatchRecordWithPages
  rw [hd2]
  simp only [Res.andThen_ok]
  rw [forWorkers_chosen_only]
  refine StratOK.intro b
    (((List.range d2.pageWorkerCount).filter (fun i => decide (d2.chosedWorkerIds i > 0))).map
      (fun i => Event.AddPageRedoItem i
        (realItem record d2.chosedWorkerCount env.ANY_WORKER tlis 0 d2.itemSeq)))
    (d2.itemSeq + 1) hprep2 ?_ ?_ ?_
  · simp [CreateRedoItem, realItem]
  · rw [hprep2.prep_count_eq]
    exact Fanout.filter_only _ _ _ _ rfl
  · by_cases hb : hasInUseBlock record = true
    · obtain ⟨w, hw, hpos⟩ := hch hb
      left
      left
      refine ⟨w, realItem record d2.chosedWorkerCount env.ANY_WORKER tlis 0 d2.itemSeq, ?_,
        rfl, rfl⟩
      rw [pageQueue_range_filter_map, hc2.count_eq]
      simp [hw, hpos]
    · right
      simpa using hb

/-! ## Every dispatch strategy runs one fan-out -/

/-- A loop of `AddWorkerToSet` calls with ids below the worker count. -/
theorem addWorkers_ok {α : Type} (xs : List α) (ident : α → LogDispatcher → Nat)
    (d : LogDispatcher)
    (hid : ∀ x ∈ xs, ∀ acc, acc.pageWorkerCount = d.pageWorkerCount →
      ident x acc < acc.pageWorkerCount) :
    ∃ d1, forEachRes xs (fun x acc => AddWorkerToSet (ident x acc) acc) d = Res.ok () d1 ∧
      ChosenOnly d d1 := by
  refine forEachRes_inv (fun acc => ChosenOnly d acc) xs _ ?_ d (ChosenOnly.chosen_refl d)
  intro x hx acc hacc
  obtain ⟨acc1, h1, h2, _, _⟩ := AddWorkerToSet_ok (ident x acc) acc (hid x hx acc hacc.count_eq)
  exact ⟨acc1, h1, hacc.trans h2⟩

theorem DispatchTxnFamily_ok (env : Env) (record : XLogReaderState) (tlis : List Nat)
    (xt : Int) (b : Bool) (d : LogDispatcher) (exc : Prop) :
    StratOK record d (Res.ok b (DispatchTxnRecord env record tlis xt false d)) exc :=
  StratOK_txn env tlis xt false b (Prepared.prep_refl d)

theorem DispatchXLogRecord_ok (env : Env) (record : XLogReaderState) (tlis : List Nat)
    (xt : Int) (d : LogDispatcher) (hn : 0 < d.pageWorkerCount) :
    StratOK record d (DispatchXLogRecord env record tlis xt d)
      (hasInUseBlock record = false) := by
  unfold DispatchXLogRecord
  simp only []
  split
  · exact StratOK_broadcast _ _ (d.itemSeq + 1) (Prepared.prep_refl d) _ rfl rfl rfl
  · split
    · split
      · exact StratOK_withPages env tlis true false (Prepared.prep_refl d) hn
      · exact StratOK_withoutPage env tlis false (Prepared.prep_refl d) hn
    · exact StratOK_txn env tlis xt false false (Prepared.prep_refl d)

theorem DispatchXactRecord_ok (env : Env) (record : XLogReaderState) (tlis : List Nat)
    (xt : Int) (d : LogDispatcher) (hn : 0 < d.pageWorkerCount) (exc : Prop) :
    StratOK record d (DispatchXactRecord env record tlis xt d) exc := by
  unfold DispatchXactRecord
  simp only []
  split
  · split
    · cases hx : (env.XactGetRelFiles record).1 with
      | none =>
        simp only [Res.andThen_ok]
        exact StratOK_sync env tlis xt env.ALL_WORKER false (Prepared.prep_refl d)
      | some nodes =>
        obtain ⟨d1, hd1, hc1⟩ := addWorkers_ok (List.range (env.XactGetRelFiles record).2.toNat)
          (fun i acc => GetWorkerId env (some acc) (nodes.getD i default) 0 0) d
          (fun i _ acc hacc => GetWorkerId_lt env acc _ 0 0 (by rw [hacc]; exact hn))
        simp only [hd1, Res.andThen_ok]
        exact StratOK_sync env tlis xt env.ALL_WORKER false hc1.prepared
    · obtain ⟨d1, hd1, hc1⟩ := addWorkers_ok (List.range d.pageWorkerCount)
        (fun i _ => i) d
        (fun i hi acc hacc => by rw [hacc]; exact List.mem_range.mp hi)
      simp only [hd1, Res.andThen_ok]
      exact StratOK_sync env tlis xt env.ALL_WORKER false hc1.prepared
  · exact StratOK_txn env tlis xt false false (Prepared.prep_refl d)

theorem DispatchSmgrRecord_ok (env : Env) (record : XLogReaderState) (tlis : List Nat)
    (xt : Int) (d : LogDispatcher) (hn : 0 < d.pageWorkerCount) :
    StratOK record d (DispatchSmgrRecord env record tlis xt d)
      (infoOp env record ≠ env.XLOG_SMGR_CREATE ∧ env.IsSmgrTruncate record = false) := by
  unfold DispatchSmgrRecord
  simp only []
  split
  · split
    · exact StratOK_onePage env _ tlis false (Prepared.prep_refl d) hn
    · exact StratOK_withoutPage env tlis false (Prepared.prep_refl d) hn
  · rename_i hcreate
    split
    · split
      · obtain ⟨d1, hd1, hc1, _, _⟩ := AddWorkerToSet_ok
          (GetWorkerId env (some d) (env.xl_smgr_truncate_rnode record) 0 0) d
          (GetWorkerId_lt env d _ 0 0 hn)
        simp only [hd1, Res.andThen_ok]
        exact StratOK_sync env tlis xt env.ALL_WORKER false hc1.prepared
      · obtain ⟨d1, hd1, hc1⟩ := addWorkers_ok (List.range d.pageWorkerCount)
          (fun i _ => i) d
          (fun i hi acc hacc => by rw [hacc]; exact List.mem_range.mp hi)
        simp only [hd1, Res.andThen_ok]
        exact StratOK_sync env tlis xt env.ALL_WORKER false hc1.prepared
    · rename_i htrunc
      exact StratOK_nothing false (Prepared.prep_refl d) ⟨hcreate, by simpa using htrunc⟩

theorem DispatchDataBaseRecord_ok (env : Env) (record : XLogReaderState) (tlis : List Nat)
    (xt : Int) (d : LogDispatcher) (hn : 0 < d.pageWorkerCount) (exc : Prop) :
    StratOK record d (DispatchDataBaseRecord env record tlis xt d) exc := by
  unfold DispatchDataBaseRecord
  simp only []
  split
  · exact StratOK_broadcast _ _ (d.itemSeq + 1) (Prepared.prep_refl d) _ rfl rfl rfl
  · exact StratOK_withoutPage_marker env tlis false (Prepared.prep_refl d) hn

theorem DispatchTableSpaceRecord_ok (env : Env) (record : XLogReaderState) (tlis : List Nat)
    (xt : Int) (d : LogDispatcher) (hn : 0 < d.pageWorkerCount) (exc : Prop) :
    StratOK record d (DispatchTableSpaceRecord env record tlis xt d) exc := by
  unfold DispatchTableSpaceRecord
  simp only []
  split
  · exact StratOK_txn env tlis xt true true (Prepared.prep_refl d)
  · exact StratOK_withoutPage_marker env tlis false (Prepared.prep_refl d) hn

theorem DispatchHeapRecord_ok (env : Env) (record : XLogReaderState) (tlis : List Nat)
    (xt : Int) (d : LogDispatcher) (hn : 0 < d.pageWorkerCount) :
    StratOK record d (DispatchHeapRecord env record tlis xt d)
      (hasInUseBlock record = false) := by
  unfold DispatchHeapRecord
  split
  · exact StratOK_withPages env tlis _ false (Prepared.prep_refl d) hn
  · exact StratOK_withoutPage env tlis false (Prepared.prep_refl d) hn

theorem DispatchSeqRecord_ok (env : Env) (record : XLogReaderState) (tlis : List Nat)
    (xt : Int) (d : LogDispatcher) (hn : 0 < d.pageWorkerCount) :
    StratOK record d (DispatchSeqRecord env record tlis xt d)
      (hasInUseBlock record = false) :=
  StratOK_withPages env tlis _ false (Prepared.prep_refl d) hn

theorem DispatchBtreeRecord_ok (env : Env) (record : XLogReaderState) (tlis : List Nat)
    (xt : Int) (d : LogDispatcher) (hn : 0 < d.pageWorkerCount) :
    StratOK record d (DispatchBtreeRecord env record tlis xt d)
      (hasInUseBlock record = false) := by
  unfold DispatchBtreeRecord
  simp only []
  split
  · exact StratOK_txn env tlis xt false false (Prepared.prep_refl d)
  · exact StratOK_withPages env tlis true false (Prepared.prep_refl d) hn

theorem Prepared.ite_warn (c : Prop) [Decidable c] (m : WarnMsg) (d : LogDispatcher) :
    Prepared d (if c then ereportWARNING m d else d) := by
  split
  · exact Prepared.warn m d
  · exact Prepared.prep_refl d

theorem DispatchGinRecord_ok (env : Env) (record : XLogReaderState) (tlis : List Nat)
    (xt : Int) (d : LogDispatcher) (hn : 0 < d.pageWorkerCount) :
    StratOK record d (DispatchGinRecord env record tlis xt d)
      (hasInUseBlock record = false) := by
  unfold DispatchGinRecord
  simp only []
  have hprep0 := Prepared.ite_warn (infoOp env record = env.XLOG_GIN_DELETE_LISTPAGE ∧
      env.ginxlogDeleteListPages_ndeleted record ≠ record.max_block_id)
    WarnMsg.DispatchGinRecord_warnninginfo d
  generalize (if infoOp env record = env.XLOG_GIN_DELETE_LISTPAGE ∧
      env.ginxlogDeleteListPages_ndeleted record ≠ record.max_block_id
    then ereportWARNING WarnMsg.DispatchGinRecord_warnninginfo d else d) = d0 at hprep0 ⊢
  split
  · exact StratOK_afterIds env _ true _ hprep0 hn
      (fun d2 hp hch => StratOK_spec env tlis true false hp hch)
  · exact StratOK_withPages env tlis true false hprep0 hn

theorem DispatchGistRecord_ok (env : Env) (record : XLogReaderState) (tlis : List Nat)
    (xt : Int) (d : LogDispatcher) (hn : 0 < d.pageWorkerCount) :
    StratOK record d (DispatchGistRecord env record tlis xt d)
      (hasInUseBlock record = false) := by
  unfold DispatchGistRecord
  simp only []
  have hprep0 := Prepared.ite_warn (infoOp env record = env.XLOG_GIST_PAGE_SPLIT ∧
      env.gistxlogPageSplit_npage record ≠ record.max_block_id)
    WarnMsg.DispatchGistRecord_warnninginfo d
  generalize (if infoOp env record = env.XLOG_GIST_PAGE_SPLIT ∧
      env.gistxlogPageSplit_npage record ≠ record.max_block_id
    then ereportWARNING WarnMsg.DispatchGistRecord_warnninginfo d else d) = d0 at hprep0 ⊢
  split
  · exact StratOK_afterIds env _ true _ hprep0 hn
      (fun d2 hp hch => StratOK_spec env tlis true false hp hch)
  · exact StratOK_withPages env tlis true false hprep0 hn

theorem DispatchSpgistRecord_ok (env : Env) (record : XLogReaderState) (tlis : List Nat)
    (xt : Int) (d : LogDispatcher) (hn : 0 < d.pageWorkerCount) :
    StratOK record d (DispatchSpgistRecord env record tlis xt d)
      (hasInUseBlock record = false) := by
  unfold DispatchSpgistRecord
  simp only []
  split
  · refine StratOK_afterIds env _ true _ (Prepared.prep_refl d) hn (fun d2 hp hch => ?_)
    split
    · exact StratOK_sync env tlis xt env.TRXN_WORKER false hp
    · exact StratOK_spec env tlis true false hp hch
  · exact StratOK_withPages env tlis true false (Prepared.prep_refl d) hn

theorem DispatchHeap2VacuumRecord_ok (env : Env) (record : XLogReaderState) (tlis : List Nat)
    (xt : Int) (d : LogDispatcher) (hn : 0 < d.pageWorkerCount) :
    StratOK record d (DispatchHeap2VacuumRecord env record tlis xt d)
      (hasInUseBlock record = false) := by
  unfold DispatchHeap2VacuumRecord
  simp only []
  split
  · exact StratOK_txn env tlis xt false false (Prepared.prep_refl d)
  · exact StratOK_withPages env tlis _ false (Prepared.prep_refl d) hn

theorem DispatchHeap2Record_ok (env : Env) (record : XLogReaderState) (tlis : List Nat)
    (xt : Int) (d : LogDispatcher) (hn : 0 < d.pageWorkerCount) :
    StratOK record d (DispatchHeap2Record env record tlis xt d)
      (hasInUseBlock record = false ∨
        (infoOp env record &&& env.XLOG_HEAP_OPMASK = env.XLOG_HEAP2_LOGICAL_NEWPAGE ∧
          (if env.IS_DN_MULTI_STANDYS_MODE then
            !(decide (env.xl_heap_logical_newpage_type record = env.COLUMN_STORE) &&
              env.xl_heap_logical_newpage_hasdata record)
           else env.enable_mix_replication) = true)) := by
  unfold DispatchHeap2Record
  simp only []
  split
  · exact (StratOK_withPages env tlis _ false (Prepared.prep_refl d) hn).mono Or.inl
  · split
    · split
      · exact StratOK_onePage env _ tlis false (Prepared.prep_refl d) hn
      · exact StratOK_withoutPage env tlis false (Prepared.prep_refl d) hn
    · split
      · rename_i hnew
        split
        · rename_i hmulti
          split
          · split
            · exact StratOK_onePage env _ tlis false (Prepared.prep_refl d) hn
            · exact StratOK_withoutPage env tlis false (Prepared.prep_refl d) hn
          · rename_i hguard
            refine StratOK_nothing false (Prepared.prep_refl d) (Or.inr ⟨hnew, ?_⟩)
            by_cases ht : env.xl_heap_logical_newpage_type record = env.COLUMN_STORE
            · have hd : env.xl_heap_logical_newpage_hasdata record = false := by
                cases hh : env.xl_heap_logical_newpage_hasdata record with
                | false => rfl
                | true => exact absurd ⟨ht, hh⟩ hguard
              simp [ht, hd]
            · simp [ht]
        · rename_i hmulti
          split
          · exact StratOK_txn env tlis xt false true (Prepared.prep_refl d)
          · rename_i hmix
            refine StratOK_nothing false (Prepared.prep_refl d) (Or.inr ⟨hnew, ?_⟩)
            simpa [hmulti] using hmix
      · exact (DispatchHeap2VacuumRecord_ok env record tlis xt d hn).mono Or.inl

/-! ## The routing table -/

theorem notDelivered_of_block (env : Env) (record : XLogReaderState)
    (hr : pageRouted env record = true) (hb : hasInUseBlock record = false) :
    notDelivered env record := Or.inr (Or.inr ⟨hr, hb⟩)

/-- Every initialised row of the table whose `rm_id` is the record's resource manager has
a strategy, and that strategy runs one fan-out. -/
theorem table_rows_ok (env : Env) (record : XLogReaderState) (tlis : List Nat) (xt : Int)
    (d : LogDispatcher) (hn : 0 < d.pageWorkerCount) (row : RmgrDispatchData)
    (hrow : row ∈ g_dispatchTable env) (hid : row.rm_id = XLogRecGetRmid record) :
    ∃ S, row.rm_dispatch = some S ∧
      StratOK record d (S env record tlis xt d) (notDelivered env record) := by
  simp only [g_dispatchTable, List.mem_append, List.mem_cons, List.mem_singleton,
    List.not_mem_nil, or_false] at hrow
  rcases hrow with ((h | h | h | h | h | h | h | h | h | h | h | h | h | h | h | h | h | h | h) |
    h) | h
  · subst h
    refine ⟨_, rfl, (DispatchXLogRecord_ok env record tlis xt d hn).mono (fun hb => ?_)⟩
    exact notDelivered_of_block env record (by simp [pageRouted, ← hid]) hb
  · subst h
    exact ⟨_, rfl, DispatchXactRecord_ok env record tlis xt d hn _⟩
  · subst h
    refine ⟨_, rfl, (DispatchSmgrRecord_ok env record tlis xt d hn).mono (fun hb => ?_)⟩
    right
    left
    simp [smgrSkipped, ← hid, hb.1, hb.2]
  · subst h
    exact ⟨_, rfl, DispatchTxnFamily_ok env record tlis xt false d _⟩
  · subst h
    exact ⟨_, rfl, DispatchDataBaseRecord_ok env record tlis xt d hn _⟩
  · subst h
    exact ⟨_, rfl, DispatchTableSpaceRecord_ok env record tlis xt d hn _⟩
  · subst h
    exact ⟨_, rfl, DispatchTxnFamily_ok env record tlis xt false d _⟩
  · subst h
    exact ⟨_, rfl, DispatchTxnFamily_ok env record tlis xt false d _⟩
  · have hd : row.rm_dispatch = some DispatchStandbyRecord := by
      rw [h]
      split <;> rfl
    exact ⟨_, hd, DispatchTxnFamily_ok env record tlis xt _ d _⟩
  · subst h
    refine ⟨_, rfl, (DispatchHeap2Record_ok env record tlis xt d hn).mono (fun hb => ?_)⟩
    rcases hb with hb | ⟨h1, h2⟩
    · exact notDelivered_of_block env record (by simp [pageRouted, ← hid]) hb
    · left
      simp only [heap2NewpageSkipped, ← hid, h1, h2]
      simp
  · subst h
    refine ⟨_, rfl, (DispatchHeapRecord_ok env record tlis xt d hn).mono (fun hb => ?_)⟩
    exact notDelivered_of_block env record (by simp [pageRouted, ← hid]) hb
  · subst h
    refine ⟨_, rfl, (DispatchBtreeRecord_ok env record tlis xt d hn).mono (fun hb => ?_)⟩
    exact notDelivered_of_block env record (by simp [pageRouted, ← hid]) hb
  · subst h
    exact ⟨_, rfl, DispatchTxnFamily_ok env record tlis xt true d _⟩
  · subst h
    refine ⟨_, rfl, (DispatchGinRecord_ok env record tlis xt d hn).mono (fun hb => ?_)⟩
    exact notDelivered_of_block env record (by simp [pageRouted, ← hid]) hb
  · subst h
    refine ⟨_, rfl, (DispatchGistRecord_ok env record tlis xt d hn).mono (fun hb => ?_)⟩
    exact notDelivered_of_block env record (by simp [pageRouted, ← hid]) hb
  · subst h
    refine ⟨_, rfl, (DispatchSeqRecord_ok env record tlis xt d hn).mono (fun hb => ?_)⟩
    exact notDelivered_of_block env record (by simp [pageRouted, ← hid]) hb
  · subst h
    refine ⟨_, rfl, (DispatchSpgistRecord_ok env record tlis xt d hn).mono (fun hb => ?_)⟩
    exact notDelivered_of_block env record (by simp [pageRouted, ← hid]) hb
  · subst h
    exact ⟨_, rfl, DispatchTxnFamily_ok env record tlis xt false d _⟩
  · subst h
    exact ⟨_, rfl, DispatchTxnFamily_ok env record tlis xt false d _⟩
  · by_cases hm : env.ENABLE_MULTIPLE_NODES = true
    · simp only [hm, if_true, List.mem_singleton] at h
      subst h
      exact ⟨_, rfl, DispatchTxnFamily_ok env record tlis xt false d _⟩
    · simp [hm] at h
  · subst h
    exact ⟨_, rfl, DispatchTxnFamily_ok env record tlis xt false d _⟩

theorem g_dispatchTable_length_pos (env : Env) : 0 < (g_dispatchTable env).length := by
  simp [g_dispatchTable]

/-- The row of an accepted record is an initialised row naming the record's resource
manager. -/
theorem accepted_row (env : Env) (record : XLogReaderState)
    (h : fatalerror env record = false) :
    dispatchRow env (XLogRecGetRmid record) ∈ g_dispatchTable env ∧
      (dispatchRow env (XLogRecGetRmid record)).rm_id = XLogRecGetRmid record := by
  unfold fatalerror at h
  simp only [] at h
  by_cases hmax : XLogRecGetRmid record ≤ env.RM_MAX_ID
  · rw [if_pos hmax] at h
    have hid : (dispatchRow env (XLogRecGetRmid record)).rm_id = XLogRecGetRmid record := by
      by_contra hne
      simp [hne] at h
    refine ⟨?_, hid⟩
    by_cases hlen : XLogRecGetRmid record < (g_dispatchTable env).length
    · unfold dispatchRow
      rw [List.getD_eq_getElem _ _ hlen]
      exact List.getElem_mem _
    · exfalso
      have hdef : dispatchRow env (XLogRecGetRmid record) = ⟨none, none, 0, 0, 0⟩ := by
        unfold dispatchRow
        exact List.getD_eq_default _ _ (by omega)
      rw [hdef] at hid
      have := g_dispatchTable_length_pos env
      simp at hid
      omega
  · rw [if_neg hmax] at h
    simp at h

/-- The strategy an accepted record selects returns after one fan-out. -/
theorem runStrategy_accepted (env : Env) (record : XLogReaderState) (tlis : List Nat)
    (xt : Int) (d : LogDispatcher) (hn : 0 < d.pageWorkerCount)
    (h : fatalerror env record = false) :
    StratOK record d (runStrategy env record tlis xt d) (notDelivered env record) := by
  obtain ⟨hmem, hid⟩ := accepted_row env record h
  obtain ⟨S, hS, hok⟩ := table_rows_ok env record tlis xt d hn _ hmem hid
  unfold runStrategy
  simp only [h, hS]
  exact hok

/-- The strategy of a malformed record: `DispatchTxnRecord`, full sync demanded. -/
theorem runStrategy_fatal (env : Env) (record : XLogReaderState) (tlis : List Nat)
    (xt : Int) (d : LogDispatcher) (h : fatalerror env record = true) :
    runStrategy env record tlis xt d
      = Res.ok true (DispatchTxnRecord env record tlis xt false d) := by
  unfold runStrategy
  simp [h, DispatchDefaultRecord]

/-! ## The dispatch entry point -/

theorem fatalerror_iff_malformed (env : Env) (record : XLogReaderState) :
    fatalerror env record = true ↔ malformed env record := by
  unfold fatalerror malformed
  simp only []
  by_cases hmax : XLogRecGetRmid record ≤ env.RM_MAX_ID
  · have hgt : ¬ XLogRecGetRmid record > env.RM_MAX_ID := by omega
    rw [if_pos hmax]
    by_cases hid : (dispatchRow env (XLogRecGetRmid record)).rm_id = XLogRecGetRmid record
    · cases hv : (dispatchRow env (XLogRecGetRmid record)).rm_loginfovalid with
      | none => simp [hid, hgt]
      | some valid => simp [hid, hgt]
    · simp [hid]
  · have hgt : XLogRecGetRmid record > env.RM_MAX_ID := by omega
    rw [if_neg hmax]
    simp [hgt]

theorem fatalerror_false_iff (env : Env) (record : XLogReaderState) :
    fatalerror env record = false ↔ ¬ malformed env record := by
  rw [← fatalerror_iff_malformed]
  simp

/-- An accepted record under the guard: the strategy returns after one fan-out `evs`, the
drain follows, and the call returns. -/
theorem dispatch_accepted (env : Env) (d : LogDispatcher) (record : XLogReaderState)
    (tlis : List Nat) (xt : Int) (hpar : env.get_real_recovery_parallelism > 1)
    (hn : 0 < d.pageWorkerCount) (hacc : fatalerror env record = false) :
    ∃ b d1 evs d2,
      runStrategy env record tlis xt (ResetChosedWorkerList d) = Res.ok b d1 ∧
      d1.trace = d.trace ++ evs ∧ Fanout d.pageWorkerCount record evs ∧
      (realDelivered record evs ∨ notDelivered env record) ∧
      DispatchRedoRecordToFile env (some d) record tlis xt = Res.ok () d2 ∧
      d2.pageWorkerCount = d.pageWorkerCount ∧ d2.pendingMax = d.pendingMax ∧
      d2.trace = d.trace ++ evs ++
        (if b = true then [Event.ProcessPendingRecords true]
         else if d.pendingCount + 1 ≥ d.pendingMax then [Event.ProcessPendingRecords false]
         else []) ∧
      d2.pendingCount =
        (if b = true then 0 else if d.pendingCount + 1 ≥ d.pendingMax then 0
         else d.pendingCount + 1) := by
  have hn0 : 0 < (ResetChosedWorkerList d).pageWorkerCount := hn
  obtain ⟨b, d1, evs, h1, h2, h3, h4, h5, h6, h7⟩ :=
    runStrategy_accepted env record tlis xt (ResetChosedWorkerList d) hn0 hacc
  have h2a : d1.pageWorkerCount = d.pageWorkerCount := h2
  have h3a : d1.pendingCount = d.pendingCount := h3
  have h4a : d1.pendingMax = d.pendingMax := h4
  have h5a : d1.trace = d.trace ++ evs := h5
  have hguard : env.get_real_recovery_parallelism > 1 ∧ GetPageWorkerCount (some d) > 0 :=
    ⟨hpar, hn⟩
  have hn1 : 0 < d1.pageWorkerCount := by rw [h2a]; exact hn
  have hppr : ∀ fs (x : LogDispatcher), x.pageWorkerCount = d.pageWorkerCount →
      ProcessPendingRecords env fs x
        = { x with trace := x.trace ++ [Event.ProcessPendingRecords fs], pendingCount := 0 } := by
    intro fs x hx
    simp [ProcessPendingRecords, GetPageWorkerCount, hpar, hx, hn]
  cases b with
  | true =>
    have heq : DispatchRedoRecordToFile env (some d) record tlis xt
        = Res.ok () { d1 with trace := d1.trace ++ [Event.ProcessPendingRecords true],
                              pendingCount := 0 } := by
      unfold DispatchRedoRecordToFile
      simp only [hguard, and_self, if_true, h1, Res.andThen_ok, hacc, hppr true d1 h2a,
        Bool.false_eq_true, if_false]
    refine ⟨true, d1, evs, _, h1, h5a, h6, h7, heq, h2a, h4a, ?_, ?_⟩
    · simp only [if_true, h5a]
    · simp only [if_true]
  | false =>
    have hd1a : ({ d1 with pendingCount := d1.pendingCount + 1 } : LogDispatcher).pageWorkerCount
        = d.pageWorkerCount := h2a
    by_cases hp : d.pendingCount + 1 ≥ d.pendingMax
    · have hp1 : d1.pendingCount + 1 ≥ d1.pendingMax := by rw [h3a, h4a]; exact hp
      have heq : DispatchRedoRecordToFile env (some d) record tlis xt
          = Res.ok () { d1 with trace := d1.trace ++ [Event.ProcessPendingRecords false],
                                pendingCount := 0 } := by
        unfold DispatchRedoRecordToFile
        simp only [hguard, and_self, if_true, h1, Res.andThen_ok, hacc, Bool.false_eq_true,
          if_false, hp1, hppr false _ hd1a]
      refine ⟨false, d1, evs, _, h1, h5a, h6, h7, heq, h2a, h4a, ?_, ?_⟩
      · simp only [Bool.false_eq_true, if_false, hp, if_true, h5a]
      · simp only [Bool.false_eq_true, if_false, hp, if_true]
    · have hp1 : ¬ d1.pendingCount + 1 ≥ d1.pendingMax := by rw [h3a, h4a]; exact hp
      have heq : DispatchRedoRecordToFile env (some d) record tlis xt
          = Res.ok () { d1 with pendingCount := d1.pendingCount + 1 } := by
        unfold DispatchRedoRecordToFile
        simp only [hguard, and_self, if_true, h1, Res.andThen_ok, hacc, Bool.false_eq_true,
          if_false, hp1]
      refine ⟨false, d1, evs, _, h1, h5a, h6, h7, heq, h2a, h4a, ?_, ?_⟩
      · simp only [Bool.false_eq_true, if_false, hp, h5a, List.append_nil]
      · simp only [Bool.false_eq_true, if_false, hp, h3a]

/-- A malformed record under the guard: markers to the page workers, the real item to the
transaction worker, the full-sync drain, the dump, and the PANIC. -/
theorem dispatch_fatal (env : Env) (d : LogDispatcher) (record : XLogReaderState)
    (tlis : List Nat) (xt : Int) (hpar : env.get_real_recovery_parallelism > 1)
    (hn : 0 < d.pageWorkerCount) (hbad : fatalerror env record = true) :
    DispatchRedoRecordToFile env (some d) record tlis xt
      = Res.panic PanicMsg.DispatchRedoRecord_encounter_fatal_error
          (d.trace ++
            ((List.range d.pageWorkerCount).map (fun i =>
              Event.AddPageRedoItem i (markerItem env record tlis (d.itemSeq + i))) ++
            [Event.AddTxnRedoItem
               (realItem record 1 env.ANY_WORKER tlis xt (d.itemSeq + d.pageWorkerCount)),
             Event.ProcessPendingRecords true, Event.DumpDispatcher])) := by
  have hguard : env.get_real_recovery_parallelism > 1 ∧ GetPageWorkerCount (some d) > 0 :=
    ⟨hpar, hn⟩
  unfold DispatchRedoRecordToFile
  simp only [hguard, and_self, if_true, runStrategy_fatal env record tlis xt _ hbad,
    Res.andThen_ok, hbad, DispatchTxnRecord_eq]
  simp [ProcessPendingRecords, DumpDispatcher, ResetChosedWorkerList, realItem,
    GetPageWorkerCount, hpar, hn]

/-! ## Sequences of records -/

theorem drain_queues (b : Bool) (c : Prop) [Decidable c] (w : Nat) :
    pageQueue w (if b = true then [Event.ProcessPendingRecords true]
        else if c then [Event.ProcessPendingRecords false] else []) = [] ∧
    txnQueue (if b = true then [Event.ProcessPendingRecords true]
        else if c then [Event.ProcessPendingRecords false] else []) = [] := by
  by_cases hb : b = true
  · simp [hb]
  · by_cases hc : c <;> simp [hb, hc]

/-- At most one item, carrying the position of `r`, in front of a subsequence of the
positions of `rest`. -/
theorem sublist_step (q new : List RedoItem) (r : XLogReaderState)
    (rest : List (Nat × Nat)) (hlen : q.length ≤ 1)
    (hlsn : ∀ it ∈ q, lsnOf it.record = lsnOf r)
    (hsub : List.Sublist (new.map (fun it => lsnOf it.record)) rest) :
    List.Sublist ((q ++ new).map (fun it => lsnOf it.record)) (lsnOf r :: rest) := by
  match q, hlen, hlsn with
  | [], _, _ => exact List.Sublist.cons _ (by simpa using hsub)
  | [it], _, hl =>
    have h := hl it (List.mem_singleton.mpr rfl)
    simp only [List.singleton_append, List.map_cons]
    rw [h]
    exact List.Sublist.cons₂ _ hsub
  | _ :: _ :: _, hlen, _ => simp at hlen

/-- Over a sequence of accepted records every queue grows by a subsequence of the
records' positions. -/
theorem dispatchAll_sublist (env : Env) (recs : List (XLogReaderState × List Nat × Int))
    (d : LogDispatcher) (hpar : env.get_real_recovery_parallelism > 1)
    (hn : 0 < d.pageWorkerCount) (hacc : ∀ r ∈ recs, ¬ malformed env r.1) :
    ∃ d1, dispatchAll env d recs = Res.ok () d1 ∧
      (∀ w, ∃ new, pageQueue w d1.trace = pageQueue w d.trace ++ new ∧
        List.Sublist (new.map (fun it => lsnOf it.record)) (recs.map (fun r => lsnOf r.1))) ∧
      (∃ new, txnQueue d1.trace = txnQueue d.trace ++ new ∧
        List.Sublist (new.map (fun it => lsnOf it.record)) (recs.map (fun r => lsnOf r.1))) := by
  induction recs generalizing d with
  | nil =>
    exact ⟨d, rfl, fun w => ⟨[], by simp, by simp⟩, ⟨[], by simp, by simp⟩⟩
  | cons r rest ih =>
    have hf := (fatalerror_false_iff env r.1).mpr (hacc r (List.mem_cons_self _ _))
    obtain ⟨b, d1, evs, d2, _, _, hF, _, heq, hcount, _, htr, _⟩ :=
      dispatch_accepted env d r.1 r.2.1 r.2.2 hpar hn hf
    have hn2 : 0 < d2.pageWorkerCount := by rw [hcount]; exact hn
    obtain ⟨d3, hd3, hpage, htxn⟩ :=
      ih d2 hn2 (fun x hx => hacc x (List.mem_cons_of_mem _ hx))
    refine ⟨d3, ?_, ?_, ?_⟩
    · simp only [dispatchAll, heq, Res.andThen_ok]
      exact hd3
    · intro w
      obtain ⟨new, hq, hsub⟩ := hpage w
      refine ⟨pageQueue w evs ++ new, ?_, ?_⟩
      · rw [hq, htr, pageQueue_append, pageQueue_append,
          (drain_queues b (d.pendingCount + 1 ≥ d.pendingMax) w).1]
        simp
      · exact sublist_step _ _ _ _ (hF.page_le_one w) (hF.page_lsn w) hsub
    · obtain ⟨new, hq, hsub⟩ := htxn
      refine ⟨txnQueue evs ++ new, ?_, ?_⟩
      · rw [hq, htr, txnQueue_append, txnQueue_append,
          (drain_queues b (d.pendingCount + 1 ≥ d.pendingMax) 0).2]
        simp
      · exact sublist_step _ _ _ _ hF.txn_le_one hF.txn_lsn hsub

theorem pairwise_of_sublist (new : List RedoItem) (lsns : List (Nat × Nat))
    (hsub : List.Sublist (new.map (fun it => lsnOf it.record)) lsns)
    (hinc : (lsns.map (fun p => p.2)).Pairwise (fun a b => a < b)) :
    (new.map (fun it => it.record.EndRecPtr)).Pairwise (fun a b => a < b) := by
  have h1 := (hsub.map (fun p => p.2))
  have h2 := hinc.sublist h1
  simpa [List.map_map, Function.comp, lsnOf] using h2

/-! # The claims -/

/-- C1: with recovery parallelism above 1 and at least one page worker,
`DispatchRedoRecordToFile` ends in its PANIC "encounter fatal error" exactly when the
record's resource-manager id exceeds `RM_MAX_ID`, or the `rm_id` stored in the table row
for that id differs from it, or the row has a validity predicate that rejects the record's
opcode for the row's `[rm_mininfo, rm_maxinfo]`. -/
theorem C1_fatal_iff_rejected (env : Env) (d : LogDispatcher) (record : XLogReaderState)
    (tlis : List Nat) (xt : Int) (hpar : env.get_real_recovery_parallelism > 1)
    (hn : GetPageWorkerCount (some d) > 0) :
    (DispatchRedoRecordToFile env (some d) record tlis xt).panicMsg
        = some PanicMsg.DispatchRedoRecord_encounter_fatal_error ↔
      (XLogRecGetRmid record > env.RM_MAX_ID ∨
       (dispatchRow env (XLogRecGetRmid record)).rm_id ≠ XLogRecGetRmid record ∨
       ∃ valid, (dispatchRow env (XLogRecGetRmid record)).rm_loginfovalid = some valid ∧
         valid env record (dispatchRow env (XLogRecGetRmid record)).rm_mininfo
           (dispatchRow env (XLogRecGetRmid record)).rm_maxinfo = false) := by
  have hn1 : 0 < d.pageWorkerCount := hn
  have hiff := fatalerror_iff_malformed env record
  unfold malformed at hiff
  rw [← hiff]
  cases hf : fatalerror env record with
  | true =>
    rw [dispatch_fatal env d record tlis xt hpar hn1 hf]
    simp [Res.panicMsg]
  | false =>
    obtain ⟨b, d1, evs, d2, _, _, _, _, heq, _⟩ :=
      dispatch_accepted env d record tlis xt hpar hn1 hf
    rw [heq]
    simp [Res.panicMsg]

/-- C1, at a record with resource-manager id 200 and three page workers. -/
theorem C1_fatal_iff_rejected_witness :
    sampleEnv.get_real_recovery_parallelism > 1 ∧
    GetPageWorkerCount (some (sampleDispatcher 3)) > 0 ∧
    ((DispatchRedoRecordToFile sampleEnv (some (sampleDispatcher 3))
        (sampleRecord 200 0 100 []) [] 0).panicMsg
        = some PanicMsg.DispatchRedoRecord_encounter_fatal_error ↔
      (XLogRecGetRmid (sampleRecord 200 0 100 []) > sampleEnv.RM_MAX_ID ∨
       (dispatchRow sampleEnv (XLogRecGetRmid (sampleRecord 200 0 100 []))).rm_id
          ≠ XLogRecGetRmid (sampleRecord 200 0 100 []) ∨
       ∃ valid, (dispatchRow sampleEnv
            (XLogRecGetRmid (sampleRecord 200 0 100 []))).rm_loginfovalid = some valid ∧
         valid sampleEnv (sampleRecord 200 0 100 [])
           (dispatchRow sampleEnv (XLogRecGetRmid (sampleRecord 200 0 100 []))).rm_mininfo
           (dispatchRow sampleEnv (XLogRecGetRmid (sampleRecord 200 0 100 []))).rm_maxinfo
            = false)) :=
  ⟨by decide, by decide,
    C1_fatal_iff_rejected sampleEnv (sampleDispatcher 3) (sampleRecord 200 0 100 []) [] 0
      (by decide) (by decide)⟩

/-- C2, as stated, fails: for a record with resource-manager id 200 (above `RM_MAX_ID`)
and three page workers, no page worker is sent the record; what each page worker receives
is an LSN marker. -/
theorem C2_counterexample :
    XLogRecGetRmid (sampleRecord 200 0 100 []) > sampleEnv.RM_MAX_ID ∧
    ¬ (∀ w, w < 3 →
        ∃ it ∈ pageQueue w (DispatchRedoRecordToFile sampleEnv (some (sampleDispatcher 3))
            (sampleRecord 200 0 100 []) [] 0).trace,
          it.kind = ItemKind.real ∧ it.record = sampleRecord 200 0 100 []) := by
  decide

/-- C2, amended: for every malformed record, `DispatchRedoRecordToFile` enqueues one new
LSN marker for the record to every page worker (in index order), then the record's real
item (`expectedConsumers` 1) to the transaction worker, then calls
`ProcessPendingRecords(true)`, then `DumpDispatcher`, and only then raises the fatal
error; it does not return. -/
theorem C2_malformed_markers_then_panic (env : Env) (d : LogDispatcher)
    (record : XLogReaderState) (tlis : List Nat) (xt : Int)
    (hpar : env.get_real_recovery_parallelism > 1) (hn : GetPageWorkerCount (some d) > 0)
    (hbad : malformed env record) :
    DispatchRedoRecordToFile env (some d) record tlis xt
      = Res.panic PanicMsg.DispatchRedoRecord_encounter_fatal_error
          (d.trace ++
            ((List.range d.pageWorkerCount).map (fun i =>
              Event.AddPageRedoItem i (markerItem env record tlis (d.itemSeq + i))) ++
            [Event.AddTxnRedoItem
               (realItem record 1 env.ANY_WORKER tlis xt (d.itemSeq + d.pageWorkerCount)),
             Event.ProcessPendingRecords true, Event.DumpDispatcher])) ∧
    (DispatchRedoRecordToFile env (some d) record tlis xt).returned = false := by
  have hf := (fatalerror_iff_malformed env record).mpr hbad
  have h := dispatch_fatal env d record tlis xt hpar hn hf
  refine ⟨h, ?_⟩
  rw [h]
  rfl

/-- C2 amended, at a record with resource-manager id 200 and three page workers. -/
theorem C2_malformed_markers_then_panic_witness :
    malformed sampleEnv (sampleRecord 200 0 100 []) ∧
    (DispatchRedoRecordToFile sampleEnv (some (sampleDispatcher 3))
        (sampleRecord 200 0 100 []) [] 0).returned = false :=
  ⟨Or.inl (by decide),
    (C2_malformed_markers_then_panic sampleEnv (sampleDispatcher 3)
      (sampleRecord 200 0 100 []) [] 0 (by decide) (by decide) (Or.inl (by decide))).2⟩

/-- C5: when `DispatchRedoRecordToFile` is called on a sequence of accepted records with
strictly increasing LSNs, every call returns, and the entries (real items and LSN markers)
the calls enqueue to each page worker, and those they enqueue to the transaction worker,
carry LSNs that form a subsequence of the records' LSNs, hence strictly increasing ones: no
call enqueues two entries for its record to the same worker. -/
theorem C5_queues_strictly_increasing (env : Env) (d : LogDispatcher)
    (recs : List (XLogReaderState × List Nat × Int))
    (hpar : env.get_real_recovery_parallelism > 1) (hn : GetPageWorkerCount (some d) > 0)
    (hacc : ∀ r ∈ recs, ¬ malformed env r.1)
    (hinc : (recs.map (fun r => r.1.EndRecPtr)).Pairwise (fun a b => a < b)) :
    ∃ d1, dispatchAll env d recs = Res.ok () d1 ∧
      (∀ w, ∃ new, pageQueue w d1.trace = pageQueue w d.trace ++ new ∧
        List.Sublist (new.map (fun it => lsnOf it.record)) (recs.map (fun r => lsnOf r.1)) ∧
        (new.map (fun it => it.record.EndRecPtr)).Pairwise (fun a b => a < b)) ∧
      (∃ new, txnQueue d1.trace = txnQueue d.trace ++ new ∧
        List.Sublist (new.map (fun it => lsnOf it.record)) (recs.map (fun r => lsnOf r.1)) ∧
        (new.map (fun it => it.record.EndRecPtr)).Pairwise (fun a b => a < b)) := by
  obtain ⟨d1, hd1, hpage, htxn⟩ := dispatchAll_sublist env recs d hpar hn hacc
  have hinc1 : ((recs.map (fun r => lsnOf r.1)).map (fun p => p.2)).Pairwise
      (fun a b => a < b) := by
    simpa [List.map_map, Function.comp, lsnOf] using hinc
  refine ⟨d1, hd1, ?_, ?_⟩
  · intro w
    obtain ⟨new, hq, hsub⟩ := hpage w
    exact ⟨new, hq, hsub, pairwise_of_sublist new _ hsub hinc1⟩
  · obtain ⟨new, hq, hsub⟩ := htxn
    exact ⟨new, hq, hsub, pairwise_of_sublist new _ hsub hinc1⟩

/-- C5, at a heap insert, a tablespace drop and a file-removing commit dispatched in
this order over three page workers. -/
theorem C5_queues_strictly_increasing_witness :
    (sampleRecords.map (fun r => r.1.EndRecPtr)).Pairwise (fun a b => a < b) ∧
    ∃ d1, dispatchAll sampleEnv (sampleDispatcher 3) sampleRecords = Res.ok () d1 ∧
      (∀ w, ∃ new, pageQueue w d1.trace = pageQueue w (sampleDispatcher 3).trace ++ new ∧
        List.Sublist (new.map (fun it => lsnOf it.record))
          (sampleRecords.map (fun r => lsnOf r.1)) ∧
        (new.map (fun it => it.record.EndRecPtr)).Pairwise (fun a b => a < b)) ∧
      (∃ new, txnQueue d1.trace = txnQueue (sampleDispatcher 3).trace ++ new ∧
        List.Sublist (new.map (fun it => lsnOf it.record))
          (sampleRecords.map (fun r => lsnOf r.1)) ∧
        (new.map (fun it => it.record.EndRecPtr)).Pairwise (fun a b => a < b)) :=
  ⟨by decide,
    C5_queues_strictly_increasing sampleEnv (sampleDispatcher 3) sampleRecords
      (by decide) (by decide)
      (by
        intro r hr
        simp only [sampleRecords, List.mem_cons, List.mem_singleton, List.not_mem_nil,
          or_false] at hr
        rcases hr with h | h | h <;> rw [h] <;>
          exact (fatalerror_false_iff _ _).mp (by decide))
      (by decide)⟩

/-- C6: whenever the strategy selected for a record returns `needsFullSync = true`, or the
record is malformed, the trace of `DispatchRedoRecordToFile` is: the enqueues (and
warnings) of that record, then `ProcessPendingRecords(true)`, then no further enqueue
(only the dump before the PANIC of a malformed record); and when the call returns, the
events of any later call come after all of these. -/
theorem C6_full_sync_barrier (env : Env) (d : LogDispatcher) (record : XLogReaderState)
    (tlis : List Nat) (xt : Int) (hpar : env.get_real_recovery_parallelism > 1)
    (hn : GetPageWorkerCount (some d) > 0)
    (hsync : malformed env record ∨
      ∃ d1, runStrategy env record tlis xt (ResetChosedWorkerList d) = Res.ok true d1) :
    ∃ evs post,
      (∃ b d1, runStrategy env record tlis xt (ResetChosedWorkerList d) = Res.ok b d1 ∧
        d1.trace = d.trace ++ evs) ∧
      (∀ e ∈ evs, e.isEnqueue = true ∨ ∃ m, e = Event.WARNING m) ∧
      (DispatchRedoRecordToFile env (some d) record tlis xt).trace
        = d.trace ++ evs ++ [Event.ProcessPendingRecords true] ++ post ∧
      (∀ e ∈ post, e.isEnqueue = false) ∧
      (∀ d2, DispatchRedoRecordToFile env (some d) record tlis xt = Res.ok () d2 →
        ∀ record2 tlis2 xt2, ∃ later,
          (DispatchRedoRecordToFile env (some d2) record2 tlis2 xt2).trace
            = d.trace ++ evs ++ [Event.ProcessPendingRecords true] ++ post ++ later) := by
  have hn0 : 0 < d.pageWorkerCount := hn
  cases hf : fatalerror env record with
  | true =>
    have hfat := dispatch_fatal env d record tlis xt hpar hn0 hf
    refine ⟨(List.range d.pageWorkerCount).map (fun i =>
        Event.AddPageRedoItem i (markerItem env record tlis (d.itemSeq + i))) ++
      [Event.AddTxnRedoItem
        (realItem record 1 env.ANY_WORKER tlis xt (d.itemSeq + d.pageWorkerCount))],
      [Event.DumpDispatcher], ?_, ?_, ?_, ?_, ?_⟩
    · refine ⟨true, _, runStrategy_fatal env record tlis xt _ hf, ?_⟩
      rw [DispatchTxnRecord_eq]
      simp [ResetChosedWorkerList, realItem]
    · intro e he
      rcases List.mem_append.mp he with h | h
      · obtain ⟨i, _, hi⟩ := List.mem_map.mp h
        left
        rw [← hi]
        rfl
      · left
        simp at h
        rw [h]
        rfl
    · rw [hfat]
      simp [Res.trace]
    · intro e he
      simp at he
      rw [he]
      rfl
    · intro d2 hd2
      rw [hfat] at hd2
      cases hd2
  | false =>
    have hnm : ¬ malformed env record := (fatalerror_false_iff env record).mp hf
    obtain ⟨b, d1, evs, d2, hrun, htr1, hF, _, heq, hcount, _, htr, _⟩ :=
      dispatch_accepted env d record tlis xt hpar hn0 hf
    have hb : b = true := by
      rcases hsync with h | ⟨d1a, h⟩
      · exact absurd h hnm
      · rw [hrun] at h
        cases h
        rfl
    subst hb
    simp only [if_true] at htr
    refine ⟨evs, [], ⟨true, d1, hrun, htr1⟩, hF.events, ?_, ?_, ?_⟩
    · rw [heq]
      simp [Res.trace, htr]
    · intro e he
      simp at he
    · intro d2a hd2a record2 tlis2 xt2
      rw [heq] at hd2a
      cases hd2a
      have hn2 : 0 < d2.pageWorkerCount := by rw [hcount]; exact hn0
      cases hf2 : fatalerror env record2 with
      | true =>
        rw [dispatch_fatal env d2 record2 tlis2 xt2 hpar hn2 hf2]
        refine ⟨(List.range d2.pageWorkerCount).map (fun i =>
            Event.AddPageRedoItem i (markerItem env record2 tlis2 (d2.itemSeq + i))) ++
          [Event.AddTxnRedoItem
            (realItem record2 1 env.ANY_WORKER tlis2 xt2 (d2.itemSeq + d2.pageWorkerCount)),
           Event.ProcessPendingRecords true, Event.DumpDispatcher], ?_⟩
        simp only [Res.trace, htr, List.append_nil]
      | false =>
        obtain ⟨b2, d3, evs2, d4, _, _, _, _, heq2, _, _, htr2, _⟩ :=
          dispatch_accepted env d2 record2 tlis2 xt2 hpar hn2 hf2
        rw [heq2]
        refine ⟨evs2 ++ (if b2 = true then [Event.ProcessPendingRecords true]
          else if d2.pendingCount + 1 ≥ d2.pendingMax then [Event.ProcessPendingRecords false]
          else []), ?_⟩
        simp only [Res.trace, htr2, htr, List.append_nil, List.append_assoc]

/-- C6, at a tablespace drop (its strategy demands a full sync) over three page workers. -/
theorem C6_full_sync_barrier_witness :
    ∃ evs post,
      (∃ b d1, runStrategy sampleEnv (sampleRecord 5 0x10 200 []) [] 0
          (ResetChosedWorkerList (sampleDispatcher 3)) = Res.ok b d1 ∧
        d1.trace = (sampleDispatcher 3).trace ++ evs) ∧
      (∀ e ∈ evs, e.isEnqueue = true ∨ ∃ m, e = Event.WARNING m) ∧
      (DispatchRedoRecordToFile sampleEnv (some (sampleDispatcher 3))
          (sampleRecord 5 0x10 200 []) [] 0).trace
        = (sampleDispatcher 3).trace ++ evs ++ [Event.ProcessPendingRecords true] ++ post ∧
      (∀ e ∈ post, e.isEnqueue = false) ∧
      (∀ d2, DispatchRedoRecordToFile sampleEnv (some (sampleDispatcher 3))
          (sampleRecord 5 0x10 200 []) [] 0 = Res.ok () d2 →
        ∀ record2 tlis2 xt2, ∃ later,
          (DispatchRedoRecordToFile sampleEnv (some d2) record2 tlis2 xt2).trace
            = (sampleDispatcher 3).trace ++ evs ++ [Event.ProcessPendingRecords true] ++
              post ++ later) :=
  C6_full_sync_barrier sampleEnv (sampleDispatcher 3) (sampleRecord 5 0x10 200 []) [] 0
    (by decide) (by decide)
    (Or.inr ⟨DispatchTxnRecord sampleEnv (sampleRecord 5 0x10 200 []) [] 0 true
      (ResetChosedWorkerList (sampleDispatcher 3)), rfl⟩)

/-- C7, as stated, fails: for a shutdown-checkpoint record dispatched once the standby
state is `STANDBY_SNAPSHOT_READY`, `DispatchXLogRecord` returns `needsFullSync = false`. -/
theorem C7_counterexample :
    sampleEnvSnapshotReady.IsCheckPoint (sampleRecord 0 0 100 []) = true ∧
    sampleEnvSnapshotReady.standbyState = sampleEnvSnapshotReady.STANDBY_SNAPSHOT_READY ∧
    (DispatchXLogRecord sampleEnvSnapshotReady (sampleRecord 0 0 100 []) [] 0
      (sampleDispatcher 3)).val? = some false := by
  decide

/-- C7, amended: for every checkpoint record `DispatchXLogRecord` returns
`needsFullSync = XLogWillChangeStandbyState(record)`, which is true exactly when
`STANDBY_INITIALIZED <= standbyState`, `standbyState != STANDBY_SNAPSHOT_READY` and the
record is an `RM_XLOG_ID` shutdown checkpoint. -/
theorem C7_checkpoint_sync_follows_standby_state (env : Env) (record : XLogReaderState)
    (tlis : List Nat) (xt : Int) (d : LogDispatcher) (hcp : env.IsCheckPoint record = true) :
    (DispatchXLogRecord env record tlis xt d).val?
      = some (XLogWillChangeStandbyState env record) ∧
    (XLogWillChangeStandbyState env record = true ↔
      (env.STANDBY_INITIALIZED ≤ env.standbyState ∧
       env.standbyState ≠ env.STANDBY_SNAPSHOT_READY ∧
       XLogRecGetRmid record = env.RM_XLOG_ID ∧
       infoOp env record = env.XLOG_CHECKPOINT_SHUTDOWN)) := by
  constructor
  · unfold DispatchXLogRecord
    simp only [hcp, if_true]
    rfl
  · unfold XLogWillChangeStandbyState
    by_cases h1 : env.standbyState < env.STANDBY_INITIALIZED ∨
        env.standbyState = env.STANDBY_SNAPSHOT_READY
    · rw [if_pos h1]
      constructor
      · intro h
        cases h
      · rintro ⟨h2, h3, _⟩
        rcases h1 with h | h
        · omega
        · exact absurd h h3
    · rw [if_neg h1]
      have h2 : env.STANDBY_INITIALIZED ≤ env.standbyState := by
        by_contra hc
        exact h1 (Or.inl (by omega))
      have h3 : env.standbyState ≠ env.STANDBY_SNAPSHOT_READY := fun hc => h1 (Or.inr hc)
      by_cases h4 : XLogRecGetRmid record = env.RM_XLOG_ID ∧
          infoOp env record = env.XLOG_CHECKPOINT_SHUTDOWN
      · rw [if_pos h4]
        exact ⟨fun _ => ⟨h2, h3, h4.1, h4.2⟩, fun _ => rfl⟩
      · rw [if_neg h4]
        constructor
        · intro h
          cases h
        · rintro ⟨_, _, h5, h6⟩
          exact absurd ⟨h5, h6⟩ h4

/-- C7 amended, at a shutdown checkpoint in state `STANDBY_INITIALIZED`. -/
theorem C7_checkpoint_sync_follows_standby_state_witness :
    sampleEnv.IsCheckPoint (sampleRecord 0 0 100 []) = true ∧
    (DispatchXLogRecord sampleEnv (sampleRecord 0 0 100 []) [] 0 (sampleDispatcher 3)).val?
      = some (XLogWillChangeStandbyState sampleEnv (sampleRecord 0 0 100 [])) :=
  ⟨by decide,
    (C7_checkpoint_sync_follows_standby_state sampleEnv (sampleRecord 0 0 100 []) [] 0
      (sampleDispatcher 3) (by decide)).1⟩

/-- C8: for every tablespace-drop record (`info == XLOG_TBLSPC_DROP`)
`DispatchTableSpaceRecord`, and for every database-drop record (`IsDataBaseDrop`)
`DispatchDataBaseRecord`, returns `needsFullSync = true` and hands the transaction worker
exactly one item, the record's real item, with `imcheckpoint` set. -/
theorem C8_drop_records_full_sync (env : Env) (record : XLogReaderState) (tlis : List Nat)
    (xt : Int) (d : LogDispatcher) :
    (infoOp env record = env.XLOG_TBLSPC_DROP →
      (DispatchTableSpaceRecord env record tlis xt d).val? = some true ∧
      ∃ item, txnQueue (DispatchTableSpaceRecord env record tlis xt d).trace
          = txnQueue d.trace ++ [item] ∧
        item.kind = ItemKind.real ∧ item.record = record ∧ item.imcheckpoint = true) ∧
    (env.IsDataBaseDrop record = true →
      (DispatchDataBaseRecord env record tlis xt d).val? = some true ∧
      ∃ item, txnQueue (DispatchDataBaseRecord env record tlis xt d).trace
          = txnQueue d.trace ++ [item] ∧
        item.kind = ItemKind.real ∧ item.record = record ∧ item.imcheckpoint = true) := by
  constructor
  · intro hdrop
    unfold DispatchTableSpaceRecord
    simp only [hdrop, if_true]
    refine ⟨rfl, { realItem record 1 env.ANY_WORKER tlis xt (d.itemSeq + d.pageWorkerCount) with
      imcheckpoint := true }, ?_, rfl, rfl, rfl⟩
    simp only [Res.trace, DispatchTxnRecord_eq, txnQueue_append, txnQueue_range_map,
      txnQueue_single_txn, List.nil_append]
  · intro hdrop
    unfold DispatchDataBaseRecord
    simp only [hdrop, if_true]
    refine ⟨rfl, { realItem record (d.pageWorkerCount + 1) env.ALL_WORKER tlis xt d.itemSeq with
      imcheckpoint := true }, ?_, rfl, rfl, rfl⟩
    simp only [Res.trace, CreateRedoItem, forWorkers_broadcast, AddTxnRedoItem, txnQueue_append,
      txnQueue_range_map, txnQueue_single_txn, List.nil_append, List.append_nil, realItem]

/-- C8, at a tablespace drop and at a database drop over three page workers. -/
theorem C8_drop_records_full_sync_witness :
    (infoOp sampleEnv (sampleRecord 5 0x10 200 []) = sampleEnv.XLOG_TBLSPC_DROP ∧
      (DispatchTableSpaceRecord sampleEnv (sampleRecord 5 0x10 200 []) [] 0
        (sampleDispatcher 3)).val? = some true) ∧
    (sampleEnv.IsDataBaseDrop (sampleRecord 4 0x10 200 []) = true ∧
      (DispatchDataBaseRecord sampleEnv (sampleRecord 4 0x10 200 []) [] 0
        (sampleDispatcher 3)).val? = some true) :=
  ⟨⟨by decide,
      ((C8_drop_records_full_sync sampleEnv (sampleRecord 5 0x10 200 []) [] 0
        (sampleDispatcher 3)).1 (by decide)).1⟩,
    ⟨by decide,
      ((C8_drop_records_full_sync sampleEnv (sampleRecord 4 0x10 200 []) [] 0
        (sampleDispatcher 3)).2 (by decide)).1⟩⟩

/-- C9, as stated, fails: with hot standby off (`OnHotStandBy()` false) `CreateDispatcher`
sets `pendingMax` to 1, not to a value above 1. -/
theorem C9_counterexample :
    OnHotStandBy sampleEnvNoStandby = false ∧
    ¬ ((CreateDispatcher sampleEnvNoStandby).1.pendingMax > 1) := by
  decide

/-- C9, amended: `CreateDispatcher` sets `pendingMax` to `MAX_PENDING_STANDBY` in the
hot-standby configuration and to `MAX_PENDING` otherwise, and both are 1: the threshold is
1 in either configuration. -/
theorem C9_pendingMax_is_one (env : Env) :
    (CreateDispatcher env).1.pendingMax
      = (if OnHotStandBy env = true then MAX_PENDING_STANDBY else MAX_PENDING) ∧
    (CreateDispatcher env).1.pendingMax = 1 := by
  constructor
  · rfl
  · unfold CreateDispatcher
    by_cases h : OnHotStandBy env = true <;> simp [h, MAX_PENDING, MAX_PENDING_STANDBY]

/-- C10: for every record and every page-worker count n, `DispatchTxnRecord` makes n + 1
enqueues: first one new LSN marker to each of the page workers 0 .. n-1, in this order,
then one real item of the record, with `expectedConsumers` 1 and `imcheckpoint` equal to
the argument, to the transaction worker. -/
theorem C10_txn_record_pattern (env : Env) (record : XLogReaderState) (tlis : List Nat)
    (xt : Int) (imcheckpoint : Bool) (d : LogDispatcher) :
    ∃ (marker : Nat → RedoItem) (item : RedoItem),
      (DispatchTxnRecord env record tlis xt imcheckpoint d).trace
        = d.trace ++ (List.range d.pageWorkerCount).map
            (fun i => Event.AddPageRedoItem i (marker i)) ++ [Event.AddTxnRedoItem item] ∧
      (∀ i, (marker i).kind = ItemKind.lsnMarker ∧ lsnOf (marker i).record = lsnOf record) ∧
      (∀ i j, i ≠ j → (marker i).id ≠ (marker j).id) ∧
      (∀ i, (marker i).id ≠ item.id ∨ d.pageWorkerCount ≤ i) ∧
      item.kind = ItemKind.real ∧ item.record = record ∧ item.shareCount = 1 ∧
      item.imcheckpoint = imcheckpoint ∧
      (∀ w, w < d.pageWorkerCount →
        pageQueue w (DispatchTxnRecord env record tlis xt imcheckpoint d).trace
          = pageQueue w d.trace ++ [marker w]) ∧
      txnQueue (DispatchTxnRecord env record tlis xt imcheckpoint d).trace
        = txnQueue d.trace ++ [item] := by
  refine ⟨fun i => markerItem env record tlis (d.itemSeq + i),
    { realItem record 1 env.ANY_WORKER tlis xt (d.itemSeq + d.pageWorkerCount) with
      imcheckpoint := imcheckpoint }, ?_, ?_, ?_, ?_, rfl, rfl, rfl, rfl, ?_, ?_⟩
  · rw [DispatchTxnRecord_eq]
    simp
  · intro i
    exact ⟨rfl, rfl⟩
  · intro i j hij
    simp only [markerItem]
    omega
  · intro i
    simp only [markerItem, realItem]
    omega
  · intro w hw
    rw [DispatchTxnRecord_eq]
    simp [pageQueue_append, pageQueue_range_map, hw]
  · rw [DispatchTxnRecord_eq]
    simp [txnQueue_append, txnQueue_range_map]

/-! ## Claims C11 to C20 -/

theorem unchosenBelow_mono (hits : Nat → Nat) (i j : Nat) (hij : i ≤ j) :
    unchosenBelow hits i ≤ unchosenBelow hits j := by
  induction j with
  | zero =>
    have : i = 0 := by omega
    rw [this]
  | succ k ih =>
    by_cases h : i = k + 1
    · rw [h]
    · have := ih (by omega)
      rw [unchosenBelow_succ]
      omega

/-- Two unchosen workers get markers with different positions in the creation order. -/
theorem unchosenBelow_lt (hits : Nat → Nat) (i j : Nat) (hij : i < j) (hi : hits i = 0) :
    unchosenBelow hits i < unchosenBelow hits j := by
  have h1 := unchosenBelow_mono hits (i + 1) j (by omega)
  rw [unchosenBelow_succ] at h1
  simp only [hi, if_true] at h1
  omega

/-- C11: `DispatchSyncTxnRecord` creates one real item, with `sharewithtrxn = true`,
`blockbytrxn = false` and `expectedConsumers = chosedWorkerCount + 1`, and enqueues this one
item to exactly the page workers whose hit count in the chosen set is above 0 and, last, to
the transaction worker; every other page worker is enqueued a separate, new LSN marker; so
every page worker receives exactly one entry. -/
theorem C11_sync_txn_pattern (env : Env) (record : XLogReaderState) (tlis : List Nat)
    (xt : Int) (designatedWorker : Nat) (d : LogDispatcher) :
    ∃ (item : RedoItem) (marker : Nat → RedoItem) (warn : List WarnMsg),
      item.kind = ItemKind.real ∧ item.record = record ∧
      item.sharewithtrxn = true ∧ item.blockbytrxn = false ∧
      item.shareCount = d.chosedWorkerCount + 1 ∧
      item.designatedWorker = designatedWorker ∧
      (DispatchSyncTxnRecord env record tlis xt designatedWorker d).trace
        = d.trace ++ warn.map Event.WARNING ++
          (List.range d.pageWorkerCount).map (fun i =>
            Event.AddPageRedoItem i (if d.chosedWorkerIds i > 0 then item else marker i)) ++
          [Event.AddTxnRedoItem item] ∧
      (∀ i, (marker i).kind = ItemKind.lsnMarker ∧ lsnOf (marker i).record = lsnOf record ∧
        (marker i).id ≠ item.id) ∧
      (∀ i j, i < j → d.chosedWorkerIds i = 0 → (marker i).id ≠ (marker j).id) ∧
      (∀ w, w < d.pageWorkerCount →
        pageQueue w (DispatchSyncTxnRecord env record tlis xt designatedWorker d).trace
          = pageQueue w d.trace ++ [if d.chosedWorkerIds w > 0 then item else marker w]) ∧
      txnQueue (DispatchSyncTxnRecord env record tlis xt designatedWorker d).trace
        = txnQueue d.trace ++ [item] := by
  refine ⟨{ realItem record (d.chosedWorkerCount + 1) designatedWorker tlis xt d.itemSeq with
      sharewithtrxn := true, blockbytrxn := false },
    fun i => markerItem env record tlis (d.itemSeq + 1 + unchosenBelow d.chosedWorkerIds i),
    if d.chosedWorkerCount ≠ 1 ∧ XLogRecGetRmid record ≠ env.RM_XACT_ID then
      [WarnMsg.DispatchSyncTxnRecord_maybe_some_error] else [],
    rfl, rfl, rfl, rfl, rfl, rfl, ?_, ?_, ?_, ?_, ?_⟩
  · rw [DispatchSyncTxnRecord_eq]
    by_cases hc : d.chosedWorkerCount ≠ 1 ∧ XLogRecGetRmid record ≠ env.RM_XACT_ID
    · simp only [if_pos hc, List.map_cons, List.map_nil, List.append_assoc]
    · simp only [if_neg hc, List.map_nil, List.append_assoc]
  · intro i
    refine ⟨rfl, rfl, ?_⟩
    simp only [markerItem, realItem]
    omega
  · intro i j hij hi
    have := unchosenBelow_lt d.chosedWorkerIds i j hij hi
    simp only [markerItem]
    omega
  · intro w hw
    rw [DispatchSyncTxnRecord_eq]
    by_cases hc : d.chosedWorkerCount ≠ 1 ∧ XLogRecGetRmid record ≠ env.RM_XACT_ID <;>
      simp [pageQueue_append, pageQueue_range_map, hw, hc]
  · rw [DispatchSyncTxnRecord_eq]
    by_cases hc : d.chosedWorkerCount ≠ 1 ∧ XLogRecGetRmid record ≠ env.RM_XACT_ID <;>
      simp [txnQueue_append, txnQueue_range_map, hc]

/-! ## Counting the hits of the chosen set -/

/-- `AddWorkerToSet` with an id below the worker count: the new state. -/
theorem AddWorkerToSet_eq (id : Nat) (d : LogDispatcher) (hid : id < d.pageWorkerCount) :
    AddWorkerToSet id d = Res.ok ()
      { d with
        chosedWorkerIds := Function.update d.chosedWorkerIds id (d.chosedWorkerIds id + 1),
        chosedWorkerCount := d.chosedWorkerCount + (if d.chosedWorkerIds id = 0 then 1 else 0) } := by
  have hge : ¬ id ≥ d.pageWorkerCount := by omega
  unfold AddWorkerToSet
  simp only [hge, if_false]
  by_cases h : d.chosedWorkerIds id = 0 <;> simp [h]

theorem distinctChosen_succ (n : Nat) (hits : Nat → Nat) :
    distinctChosen (n + 1) hits = distinctChosen n hits + (if hits n > 0 then 1 else 0) := by
  unfold distinctChosen
  by_cases h : hits n > 0 <;> simp [List.range_succ, List.filter_append, h]

theorem distinctChosen_update_ge (n id : Nat) (hits : Nat → Nat) (v : Nat) (h : n ≤ id) :
    distinctChosen n (Function.update hits id v) = distinctChosen n hits := by
  induction n with
  | zero => rfl
  | succ k ih =>
    have hk : k ≠ id := by omega
    rw [distinctChosen_succ, distinctChosen_succ, ih (by omega)]
    simp [Function.update, hk]

/-- One more hit for worker `id` adds a distinct worker exactly on a 0 to 1 transition. -/
theorem distinctChosen_update (n id : Nat) (hits : Nat → Nat) (h : id < n) :
    distinctChosen n (Function.update hits id (hits id + 1))
      = distinctChosen n hits + (if hits id = 0 then 1 else 0) := by
  induction n with
  | zero => omega
  | succ k ih =>
    rw [distinctChosen_succ, distinctChosen_succ]
    by_cases hk : id = k
    · subst hk
      rw [distinctChosen_update_ge id id hits _ (Nat.le_refl _)]
      by_cases h0 : hits id = 0
      · simp [Function.update, h0]
      · have hpos : 0 < hits id := Nat.pos_of_ne_zero h0
        simp [Function.update, h0, hpos]
    · have hk2 : k ≠ id := fun hc => hk hc.symm
      rw [ih (by omega)]
      simp only [Function.update, hk2, dite_false]
      omega

/-- A sequence of `AddWorkerToSet` calls with ids below the worker count returns; each hit
count grows by the number of calls with that id, and the distinct count by the number of
workers that became chosen. -/
theorem addWorkersToSet_ok (ids : List Nat) (d : LogDispatcher)
    (hids : ∀ id ∈ ids, id < d.pageWorkerCount) :
    ∃ d1, addWorkersToSet ids d = Res.ok () d1 ∧ ChosenOnly d d1 ∧
      (∀ w, d1.chosedWorkerIds w = d.chosedWorkerIds w + ids.count w) ∧
      d1.chosedWorkerCount + distinctChosen d.pageWorkerCount d.chosedWorkerIds
        = d.chosedWorkerCount + distinctChosen d.pageWorkerCount d1.chosedWorkerIds := by
  induction ids generalizing d with
  | nil => exact ⟨d, rfl, ChosenOnly.chosen_refl d, by simp, by omega⟩
  | cons x rest ih =>
    have hx : x < d.pageWorkerCount := hids x (List.mem_cons_self _ _)
    have hrest : ∀ id ∈ rest, id <
        ({ d with
          chosedWorkerIds := Function.update d.chosedWorkerIds x (d.chosedWorkerIds x + 1),
          chosedWorkerCount := d.chosedWorkerCount +
            (if d.chosedWorkerIds x = 0 then 1 else 0) } : LogDispatcher).pageWorkerCount :=
      fun id hid => hids id (List.mem_cons_of_mem _ hid)
    obtain ⟨d1, hd1, hc1, hhits, hcount⟩ := ih _ hrest
    refine ⟨d1, ?_, ?_, ?_, ?_⟩
    · simp only [addWorkersToSet, forEachRes, AddWorkerToSet_eq x d hx, Res.andThen_ok]
      exact hd1
    · unfold ChosenOnly at hc1 ⊢
      rw [hc1]
    · intro w
      rw [hhits w]
      by_cases hw : w = x
      · subst hw
        simp [Function.update, List.count_cons]
        omega
      · have hw2 : ¬ (x = w) := fun hc => hw hc.symm
        simp [Function.update, hw, List.count_cons, hw2]
    · have hup := distinctChosen_update d.pageWorkerCount x d.chosedWorkerIds hx
      simp only [hup] at hcount
      omega

theorem GetWorkerId_congr (env : Env) (g g1 : Option LogDispatcher) (node : RelFileNode)
    (block : Nat) (forkNum : Int) (h : GetPageWorkerCount g = GetPageWorkerCount g1) :
    GetWorkerId env g node block forkNum = GetWorkerId env g1 node block forkNum := by
  unfold GetWorkerId
  rw [h]

/-- The block loop of `GetWorkerIds` is the sequence of `AddWorkerToSet` calls on the ids
of the block references in use. -/
theorem GetWorkerIds_loop_eq (env : Env) (record : XLogReaderState) (rd : Bool)
    (d0 : LogDispatcher) (xs : List Nat) (d : LogDispatcher)
    (hcount : d.pageWorkerCount = d0.pageWorkerCount) (hn : 0 < d0.pageWorkerCount) :
    forEachRes xs
        (fun i acc =>
          let block := blockAt record i
          if block.in_use != true then Res.ok () acc
          else
            let id := if rd then GetWorkerId env (some acc) block.rnode 0 0
              else GetWorkerId env (some acc) block.rnode block.blkno 0
            AddWorkerToSet id acc) d
      = addWorkersToSet
          ((xs.filter (fun i => (blockAt record i).in_use)).map (fun i =>
            if rd then GetWorkerId env (some d0) (blockAt record i).rnode 0 0
            else GetWorkerId env (some d0) (blockAt record i).rnode (blockAt record i).blkno 0))
          d := by
  induction xs generalizing d with
  | nil => rfl
  | cons x rest ih =>
    have hg : GetPageWorkerCount (some d) = GetPageWorkerCount (some d0) := hcount
    by_cases hx : (blockAt record x).in_use = true
    · have hid : (if rd then GetWorkerId env (some d) (blockAt record x).rnode 0 0
          else GetWorkerId env (some d) (blockAt record x).rnode (blockAt record x).blkno 0)
          = (if rd then GetWorkerId env (some d0) (blockAt record x).rnode 0 0
          else GetWorkerId env (some d0) (blockAt record x).rnode (blockAt record x).blkno 0) := by
        rw [GetWorkerId_congr env _ _ _ 0 0 hg, GetWorkerId_congr env _ _ _ _ 0 hg]
      have hlt : (if rd then GetWorkerId env (some d0) (blockAt record x).rnode 0 0
          else GetWorkerId env (some d0) (blockAt record x).rnode (blockAt record x).blkno 0)
          < d.pageWorkerCount := by
        rw [hcount]
        by_cases hrd : rd = true
        · simp only [hrd, if_true]
          exact GetWorkerId_lt env d0 _ _ _ hn
        · simp only [hrd]
          exact GetWorkerId_lt env d0 _ _ _ hn
      simp only [forEachRes, hx, bne_self_eq_false, Bool.false_eq_true, if_false, hid,
        List.filter_cons, if_true, List.map_cons, addWorkersToSet,
        AddWorkerToSet_eq _ d hlt, Res.andThen_ok]
      exact ih _ hcount
    · have hx2 : (blockAt record x).in_use = false := by simpa using hx
      simp only [forEachRes, hx2, List.filter_cons, Bool.false_eq_true, if_false,
        Res.andThen_ok]
      simpa using ih d hcount

/-- `GetWorkerIds` without a designated worker, on a dispatcher with a page worker. -/
theorem GetWorkerIds_eq_addWorkers (env : Env) (record : XLogReaderState) (rd : Bool)
    (d : LogDispatcher) (hn : 0 < d.pageWorkerCount) :
    GetWorkerIds env record env.ANY_WORKER rd d
      = addWorkersToSet (blockWorkerIds env (some d) record rd) d := by
  have hids : ∀ id ∈ blockWorkerIds env (some d) record rd, id < d.pageWorkerCount := by
    intro id hid
    obtain ⟨i, _, hi⟩ := List.mem_map.mp hid
    rw [← hi]
    by_cases hrd : rd = true
    · simp only [hrd, if_true]
      exact GetWorkerId_lt env d _ _ _ hn
    · simp only [hrd]
      exact GetWorkerId_lt env d _ _ _ hn
  obtain ⟨d1, hd1, _⟩ := addWorkersToSet_ok _ d hids
  unfold GetWorkerIds
  rw [GetWorkerIds_loop_eq env record rd d _ d rfl hn]
  unfold blockWorkerIds at hd1 ⊢
  rw [hd1]
  simp


/-- With one distinct chosen worker below `n`, the workers with a hit are that one. -/
theorem distinctChosen_eq_one (n : Nat) (hits : Nat → Nat) (h : distinctChosen n hits = 1) :
    ∃ w0, w0 < n ∧ ∀ w, w < n → (hits w > 0 ↔ w = w0) := by
  unfold distinctChosen at h
  obtain ⟨w0, hw0⟩ := List.length_eq_one.mp h
  have hmem : ∀ w, (w < n ∧ hits w > 0) ↔ w = w0 := by
    intro w
    have h1 : w ∈ (List.range n).filter (fun w => decide (hits w > 0)) ↔ w ∈ [w0] := by
      rw [hw0]
    simpa [List.mem_filter] using h1
  refine ⟨w0, ((hmem w0).mpr rfl).1, ?_⟩
  intro w hw
  constructor
  · intro hp
    exact (hmem w).mp ⟨hw, hp⟩
  · intro he
    exact ((hmem w).mpr he).2

/-- The call of `DispatchToSpecPageWorker` that follows `GetWorkerIds` in the gin, gist and
spgist strategies. -/
theorem GetWorkerIds_then_spec (env : Env) (record : XLogReaderState) (tlis : List Nat)
    (d d0 : LogDispatcher) (hprep : Prepared d d0) (hn : 0 < d.pageWorkerCount) :
    ∃ d1, Prepared d d1 ∧
      GetWorkerIds env record env.ANY_WORKER true d0 = Res.ok () d1 ∧
      (GetWorkerIds env record env.ANY_WORKER true d0).andThen (fun _ d2 =>
          Res.ok false (DispatchToSpecPageWorker env record tlis true d2))
        = Res.ok false (DispatchToSpecPageWorker env record tlis true d1) := by
  have hn0 : 0 < d0.pageWorkerCount := by rw [hprep.prep_count_eq]; exact hn
  obtain ⟨d1, hd1, hc1, _⟩ := GetWorkerIds_ok env record env.ANY_WORKER true d0 hn0
  exact ⟨d1, hprep.then_chosen hc1, hd1, by rw [hd1]; rfl⟩

/-- C12, as stated, fails: a gin vacuum record with two block references in use, for the
relations 7 and 8, is accepted and dispatched over three page workers through
`DispatchToSpecPageWorker`; the page workers 0 and 1 both receive the real item (one and
the same item, flagged `blockbytrxn`), only page worker 2 receives an LSN marker. -/
theorem C12_counterexample :
    sampleEnv.IsGinVacuumPages (sampleTwoRelRecord 13 0x40 100 7 8) = true ∧
    (DispatchRedoRecordToFile sampleEnv (some (sampleDispatcher 3))
        (sampleTwoRelRecord 13 0x40 100 7 8) [] 0).returned = true ∧
    (pageQueue 0 (DispatchRedoRecordToFile sampleEnv (some (sampleDispatcher 3))
        (sampleTwoRelRecord 13 0x40 100 7 8) [] 0).trace).map
      (fun it => (it.kind, it.blockbytrxn)) = [(ItemKind.real, true)] ∧
    pageQueue 1 (DispatchRedoRecordToFile sampleEnv (some (sampleDispatcher 3))
        (sampleTwoRelRecord 13 0x40 100 7 8) [] 0).trace
      = pageQueue 0 (DispatchRedoRecordToFile sampleEnv (some (sampleDispatcher 3))
        (sampleTwoRelRecord 13 0x40 100 7 8) [] 0).trace ∧
    (pageQueue 2 (DispatchRedoRecordToFile sampleEnv (some (sampleDispatcher 3))
        (sampleTwoRelRecord 13 0x40 100 7 8) [] 0).trace).map (fun it => it.kind)
      = [ItemKind.lsnMarker] ∧
    (txnQueue (DispatchRedoRecordToFile sampleEnv (some (sampleDispatcher 3))
        (sampleTwoRelRecord 13 0x40 100 7 8) [] 0).trace).map (fun it => it.kind)
      = [ItemKind.lsnMarker] := by
  decide

/-- C12, amended: `DispatchToSpecPageWorker` creates one real item, with
`sharewithtrxn = false` and `blockbytrxn = waittrxnsync`, and enqueues it to exactly the
page workers whose hit count in the chosen set is above 0; every other page worker and,
last, the transaction worker are enqueued a new LSN marker each; a chosen set whose
distinct count is not 1 only costs a WARNING.  Exactly one page worker receives the real
item when exactly one worker has a hit.  The gin vacuum, gist page update and spgist vacuum
branches (the latter unless it is a vacuum-redirect in hot standby) call it with
`waittrxnsync = true` on the chosen set `GetWorkerIds` computed by relation. -/
theorem C12_spec_page_worker_pattern (env : Env) (record : XLogReaderState) (tlis : List Nat)
    (xt : Int) (d : LogDispatcher) (hn : 0 < d.pageWorkerCount) :
    (∀ (waittrxnsync : Bool) (d1 : LogDispatcher),
      ∃ (item : RedoItem) (marker : Nat → RedoItem) (txnMarker : RedoItem)
        (warn : List WarnMsg),
        item.kind = ItemKind.real ∧ item.record = record ∧
        item.sharewithtrxn = false ∧ item.blockbytrxn = waittrxnsync ∧
        item.shareCount = d1.chosedWorkerCount ∧
        (DispatchToSpecPageWorker env record tlis waittrxnsync d1).trace
          = d1.trace ++ warn.map Event.WARNING ++
            (List.range d1.pageWorkerCount).map (fun i =>
              Event.AddPageRedoItem i
                (if d1.chosedWorkerIds i > 0 then item else marker i)) ++
            [Event.AddTxnRedoItem txnMarker] ∧
        (warn = [] ↔ d1.chosedWorkerCount = 1) ∧
        (∀ i, (marker i).kind = ItemKind.lsnMarker ∧
          lsnOf (marker i).record = lsnOf record ∧ (marker i).id ≠ item.id) ∧
        (txnMarker.kind = ItemKind.lsnMarker ∧ lsnOf txnMarker.record = lsnOf record ∧
          txnMarker.id ≠ item.id) ∧
        (∀ w, w < d1.pageWorkerCount →
          pageQueue w (DispatchToSpecPageWorker env record tlis waittrxnsync d1).trace
            = pageQueue w d1.trace ++
              [if d1.chosedWorkerIds w > 0 then item else marker w]) ∧
        txnQueue (DispatchToSpecPageWorker env record tlis waittrxnsync d1).trace
          = txnQueue d1.trace ++ [txnMarker] ∧
        (distinctChosen d1.pageWorkerCount d1.chosedWorkerIds = 1 →
          ∃ w0, w0 < d1.pageWorkerCount ∧ ∀ w, w < d1.pageWorkerCount →
            ((if d1.chosedWorkerIds w > 0 then item else marker w) = item ↔ w = w0))) ∧
    (env.IsGinVacuumPages record = true → env.SUPPORT_HOT_STANDBY = true →
      ∃ d0 d1, Prepared d d0 ∧ Prepared d d1 ∧
        GetWorkerIds env record env.ANY_WORKER true d0 = Res.ok () d1 ∧
        DispatchGinRecord env record tlis xt d
          = Res.ok false (DispatchToSpecPageWorker env record tlis true d1)) ∧
    (env.IsGistPageUpdate record = true → env.SUPPORT_HOT_STANDBY = true →
      ∃ d0 d1, Prepared d d0 ∧ Prepared d d1 ∧
        GetWorkerIds env record env.ANY_WORKER true d0 = Res.ok () d1 ∧
        DispatchGistRecord env record tlis xt d
          = Res.ok false (DispatchToSpecPageWorker env record tlis true d1)) ∧
    (env.IsSpgistVacuum record = true → env.SUPPORT_HOT_STANDBY = true →
      ¬ (infoOp env record = env.XLOG_SPGIST_VACUUM_REDIRECT ∧ env.InHotStandby = true) →
      ∃ d1, Prepared d d1 ∧
        GetWorkerIds env record env.ANY_WORKER true d = Res.ok () d1 ∧
        DispatchSpgistRecord env record tlis xt d
          = Res.ok false (DispatchToSpecPageWorker env record tlis true d1)) := by
  refine ⟨?_, ?_, ?_, ?_⟩
  · intro wait d1
    refine ⟨{ realItem record d1.chosedWorkerCount env.ANY_WORKER tlis 0 d1.itemSeq with
        sharewithtrxn := false, blockbytrxn := wait },
      fun i => markerItem env record tlis (d1.itemSeq + 1 + unchosenBelow d1.chosedWorkerIds i),
      markerItem env record tlis
        (d1.itemSeq + 1 + unchosenBelow d1.chosedWorkerIds d1.pageWorkerCount),
      if d1.chosedWorkerCount ≠ 1 then
        [WarnMsg.DispatchToSpecPageWorker_maybe_some_error] else [],
      rfl, rfl, rfl, rfl, rfl, ?_, ?_, ?_, ?_, ?_, ?_, ?_⟩
    · rw [DispatchToSpecPageWorker_eq]
      by_cases hc : d1.chosedWorkerCount ≠ 1
      · simp only [if_pos hc, List.map_cons, List.map_nil, List.append_assoc]
      · simp only [if_neg hc, List.map_nil, List.append_assoc]
    · by_cases hc : d1.chosedWorkerCount = 1 <;> simp [hc]
    · intro i
      refine ⟨rfl, rfl, ?_⟩
      simp only [markerItem, realItem]
      omega
    · refine ⟨rfl, rfl, ?_⟩
      simp only [markerItem, realItem]
      omega
    · intro w hw
      rw [DispatchToSpecPageWorker_eq]
      by_cases hc : d1.chosedWorkerCount ≠ 1 <;>
        simp [pageQueue_append, pageQueue_range_map, hw, hc]
    · rw [DispatchToSpecPageWorker_eq]
      by_cases hc : d1.chosedWorkerCount ≠ 1 <;>
        simp [txnQueue_append, txnQueue_range_map, hc]
    · intro h1
      obtain ⟨w0, hw0, hiff⟩ := distinctChosen_eq_one _ _ h1
      refine ⟨w0, hw0, ?_⟩
      intro w hw
      rw [← hiff w hw]
      by_cases hp : d1.chosedWorkerIds w > 0
      · simp [hp]
      · simp only [hp, if_false, iff_false]
        intro hc
        have := congrArg RedoItem.kind hc
        simp [markerItem, realItem] at this
  · intro hg hs
    obtain ⟨d1, hp1, hg1, he1⟩ := GetWorkerIds_then_spec env record tlis d _
      (Prepared.ite_warn (infoOp env record = env.XLOG_GIN_DELETE_LISTPAGE ∧
        env.ginxlogDeleteListPages_ndeleted record ≠ record.max_block_id)
        WarnMsg.DispatchGinRecord_warnninginfo d) hn
    refine ⟨_, d1, Prepared.ite_warn _ _ d, hp1, hg1, ?_⟩
    unfold DispatchGinRecord
    simp only [hg, hs, and_self, if_true]
    exact he1
  · intro hg hs
    obtain ⟨d1, hp1, hg1, he1⟩ := GetWorkerIds_then_spec env record tlis d _
      (Prepared.ite_warn (infoOp env record = env.XLOG_GIST_PAGE_SPLIT ∧
        env.gistxlogPageSplit_npage record ≠ record.max_block_id)
        WarnMsg.DispatchGistRecord_warnninginfo d) hn
    refine ⟨_, d1, Prepared.ite_warn _ _ d, hp1, hg1, ?_⟩
    unfold DispatchGistRecord
    simp only [hg, hs, and_self, if_true]
    exact he1
  · intro hg hs hno
    obtain ⟨d1, hp1, hg1, _⟩ := GetWorkerIds_then_spec env record tlis d d
      (Prepared.prep_refl d) hn
    refine ⟨d1, hp1, hg1, ?_⟩
    unfold DispatchSpgistRecord
    simp only [hg, hs, and_self, if_true, hg1, Res.andThen_ok, hno, if_false]

/-- C12 amended, at a gin vacuum record with one block reference over three page
workers. -/
theorem C12_spec_page_worker_pattern_witness :
    0 < (sampleDispatcher 3).pageWorkerCount ∧
    sampleEnv.IsGinVacuumPages (sampleBlockRecord 13 0x40 100 7 5) = true ∧
    sampleEnv.SUPPORT_HOT_STANDBY = true ∧
    ∃ d0 d1, Prepared (sampleDispatcher 3) d0 ∧ Prepared (sampleDispatcher 3) d1 ∧
      GetWorkerIds sampleEnv (sampleBlockRecord 13 0x40 100 7 5) sampleEnv.ANY_WORKER true d0
        = Res.ok () d1 ∧
      DispatchGinRecord sampleEnv (sampleBlockRecord 13 0x40 100 7 5) [] 0 (sampleDispatcher 3)
        = Res.ok false
          (DispatchToSpecPageWorker sampleEnv (sampleBlockRecord 13 0x40 100 7 5) [] true d1) :=
  ⟨by decide, by decide, by decide,
    (C12_spec_page_worker_pattern sampleEnv (sampleBlockRecord 13 0x40 100 7 5) [] 0
      (sampleDispatcher 3) (by decide)).2.1 (by decide) (by decide)⟩


theorem ChosenOnly.trace_eq {a b : LogDispatcher} (h : ChosenOnly a b) : b.trace = a.trace := by
  unfold ChosenOnly at h
  rw [h]

/-- The chosen set `DispatchXactRecord` builds for a file-removing record. -/
theorem DispatchXactRecord_sync (env : Env) (record : XLogReaderState) (tlis : List Nat)
    (xt : Int) (d : LogDispatcher) (hn : 0 < d.pageWorkerCount)
    (hx : XactWillRemoveRelFiles env record = true) :
    ∃ d1, ChosenOnly d d1 ∧
      DispatchXactRecord env record tlis xt d
        = Res.ok false (DispatchSyncTxnRecord env record tlis xt env.ALL_WORKER d1) := by
  unfold DispatchXactRecord
  simp only [hx, if_true]
  split
  · cases hnodes : (env.XactGetRelFiles record).1 with
    | none => exact ⟨d, ChosenOnly.chosen_refl d, rfl⟩
    | some nodes =>
      obtain ⟨d1, hd1, hc1⟩ := addWorkers_ok (List.range (env.XactGetRelFiles record).2.toNat)
        (fun i acc => GetWorkerId env (some acc) (nodes.getD i default) 0 0) d
        (fun i _ acc hacc => GetWorkerId_lt env acc _ 0 0 (by rw [hacc]; exact hn))
      refine ⟨d1, hc1, ?_⟩
      simp only [hd1, Res.andThen_ok]
  · obtain ⟨d1, hd1, hc1⟩ := addWorkers_ok (List.range d.pageWorkerCount)
      (fun i _ => i) d
      (fun i hi acc hacc => by rw [hacc]; exact List.mem_range.mp hi)
    refine ⟨d1, hc1, ?_⟩
    simp only [hd1, Res.andThen_ok]

/-- C13: `XactWillRemoveRelFiles` holds exactly for the records of `RM_XACT_ID` that list
at least one relation file to remove.  `DispatchXactRecord` fills the chosen set and calls
`DispatchSyncTxnRecord` when it holds, and calls `DispatchTxnRecord` when it does not; the
two are told apart by the item the transaction worker receives, which is flagged
`sharewithtrxn` in the first case only.  In both cases the strategy returns `false` as
`needsFullSync`. -/
theorem C13_xact_record_pattern (env : Env) (record : XLogReaderState) (tlis : List Nat)
    (xt : Int) (d : LogDispatcher) (hn : 0 < d.pageWorkerCount) :
    (XactWillRemoveRelFiles env record = true ↔
      XLogRecGetRmid record = env.RM_XACT_ID ∧ (env.XactGetRelFiles record).2 > 0) ∧
    (XactWillRemoveRelFiles env record = true →
      ∃ d1, ChosenOnly d d1 ∧
        DispatchXactRecord env record tlis xt d
          = Res.ok false (DispatchSyncTxnRecord env record tlis xt env.ALL_WORKER d1)) ∧
    (XactWillRemoveRelFiles env record = false →
      DispatchXactRecord env record tlis xt d
        = Res.ok false (DispatchTxnRecord env record tlis xt false d)) ∧
    (∃ d2 item, DispatchXactRecord env record tlis xt d = Res.ok false d2 ∧
      txnQueue d2.trace = txnQueue d.trace ++ [item] ∧
      item.kind = ItemKind.real ∧ item.record = record ∧
      (item.sharewithtrxn = true ↔ XactWillRemoveRelFiles env record = true)) := by
  refine ⟨?_, fun hx => DispatchXactRecord_sync env record tlis xt d hn hx, ?_, ?_⟩
  · unfold XactWillRemoveRelFiles
    by_cases hr : XLogRecGetRmid record = env.RM_XACT_ID <;> simp [hr]
  · intro hx
    unfold DispatchXactRecord
    simp [hx]
  · cases hx : XactWillRemoveRelFiles env record with
    | true =>
      obtain ⟨d1, hc1, he1⟩ := DispatchXactRecord_sync env record tlis xt d hn hx
      refine ⟨DispatchSyncTxnRecord env record tlis xt env.ALL_WORKER d1,
        { realItem record (d1.chosedWorkerCount + 1) env.ALL_WORKER tlis xt
          d1.itemSeq with sharewithtrxn := true, blockbytrxn := false }, he1, ?_, rfl, rfl, ?_⟩
      · rw [DispatchSyncTxnRecord_eq, ← hc1.trace_eq]
        by_cases hc : d1.chosedWorkerCount ≠ 1 ∧ XLogRecGetRmid record ≠ env.RM_XACT_ID <;>
          simp [txnQueue_append, txnQueue_range_map, hc]
      · simp
    | false =>
      refine ⟨DispatchTxnRecord env record tlis xt false d,
        { realItem record 1 env.ANY_WORKER tlis xt (d.itemSeq + d.pageWorkerCount)
          with imcheckpoint := false }, ?_, ?_, rfl, rfl, ?_⟩
      · unfold DispatchXactRecord
        simp only [hx, Bool.false_eq_true, if_false]
      · rw [DispatchTxnRecord_eq]
        simp [txnQueue_append, txnQueue_range_map]
      · simp [realItem]

/-- C13, at a commit that removes two relation files, over three page workers. -/
theorem C13_xact_record_pattern_witness :
    0 < (sampleDispatcher 3).pageWorkerCount ∧
    XactWillRemoveRelFiles sampleEnv (sampleRecord 1 0 300 [4, 5]) = true ∧
    ∃ d1, ChosenOnly (sampleDispatcher 3) d1 ∧
      DispatchXactRecord sampleEnv (sampleRecord 1 0 300 [4, 5]) [] 0 (sampleDispatcher 3)
        = Res.ok false
          (DispatchSyncTxnRecord sampleEnv (sampleRecord 1 0 300 [4, 5]) [] 0
            sampleEnv.ALL_WORKER d1) :=
  ⟨by decide, by decide,
    (C13_xact_record_pattern sampleEnv (sampleRecord 1 0 300 [4, 5]) [] 0
      (sampleDispatcher 3) (by decide)).2.1 (by decide)⟩


theorem distinctChosen_zero_of (n : Nat) (hits : Nat → Nat) (h : ∀ w, w < n → hits w = 0) :
    distinctChosen n hits = 0 := by
  induction n with
  | zero => rfl
  | succ k ih =>
    rw [distinctChosen_succ, ih (fun w hw => h w (by omega)), h k (by omega)]
    simp

theorem distinctChosen_unique (n t : Nat) (hits : Nat → Nat)
    (h : ∀ w, w < n → (hits w > 0 ↔ w = t)) :
    distinctChosen n hits = if t < n then 1 else 0 := by
  induction n with
  | zero => rfl
  | succ k ih =>
    rw [distinctChosen_succ, ih (fun w hw => h w (by omega))]
    have hk := h k (by omega)
    by_cases hkt : k = t
    · have hp : hits k > 0 := hk.mpr hkt
      have h1 : ¬ t < k := by omega
      have h2 : t < k + 1 := by omega
      simp [hp, h1, h2]
    · have hp : ¬ hits k > 0 := fun hc => hkt (hk.mp hc)
      have h1 : (t < k + 1) = (t < k) := by
        apply propext
        constructor <;> intro <;> omega
      simp only [hp, if_false, h1, Nat.add_zero]

theorem distinctChosen_le (n : Nat) (hits : Nat → Nat) : distinctChosen n hits ≤ n := by
  unfold distinctChosen
  calc ((List.range n).filter (fun w => decide (hits w > 0))).length
      ≤ (List.range n).length := List.length_filter_le _ _
    _ = n := List.length_range n

/-- The chosen set after `ResetChosedWorkerList` and a sequence of `AddWorkerToSet` calls
with ids below the worker count. -/
theorem chosen_after_reset (ids : List Nat) (d : LogDispatcher)
    (hids : ∀ id ∈ ids, id < d.pageWorkerCount) :
    ∃ d1, addWorkersToSet ids (ResetChosedWorkerList d) = Res.ok () d1 ∧
      ChosenOnly (ResetChosedWorkerList d) d1 ∧
      (∀ w, w < d.pageWorkerCount → d1.chosedWorkerIds w = ids.count w) ∧
      d1.chosedWorkerCount = distinctChosen d.pageWorkerCount d1.chosedWorkerIds := by
  obtain ⟨d1, hd1, hc1, hhits, hcount⟩ := addWorkersToSet_ok ids (ResetChosedWorkerList d) hids
  refine ⟨d1, hd1, hc1, ?_, ?_⟩
  · intro w hw
    rw [hhits w]
    simp [ResetChosedWorkerList, hw]
  · have h0 : distinctChosen d.pageWorkerCount (ResetChosedWorkerList d).chosedWorkerIds = 0 :=
      distinctChosen_zero_of _ _ (fun w hw => by simp [ResetChosedWorkerList, hw])
    have hn : (ResetChosedWorkerList d).pageWorkerCount = d.pageWorkerCount := rfl
    have hc : (ResetChosedWorkerList d).chosedWorkerCount = 0 := rfl
    rw [hn, h0, hc] at hcount
    omega

theorem count_map_filter (xs : List Nat) (p : Nat → Bool) (f : Nat → Nat) (w : Nat) :
    ((xs.filter p).map f).count w
      = (xs.filter (fun i => p i && decide (f i = w))).length := by
  induction xs with
  | nil => rfl
  | cons x rest ih =>
    by_cases hp : p x = true
    · by_cases hf : f x = w
      · simp [List.filter_cons, hp, hf, ih]
      · simp [List.filter_cons, hp, hf, ih, List.count_cons]
    · simp [List.filter_cons, hp, ih]

theorem blockWorkerIds_lt (env : Env) (record : XLogReaderState) (rd : Bool)
    (d : LogDispatcher) (hn : 0 < d.pageWorkerCount) :
    ∀ id ∈ blockWorkerIds env (some d) record rd, id < d.pageWorkerCount := by
  intro id hid
  obtain ⟨i, _, hi⟩ := List.mem_map.mp hid
  rw [← hi]
  by_cases hrd : rd = true
  · simp only [hrd, if_true]
    exact GetWorkerId_lt env d _ _ _ hn
  · simp only [hrd]
    exact GetWorkerId_lt env d _ _ _ hn

/-- C15: `GetWorkerId` depends on its key and on the page-worker count only.  With a count
above 0 it returns the hash of the key modulo the count, a value below the count; two calls
with the same key and the same count return the same id; with count 0, in particular
without a dispatcher, it returns `ANY_WORKER`. -/
theorem C15_GetWorkerId_hash_mod_count (env : Env) (g g1 : Option LogDispatcher)
    (node : RelFileNode) (block : Nat) (forkNum : Int) :
    (0 < GetPageWorkerCount g →
      GetWorkerId env g node block forkNum
        = env.tag_hash { rnode := node, forkNum := forkNum, blockNum := block }
            % GetPageWorkerCount g ∧
      GetWorkerId env g node block forkNum < GetPageWorkerCount g) ∧
    (GetPageWorkerCount g1 = GetPageWorkerCount g →
      GetWorkerId env g1 node block forkNum = GetWorkerId env g node block forkNum) ∧
    (GetPageWorkerCount g = 0 → GetWorkerId env g node block forkNum = env.ANY_WORKER) ∧
    GetWorkerId env none node block forkNum = env.ANY_WORKER := by
  refine ⟨?_, ?_, ?_, ?_⟩
  · intro hn
    have h0 : GetPageWorkerCount g ≠ 0 := by omega
    simp only [GetWorkerId, h0, if_false, true_and]
    exact Nat.mod_lt _ hn
  · intro h
    exact GetWorkerId_congr env g1 g node block forkNum h
  · intro h
    simp [GetWorkerId, h]
  · simp [GetWorkerId, GetPageWorkerCount]

/-- C15, at block 5 of relation 7 with three page workers. -/
theorem C15_GetWorkerId_hash_mod_count_witness :
    0 < GetPageWorkerCount (some (sampleDispatcher 3)) ∧
    GetWorkerId sampleEnv (some (sampleDispatcher 3))
        { spcNode := 1, dbNode := 1, relNode := 7, bucketNode := -1 } 5 0 = 2 :=
  ⟨by decide,
    ((C15_GetWorkerId_hash_mod_count sampleEnv (some (sampleDispatcher 3))
      (some (sampleDispatcher 3)) { spcNode := 1, dbNode := 1, relNode := 7, bucketNode := -1 }
      5 0).1 (by decide)).1.trans (by decide)⟩


/-- C16, as stated, fails: a record with one block reference in use, block 5 of fork 1 of
relation 7, routed by block over three page workers: the hash of the full page key selects
worker 0, `GetWorkerIds` chooses worker 2, the one the key with fork 0 selects. -/
theorem C16_counterexample :
    (blockAt (sampleForkRecord 10 0 100 7 1 5) 0).in_use = true ∧
    (blockAt (sampleForkRecord 10 0 100 7 1 5) 0).forknum = 1 ∧
    sampleEnv.tag_hash (fullPageTag (blockAt (sampleForkRecord 10 0 100 7 1 5) 0)) % 3 = 0 ∧
    sampleEnv.tag_hash (blockRoutingTag (blockAt (sampleForkRecord 10 0 100 7 1 5) 0)) % 3
      = 2 ∧
    (GetWorkerIds sampleEnv (sampleForkRecord 10 0 100 7 1 5) sampleEnv.ANY_WORKER false
        (ResetChosedWorkerList (sampleDispatcher 3))).hits 3 = some [0, 0, 1] := by
  decide

/-- C16, amended: in block-granularity routing (`GetWorkerIds` with
`rnodedispatch = false`, no designated worker) the worker selected for a block reference in
use is the hash of the key (relation, fork 0, block number) modulo the worker count: the
fork passed to `GetWorkerId` is the constant 0, the block's own fork number takes no part.
After the call on a reset chosen set, the hit count of each worker is the number of block
references in use whose key selects it. -/
theorem C16_block_routing_key (env : Env) (record : XLogReaderState) (d : LogDispatcher)
    (hn : 0 < d.pageWorkerCount) :
    blockWorkerIds env (some d) record false
      = ((List.range (record.max_block_id + 1).toNat).filter
          (fun i => (blockAt record i).in_use)).map
        (fun i => env.tag_hash (blockRoutingTag (blockAt record i)) % d.pageWorkerCount) ∧
    ∃ d1, GetWorkerIds env record env.ANY_WORKER false (ResetChosedWorkerList d)
        = Res.ok () d1 ∧
      ChosenOnly (ResetChosedWorkerList d) d1 ∧
      (∀ w, w < d.pageWorkerCount →
        d1.chosedWorkerIds w
          = ((List.range (record.max_block_id + 1).toNat).filter (fun i =>
              (blockAt record i).in_use &&
              decide (env.tag_hash (blockRoutingTag (blockAt record i)) % d.pageWorkerCount
                = w))).length) ∧
      d1.chosedWorkerCount = distinctChosen d.pageWorkerCount d1.chosedWorkerIds := by
  have h0 : d.pageWorkerCount ≠ 0 := by omega
  have hids : blockWorkerIds env (some d) record false
      = ((List.range (record.max_block_id + 1).toNat).filter
          (fun i => (blockAt record i).in_use)).map
        (fun i => env.tag_hash (blockRoutingTag (blockAt record i)) % d.pageWorkerCount) := by
    simp [blockWorkerIds, GetWorkerId, GetPageWorkerCount, h0, blockRoutingTag]
  refine ⟨hids, ?_⟩
  have hg : blockWorkerIds env (some (ResetChosedWorkerList d)) record false
      = blockWorkerIds env (some d) record false := rfl
  obtain ⟨d1, hd1, hc1, hhits, hcount⟩ := chosen_after_reset
    (blockWorkerIds env (some d) record false) d (blockWorkerIds_lt env record false d hn)
  refine ⟨d1, ?_, hc1, ?_, hcount⟩
  · rw [GetWorkerIds_eq_addWorkers env record false (ResetChosedWorkerList d) hn, hg]
    exact hd1
  · intro w hw
    rw [hhits w hw, hids, count_map_filter]

/-- C16 amended, at the record with block 5 of fork 1 of relation 7 and three page
workers. -/
theorem C16_block_routing_key_witness :
    0 < (sampleDispatcher 3).pageWorkerCount ∧
    blockWorkerIds sampleEnv (some (sampleDispatcher 3)) (sampleForkRecord 10 0 100 7 1 5)
        false
      = ((List.range ((sampleForkRecord 10 0 100 7 1 5).max_block_id + 1).toNat).filter
          (fun i => (blockAt (sampleForkRecord 10 0 100 7 1 5) i).in_use)).map
        (fun i => sampleEnv.tag_hash
          (blockRoutingTag (blockAt (sampleForkRecord 10 0 100 7 1 5) i))
            % (sampleDispatcher 3).pageWorkerCount) :=
  ⟨by decide,
    (C16_block_routing_key sampleEnv (sampleForkRecord 10 0 100 7 1 5) (sampleDispatcher 3)
      (by decide)).1⟩

/-- C17, as stated, fails: a record whose only slot is not in use has no block reference in
use, so its references in use all name one relation (any relation); `GetWorkerIds` skips the
slot, and the chosen set after the call has no worker at all, not exactly one. -/
theorem C17_counterexample :
    (∀ i, i < ((sampleUnusedSlotRecord 10 0 100 7).max_block_id + 1).toNat →
      (blockAt (sampleUnusedSlotRecord 10 0 100 7) i).in_use = true →
      (blockAt (sampleUnusedSlotRecord 10 0 100 7) i).rnode
        = { spcNode := 1, dbNode := 1, relNode := 7, bucketNode := -1 }) ∧
    0 < (sampleDispatcher 3).pageWorkerCount ∧
    ∃ d1, GetWorkerIds sampleEnv (sampleUnusedSlotRecord 10 0 100 7) sampleEnv.ANY_WORKER true
        (ResetChosedWorkerList (sampleDispatcher 3)) = Res.ok () d1 ∧
      (∀ w, w < (sampleDispatcher 3).pageWorkerCount → d1.chosedWorkerIds w = 0) ∧
      distinctChosen (sampleDispatcher 3).pageWorkerCount d1.chosedWorkerIds = 0 ∧
      d1.chosedWorkerCount = 0 :=
  ⟨by decide, by decide, _, rfl, by decide, by decide, rfl⟩

/-- C17, amended: in relation-granularity routing (`GetWorkerIds` with `rnodedispatch = true`, no
designated worker) the id computed for a block reference in use is
`GetWorkerId(rnode, 0, 0)`: it depends on the relation only, not on the block number or the
fork, and it is the worker `DispatchToOnePageWorker` enqueues to for that relation.  For a
record with at least one block reference in use whose references in use all name the
relation `r`, the chosen set after the call has exactly one distinct worker, that one. -/
theorem C17_relation_routing_one_worker (env : Env) (record : XLogReaderState)
    (tlis : List Nat) (d : LogDispatcher) (r : RelFileNode)
    (hn : 0 < d.pageWorkerCount) (hblk : hasInUseBlock record = true)
    (hrel : ∀ i, i < (record.max_block_id + 1).toNat → (blockAt record i).in_use = true →
      (blockAt record i).rnode = r) :
    blockWorkerIds env (some d) record true
      = ((List.range (record.max_block_id + 1).toNat).filter
          (fun i => (blockAt record i).in_use)).map
        (fun i => GetWorkerId env (some d) (blockAt record i).rnode 0 0) ∧
    (∀ id ∈ blockWorkerIds env (some d) record true, id = GetWorkerId env (some d) r 0 0) ∧
    (∃ item, (DispatchToOnePageWorker env record r tlis d).trace
      = d.trace ++ [Event.AddPageRedoItem (GetWorkerId env (some d) r 0 0) item]) ∧
    ∃ d1, GetWorkerIds env record env.ANY_WORKER true (ResetChosedWorkerList d)
        = Res.ok () d1 ∧
      ChosenOnly (ResetChosedWorkerList d) d1 ∧
      (∀ w, w < d.pageWorkerCount →
        (d1.chosedWorkerIds w > 0 ↔ w = GetWorkerId env (some d) r 0 0)) ∧
      distinctChosen d.pageWorkerCount d1.chosedWorkerIds = 1 ∧
      d1.chosedWorkerCount = 1 := by
  have hids : blockWorkerIds env (some d) record true
      = ((List.range (record.max_block_id + 1).toNat).filter
          (fun i => (blockAt record i).in_use)).map
        (fun i => GetWorkerId env (some d) (blockAt record i).rnode 0 0) := by
    simp [blockWorkerIds]
  have hall : ∀ id ∈ blockWorkerIds env (some d) record true,
      id = GetWorkerId env (some d) r 0 0 := by
    intro id hid
    rw [hids] at hid
    obtain ⟨i, hi, he⟩ := List.mem_map.mp hid
    obtain ⟨hi1, hi2⟩ := List.mem_filter.mp hi
    rw [← he, hrel i (List.mem_range.mp hi1) hi2]
  have hmem : GetWorkerId env (some d) r 0 0 ∈ blockWorkerIds env (some d) record true := by
    simp only [hasInUseBlock, List.any_eq_true] at hblk
    obtain ⟨i, hi1, hi2⟩ := hblk
    rw [hids]
    apply List.mem_map.mpr
    refine ⟨i, List.mem_filter.mpr ⟨hi1, hi2⟩, ?_⟩
    rw [hrel i (List.mem_range.mp hi1) hi2]
  refine ⟨hids, hall, ⟨_, by rw [DispatchToOnePageWorker_eq]⟩, ?_⟩
  have hg : blockWorkerIds env (some (ResetChosedWorkerList d)) record true
      = blockWorkerIds env (some d) record true := rfl
  obtain ⟨d1, hd1, hc1, hhits, hcount⟩ := chosen_after_reset
    (blockWorkerIds env (some d) record true) d (blockWorkerIds_lt env record true d hn)
  have hiff : ∀ w, w < d.pageWorkerCount →
      (d1.chosedWorkerIds w > 0 ↔ w = GetWorkerId env (some d) r 0 0) := by
    intro w hw
    rw [hhits w hw]
    constructor
    · intro hp
      exact hall w (List.count_pos_iff.mp hp)
    · intro he
      rw [he]
      exact List.count_pos_iff.mpr hmem
  have hone : distinctChosen d.pageWorkerCount d1.chosedWorkerIds = 1 := by
    rw [distinctChosen_unique _ _ _ hiff, if_pos (GetWorkerId_lt env d r 0 0 hn)]
  refine ⟨d1, ?_, hc1, hiff, hone, by rw [hcount, hone]⟩
  rw [GetWorkerIds_eq_addWorkers env record true (ResetChosedWorkerList d) hn, hg]
  exact hd1

/-- C17 amended, at a record with two block references of relation 7, block 5 of the main
fork and block 9 of fork 1, and three page workers: both references count for the one
worker of the relation. -/
theorem C17_relation_routing_one_worker_witness :
    0 < (sampleDispatcher 3).pageWorkerCount ∧
    hasInUseBlock (sampleTwoBlockRecord 10 0 100 7 5 9) = true ∧
    (∀ i, i < ((sampleTwoBlockRecord 10 0 100 7 5 9).max_block_id + 1).toNat →
      (blockAt (sampleTwoBlockRecord 10 0 100 7 5 9) i).in_use = true →
      (blockAt (sampleTwoBlockRecord 10 0 100 7 5 9) i).rnode
        = { spcNode := 1, dbNode := 1, relNode := 7, bucketNode := -1 }) ∧
    (blockWorkerIds sampleEnv (some (sampleDispatcher 3))
      (sampleTwoBlockRecord 10 0 100 7 5 9) true).length = 2 ∧
    ∃ d1, GetWorkerIds sampleEnv (sampleTwoBlockRecord 10 0 100 7 5 9) sampleEnv.ANY_WORKER
        true (ResetChosedWorkerList (sampleDispatcher 3)) = Res.ok () d1 ∧
      ChosenOnly (ResetChosedWorkerList (sampleDispatcher 3)) d1 ∧
      (∀ w, w < (sampleDispatcher 3).pageWorkerCount →
        (d1.chosedWorkerIds w > 0 ↔
          w = GetWorkerId sampleEnv (some (sampleDispatcher 3))
            { spcNode := 1, dbNode := 1, relNode := 7, bucketNode := -1 } 0 0)) ∧
      distinctChosen (sampleDispatcher 3).pageWorkerCount d1.chosedWorkerIds = 1 ∧
      d1.chosedWorkerCount = 1 :=
  ⟨by decide, by decide, by decide, by decide,
    (C17_relation_routing_one_worker sampleEnv (sampleTwoBlockRecord 10 0 100 7 5 9) []
      (sampleDispatcher 3) { spcNode := 1, dbNode := 1, relNode := 7, bucketNode := -1 }
      (by decide) (by decide) (by decide)).2.2.2⟩

/-- `AddWorkerToSet` on the 32-bit fields, with an id below the worker count: the new
state. -/
theorem AddWorkerToSet_uint32_eq (id : Nat) (d : LogDispatcher) (hid : id < d.pageWorkerCount) :
    AddWorkerToSet_uint32 id d = Res.ok ()
      { d with
        chosedWorkerIds :=
          Function.update d.chosedWorkerIds id ((d.chosedWorkerIds id + 1) % 2 ^ 32),
        chosedWorkerCount :=
          if d.chosedWorkerIds id = 0 then (d.chosedWorkerCount + 1) % 2 ^ 32
          else d.chosedWorkerCount } := by
  have hge : ¬ id ≥ d.pageWorkerCount := by omega
  unfold AddWorkerToSet_uint32
  simp only [hge, if_false]
  by_cases h : d.chosedWorkerIds id = 0 <;> simp [h]

/-- Below the largest value of the two counters the 32-bit step is the step on natural
numbers. -/
theorem AddWorkerToSet_uint32_agrees (id : Nat) (d : LogDispatcher)
    (hhit : d.chosedWorkerIds id + 1 < 2 ^ 32) (hcount : d.chosedWorkerCount + 1 < 2 ^ 32) :
    AddWorkerToSet_uint32 id d = AddWorkerToSet id d := by
  unfold AddWorkerToSet_uint32 AddWorkerToSet
  by_cases hge : id ≥ d.pageWorkerCount
  · simp only [hge, if_true]
  · simp only [hge, if_false]
    by_cases h : d.chosedWorkerIds id = 0
    · simp only [h, if_true, Nat.mod_eq_of_lt hcount]
      rfl
    · simp only [h, if_false, Nat.mod_eq_of_lt hhit]

/-- A sequence of calls in which no hit count reaches 2^32: the 32-bit fields hold the hit
counts of the calls on natural numbers, and the distinct count modulo 2^32. -/
theorem addWorkersToSet_uint32_sim (ids : List Nat) :
    ∀ (d d1 : LogDispatcher), (∀ id ∈ ids, id < d.pageWorkerCount) →
      (∀ w, w < d.pageWorkerCount → d.chosedWorkerIds w + ids.count w < 2 ^ 32) →
      addWorkersToSet ids d = Res.ok () d1 →
      addWorkersToSet_uint32 ids (wrapChosedWorkerCount d)
        = Res.ok () (wrapChosedWorkerCount d1) := by
  induction ids with
  | nil =>
    intro d d1 _ _ h
    have h1 : d1 = d := by
      simp only [addWorkersToSet, forEachRes] at h
      injection h with _ h
      exact h.symm
    rw [h1]
    rfl
  | cons x rest ih =>
    intro d d1 hids hfew h
    have hx : x < d.pageWorkerCount := hids x (List.mem_cons_self _ _)
    have hxw : x < (wrapChosedWorkerCount d).pageWorkerCount := hx
    have hhit : d.chosedWorkerIds x + 1 < 2 ^ 32 := by
      have := hfew x hx
      simp only [List.count_cons_self] at this
      omega
    simp only [addWorkersToSet, forEachRes, AddWorkerToSet_eq x d hx, Res.andThen_ok] at h
    have hstep : AddWorkerToSet_uint32 x (wrapChosedWorkerCount d)
        = Res.ok () (wrapChosedWorkerCount
            { d with
              chosedWorkerIds := Function.update d.chosedWorkerIds x (d.chosedWorkerIds x + 1),
              chosedWorkerCount := d.chosedWorkerCount +
                (if d.chosedWorkerIds x = 0 then 1 else 0) }) := by
      rw [AddWorkerToSet_uint32_eq x _ hxw]
      simp only [wrapChosedWorkerCount, Nat.mod_eq_of_lt hhit]
      by_cases h0 : d.chosedWorkerIds x = 0
      · simp only [h0, if_true, Nat.add_mod_mod, Nat.mod_add_mod]
      · simp only [h0, if_false, Nat.add_zero]
    simp only [addWorkersToSet_uint32, forEachRes, hstep, Res.andThen_ok]
    refine ih _ d1 (fun id hid => hids id (List.mem_cons_of_mem _ hid)) ?_ h
    intro w hw
    have hw1 := hfew w hw
    by_cases hwx : w = x
    · subst hwx
      simp only [Function.update_same, List.count_cons_self] at hw1 ⊢
      omega
    · have hxw2 : ¬ (x = w) := fun hc => hwx hc.symm
      have hb : (x == w) = false := by simpa using hxw2
      simp only [Function.update_noteq hwx, List.count_cons, hb] at hw1 ⊢
      simpa using hw1

/-- The 32-bit fields after `ResetChosedWorkerList` and a sequence of calls in which no id
occurs 2^32 times. -/
theorem chosen_uint32_after_reset (ids : List Nat) (d : LogDispatcher)
    (hids : ∀ id ∈ ids, id < d.pageWorkerCount)
    (hfew : ∀ w, w < d.pageWorkerCount → ids.count w < 2 ^ 32) :
    ∃ d1, addWorkersToSet_uint32 ids (ResetChosedWorkerList d) = Res.ok () d1 ∧
      ChosenOnly (ResetChosedWorkerList d) d1 ∧
      (∀ w, w < d.pageWorkerCount → d1.chosedWorkerIds w = ids.count w) ∧
      d1.chosedWorkerCount = distinctChosen d.pageWorkerCount d1.chosedWorkerIds % 2 ^ 32 := by
  obtain ⟨n1, hn1, hc1, hhits, hcount⟩ := chosen_after_reset ids d hids
  have hsim := addWorkersToSet_uint32_sim ids (ResetChosedWorkerList d) n1 hids
    (fun w hw => by
      have hw1 : w < d.pageWorkerCount := hw
      have h0 : (ResetChosedWorkerList d).chosedWorkerIds w = 0 := by
        simp [ResetChosedWorkerList, hw1]
      rw [h0, Nat.zero_add]
      exact hfew w hw1) hn1
  have hreset : wrapChosedWorkerCount (ResetChosedWorkerList d) = ResetChosedWorkerList d := rfl
  rw [hreset] at hsim
  refine ⟨wrapChosedWorkerCount n1, hsim, ?_, hhits, ?_⟩
  · unfold ChosenOnly at hc1 ⊢
    rw [hc1]
    rfl
  · show n1.chosedWorkerCount % 2 ^ 32 = _
    rw [hcount]
    rfl

/-- A sequence of calls on the 32-bit fields followed by one more call. -/
theorem addWorkersToSet_uint32_concat (ids : List Nat) (id : Nat) (d : LogDispatcher) :
    addWorkersToSet_uint32 (ids ++ [id]) d
      = (addWorkersToSet_uint32 ids d).andThen (fun _ d1 => AddWorkerToSet_uint32 id d1) := by
  induction ids generalizing d with
  | nil =>
    simp only [addWorkersToSet_uint32, List.nil_append, forEachRes, Res.andThen_ok]
    cases AddWorkerToSet_uint32 id d <;> rfl
  | cons x rest ih =>
    simp only [addWorkersToSet_uint32, List.cons_append, forEachRes] at ih ⊢
    cases hx : AddWorkerToSet_uint32 x d with
    | ok u d1 =>
      simp only [Res.andThen_ok]
      exact ih d1
    | panic m t => rfl

/-- After `ResetChosedWorkerList`, 2^32 calls with the id 0 leave the hit count of worker 0
at 0 and the distinct count at 1. -/
theorem wrap_after_reset (d : LogDispatcher) (n : Nat) (hn : n = 2 ^ 32)
    (hpos : 0 < d.pageWorkerCount) :
    ∃ d1, addWorkersToSet_uint32 (List.replicate n 0) (ResetChosedWorkerList d)
        = Res.ok () d1 ∧
      (∀ w, w < d.pageWorkerCount → d1.chosedWorkerIds w = 0) ∧ d1.chosedWorkerCount = 1 := by
  obtain ⟨m, rfl⟩ : ∃ m, n = m + 1 := ⟨n - 1, by rw [hn]; norm_num⟩
  have hm : m + 1 = 2 ^ 32 := hn
  have hids : ∀ id ∈ List.replicate m 0, id < d.pageWorkerCount := by
    intro id hid
    rw [(List.mem_replicate.mp hid).2]
    exact hpos
  have hfew : ∀ w, w < d.pageWorkerCount → (List.replicate m 0).count w < 2 ^ 32 := by
    intro w _
    have := List.count_le_length w (List.replicate m 0)
    rw [List.length_replicate] at this
    omega
  obtain ⟨u, hu, hcu, hhits, hcount⟩ := chosen_uint32_after_reset _ d hids hfew
  have hpw : u.pageWorkerCount = d.pageWorkerCount := hcu.count_eq
  have h0 : u.chosedWorkerIds 0 = m := by
    rw [hhits 0 hpos, List.count_replicate_self]
  have hothers : ∀ w, w < d.pageWorkerCount → w ≠ 0 → u.chosedWorkerIds w = 0 := by
    intro w hw hne
    rw [hhits w hw]
    exact List.count_eq_zero.mpr (fun hmem => hne (List.mem_replicate.mp hmem).2)
  have hdist : distinctChosen d.pageWorkerCount u.chosedWorkerIds = 1 := by
    rw [distinctChosen_unique d.pageWorkerCount 0 u.chosedWorkerIds, if_pos hpos]
    intro w hw
    constructor
    · intro hp
      by_contra hne
      rw [hothers w hw hne] at hp
      exact absurd hp (by decide)
    · intro he
      rw [he, h0]
      have : (0 : Nat) < 2 ^ 32 := by norm_num
      omega
  have hne0 : u.chosedWorkerIds 0 ≠ 0 := by
    rw [h0]
    have : (1 : Nat) < 2 ^ 32 := by norm_num
    omega
  have hres : addWorkersToSet_uint32 (List.replicate (m + 1) 0) (ResetChosedWorkerList d)
      = Res.ok ()
        { u with
          chosedWorkerIds :=
            Function.update u.chosedWorkerIds 0 ((u.chosedWorkerIds 0 + 1) % 2 ^ 32),
          chosedWorkerCount :=
            if u.chosedWorkerIds 0 = 0 then (u.chosedWorkerCount + 1) % 2 ^ 32
            else u.chosedWorkerCount } := by
    rw [List.replicate_succ', addWorkersToSet_uint32_concat, hu, Res.andThen_ok,
      AddWorkerToSet_uint32_eq 0 u (by rw [hpw]; exact hpos)]
  refine ⟨_, hres, ?_, ?_⟩
  · intro w hw
    by_cases hw0 : w = 0
    · subst hw0
      show Function.update u.chosedWorkerIds 0 ((u.chosedWorkerIds 0 + 1) % 2 ^ 32) 0 = 0
      rw [Function.update_same, h0, hm]
      exact Nat.mod_self _
    · show Function.update u.chosedWorkerIds 0 ((u.chosedWorkerIds 0 + 1) % 2 ^ 32) w = 0
      rw [Function.update_noteq hw0]
      exact hothers w hw hw0
  · show (if u.chosedWorkerIds 0 = 0 then (u.chosedWorkerCount + 1) % 2 ^ 32
      else u.chosedWorkerCount) = 1
    rw [if_neg hne0, hcount, hdist]
    norm_num

/-- C18, as stated, fails: after `ResetChosedWorkerList` on a dispatcher with three page
workers, 2^32 calls `AddWorkerToSet(0)` all return and leave `chosedWorkerIds[0] = 0`, not
the number 4294967296 of calls made with the id 0, and `chosedWorkerCount = 1` although no
worker has a hit count above 0: the last of the calls takes the hit count from 4294967295
to 0. -/
theorem C18_counterexample :
    (∀ id ∈ List.replicate (2 ^ 32) 0, id < (sampleDispatcher 3).pageWorkerCount) ∧
    (List.replicate (2 ^ 32) 0).count 0 = 4294967296 ∧
    ∃ d1, addWorkersToSet_uint32 (List.replicate (2 ^ 32) 0)
        (ResetChosedWorkerList (sampleDispatcher 3)) = Res.ok () d1 ∧
      d1.chosedWorkerIds 0 = 0 ∧ d1.chosedWorkerCount = 1 ∧
      distinctChosen (sampleDispatcher 3).pageWorkerCount d1.chosedWorkerIds = 0 := by
  refine ⟨?_, ?_, ?_⟩
  · intro id hid
    rw [(List.mem_replicate.mp hid).2]
    decide
  · rw [List.count_replicate_self]
    norm_num
  · obtain ⟨d1, h1, h2, h3⟩ := wrap_after_reset (sampleDispatcher 3) (2 ^ 32) rfl (by decide)
    exact ⟨d1, h1, h2 0 (by decide), h3, distinctChosen_zero_of _ _ h2⟩

/-- C18, amended: after `ResetChosedWorkerList` and a sequence of `AddWorkerToSet` calls
with ids below `pageWorkerCount` in which no id occurs 2^32 times or more, every call
returns, `chosedWorkerIds[w]` is the number of calls made with id `w`, and
`chosedWorkerCount` is the number of workers `w` with `chosedWorkerIds[w] > 0`, modulo 2^32
(the number itself when `pageWorkerCount` or the number of calls is below 2^32).  One call
adds 1, modulo 2^32, to the hit count of its id, leaves every other hit count alone, and
adds 1, modulo 2^32, to the distinct count exactly when the stored hit count was 0; below
2^32 - 1 both additions are plain. -/
theorem C18_chosen_set_invariant (d : LogDispatcher) (ids : List Nat)
    (hids : ∀ id ∈ ids, id < d.pageWorkerCount)
    (hfew : ∀ w, w < d.pageWorkerCount → ids.count w < 2 ^ 32) :
    (∃ d1, addWorkersToSet_uint32 ids (ResetChosedWorkerList d) = Res.ok () d1 ∧
      ChosenOnly (ResetChosedWorkerList d) d1 ∧
      (∀ w, w < d.pageWorkerCount → d1.chosedWorkerIds w = ids.count w) ∧
      d1.chosedWorkerCount = distinctChosen d.pageWorkerCount d1.chosedWorkerIds % 2 ^ 32 ∧
      (d.pageWorkerCount < 2 ^ 32 ∨ ids.length < 2 ^ 32 →
        d1.chosedWorkerCount = distinctChosen d.pageWorkerCount d1.chosedWorkerIds) ∧
      distinctChosen d.pageWorkerCount d1.chosedWorkerIds ≤ ids.length ∧
      distinctChosen d.pageWorkerCount d1.chosedWorkerIds ≤ d.pageWorkerCount) ∧
    (∀ (id : Nat) (acc : LogDispatcher), id < acc.pageWorkerCount →
      ∃ acc1, AddWorkerToSet_uint32 id acc = Res.ok () acc1 ∧ ChosenOnly acc acc1 ∧
        acc1.chosedWorkerIds id = (acc.chosedWorkerIds id + 1) % 2 ^ 32 ∧
        (∀ w, w ≠ id → acc1.chosedWorkerIds w = acc.chosedWorkerIds w) ∧
        acc1.chosedWorkerCount
          = (if acc.chosedWorkerIds id = 0 then (acc.chosedWorkerCount + 1) % 2 ^ 32
             else acc.chosedWorkerCount) ∧
        (acc.chosedWorkerIds id + 1 < 2 ^ 32 →
          acc1.chosedWorkerIds id = acc.chosedWorkerIds id + 1) ∧
        (acc.chosedWorkerCount + 1 < 2 ^ 32 →
          acc1.chosedWorkerCount
            = acc.chosedWorkerCount + (if acc.chosedWorkerIds id = 0 then 1 else 0))) := by
  constructor
  · obtain ⟨d1, hd1, hc1, hhits, hcount⟩ := chosen_uint32_after_reset ids d hids hfew
    have hlen : distinctChosen d.pageWorkerCount d1.chosedWorkerIds ≤ ids.length := by
      unfold distinctChosen
      have hsub : ∀ w ∈ (List.range d.pageWorkerCount).filter
          (fun w => decide (d1.chosedWorkerIds w > 0)), w ∈ ids := by
        intro w hw
        obtain ⟨hw1, hw2⟩ := List.mem_filter.mp hw
        have hpos : d1.chosedWorkerIds w > 0 := by simpa using hw2
        rw [hhits w (List.mem_range.mp hw1)] at hpos
        exact List.count_pos_iff.mp hpos
      have hnd : ((List.range d.pageWorkerCount).filter
          (fun w => decide (d1.chosedWorkerIds w > 0))).Nodup :=
        (List.nodup_range _).filter _
      exact (List.subperm_of_subset hnd hsub).length_le
    have hle := distinctChosen_le d.pageWorkerCount d1.chosedWorkerIds
    refine ⟨d1, hd1, hc1, hhits, hcount, ?_, hlen, hle⟩
    intro hb
    rw [hcount]
    apply Nat.mod_eq_of_lt
    rcases hb with hb | hb <;> omega
  · intro id acc hid
    refine ⟨_, AddWorkerToSet_uint32_eq id acc hid, ?_, ?_, ?_, rfl, ?_, ?_⟩
    · unfold ChosenOnly
      rfl
    · simp
    · intro w hw
      simp [Function.update, hw]
    · intro hlt
      show Function.update acc.chosedWorkerIds id ((acc.chosedWorkerIds id + 1) % 2 ^ 32) id
        = acc.chosedWorkerIds id + 1
      rw [Function.update_same, Nat.mod_eq_of_lt hlt]
    · intro hlt
      show (if acc.chosedWorkerIds id = 0 then (acc.chosedWorkerCount + 1) % 2 ^ 32
        else acc.chosedWorkerCount) = _
      by_cases h0 : acc.chosedWorkerIds id = 0
      · rw [if_pos h0, if_pos h0, Nat.mod_eq_of_lt hlt]
      · rw [if_neg h0, if_neg h0, Nat.add_zero]

/-- C18 amended, at the calls with ids 0, 2, 0 over three page workers: two hits for worker
0, one for worker 2, two distinct workers. -/
theorem C18_chosen_set_invariant_witness :
    (∀ id ∈ [0, 2, 0], id < (sampleDispatcher 3).pageWorkerCount) ∧
    (∀ w, w < (sampleDispatcher 3).pageWorkerCount → [0, 2, 0].count w < 2 ^ 32) ∧
    ∃ d1, addWorkersToSet_uint32 [0, 2, 0] (ResetChosedWorkerList (sampleDispatcher 3))
        = Res.ok () d1 ∧
      ChosenOnly (ResetChosedWorkerList (sampleDispatcher 3)) d1 ∧
      (∀ w, w < (sampleDispatcher 3).pageWorkerCount →
        d1.chosedWorkerIds w = [0, 2, 0].count w) ∧
      d1.chosedWorkerCount
        = distinctChosen (sampleDispatcher 3).pageWorkerCount d1.chosedWorkerIds % 2 ^ 32 ∧
      d1.chosedWorkerIds 0 = 2 ∧ d1.chosedWorkerIds 1 = 0 ∧ d1.chosedWorkerIds 2 = 1 ∧
      d1.chosedWorkerCount = 2 :=
  let ⟨d1, h1, h2, h3, h4, h5, _⟩ :=
    (C18_chosen_set_invariant (sampleDispatcher 3) [0, 2, 0] (by decide) (by decide)).1
  ⟨by decide, by decide, d1, h1, h2, h3, h4, h3 0 (by decide), h3 1 (by decide),
    h3 2 (by decide), by
      rw [h5 (Or.inl (by decide))]
      unfold distinctChosen
      have e0 : d1.chosedWorkerIds 0 = 2 := h3 0 (by decide)
      have e1 : d1.chosedWorkerIds 1 = 0 := h3 1 (by decide)
      have e2 : d1.chosedWorkerIds 2 = 1 := h3 2 (by decide)
      rw [show List.range (sampleDispatcher 3).pageWorkerCount = [0, 1, 2] from rfl]
      simp [List.filter_cons, e0, e1, e2]⟩

/-! ## Worker start-up -/

theorem GetReadyWorker_foldl (wenv : WorkerEnv) (ts : Nat → Nat) (xs : List Nat) (c : Nat) :
    xs.foldl (fun readyWorkerCnt i =>
        if ts i = wenv.PAGE_REDO_WORKER_READY then readyWorkerCnt + 1 else readyWorkerCnt) c
      = c + (xs.filter (fun i => decide (ts i = wenv.PAGE_REDO_WORKER_READY))).length := by
  induction xs generalizing c with
  | nil => rfl
  | cons x rest ih =>
    by_cases hx : ts x = wenv.PAGE_REDO_WORKER_READY
    · simp only [List.foldl_cons, hx, if_true, ih, List.filter_cons, decide_True,
        List.length_cons]
      omega
    · simp only [List.foldl_cons, hx, if_false, ih, List.filter_cons, decide_False,
        Bool.false_eq_true]

/-- `GetReadyWorker` counts the slots below `totalNum` whose state is READY. -/
theorem GetReadyWorker_eq (wenv : WorkerEnv) (ts : Nat → Nat) (totalNum : Nat) :
    GetReadyWorker wenv ts totalNum
      = ((List.range totalNum).filter
          (fun i => decide (ts i = wenv.PAGE_REDO_WORKER_READY))).length := by
  unfold GetReadyWorker
  rw [GetReadyWorker_foldl]
  omega

theorem GetReadyWorker_le (wenv : WorkerEnv) (ts : Nat → Nat) (totalNum : Nat) :
    GetReadyWorker wenv ts totalNum ≤ totalNum := by
  rw [GetReadyWorker_eq]
  calc ((List.range totalNum).filter
        (fun i => decide (ts i = wenv.PAGE_REDO_WORKER_READY))).length
      ≤ (List.range totalNum).length := List.length_filter_le _ _
    _ = totalNum := List.length_range _

/-- `RearrangeWorkers` writes `pageWorkerCount`, the ready count of its scan, and no other
field of the dispatcher. -/
theorem RearrangeWorkers_dispatcher (wenv : WorkerEnv) (ts : Nat → Nat) (r : Recovery) :
    (RearrangeWorkers wenv ts r).dispatcher
      = { r.dispatcher with pageWorkerCount := GetReadyWorker wenv ts r.totalNum } ∧
    (RearrangeWorkers wenv ts r).totalNum = r.totalNum ∧
    (RearrangeWorkers wenv ts r).state = r.state ∧
    (RearrangeWorkers wenv ts r).scans = r.scans := by
  refine ⟨?_, rfl, rfl, rfl⟩
  rw [GetReadyWorker_eq]
  simp [RearrangeWorkers]

/-- The polling loop runs out of iterations when no poll sees every worker ready. -/
theorem WaitWorkerReady_loop_timeout (wenv : WorkerEnv) (ts : Nat → Nat → Nat)
    (totalNum scans fuel waitLoop : Nat)
    (h : ∀ k, k < fuel → GetReadyWorker wenv (ts (scans + (waitLoop + k))) totalNum ≠ totalNum) :
    WaitWorkerReady_loop wenv ts totalNum scans fuel waitLoop = waitLoop + fuel := by
  induction fuel generalizing waitLoop with
  | zero => rfl
  | succ f ih =>
    have h0 := h 0 (by omega)
    simp only [Nat.add_zero] at h0
    simp only [WaitWorkerReady_loop, h0, if_false]
    rw [ih (waitLoop + 1) (fun k hk => by
      have := h (k + 1) (by omega)
      rwa [show waitLoop + 1 + k = waitLoop + (k + 1) by omega])]
    omega

theorem WaitWorkerReady_loop_le (wenv : WorkerEnv) (ts : Nat → Nat → Nat)
    (totalNum scans fuel waitLoop : Nat) :
    WaitWorkerReady_loop wenv ts totalNum scans fuel waitLoop ≤ waitLoop + fuel := by
  induction fuel generalizing waitLoop with
  | zero => exact Nat.le_refl _
  | succ f ih =>
    simp only [WaitWorkerReady_loop]
    split
    · omega
    · have := ih (waitLoop + 1)
      omega

/-- `WaitWorkerReady` after a timeout with a ready worker. -/
theorem WaitWorkerReady_timeout (wenv : WorkerEnv) (oracle : StartupOracle) (r : Recovery)
    (h : ∀ k, k < MAX_REDO_WAIT_LOOP →
      GetReadyWorker wenv (oracle.threadState (r.scans + (0 + k))) r.totalNum ≠ r.totalNum)
    (hready : GetReadyWorker wenv (oracle.threadState (r.scans + MAX_REDO_WAIT_LOOP))
      r.totalNum ≠ 0) :
    WaitWorkerReady wenv oracle r
      = Except.ok (RearrangeWorkers wenv (oracle.threadState (r.scans + MAX_REDO_WAIT_LOOP + 1))
          { r with state := knl_parallel_redo_state.REDO_STARTING_END,
                   scans := r.scans + MAX_REDO_WAIT_LOOP + 2 }) := by
  unfold WaitWorkerReady
  simp only [WaitWorkerReady_loop_timeout wenv oracle.threadState r.totalNum r.scans
    MAX_REDO_WAIT_LOOP 0 h, Nat.zero_add, Nat.lt_irrefl, if_false, hready, and_false]

/-- What a returning `WaitWorkerReady` leaves: the state `REDO_STARTING_END` and the
rearrangement made with some scan `k` of the thread status list. -/
theorem WaitWorkerReady_inv (wenv : WorkerEnv) (oracle : StartupOracle) (r r2 : Recovery)
    (h : WaitWorkerReady wenv oracle r = Except.ok r2) :
    ∃ k, r2 = RearrangeWorkers wenv (oracle.threadState k)
      { r with state := knl_parallel_redo_state.REDO_STARTING_END, scans := k + 1 } := by
  unfold WaitWorkerReady at h
  simp only [] at h
  generalize (if WaitWorkerReady_loop wenv oracle.threadState r.totalNum r.scans
      MAX_REDO_WAIT_LOOP 0 < MAX_REDO_WAIT_LOOP
    then WaitWorkerReady_loop wenv oracle.threadState r.totalNum r.scans
      MAX_REDO_WAIT_LOOP 0 + 1
    else MAX_REDO_WAIT_LOOP) = polls at h
  split at h
  · cases h
  · injection h with h
    exact ⟨r.scans + polls + 1, h.symm⟩

theorem StartPageRedoWorkers_loop_length (oracle : StartupOracle) (fuel started : Nat)
    (acc : List PageRedoWorker) :
    acc.length ≤ (StartPageRedoWorkers_loop oracle fuel started acc).length ∧
    (StartPageRedoWorkers_loop oracle fuel started acc).length ≤ acc.length + fuel := by
  induction fuel generalizing started acc with
  | zero => exact ⟨Nat.le_refl _, Nat.le_refl _⟩
  | succ f ih =>
    simp only [StartPageRedoWorkers_loop]
    split
    · exact ⟨Nat.le_refl _, by omega⟩
    · rename_i w _
      have := ih (started + 1) (acc ++ [w])
      simp only [List.length_append, List.length_singleton] at this
      exact ⟨by omega, by omega⟩

/-- What a returning `StartPageRedoWorkers` leaves. -/
theorem StartPageRedoWorkers_inv (wenv : WorkerEnv) (oracle : StartupOracle)
    (parallelism : Nat) (r r1 : Recovery)
    (h : StartPageRedoWorkers wenv oracle parallelism r = Except.ok r1) :
    r1.totalNum = r1.dispatcher.totalWorkerCount ∧
    r1.dispatcher.totalWorkerCount = (StartPageRedoWorkers_loop oracle parallelism 0 []).length ∧
    0 < r1.dispatcher.totalWorkerCount ∧ r1.dispatcher.totalWorkerCount ≤ parallelism ∧
    r1.dispatcher.maxItemNum
      = ((r1.dispatcher.totalWorkerCount + 1) * wenv.PAGE_WORK_QUEUE_SIZE *
          ITEM_QUQUE_SIZE_RATIO) % 2 ^ 32 ∧
    r1.state = r.state ∧ r1.txnWorker = r.txnWorker := by
  unfold StartPageRedoWorkers at h
  simp only [] at h
  split at h
  · cases h
  · rename_i hne
    injection h with h
    have hlen := (StartPageRedoWorkers_loop_length oracle parallelism 0 []).2
    simp only [List.length_nil, Nat.zero_add] at hlen
    rw [← h]
    exact ⟨rfl, rfl, Nat.pos_of_ne_zero hne, hlen, rfl, rfl, rfl⟩

/-- The steps of a `StartRecoveryWorkers` call that returns with a dispatcher. -/
theorem StartRecoveryWorkers_inv (env : Env) (wenv : WorkerEnv) (oracle : StartupOracle)
    (r : Recovery) (h : StartRecoveryWorkers env wenv oracle = Except.ok (some r)) :
    env.get_real_recovery_parallelism > 1 ∧
    ∃ r1 r2,
      (if oracle.StartTxnRedoWorker then
          StartPageRedoWorkers wenv oracle env.get_real_recovery_parallelism.toNat
            { dispatcher := (CreateDispatcher env).1, pageWorkers := [],
              txnWorker := oracle.StartTxnRedoWorker, totalNum := 0,
              state := (CreateDispatcher env).2, scans := 0,
              freeHead := [], freeStateHead := [], allocatedRedoItem := [], calls := [], exitCode := 0 }
        else Except.ok
            { dispatcher := (CreateDispatcher env).1, pageWorkers := [],
              txnWorker := oracle.StartTxnRedoWorker, totalNum := 0,
              state := (CreateDispatcher env).2, scans := 0,
              freeHead := [], freeStateHead := [], allocatedRedoItem := [], calls := [], exitCode := 0 }) = Except.ok r1 ∧
      WaitWorkerReady wenv oracle r1 = Except.ok r2 ∧
      r = { r2 with state := knl_parallel_redo_state.REDO_IN_PROGRESS } := by
  unfold StartRecoveryWorkers at h
  by_cases hpar : env.get_real_recovery_parallelism > 1
  · refine ⟨hpar, ?_⟩
    rw [if_pos hpar] at h
    cases hca : CheckAlivePageWorkers wenv oracle with
    | error e =>
      rw [hca] at h
      cases h
    | ok totalNum =>
      have ht : totalNum = 0 := by
        unfold CheckAlivePageWorkers at hca
        split at hca
        · injection hca with h1
          exact h1.symm
        · cases hca
      subst ht
      rw [hca] at h
      dsimp only at h
      cases h1 : (if oracle.StartTxnRedoWorker then
          StartPageRedoWorkers wenv oracle env.get_real_recovery_parallelism.toNat
            { dispatcher := (CreateDispatcher env).1, pageWorkers := [],
              txnWorker := oracle.StartTxnRedoWorker, totalNum := 0,
              state := (CreateDispatcher env).2, scans := 0,
              freeHead := [], freeStateHead := [], allocatedRedoItem := [], calls := [], exitCode := 0 }
        else Except.ok
            { dispatcher := (CreateDispatcher env).1, pageWorkers := [],
              txnWorker := oracle.StartTxnRedoWorker, totalNum := 0,
              state := (CreateDispatcher env).2, scans := 0,
              freeHead := [], freeStateHead := [], allocatedRedoItem := [], calls := [], exitCode := 0 }) with
      | error e =>
        rw [h1] at h
        cases h
      | ok r1 =>
        rw [h1] at h
        dsimp only at h
        cases h2 : WaitWorkerReady wenv oracle r1 with
        | error e =>
          rw [h2] at h
          cases h
        | ok r2 =>
          rw [h2] at h
          dsimp only at h
          injection h with h
          injection h with h
          exact ⟨r1, r2, rfl, h2, h.symm⟩
  · rw [if_neg hpar] at h
    cases h

/-- A `StartRecoveryWorkers` call whose steps return, returns. -/
theorem StartRecoveryWorkers_ok (env : Env) (wenv : WorkerEnv) (oracle : StartupOracle)
    (r1 r2 : Recovery) (hpar : env.get_real_recovery_parallelism > 1)
    (halive : CheckAlivePageWorkers wenv oracle = Except.ok 0)
    (h1 : (if oracle.StartTxnRedoWorker then
          StartPageRedoWorkers wenv oracle env.get_real_recovery_parallelism.toNat
            { dispatcher := (CreateDispatcher env).1, pageWorkers := [],
              txnWorker := oracle.StartTxnRedoWorker, totalNum := 0,
              state := (CreateDispatcher env).2, scans := 0,
              freeHead := [], freeStateHead := [], allocatedRedoItem := [], calls := [], exitCode := 0 }
        else Except.ok
            { dispatcher := (CreateDispatcher env).1, pageWorkers := [],
              txnWorker := oracle.StartTxnRedoWorker, totalNum := 0,
              state := (CreateDispatcher env).2, scans := 0,
              freeHead := [], freeStateHead := [], allocatedRedoItem := [], calls := [], exitCode := 0 }) = Except.ok r1)
    (h2 : WaitWorkerReady wenv oracle r1 = Except.ok r2) :
    StartRecoveryWorkers env wenv oracle
      = Except.ok (some { r2 with state := knl_parallel_redo_state.REDO_IN_PROGRESS }) := by
  unfold StartRecoveryWorkers
  simp only [hpar, if_true, halive, h1, h2]


/-- C19, as stated, fails: a start with recovery parallelism 4 in which all four page
workers are spawned and only two report ready before the timeout returns with
`pageWorkerCount = 2` and `maxItemNum = (4 + 1) * 4096 * 10 = 204800`, not
`(2 + 1) * 4096 * 10 = 122880`. -/
theorem C19_counterexample :
    ∃ r, StartRecoveryWorkers sampleEnv sampleWorkerEnv (sampleStart 2)
        = Except.ok (some r) ∧
      r.dispatcher.pageWorkerCount = 2 ∧ r.dispatcher.totalWorkerCount = 4 ∧
      r.dispatcher.maxItemNum = 204800 ∧
      (r.dispatcher.pageWorkerCount + 1) * sampleWorkerEnv.PAGE_WORK_QUEUE_SIZE *
        ITEM_QUQUE_SIZE_RATIO = 122880 := by
  obtain ⟨r1, h1, ht, hm, htw⟩ : ∃ r1,
      (if (sampleStart 2).StartTxnRedoWorker then
          StartPageRedoWorkers sampleWorkerEnv (sampleStart 2)
            sampleEnv.get_real_recovery_parallelism.toNat
            { dispatcher := (CreateDispatcher sampleEnv).1, pageWorkers := [],
              txnWorker := (sampleStart 2).StartTxnRedoWorker, totalNum := 0,
              state := (CreateDispatcher sampleEnv).2, scans := 0,
              freeHead := [], freeStateHead := [], allocatedRedoItem := [], calls := [], exitCode := 0 }
        else Except.ok
            { dispatcher := (CreateDispatcher sampleEnv).1, pageWorkers := [],
              txnWorker := (sampleStart 2).StartTxnRedoWorker, totalNum := 0,
              state := (CreateDispatcher sampleEnv).2, scans := 0,
              freeHead := [], freeStateHead := [], allocatedRedoItem := [], calls := [], exitCode := 0 }) = Except.ok r1 ∧
      r1.totalNum = 4 ∧ r1.dispatcher.maxItemNum = 204800 ∧
      r1.dispatcher.totalWorkerCount = 4 := ⟨_, rfl, rfl, rfl, rfl⟩
  have hcount : ∀ k, GetReadyWorker sampleWorkerEnv ((sampleStart 2).threadState k) 4 = 2 :=
    fun _ => by
      show GetReadyWorker sampleWorkerEnv (fun i => if i < 2 then 2 else 1) 4 = 2
      decide
  have h2 := WaitWorkerReady_timeout sampleWorkerEnv (sampleStart 2) r1
    (fun k _ => by rw [ht, hcount]; decide) (by rw [ht, hcount]; decide)
  have h3 := StartRecoveryWorkers_ok sampleEnv sampleWorkerEnv (sampleStart 2) r1 _
    (by decide) rfl h1 h2
  refine ⟨_, h3, ?_, ?_, ?_, ?_⟩
  · show (RearrangeWorkers _ _ _).dispatcher.pageWorkerCount = 2
    rw [(RearrangeWorkers_dispatcher _ _ _).1]
    show GetReadyWorker _ _ r1.totalNum = 2
    rw [ht, hcount]
  · show (RearrangeWorkers _ _ _).dispatcher.totalWorkerCount = 4
    rw [(RearrangeWorkers_dispatcher _ _ _).1]
    exact htw
  · show (RearrangeWorkers _ _ _).dispatcher.maxItemNum = 204800
    rw [(RearrangeWorkers_dispatcher _ _ _).1]
    exact hm
  · show ((RearrangeWorkers _ _ _).dispatcher.pageWorkerCount + 1) * _ * _ = 122880
    rw [(RearrangeWorkers_dispatcher _ _ _).1]
    show (GetReadyWorker _ _ r1.totalNum + 1) * _ * _ = 122880
    rw [ht, hcount]
    decide

/-- C19, amended: when `StartRecoveryWorkers` returns with a dispatcher, `maxItemNum` is
`(totalWorkerCount + 1) * PAGE_WORK_QUEUE_SIZE * ITEM_QUQUE_SIZE_RATIO` (as a `uint32`),
where `totalWorkerCount` is the number of page workers spawned, between 1 and the recovery
parallelism; it is set in `StartPageRedoWorkers` and not changed by the rearrangement.
`pageWorkerCount`, the ready count of the rearrangement scan, is at most
`totalWorkerCount`, so the capacity is the claimed one exactly when every spawned worker is
ready.  When the transaction worker did not start, no page worker is spawned and
`maxItemNum` is 0. -/
theorem C19_pool_capacity_by_spawned_workers (env : Env) (wenv : WorkerEnv)
    (oracle : StartupOracle)
    (h : startedDispatcher (StartRecoveryWorkers env wenv oracle) = true) :
    ∃ r, StartRecoveryWorkers env wenv oracle = Except.ok (some r) ∧
      r.state = knl_parallel_redo_state.REDO_IN_PROGRESS ∧
      r.dispatcher.pageWorkerCount ≤ r.dispatcher.totalWorkerCount ∧
      (∃ k, r.dispatcher.pageWorkerCount
        = GetReadyWorker wenv (oracle.threadState k) r.dispatcher.totalWorkerCount) ∧
      (oracle.StartTxnRedoWorker = true →
        0 < r.dispatcher.totalWorkerCount ∧
        r.dispatcher.totalWorkerCount ≤ env.get_real_recovery_parallelism.toNat ∧
        r.dispatcher.totalWorkerCount
          = (StartPageRedoWorkers_loop oracle env.get_real_recovery_parallelism.toNat
              0 []).length ∧
        r.dispatcher.maxItemNum
          = ((r.dispatcher.totalWorkerCount + 1) * wenv.PAGE_WORK_QUEUE_SIZE *
              ITEM_QUQUE_SIZE_RATIO) % 2 ^ 32 ∧
        (r.dispatcher.pageWorkerCount = r.dispatcher.totalWorkerCount →
          r.dispatcher.maxItemNum
            = ((r.dispatcher.pageWorkerCount + 1) * wenv.PAGE_WORK_QUEUE_SIZE *
                ITEM_QUQUE_SIZE_RATIO) % 2 ^ 32)) ∧
      (oracle.StartTxnRedoWorker = false →
        r.dispatcher.maxItemNum = 0 ∧ r.dispatcher.totalWorkerCount = 0 ∧
        r.dispatcher.pageWorkerCount = 0) := by
  cases hres : StartRecoveryWorkers env wenv oracle with
  | error e =>
    rw [hres] at h
    cases h
  | ok o =>
    cases o with
    | none =>
      rw [hres] at h
      cases h
    | some r =>
      obtain ⟨_, r1, r2, h1, h2, hr⟩ := StartRecoveryWorkers_inv env wenv oracle r hres
      obtain ⟨k, hk⟩ := WaitWorkerReady_inv wenv oracle r1 r2 h2
      have hd : r.dispatcher
          = { r1.dispatcher with
              pageWorkerCount := GetReadyWorker wenv (oracle.threadState k) r1.totalNum } := by
        rw [hr, hk]
        exact (RearrangeWorkers_dispatcher _ _ _).1
      have hpw : r.dispatcher.pageWorkerCount
          = GetReadyWorker wenv (oracle.threadState k) r1.totalNum := by rw [hd]
      have htw : r.dispatcher.totalWorkerCount = r1.dispatcher.totalWorkerCount := by rw [hd]
      have hmx : r.dispatcher.maxItemNum = r1.dispatcher.maxItemNum := by rw [hd]
      have hle := GetReadyWorker_le wenv (oracle.threadState k) r1.totalNum
      cases htxn : oracle.StartTxnRedoWorker with
      | true =>
        rw [htxn] at h1
        simp only [if_true] at h1
        obtain ⟨ht, hloop, hpos, hpar, hmax, _, _⟩ := StartPageRedoWorkers_inv _ _ _ _ _ h1
        rw [ht] at hle hpw
        refine ⟨r, rfl, by rw [hr], ?_, ⟨k, ?_⟩, ?_, (fun hc => by cases hc)⟩
        · rw [hpw, htw]
          exact hle
        · rw [hpw, htw]
        · intro _
          rw [hmx, htw]
          refine ⟨hpos, hpar, hloop, hmax, ?_⟩
          intro heq
          rw [heq]
          exact hmax
      | false =>
        rw [htxn] at h1
        simp only [Bool.false_eq_true, if_false] at h1
        injection h1 with h1
        have ht : r1.totalNum = 0 := by rw [← h1]
        have hm : r1.dispatcher.maxItemNum = 0 := by rw [← h1]; rfl
        have ht1 : r1.dispatcher.totalWorkerCount = 0 := by rw [← h1]; rfl
        rw [ht] at hle hpw
        have hz : GetReadyWorker wenv (oracle.threadState k) 0 = 0 := by omega
        refine ⟨r, rfl, by rw [hr], ?_, ⟨k, ?_⟩, (fun hc => by cases hc), (fun _ => ?_)⟩
        · rw [hpw, htw, ht1, hz]
        · rw [hpw, htw, ht1]
        · rw [hmx, htw, hpw]
          exact ⟨hm, ht1, hz⟩

/-- C19 amended, at a start with recovery parallelism 4 in which all four page workers
report ready at once. -/
theorem C19_pool_capacity_by_spawned_workers_witness :
    startedDispatcher (StartRecoveryWorkers sampleEnv sampleWorkerEnv (sampleStart 4)) = true ∧
    ∃ r, StartRecoveryWorkers sampleEnv sampleWorkerEnv (sampleStart 4)
        = Except.ok (some r) ∧
      r.state = knl_parallel_redo_state.REDO_IN_PROGRESS ∧
      r.dispatcher.pageWorkerCount ≤ r.dispatcher.totalWorkerCount :=
  ⟨by decide,
    let ⟨r, h1, h2, h3, _⟩ := C19_pool_capacity_by_spawned_workers sampleEnv sampleWorkerEnv
      (sampleStart 4) (by decide)
    ⟨r, h1, h2, h3⟩⟩


/-! ## The Redo Item Pool -/

/-- One iteration of `GetXlogReader`: it allocates exactly when both free lists are empty,
`curItemNum < maxItemNum` and `palloc_extended` delivers; then `curItemNum` grows by 1 and
the new item heads the inventory; otherwise both are unchanged.  `maxItemNum` is never
written.  No item is returned exactly when both free lists are empty and nothing was
allocated. -/
theorem GetXlogReader_iteration_spec (wenv : WorkerEnv) (ok : Bool) (count : Nat)
    (r : Recovery) :
    (GetXlogReader_iteration wenv ok count r).2.2.2.dispatcher.maxItemNum
      = r.dispatcher.maxItemNum ∧
    (GetXlogReader_iteration wenv ok count r).2.2.2.dispatcher.curItemNum
      = r.dispatcher.curItemNum +
        (if r.freeStateHead = [] ∧ r.freeHead = [] ∧
            r.dispatcher.curItemNum < r.dispatcher.maxItemNum ∧ ok = true then 1 else 0) ∧
    (GetXlogReader_iteration wenv ok count r).2.2.2.allocatedRedoItem
      = (if r.freeStateHead = [] ∧ r.freeHead = [] ∧
            r.dispatcher.curItemNum < r.dispatcher.maxItemNum ∧ ok = true
          then r.dispatcher.curItemNum :: r.allocatedRedoItem else r.allocatedRedoItem) ∧
    ((GetXlogReader_iteration wenv ok count r).1 = none ↔
      r.freeStateHead = [] ∧ r.freeHead = [] ∧
        ¬ (r.dispatcher.curItemNum < r.dispatcher.maxItemNum ∧ ok = true)) ∧
    (r.freeStateHead = [] ∧ r.freeHead = [] ∧
        r.dispatcher.curItemNum < r.dispatcher.maxItemNum ∧ ok = true →
      (GetXlogReader_iteration wenv ok count r).1 = some r.dispatcher.curItemNum ∧
      (GetXlogReader_iteration wenv ok count r).2.1 = true) := by
  unfold GetXlogReader_iteration
  cases hfs : r.freeStateHead with
  | cons item rest => simp
  | nil =>
    cases hfh : r.freeHead with
    | cons item rest =>
      simp only []
      split_ifs <;> simp_all [DumpDispatcher]
    | nil =>
      by_cases hlt : r.dispatcher.maxItemNum > r.dispatcher.curItemNum
      · cases ok with
        | true =>
          simp only [hlt, if_true]
          split_ifs <;> simp_all [DumpDispatcher]
        | false =>
          simp only [hlt, if_true]
          split_ifs <;> simp_all [DumpDispatcher]
      · simp only [hlt, if_false]
        split_ifs <;> simp_all [DumpDispatcher]


/-- An iteration that returns no item ends with the calls `ProcessTrxnRecords(false)` and
`HandleStartupProcInterrupts()`. -/
theorem GetXlogReader_iteration_calls (wenv : WorkerEnv) (ok : Bool) (count : Nat)
    (r : Recovery) (h : (GetXlogReader_iteration wenv ok count r).1 = none) :
    ∃ warn, (GetXlogReader_iteration wenv ok count r).2.2.2.calls
      = r.calls ++ warn ++
        [PoolCall.ProcessTrxnRecords false, PoolCall.HandleStartupProcInterrupts] ∧
      (GetXlogReader_iteration wenv ok count r).2.2.1 = (count + 1) % 2 ^ 64 := by
  have hnone := ((GetXlogReader_iteration_spec wenv ok count r).2.2.2.1.mp h)
  obtain ⟨hfs, hfh, hno⟩ := hnone
  have hcase : ¬ (r.dispatcher.maxItemNum > r.dispatcher.curItemNum ∧ ok = true) :=
    fun hc => hno hc
  unfold GetXlogReader_iteration
  rw [hfs, hfh]
  by_cases hlt : r.dispatcher.maxItemNum > r.dispatcher.curItemNum
  · have hok : ok = false := by
      cases ok with
      | true => exact absurd ⟨hlt, rfl⟩ hcase
      | false => rfl
    subst hok
    simp only [hlt, if_true, Bool.false_eq_true, if_false]
    split_ifs <;> first
      | (refine ⟨[PoolCall.WARNING_GetXlogReader_Allocated_record_buffer_failed
          r.dispatcher.curItemNum r.dispatcher.maxItemNum], ?_, ?_⟩
         · simp
         · trivial)
      | (refine ⟨[], ?_, ?_⟩
         · simp
         · trivial)
  · simp only [hlt, if_false]
    split_ifs <;> first
      | (refine ⟨[PoolCall.WARNING_GetXlogReader_Allocated_record_buffer_failed
          r.dispatcher.curItemNum r.dispatcher.maxItemNum], ?_, ?_⟩
         · simp
         · trivial)
      | (refine ⟨[], ?_, ?_⟩
         · simp
         · trivial)

theorem FreeRedoItem_foldl (items : List Nat) (r : Recovery) :
    (items.foldl (fun acc item => FreeRedoItem item acc) r).dispatcher = r.dispatcher ∧
    (items.foldl (fun acc item => FreeRedoItem item acc) r).allocatedRedoItem
      = r.allocatedRedoItem ∧
    (items.foldl (fun acc item => FreeRedoItem item acc) r).freeStateHead
      = r.freeStateHead := by
  induction items generalizing r with
  | nil => exact ⟨rfl, rfl, rfl⟩
  | cons x rest ih =>
    simp only [List.foldl_cons]
    obtain ⟨h1, h2, h3⟩ := ih (FreeRedoItem x r)
    exact ⟨h1, h2, h3⟩

/-- However long the loop of `GetXlogReader` runs and whatever the workers release
meanwhile, `maxItemNum` is unchanged, `curItemNum` does not fall, and a state with
`curItemNum <= maxItemNum` is left in such a state. -/
theorem GetXlogReader_loop_bounded (wenv : WorkerEnv) (oracle : PoolOracle)
    (fuel k count : Nat) (r : Recovery) :
    (GetXlogReader_loop wenv oracle fuel k count r).2.dispatcher.maxItemNum
      = r.dispatcher.maxItemNum ∧
    r.dispatcher.curItemNum
      ≤ (GetXlogReader_loop wenv oracle fuel k count r).2.dispatcher.curItemNum ∧
    (r.dispatcher.curItemNum ≤ r.dispatcher.maxItemNum →
      (GetXlogReader_loop wenv oracle fuel k count r).2.dispatcher.curItemNum
        ≤ r.dispatcher.maxItemNum) := by
  induction fuel generalizing k count r with
  | zero => exact ⟨rfl, Nat.le_refl _, fun h => h⟩
  | succ f ih =>
    obtain ⟨hd, _, _⟩ := FreeRedoItem_foldl (oracle.released k) r
    obtain ⟨hmax, hcur, _, _, _⟩ := GetXlogReader_iteration_spec wenv (oracle.palloc_extended k)
      count ((oracle.released k).foldl (fun acc item => FreeRedoItem item acc) r)
    rw [hd] at hmax hcur
    have hstep : r.dispatcher.curItemNum ≤ r.dispatcher.maxItemNum →
        (GetXlogReader_iteration wenv (oracle.palloc_extended k) count
          ((oracle.released k).foldl (fun acc item => FreeRedoItem item acc)
            r)).2.2.2.dispatcher.curItemNum ≤ r.dispatcher.maxItemNum := by
      intro hle
      rw [hcur]
      split
      · rename_i hc
        have := hc.2.2.1
        omega
      · omega
    have hmono : r.dispatcher.curItemNum ≤
        (GetXlogReader_iteration wenv (oracle.palloc_extended k) count
          ((oracle.released k).foldl (fun acc item => FreeRedoItem item acc)
            r)).2.2.2.dispatcher.curItemNum := by
      rw [hcur]
      omega
    simp only [GetXlogReader_loop]
    split
    · exact ⟨hmax, hmono, hstep⟩
    · obtain ⟨i1, i2, i3⟩ := ih (k + 1)
        (GetXlogReader_iteration wenv (oracle.palloc_extended k) count
          ((oracle.released k).foldl (fun acc item => FreeRedoItem item acc) r)).2.2.1
        (GetXlogReader_iteration wenv (oracle.palloc_extended k) count
          ((oracle.released k).foldl (fun acc item => FreeRedoItem item acc) r)).2.2.2
      rw [hmax] at i1 i3
      exact ⟨i1, Nat.le_trans hmono i2, fun hle => i3 (hstep hle)⟩

/-- A sequence of pool steps keeps `maxItemNum` and the bound `curItemNum <= maxItemNum`. -/
theorem poolRun_bounded (wenv : WorkerEnv) (steps : List PoolStep) (r : Recovery)
    (h : r.dispatcher.curItemNum ≤ r.dispatcher.maxItemNum) :
    (poolRun wenv steps r).dispatcher.maxItemNum = r.dispatcher.maxItemNum ∧
    (poolRun wenv steps r).dispatcher.curItemNum ≤ r.dispatcher.maxItemNum := by
  induction steps generalizing r with
  | nil => exact ⟨rfl, h⟩
  | cons s rest ih =>
    cases s with
    | acquire oracle fuel =>
      obtain ⟨h1, _, h3⟩ := GetXlogReader_loop_bounded wenv oracle fuel 0 0 r
      have := ih (GetXlogReader wenv oracle fuel r).2 (by
        unfold GetXlogReader
        rw [h1]
        exact h3 h)
      unfold GetXlogReader at this
      rw [h1] at this
      exact this
    | release item => exact ih (FreeRedoItem item r) h

/-- C20: starting from `curItemNum = 0`, `curItemNum <= maxItemNum` holds after every
`GetXlogReader` call, whatever the workers release between and during the calls, and
`maxItemNum` is not changed.  An iteration of the loop allocates exactly when both free
lists are empty, `curItemNum < maxItemNum` and `palloc_extended` delivers an item, and then
adds exactly 1 to `curItemNum`.  With both free lists empty and
`curItemNum >= maxItemNum` an iteration returns no item, leaves `curItemNum` and the
inventory alone, calls `ProcessTrxnRecords(false)` and `HandleStartupProcInterrupts()`, and
the loop goes on with its next iteration. -/
theorem C20_pool_bounded (wenv : WorkerEnv) (r : Recovery)
    (h0 : r.dispatcher.curItemNum = 0) :
    (∀ steps : List PoolStep,
      (poolRun wenv steps r).dispatcher.curItemNum
        ≤ (poolRun wenv steps r).dispatcher.maxItemNum ∧
      (poolRun wenv steps r).dispatcher.maxItemNum = r.dispatcher.maxItemNum) ∧
    (∀ (oracle : PoolOracle) (fuel : Nat) (p : Recovery),
      p.dispatcher.curItemNum ≤ p.dispatcher.maxItemNum →
      (GetXlogReader wenv oracle fuel p).2.dispatcher.curItemNum
        ≤ (GetXlogReader wenv oracle fuel p).2.dispatcher.maxItemNum) ∧
    (∀ (ok : Bool) (count : Nat) (p : Recovery),
      (GetXlogReader_iteration wenv ok count p).2.2.2.dispatcher.curItemNum
        = p.dispatcher.curItemNum +
          (if p.freeStateHead = [] ∧ p.freeHead = [] ∧
              p.dispatcher.curItemNum < p.dispatcher.maxItemNum ∧ ok = true then 1 else 0) ∧
      (GetXlogReader_iteration wenv ok count p).2.2.2.allocatedRedoItem
        = (if p.freeStateHead = [] ∧ p.freeHead = [] ∧
              p.dispatcher.curItemNum < p.dispatcher.maxItemNum ∧ ok = true
            then p.dispatcher.curItemNum :: p.allocatedRedoItem else p.allocatedRedoItem)) ∧
    (∀ (ok : Bool) (count : Nat) (p : Recovery),
      p.freeStateHead = [] → p.freeHead = [] →
      p.dispatcher.curItemNum ≥ p.dispatcher.maxItemNum →
      (GetXlogReader_iteration wenv ok count p).1 = none ∧
      (GetXlogReader_iteration wenv ok count p).2.2.2.dispatcher.curItemNum
        = p.dispatcher.curItemNum ∧
      (GetXlogReader_iteration wenv ok count p).2.2.2.allocatedRedoItem
        = p.allocatedRedoItem ∧
      (∃ warn, (GetXlogReader_iteration wenv ok count p).2.2.2.calls
        = p.calls ++ warn ++
          [PoolCall.ProcessTrxnRecords false, PoolCall.HandleStartupProcInterrupts]) ∧
      (∀ (oracle : PoolOracle) (fuel k : Nat),
        oracle.released k = [] → oracle.palloc_extended k = ok →
        GetXlogReader_loop wenv oracle (fuel + 1) k count p
          = GetXlogReader_loop wenv oracle fuel (k + 1) ((count + 1) % 2 ^ 64)
              (GetXlogReader_iteration wenv ok count p).2.2.2)) := by
  refine ⟨?_, ?_, ?_, ?_⟩
  · intro steps
    obtain ⟨h1, h2⟩ := poolRun_bounded wenv steps r (by omega)
    exact ⟨by rw [h1]; exact h2, h1⟩
  · intro oracle fuel p hp
    obtain ⟨h1, _, h3⟩ := GetXlogReader_loop_bounded wenv oracle fuel 0 0 p
    unfold GetXlogReader
    rw [h1]
    exact h3 hp
  · intro ok count p
    obtain ⟨_, h2, h3, _, _⟩ := GetXlogReader_iteration_spec wenv ok count p
    exact ⟨h2, h3⟩
  · intro ok count p hfs hfh hsat
    obtain ⟨_, h2, h3, h4, _⟩ := GetXlogReader_iteration_spec wenv ok count p
    have hno : ¬ (p.freeStateHead = [] ∧ p.freeHead = [] ∧
        p.dispatcher.curItemNum < p.dispatcher.maxItemNum ∧ ok = true) := by
      intro hc
      have := hc.2.2.1
      omega
    have hnone : (GetXlogReader_iteration wenv ok count p).1 = none :=
      h4.mpr ⟨hfs, hfh, fun hc => by have := hc.1; omega⟩
    obtain ⟨warn, hcalls, hcount⟩ := GetXlogReader_iteration_calls wenv ok count p hnone
    refine ⟨hnone, ?_, ?_, ⟨warn, hcalls⟩, ?_⟩
    · rw [h2, if_neg hno]
      omega
    · rw [h3, if_neg hno]
    · intro oracle fuel k hrel hok
      simp only [GetXlogReader_loop, hrel, List.foldl_nil, hok, hnone, hcount]

/-- C20, at a pool of capacity 2: two allocations, a call that finds the pool saturated
and is still looping after three iterations, two releases and two more calls. -/
theorem C20_pool_bounded_witness :
    (samplePool 2).dispatcher.curItemNum = 0 ∧
    (poolRun sampleWorkerEnv
        [PoolStep.acquire sampleQuiet 5, PoolStep.acquire sampleQuiet 5,
          PoolStep.acquire sampleQuiet 3, PoolStep.release 1, PoolStep.release 0,
          PoolStep.acquire sampleQuiet 5, PoolStep.acquire sampleQuiet 5]
        (samplePool 2)).dispatcher.curItemNum
      ≤ (poolRun sampleWorkerEnv
        [PoolStep.acquire sampleQuiet 5, PoolStep.acquire sampleQuiet 5,
          PoolStep.acquire sampleQuiet 3, PoolStep.release 1, PoolStep.release 0,
          PoolStep.acquire sampleQuiet 5, PoolStep.acquire sampleQuiet 5]
        (samplePool 2)).dispatcher.maxItemNum :=
  ⟨rfl,
    ((C20_pool_bounded sampleWorkerEnv (samplePool 2) rfl).1
      [PoolStep.acquire sampleQuiet 5, PoolStep.acquire sampleQuiet 5,
        PoolStep.acquire sampleQuiet 3, PoolStep.release 1, PoolStep.release 0,
        PoolStep.acquire sampleQuiet 5, PoolStep.acquire sampleQuiet 5]).1⟩


/-! ## Claims C21 to C30 -/

/-- The iteration of `GetXlogReader` that finds the local free list empty and the shared
one not. -/
theorem GetXlogReader_iteration_shared (wenv : WorkerEnv) (ok : Bool) (count : Nat)
    (r : Recovery) (item : Nat) (rest : List Nat)
    (hfs : r.freeStateHead = []) (hfh : r.freeHead = item :: rest) :
    (GetXlogReader_iteration wenv ok count r).1 = some item ∧
    (GetXlogReader_iteration wenv ok count r).2.1 = false ∧
    (GetXlogReader_iteration wenv ok count r).2.2.2.freeHead = [] ∧
    (GetXlogReader_iteration wenv ok count r).2.2.2.freeStateHead = rest := by
  unfold GetXlogReader_iteration
  rw [hfs, hfh]
  simp only []
  split_ifs <;> simp_all

/-- C21: an iteration of the loop of `GetXlogReader` with a non-empty local free list
(`freeStateHead`) returns the head of that list, advances the list by one and changes
nothing else, so the shared free list (`freeHead`), the inventory and `curItemNum` are as
before.  With the local list empty and the shared list non-empty it empties the shared list
(`freeHead` becomes `NULL`), returns its head and keeps the remainder as the local list,
without touching the inventory or `curItemNum`.  A new item is allocated, and then returned
with `isNew`, only when both lists are empty.  A call returns with the first iteration in
the first two cases. -/
theorem C21_acquire_order (wenv : WorkerEnv) (ok : Bool) (count : Nat) (r : Recovery) :
    (∀ item rest, r.freeStateHead = item :: rest →
      GetXlogReader_iteration wenv ok count r
        = (some item, false, count, { r with freeStateHead := rest }) ∧
      ∀ (oracle : PoolOracle) (fuel : Nat), oracle.released 0 = [] →
        GetXlogReader wenv oracle (fuel + 1) r
          = (some (item, false), { r with freeStateHead := rest })) ∧
    (∀ item rest, r.freeStateHead = [] → r.freeHead = item :: rest →
      (GetXlogReader_iteration wenv ok count r).1 = some item ∧
      (GetXlogReader_iteration wenv ok count r).2.1 = false ∧
      (GetXlogReader_iteration wenv ok count r).2.2.2.freeHead = [] ∧
      (GetXlogReader_iteration wenv ok count r).2.2.2.freeStateHead = rest ∧
      (GetXlogReader_iteration wenv ok count r).2.2.2.allocatedRedoItem
        = r.allocatedRedoItem ∧
      (GetXlogReader_iteration wenv ok count r).2.2.2.dispatcher.curItemNum
        = r.dispatcher.curItemNum ∧
      ∀ (oracle : PoolOracle) (fuel : Nat), oracle.released 0 = [] →
        oracle.palloc_extended 0 = ok → count = 0 →
        (GetXlogReader wenv oracle (fuel + 1) r).1 = some (item, false) ∧
        (GetXlogReader wenv oracle (fuel + 1) r).2.freeHead = [] ∧
        (GetXlogReader wenv oracle (fuel + 1) r).2.freeStateHead = rest) ∧
    ((GetXlogReader_iteration wenv ok count r).2.2.2.allocatedRedoItem
        ≠ r.allocatedRedoItem ∨
      (GetXlogReader_iteration wenv ok count r).2.2.2.dispatcher.curItemNum
        ≠ r.dispatcher.curItemNum ∨
      (GetXlogReader_iteration wenv ok count r).2.1 = true →
      r.freeStateHead = [] ∧ r.freeHead = [] ∧
      (GetXlogReader_iteration wenv ok count r).1 = some r.dispatcher.curItemNum ∧
      (GetXlogReader_iteration wenv ok count r).2.2.2.allocatedRedoItem
        = r.dispatcher.curItemNum :: r.allocatedRedoItem ∧
      (GetXlogReader_iteration wenv ok count r).2.2.2.dispatcher.curItemNum
        = r.dispatcher.curItemNum + 1) := by
  obtain ⟨_, hcur, halloc, _, hnew⟩ := GetXlogReader_iteration_spec wenv ok count r
  refine ⟨?_, ?_, ?_⟩
  · intro item rest hfs
    have hit : GetXlogReader_iteration wenv ok count r
        = (some item, false, count, { r with freeStateHead := rest }) := by
      unfold GetXlogReader_iteration
      rw [hfs]
    refine ⟨hit, ?_⟩
    intro oracle fuel hrel
    have hit0 : GetXlogReader_iteration wenv (oracle.palloc_extended 0) 0 r
        = (some item, false, 0, { r with freeStateHead := rest }) := by
      unfold GetXlogReader_iteration
      rw [hfs]
    simp only [GetXlogReader, GetXlogReader_loop, hrel, List.foldl_nil, hit0]
  · intro item rest hfs hfh
    obtain ⟨h1, h2, h3, h4⟩ := GetXlogReader_iteration_shared wenv ok count r item rest hfs hfh
    have hno : ¬ (r.freeStateHead = [] ∧ r.freeHead = [] ∧
        r.dispatcher.curItemNum < r.dispatcher.maxItemNum ∧ ok = true) := by
      intro hc
      rw [hfh] at hc
      exact absurd hc.2.1 (by simp)
    refine ⟨h1, h2, h3, h4, ?_, ?_, ?_⟩
    · rw [halloc, if_neg hno]
    · rw [hcur, if_neg hno]
      omega
    · intro oracle fuel hrel hok hcount
      subst hok
      subst hcount
      simp only [GetXlogReader, GetXlogReader_loop, hrel, List.foldl_nil, h1, h2]
      exact ⟨trivial, h3, h4⟩
  · intro hch
    by_cases hc : r.freeStateHead = [] ∧ r.freeHead = [] ∧
        r.dispatcher.curItemNum < r.dispatcher.maxItemNum ∧ ok = true
    · refine ⟨hc.1, hc.2.1, (hnew hc).1, ?_, ?_⟩
      · rw [halloc, if_pos hc]
      · rw [hcur, if_pos hc]
    · exfalso
      rw [halloc, hcur, if_neg hc, if_neg hc] at hch
      rcases hch with h | h | h
      · exact h rfl
      · exact h (by omega)
      · have hisnew : (GetXlogReader_iteration wenv ok count r).2.1 = false := by
          unfold GetXlogReader_iteration
          cases hfs : r.freeStateHead with
          | cons item rest => rfl
          | nil =>
            cases hfh : r.freeHead with
            | cons item rest => rfl
            | nil =>
              have hno : ¬ (r.dispatcher.maxItemNum > r.dispatcher.curItemNum ∧ ok = true) :=
                fun hx => hc ⟨hfs, hfh, hx.1, hx.2⟩
              by_cases hlt : r.dispatcher.maxItemNum > r.dispatcher.curItemNum
              · have hok : ok = false := by
                  cases ok with
                  | true => exact absurd ⟨hlt, rfl⟩ hno
                  | false => rfl
                simp only [hlt, if_true, hok, Bool.false_eq_true, if_false]
              · simp only [hlt, if_false]
        rw [hisnew] at h
        cases h

/-- C21, at a pool with the local free list `[4, 5]` and the shared free list `[6]`. -/
theorem C21_acquire_order_witness :
    ({ samplePool 8 with freeStateHead := [4, 5], freeHead := [6] } : Recovery).freeStateHead
      = 4 :: [5] ∧
    GetXlogReader sampleWorkerEnv sampleQuiet (0 + 1)
        { samplePool 8 with freeStateHead := [4, 5], freeHead := [6] }
      = (some (4, false),
          { ({ samplePool 8 with freeStateHead := [4, 5], freeHead := [6] } : Recovery) with
            freeStateHead := [5] }) :=
  ⟨rfl,
    ((C21_acquire_order sampleWorkerEnv true 0
      { samplePool 8 with freeStateHead := [4, 5], freeHead := [6] }).1 4 [5] rfl).2
      sampleQuiet 0 rfl⟩


theorem map_range_getD {α : Type} (l : List α) (d : α) :
    (List.range l.length).map (fun i => l.getD i d) = l := by
  apply List.ext_getElem
  · simp
  · intro n h1 h2
    simp [List.getElem?_eq_getElem h2]

theorem map_range_getD_take {α : Type} (l : List α) (d : α) (n : Nat) (h : n ≤ l.length) :
    (List.range n).map (fun i => l.getD i d) = l.take n := by
  apply List.ext_getElem
  · simp [Nat.min_eq_left h]
  · intro i h1 h2
    have hi : i < l.length := by
      simp at h1
      omega
    simp [List.getElem?_eq_getElem hi]

/-- The worker array `RearrangeWorkers` leaves. -/
theorem RearrangeWorkers_pageWorkers (wenv : WorkerEnv) (ts : Nat → Nat) (r : Recovery) :
    (RearrangeWorkers wenv ts r).pageWorkers
      = (List.range (readySlots wenv ts r.totalNum).length).map
          (fun i => { ((readySlots wenv ts r.totalNum).map
            (fun j => r.pageWorkers.getD j default)).getD i default with id := i }) ++
        (unreadySlots wenv ts r.totalNum).map (fun j => r.pageWorkers.getD j default) ++
        r.pageWorkers.drop r.totalNum := by
  simp [RearrangeWorkers, readySlots, unreadySlots]

theorem mem_readySlots (wenv : WorkerEnv) (ts : Nat → Nat) (totalNum j : Nat) :
    j ∈ readySlots wenv ts totalNum ↔ j < totalNum ∧ ts j = wenv.PAGE_REDO_WORKER_READY := by
  simp [readySlots, List.mem_filter]

theorem readySlots_length (wenv : WorkerEnv) (ts : Nat → Nat) (totalNum : Nat) :
    (readySlots wenv ts totalNum).length = GetReadyWorker wenv ts totalNum := by
  rw [GetReadyWorker_eq]
  rfl

/-- The slots split into the ready ones and the others. -/
theorem slots_perm (wenv : WorkerEnv) (ts : Nat → Nat) (totalNum : Nat) :
    (readySlots wenv ts totalNum ++ unreadySlots wenv ts totalNum).Perm
      (List.range totalNum) := by
  have h := List.filter_append_perm
    (fun i => decide (ts i = wenv.PAGE_REDO_WORKER_READY)) (List.range totalNum)
  have hu : unreadySlots wenv ts totalNum
      = (List.range totalNum).filter
          (fun i => !decide (ts i = wenv.PAGE_REDO_WORKER_READY)) := by
    unfold unreadySlots
    congr 1
    funext i
    simp
  rw [hu]
  exact h

theorem slots_length (wenv : WorkerEnv) (ts : Nat → Nat) (totalNum : Nat) :
    (readySlots wenv ts totalNum).length + (unreadySlots wenv ts totalNum).length
      = totalNum := by
  have h := (slots_perm wenv ts totalNum).length_eq
  simpa using h

/-- C23: after `RearrangeWorkers`, `pageWorkerCount` is the number of slots below
`totalNum` whose state read READY, and for every `i < pageWorkerCount` the entry
`pageWorkers[i]` is the worker of the `i`-th ready slot, with its `id` set to `i`: the ready
workers have the ids `0 .. pageWorkerCount - 1`. -/
theorem C23_degraded_start (wenv : WorkerEnv) (ts : Nat → Nat) (r : Recovery) :
    (RearrangeWorkers wenv ts r).dispatcher.pageWorkerCount
      = (readySlots wenv ts r.totalNum).length ∧
    (∀ j, j ∈ readySlots wenv ts r.totalNum ↔
      j < r.totalNum ∧ ts j = wenv.PAGE_REDO_WORKER_READY) ∧
    (RearrangeWorkers wenv ts r).dispatcher.pageWorkerCount ≤ r.totalNum ∧
    (∀ i, i < (RearrangeWorkers wenv ts r).dispatcher.pageWorkerCount →
      ∃ j, (readySlots wenv ts r.totalNum)[i]? = some j ∧
        j < r.totalNum ∧ ts j = wenv.PAGE_REDO_WORKER_READY ∧
        (RearrangeWorkers wenv ts r).pageWorkers.getD i default
          = { r.pageWorkers.getD j default with id := i } ∧
        ((RearrangeWorkers wenv ts r).pageWorkers.getD i default).id = i) := by
  have hcount : (RearrangeWorkers wenv ts r).dispatcher.pageWorkerCount
      = (readySlots wenv ts r.totalNum).length := by
    rw [(RearrangeWorkers_dispatcher wenv ts r).1, readySlots_length]
  refine ⟨hcount, mem_readySlots wenv ts r.totalNum, ?_, ?_⟩
  · rw [hcount]
    have := slots_length wenv ts r.totalNum
    omega
  · intro i hi
    rw [hcount] at hi
    have hmem : (readySlots wenv ts r.totalNum)[i] ∈ readySlots wenv ts r.totalNum :=
      List.getElem_mem _
    obtain ⟨hj1, hj2⟩ := (mem_readySlots wenv ts r.totalNum _).mp hmem
    have hentry : (RearrangeWorkers wenv ts r).pageWorkers.getD i default
        = { r.pageWorkers.getD (readySlots wenv ts r.totalNum)[i] default with id := i } := by
      rw [RearrangeWorkers_pageWorkers, List.append_assoc,
        List.getD_append _ _ _ _ (by simp; exact hi),
        List.getD_eq_getElem _ _ (by simp; exact hi)]
      simp [List.getElem?_eq_getElem hi]
    refine ⟨(readySlots wenv ts r.totalNum)[i], ?_, hj1, hj2, hentry, ?_⟩
    · exact List.getElem?_eq_getElem hi
    · rw [hentry]

/-- C23, at four spawned workers of which the slots 1 and 3 are ready: `pageWorkerCount`
is 2, and the workers of the threads 101 and 103 come first with the ids 0 and 1. -/
theorem C23_degraded_start_witness :
    (0 < (RearrangeWorkers sampleWorkerEnv sampleStates13
      sampleSpawned).dispatcher.pageWorkerCount) ∧
    (RearrangeWorkers sampleWorkerEnv sampleStates13 sampleSpawned).dispatcher.pageWorkerCount
      = 2 ∧
    (RearrangeWorkers sampleWorkerEnv sampleStates13 sampleSpawned).pageWorkers
      = [{ id := 0, thid := 101 }, { id := 1, thid := 103 }, { id := 0, thid := 100 },
          { id := 2, thid := 102 }] ∧
    ∃ j, (readySlots sampleWorkerEnv sampleStates13 sampleSpawned.totalNum)[0]? = some j ∧
      j < sampleSpawned.totalNum ∧
      sampleStates13 j = sampleWorkerEnv.PAGE_REDO_WORKER_READY ∧
      (RearrangeWorkers sampleWorkerEnv sampleStates13 sampleSpawned).pageWorkers.getD 0 default
        = { sampleSpawned.pageWorkers.getD j default with id := 0 } ∧
      ((RearrangeWorkers sampleWorkerEnv sampleStates13 sampleSpawned).pageWorkers.getD 0
        default).id = 0 :=
  ⟨by decide, by decide, by decide,
    (C23_degraded_start sampleWorkerEnv sampleStates13 sampleSpawned).2.2.2 0 (by decide)⟩


/-- The threads of the first `totalNum` entries after `RearrangeWorkers`: those of the ready
slots, then those of the others. -/
theorem RearrangeWorkers_take (wenv : WorkerEnv) (ts : Nat → Nat) (r : Recovery) :
    (RearrangeWorkers wenv ts r).pageWorkers.take r.totalNum
      = (List.range (readySlots wenv ts r.totalNum).length).map
          (fun i => { ((readySlots wenv ts r.totalNum).map
            (fun j => r.pageWorkers.getD j default)).getD i default with id := i }) ++
        (unreadySlots wenv ts r.totalNum).map (fun j => r.pageWorkers.getD j default) ∧
    (RearrangeWorkers wenv ts r).pageWorkers.drop r.totalNum
      = r.pageWorkers.drop r.totalNum := by
  have hlen : ((List.range (readySlots wenv ts r.totalNum).length).map
        (fun i => ({ ((readySlots wenv ts r.totalNum).map
          (fun j => r.pageWorkers.getD j default)).getD i default with id := i } :
            PageRedoWorker)) ++
      (unreadySlots wenv ts r.totalNum).map (fun j => r.pageWorkers.getD j default)).length
      = r.totalNum := by
    simp only [List.length_append, List.length_map, List.length_range]
    exact slots_length wenv ts r.totalNum
  rw [RearrangeWorkers_pageWorkers]
  exact ⟨List.take_left' hlen, List.drop_left' hlen⟩

theorem ready_threads (l : List PageRedoWorker) :
    ((List.range l.length).map
      (fun i => ({ l.getD i default with id := i } : PageRedoWorker))).map
        (fun w => w.thid) = l.map (fun w => w.thid) := by
  have h := congrArg (List.map (fun w : PageRedoWorker => w.thid)) (map_range_getD l default)
  simpa [List.map_map, Function.comp] using h

/-- C24: `RearrangeWorkers` is a stable partition of the first `totalNum` entries of
`pageWorkers`.  The entries come from the slots `readySlots ++ unreadySlots`, a permutation
of `0 .. totalNum - 1` in which the ready slots come first, both parts in increasing slot
order; so the workers (named by their thread) after the call are a permutation of those
before it, no worker lost or duplicated.  The not-ready workers are moved unchanged, the
ready ones with their `id` renumbered, and the entries from `totalNum` on stay in place. -/
theorem C24_stable_partition (wenv : WorkerEnv) (ts : Nat → Nat) (r : Recovery)
    (h : r.totalNum ≤ r.pageWorkers.length) :
    (readySlots wenv ts r.totalNum ++ unreadySlots wenv ts r.totalNum).Perm
      (List.range r.totalNum) ∧
    (readySlots wenv ts r.totalNum).Sublist (List.range r.totalNum) ∧
    (unreadySlots wenv ts r.totalNum).Sublist (List.range r.totalNum) ∧
    ((RearrangeWorkers wenv ts r).pageWorkers.take r.totalNum).map (fun w => w.thid)
      = (readySlots wenv ts r.totalNum ++ unreadySlots wenv ts r.totalNum).map
          (fun j => (r.pageWorkers.getD j default).thid) ∧
    (((RearrangeWorkers wenv ts r).pageWorkers.take r.totalNum).map (fun w => w.thid)).Perm
      ((r.pageWorkers.take r.totalNum).map (fun w => w.thid)) ∧
    (RearrangeWorkers wenv ts r).pageWorkers.drop r.totalNum
      = r.pageWorkers.drop r.totalNum ∧
    (RearrangeWorkers wenv ts r).pageWorkers.length = r.pageWorkers.length ∧
    ((RearrangeWorkers wenv ts r).pageWorkers.take r.totalNum).drop
        (readySlots wenv ts r.totalNum).length
      = (unreadySlots wenv ts r.totalNum).map (fun j => r.pageWorkers.getD j default) := by
  obtain ⟨htake, hdrop⟩ := RearrangeWorkers_take wenv ts r
  have hthreads : ((RearrangeWorkers wenv ts r).pageWorkers.take r.totalNum).map
        (fun w => w.thid)
      = (readySlots wenv ts r.totalNum ++ unreadySlots wenv ts r.totalNum).map
          (fun j => (r.pageWorkers.getD j default).thid) := by
    rw [htake, List.map_append]
    have h1 := ready_threads ((readySlots wenv ts r.totalNum).map
      (fun j => r.pageWorkers.getD j default))
    simp only [List.length_map] at h1
    rw [h1]
    simp [List.map_map, Function.comp_def]
  have hold : (r.pageWorkers.take r.totalNum).map (fun w => w.thid)
      = (List.range r.totalNum).map (fun j => (r.pageWorkers.getD j default).thid) := by
    rw [← map_range_getD_take r.pageWorkers default r.totalNum h]
    simp [List.map_map, Function.comp_def]
  refine ⟨slots_perm wenv ts r.totalNum, List.filter_sublist _, List.filter_sublist _,
    hthreads, ?_, hdrop, ?_, ?_⟩
  · rw [hthreads, hold]
    exact (slots_perm wenv ts r.totalNum).map _
  · have h1 := congrArg List.length (List.take_append_drop r.totalNum
      (RearrangeWorkers wenv ts r).pageWorkers)
    have h2 := congrArg List.length (List.take_append_drop r.totalNum r.pageWorkers)
    have h3 := congrArg List.length htake
    rw [hdrop] at h1
    simp only [List.length_append, List.length_map, List.length_range, List.length_take,
      List.length_drop] at h1 h2 h3
    have h4 := slots_length wenv ts r.totalNum
    omega
  · rw [htake]
    exact List.drop_left' (by simp)

/-- C24, at four spawned workers of which the slots 1 and 3 are ready. -/
theorem C24_stable_partition_witness :
    sampleSpawned.totalNum ≤ sampleSpawned.pageWorkers.length ∧
    (((RearrangeWorkers sampleWorkerEnv sampleStates13 sampleSpawned).pageWorkers.take
        sampleSpawned.totalNum).map (fun w => w.thid)).Perm
      ((sampleSpawned.pageWorkers.take sampleSpawned.totalNum).map (fun w => w.thid)) ∧
    ((RearrangeWorkers sampleWorkerEnv sampleStates13 sampleSpawned).pageWorkers.take
        sampleSpawned.totalNum).map (fun w => w.thid) = [101, 103, 100, 102] :=
  ⟨by decide,
    (C24_stable_partition sampleWorkerEnv sampleStates13 sampleSpawned (by decide)).2.2.2.2.1,
    by decide⟩


/-- The value of `waitLoop` when the polling loop is left: every poll before it saw some
spawned worker not ready, and if the loop was left before its last iteration, the poll
numbered `waitLoop` saw all of them ready. -/
theorem WaitWorkerReady_loop_spec (wenv : WorkerEnv) (ts : Nat → Nat → Nat)
    (totalNum scans fuel waitLoop : Nat) :
    WaitWorkerReady_loop wenv ts totalNum scans fuel waitLoop ≤ waitLoop + fuel ∧
    waitLoop ≤ WaitWorkerReady_loop wenv ts totalNum scans fuel waitLoop ∧
    (∀ k, waitLoop ≤ k → k < WaitWorkerReady_loop wenv ts totalNum scans fuel waitLoop →
      GetReadyWorker wenv (ts (scans + k)) totalNum ≠ totalNum) ∧
    (WaitWorkerReady_loop wenv ts totalNum scans fuel waitLoop < waitLoop + fuel →
      GetReadyWorker wenv
        (ts (scans + WaitWorkerReady_loop wenv ts totalNum scans fuel waitLoop)) totalNum
        = totalNum) := by
  induction fuel generalizing waitLoop with
  | zero =>
    refine ⟨Nat.le_refl _, Nat.le_refl _, ?_, ?_⟩
    · intro k h1 h2
      simp only [WaitWorkerReady_loop] at h2
      omega
    · intro h
      simp only [WaitWorkerReady_loop] at h
      omega
  | succ f ih =>
    by_cases hc : GetReadyWorker wenv (ts (scans + waitLoop)) totalNum = totalNum
    · have hval : WaitWorkerReady_loop wenv ts totalNum scans (f + 1) waitLoop = waitLoop := by
        simp only [WaitWorkerReady_loop, hc, if_true]
      rw [hval]
      exact ⟨by omega, Nat.le_refl _, fun k h1 h2 => by omega, fun _ => hc⟩
    · have hval : WaitWorkerReady_loop wenv ts totalNum scans (f + 1) waitLoop
          = WaitWorkerReady_loop wenv ts totalNum scans f (waitLoop + 1) := by
        simp only [WaitWorkerReady_loop, hc, if_false]
      rw [hval]
      obtain ⟨h1, h2, h3, h4⟩ := ih (waitLoop + 1)
      refine ⟨by omega, by omega, ?_, ?_⟩
      · intro k hk1 hk2
        by_cases hk : k = waitLoop
        · rw [hk]
          exact hc
        · exact h3 k (by omega) hk2
      · intro hlt
        exact h4 (by omega)

/-- The polling loop runs all its iterations exactly when no poll sees every spawned worker
ready. -/
theorem WaitWorkerReady_loop_eq_max (wenv : WorkerEnv) (ts : Nat → Nat → Nat)
    (totalNum scans : Nat) :
    WaitWorkerReady_loop wenv ts totalNum scans MAX_REDO_WAIT_LOOP 0 = MAX_REDO_WAIT_LOOP ↔
      ∀ k, k < MAX_REDO_WAIT_LOOP →
        GetReadyWorker wenv (ts (scans + k)) totalNum ≠ totalNum := by
  obtain ⟨h1, _, h3, h4⟩ := WaitWorkerReady_loop_spec wenv ts totalNum scans MAX_REDO_WAIT_LOOP 0
  constructor
  · intro heq k hk
    exact h3 k (Nat.zero_le _) (by rw [heq]; exact hk)
  · intro hall
    by_cases hlt : WaitWorkerReady_loop wenv ts totalNum scans MAX_REDO_WAIT_LOOP 0
        < MAX_REDO_WAIT_LOOP
    · exact absurd (h4 (by omega)) (hall _ hlt)
    · omega

/-- `WaitWorkerReady` PANICs exactly after a timeout with no worker ready. -/
theorem WaitWorkerReady_panic_iff (wenv : WorkerEnv) (oracle : StartupOracle) (r : Recovery) :
    WaitWorkerReady wenv oracle r
        = Except.error StartupPanic.WaitWorkerReady_failed_no_worker_is_ready_for_work ↔
      (∀ k, k < MAX_REDO_WAIT_LOOP →
        GetReadyWorker wenv (oracle.threadState (r.scans + k)) r.totalNum ≠ r.totalNum) ∧
      GetReadyWorker wenv (oracle.threadState (r.scans + MAX_REDO_WAIT_LOOP)) r.totalNum
        = 0 := by
  have hmax := WaitWorkerReady_loop_eq_max wenv oracle.threadState r.totalNum r.scans
  rw [← hmax]
  unfold WaitWorkerReady
  simp only []
  by_cases hw : WaitWorkerReady_loop wenv oracle.threadState r.totalNum r.scans
      MAX_REDO_WAIT_LOOP 0 = MAX_REDO_WAIT_LOOP
  · rw [hw]
    simp only [Nat.lt_irrefl, if_false, true_and]
    by_cases hz : GetReadyWorker wenv (oracle.threadState (r.scans + MAX_REDO_WAIT_LOOP))
        r.totalNum = 0
    · simp [hz]
    · simp [hz]
  · simp [hw]

/-- C25: `WaitWorkerReady` raises its PANIC, the only one it has, exactly when none of the
`MAX_REDO_WAIT_LOOP` polls saw every spawned worker ready and the ready count read after
the loop is 0.  After such a timeout with a ready worker it returns with the state
`REDO_STARTING_END` and the workers rearranged, `pageWorkerCount` being the ready count of
the scan `RearrangeWorkers` makes; when a poll sees every spawned worker ready the loop is
left at once and the call returns the same way. -/
theorem C25_wait_ready_panic_iff (wenv : WorkerEnv) (oracle : StartupOracle) (r : Recovery) :
    (WaitWorkerReady wenv oracle r
        = Except.error StartupPanic.WaitWorkerReady_failed_no_worker_is_ready_for_work ↔
      (∀ k, k < MAX_REDO_WAIT_LOOP →
        GetReadyWorker wenv (oracle.threadState (r.scans + k)) r.totalNum ≠ r.totalNum) ∧
      GetReadyWorker wenv (oracle.threadState (r.scans + MAX_REDO_WAIT_LOOP)) r.totalNum = 0) ∧
    (∀ e, WaitWorkerReady wenv oracle r = Except.error e →
      e = StartupPanic.WaitWorkerReady_failed_no_worker_is_ready_for_work) ∧
    ((∀ k, k < MAX_REDO_WAIT_LOOP →
        GetReadyWorker wenv (oracle.threadState (r.scans + k)) r.totalNum ≠ r.totalNum) →
      GetReadyWorker wenv (oracle.threadState (r.scans + MAX_REDO_WAIT_LOOP)) r.totalNum ≠ 0 →
      WaitWorkerReady wenv oracle r
        = Except.ok (RearrangeWorkers wenv
            (oracle.threadState (r.scans + MAX_REDO_WAIT_LOOP + 1))
            { r with state := knl_parallel_redo_state.REDO_STARTING_END,
                     scans := r.scans + MAX_REDO_WAIT_LOOP + 2 })) ∧
    (∀ r2, WaitWorkerReady wenv oracle r = Except.ok r2 →
      r2.state = knl_parallel_redo_state.REDO_STARTING_END ∧
      ∃ k, r2 = RearrangeWorkers wenv (oracle.threadState k)
          { r with state := knl_parallel_redo_state.REDO_STARTING_END, scans := k + 1 } ∧
        r2.dispatcher.pageWorkerCount
          = GetReadyWorker wenv (oracle.threadState k) r.totalNum) ∧
    (∀ k, k < MAX_REDO_WAIT_LOOP →
      GetReadyWorker wenv (oracle.threadState (r.scans + k)) r.totalNum = r.totalNum →
      ∃ r2, WaitWorkerReady wenv oracle r = Except.ok r2) := by
  have hpanic := WaitWorkerReady_panic_iff wenv oracle r
  have herr : ∀ e, WaitWorkerReady wenv oracle r = Except.error e →
      e = StartupPanic.WaitWorkerReady_failed_no_worker_is_ready_for_work := by
    intro e he
    unfold WaitWorkerReady at he
    simp only [] at he
    generalize (if WaitWorkerReady_loop wenv oracle.threadState r.totalNum r.scans
        MAX_REDO_WAIT_LOOP 0 < MAX_REDO_WAIT_LOOP
      then WaitWorkerReady_loop wenv oracle.threadState r.totalNum r.scans
        MAX_REDO_WAIT_LOOP 0 + 1
      else MAX_REDO_WAIT_LOOP) = polls at he
    split at he
    · injection he with he
      exact he.symm
    · cases he
  refine ⟨hpanic, herr, ?_, ?_, ?_⟩
  · intro hall hready
    exact WaitWorkerReady_timeout wenv oracle r
      (fun k hk => by rw [Nat.zero_add]; exact hall k hk) hready
  · intro r2 h2
    obtain ⟨k, hk⟩ := WaitWorkerReady_inv wenv oracle r r2 h2
    refine ⟨by rw [hk]; exact (RearrangeWorkers_dispatcher _ _ _).2.2.1, k, hk, ?_⟩
    rw [hk, (RearrangeWorkers_dispatcher _ _ _).1]
  · intro k hk hall
    cases hres : WaitWorkerReady wenv oracle r with
    | ok r2 => exact ⟨r2, rfl⟩
    | error e =>
      have he := herr e hres
      rw [he] at hres
      exact absurd hall ((hpanic.mp hres).1 k hk)

/-- C25, at four spawned workers of which two are ready at every scan: the timeout does not
PANIC. -/
theorem C25_wait_ready_panic_iff_witness :
    (∀ k, k < MAX_REDO_WAIT_LOOP →
      GetReadyWorker sampleWorkerEnv ((sampleStart 2).threadState (sampleSpawned.scans + k))
        sampleSpawned.totalNum ≠ sampleSpawned.totalNum) ∧
    GetReadyWorker sampleWorkerEnv
      ((sampleStart 2).threadState (sampleSpawned.scans + MAX_REDO_WAIT_LOOP))
      sampleSpawned.totalNum ≠ 0 ∧
    WaitWorkerReady sampleWorkerEnv (sampleStart 2) sampleSpawned
      = Except.ok (RearrangeWorkers sampleWorkerEnv
          ((sampleStart 2).threadState (sampleSpawned.scans + MAX_REDO_WAIT_LOOP + 1))
          { sampleSpawned with state := knl_parallel_redo_state.REDO_STARTING_END,
                               scans := sampleSpawned.scans + MAX_REDO_WAIT_LOOP + 2 }) :=
  ⟨fun _ _ => by
      show GetReadyWorker sampleWorkerEnv (fun i => if i < 2 then 2 else 1) 4 ≠ 4
      decide,
    by
      show GetReadyWorker sampleWorkerEnv (fun i => if i < 2 then 2 else 1) 4 ≠ 0
      decide,
    (C25_wait_ready_panic_iff sampleWorkerEnv (sampleStart 2) sampleSpawned).2.2.1
      (fun _ _ => by
        show GetReadyWorker sampleWorkerEnv (fun i => if i < 2 then 2 else 1) 4 ≠ 4
        decide)
      (by
        show GetReadyWorker sampleWorkerEnv (fun i => if i < 2 then 2 else 1) 4 ≠ 0
        decide)⟩


theorem StartPageRedoWorkers_scans (wenv : WorkerEnv) (oracle : StartupOracle)
    (parallelism : Nat) (r r1 : Recovery)
    (h : StartPageRedoWorkers wenv oracle parallelism r = Except.ok r1) :
    r1.scans = r.scans := by
  unfold StartPageRedoWorkers at h
  simp only [] at h
  split at h
  · cases h
  · injection h with h
    rw [← h]

/-- `GetReadyWorker` is at least 1 exactly when a slot below `totalNum` reads READY. -/
theorem GetReadyWorker_pos_iff (wenv : WorkerEnv) (ts : Nat → Nat) (totalNum : Nat) :
    1 ≤ GetReadyWorker wenv ts totalNum ↔
      ∃ i, i < totalNum ∧ ts i = wenv.PAGE_REDO_WORKER_READY := by
  rw [GetReadyWorker_eq, Nat.one_le_iff_ne_zero, Ne, List.length_eq_zero,
    List.filter_eq_nil_iff]
  constructor
  · intro h
    by_contra hc
    apply h
    intro i hi hr
    exact hc ⟨i, List.mem_range.mp hi, of_decide_eq_true hr⟩
  · rintro ⟨i, hi, hr⟩ h
    exact h i (List.mem_range.mpr hi) (decide_eq_true hr)

/-- When no slot leaves the READY state between the scans `a` and `a + n`, a worker ready at
the scan `a` is ready at the scan `a + n`. -/
theorem GetReadyWorker_kept (wenv : WorkerEnv) (ts : Nat → Nat → Nat) (totalNum a n : Nat)
    (hkeep : ∀ k i, a ≤ k → k < a + n → i < totalNum →
      ts k i = wenv.PAGE_REDO_WORKER_READY → ts (k + 1) i = wenv.PAGE_REDO_WORKER_READY)
    (h : 1 ≤ GetReadyWorker wenv (ts a) totalNum) :
    1 ≤ GetReadyWorker wenv (ts (a + n)) totalNum := by
  induction n with
  | zero => exact h
  | succ n ih =>
    have h1 := ih (fun k i h1 h2 h3 h4 => hkeep k i h1 (by omega) h3 h4)
    obtain ⟨i, hi, hr⟩ := (GetReadyWorker_pos_iff wenv _ _).mp h1
    exact (GetReadyWorker_pos_iff wenv _ _).mpr
      ⟨i, hi, hkeep (a + n) i (by omega) (by omega) hi hr⟩

/-- What a returning `WaitWorkerReady` has seen: `w` polls that did not find every worker
ready; then either a poll that did, with `RearrangeWorkers` reading the scan two later, or
the timeout, a read that finds a ready worker and `RearrangeWorkers` reading the next
scan. -/
theorem WaitWorkerReady_polls (wenv : WorkerEnv) (oracle : StartupOracle) (r r2 : Recovery)
    (h : WaitWorkerReady wenv oracle r = Except.ok r2) :
    ∃ w, w ≤ MAX_REDO_WAIT_LOOP ∧
      (∀ k, k < w →
        GetReadyWorker wenv (oracle.threadState (r.scans + k)) r.totalNum ≠ r.totalNum) ∧
      (w < MAX_REDO_WAIT_LOOP →
        GetReadyWorker wenv (oracle.threadState (r.scans + w)) r.totalNum = r.totalNum ∧
        r2 = RearrangeWorkers wenv (oracle.threadState (r.scans + w + 2))
          { r with state := knl_parallel_redo_state.REDO_STARTING_END,
                   scans := r.scans + w + 3 }) ∧
      (w = MAX_REDO_WAIT_LOOP →
        1 ≤ GetReadyWorker wenv (oracle.threadState (r.scans + MAX_REDO_WAIT_LOOP))
          r.totalNum ∧
        r2 = RearrangeWorkers wenv (oracle.threadState (r.scans + MAX_REDO_WAIT_LOOP + 1))
          { r with state := knl_parallel_redo_state.REDO_STARTING_END,
                   scans := r.scans + MAX_REDO_WAIT_LOOP + 2 }) := by
  obtain ⟨h1, _, h3, h4⟩ :=
    WaitWorkerReady_loop_spec wenv oracle.threadState r.totalNum r.scans MAX_REDO_WAIT_LOOP 0
  rw [Nat.zero_add] at h1 h4
  unfold WaitWorkerReady at h
  simp only [] at h
  generalize hw : WaitWorkerReady_loop wenv oracle.threadState r.totalNum r.scans
    MAX_REDO_WAIT_LOOP 0 = w at h h1 h3 h4
  refine ⟨w, h1, fun k hk => h3 k (Nat.zero_le _) hk, ?_, ?_⟩
  · intro hlt
    rw [if_pos hlt, if_neg (fun hc => absurd hc.1 (Nat.ne_of_lt hlt))] at h
    injection h with h
    exact ⟨h4 hlt, h.symm⟩
  · intro heq
    have hnlt : ¬ w < MAX_REDO_WAIT_LOOP := by omega
    rw [if_neg hnlt] at h
    by_cases hz : GetReadyWorker wenv (oracle.threadState (r.scans + MAX_REDO_WAIT_LOOP))
        r.totalNum = 0
    · rw [if_pos ⟨heq, hz⟩] at h
      cases h
    · rw [if_neg (fun hc => hz hc.2)] at h
      injection h with h
      exact ⟨by omega, h.symm⟩

/-- C26, as stated, fails: with recovery parallelism 4 and a `StartTxnRedoWorker` that
returns `NULL`, `StartRecoveryWorkers` raises no PANIC and leaves the state
`REDO_IN_PROGRESS` with `pageWorkerCount = 0`.  It fails also with a transaction worker,
when the four page workers read READY at the first poll and have left that state at the
scan of `RearrangeWorkers`: the call returns with the state `REDO_IN_PROGRESS`, four workers
spawned and `pageWorkerCount = 0`. -/
theorem C26_counterexample :
    sampleEnv.get_real_recovery_parallelism > 1 ∧
    sampleStartNoTxn.StartTxnRedoWorker = false ∧
    (∃ r, StartRecoveryWorkers sampleEnv sampleWorkerEnv sampleStartNoTxn
        = Except.ok (some r) ∧
      r.state = knl_parallel_redo_state.REDO_IN_PROGRESS ∧
      r.dispatcher.pageWorkerCount = 0) ∧
    sampleStartLeaving.StartTxnRedoWorker = true ∧
    GetReadyWorker sampleWorkerEnv (sampleStartLeaving.threadState 0) 4 = 4 ∧
    GetReadyWorker sampleWorkerEnv (sampleStartLeaving.threadState 2) 4 = 0 ∧
    ∃ r, StartRecoveryWorkers sampleEnv sampleWorkerEnv sampleStartLeaving
        = Except.ok (some r) ∧
      r.state = knl_parallel_redo_state.REDO_IN_PROGRESS ∧
      r.dispatcher.totalWorkerCount = 4 ∧
      r.dispatcher.pageWorkerCount = 0 :=
  ⟨by decide, rfl, ⟨_, rfl, rfl, rfl⟩, rfl, by decide, by decide, _, rfl, rfl, rfl, rfl⟩

/-- C26, amended: when `StartRecoveryWorkers` returns with a dispatcher, the recovery
parallelism is above 1 and the state is `REDO_IN_PROGRESS`.  If the transaction worker
started, at least one page worker was spawned, and there is a number `w` of polls that did
not see every spawned worker ready, after which either the poll `w` saw all of them ready
and `RearrangeWorkers` read the scan `w + 2`, or, after the timeout, the read of the scan
`MAX_REDO_WAIT_LOOP` found a ready worker and `RearrangeWorkers` read the next scan;
`pageWorkerCount` is the ready count of the scan `RearrangeWorkers` read, and it is at
least 1 when no worker that reads READY at a scan has left that state at the next scan,
however many workers become READY between the scans.  If the transaction worker did not
start, no page worker is spawned and `pageWorkerCount` is 0; the PANIC then comes with the
first record given to `DispatchRedoRecordToFile`. -/
theorem C26_started_workers (env : Env) (wenv : WorkerEnv) (oracle : StartupOracle)
    (h : startedDispatcher (StartRecoveryWorkers env wenv oracle) = true) :
    ∃ r, StartRecoveryWorkers env wenv oracle = Except.ok (some r) ∧
      env.get_real_recovery_parallelism > 1 ∧
      r.state = knl_parallel_redo_state.REDO_IN_PROGRESS ∧
      (oracle.StartTxnRedoWorker = false →
        r.dispatcher.totalWorkerCount = 0 ∧ r.dispatcher.pageWorkerCount = 0 ∧
        ∀ record tlis xt,
          (DispatchRedoRecordToFile env (some r.dispatcher) record tlis xt).panicMsg
            = some PanicMsg.DispatchRedoRecord_could_not_be_here) ∧
      (oracle.StartTxnRedoWorker = true →
        1 ≤ r.dispatcher.totalWorkerCount ∧
        ∃ w, w ≤ MAX_REDO_WAIT_LOOP ∧
          (∀ k, k < w →
            GetReadyWorker wenv (oracle.threadState k) r.dispatcher.totalWorkerCount
              ≠ r.dispatcher.totalWorkerCount) ∧
          (w < MAX_REDO_WAIT_LOOP →
            GetReadyWorker wenv (oracle.threadState w) r.dispatcher.totalWorkerCount
              = r.dispatcher.totalWorkerCount ∧
            r.dispatcher.pageWorkerCount
              = GetReadyWorker wenv (oracle.threadState (w + 2))
                  r.dispatcher.totalWorkerCount) ∧
          (w = MAX_REDO_WAIT_LOOP →
            1 ≤ GetReadyWorker wenv (oracle.threadState MAX_REDO_WAIT_LOOP)
              r.dispatcher.totalWorkerCount ∧
            r.dispatcher.pageWorkerCount
              = GetReadyWorker wenv (oracle.threadState (MAX_REDO_WAIT_LOOP + 1))
                  r.dispatcher.totalWorkerCount) ∧
          ((∀ k i, w ≤ k → k ≤ MAX_REDO_WAIT_LOOP → i < r.dispatcher.totalWorkerCount →
              oracle.threadState k i = wenv.PAGE_REDO_WORKER_READY →
              oracle.threadState (k + 1) i = wenv.PAGE_REDO_WORKER_READY) →
            1 ≤ r.dispatcher.pageWorkerCount)) := by
  cases hres : StartRecoveryWorkers env wenv oracle with
  | error e =>
    rw [hres] at h
    cases h
  | ok o =>
    cases o with
    | none =>
      rw [hres] at h
      cases h
    | some r =>
      obtain ⟨hpar, r1, r2, h1, h2, hr⟩ := StartRecoveryWorkers_inv env wenv oracle r hres
      obtain ⟨w, hwle, hbefore, hbreak, htimeout⟩ := WaitWorkerReady_polls wenv oracle r1 r2 h2
      have hdisp : ∀ ts sc, ({ RearrangeWorkers wenv ts
            { r1 with state := knl_parallel_redo_state.REDO_STARTING_END, scans := sc } with
            state := knl_parallel_redo_state.REDO_IN_PROGRESS } : Recovery).dispatcher
          = { r1.dispatcher with pageWorkerCount := GetReadyWorker wenv ts r1.totalNum } :=
        fun ts sc => (RearrangeWorkers_dispatcher _ _ _).1
      have htw : r.dispatcher.totalWorkerCount = r1.dispatcher.totalWorkerCount := by
        by_cases hlt : w < MAX_REDO_WAIT_LOOP
        · rw [hr, (hbreak hlt).2, hdisp]
        · rw [hr, (htimeout (by omega)).2, hdisp]
      refine ⟨r, rfl, hpar, by rw [hr], ?_, ?_⟩
      · intro htxn
        rw [htxn] at h1
        simp only [Bool.false_eq_true, if_false] at h1
        injection h1 with h1
        have ht : r1.totalNum = 0 := by rw [← h1]
        have ht1 : r1.dispatcher.totalWorkerCount = 0 := by rw [← h1]; rfl
        have hz : r.dispatcher.pageWorkerCount = 0 := by
          have hle := fun ts => GetReadyWorker_le wenv ts r1.totalNum
          by_cases hlt : w < MAX_REDO_WAIT_LOOP
          · rw [hr, (hbreak hlt).2, hdisp]
            have := hle (oracle.threadState (r1.scans + w + 2))
            show GetReadyWorker wenv _ r1.totalNum = 0
            omega
          · rw [hr, (htimeout (by omega)).2, hdisp]
            have := hle (oracle.threadState (r1.scans + MAX_REDO_WAIT_LOOP + 1))
            show GetReadyWorker wenv _ r1.totalNum = 0
            omega
        refine ⟨by rw [htw, ht1], hz, ?_⟩
        intro record tlis xt
        simp [DispatchRedoRecordToFile, GetPageWorkerCount, hz, Res.panicMsg]
      · intro htxn
        rw [htxn] at h1
        simp only [if_true] at h1
        obtain ⟨ht, _, hpos, _, _, _, _⟩ := StartPageRedoWorkers_inv _ _ _ _ _ h1
        have hs : r1.scans = 0 := StartPageRedoWorkers_scans _ _ _ _ _ h1
        simp only [hs, Nat.zero_add, ht] at hbefore hbreak htimeout
        rw [ht] at hdisp
        rw [htw]
        have hpwb : w < MAX_REDO_WAIT_LOOP → r.dispatcher.pageWorkerCount
            = GetReadyWorker wenv (oracle.threadState (w + 2))
                r1.dispatcher.totalWorkerCount := by
          intro hlt
          rw [hr, (hbreak hlt).2, hdisp]
        have hpwt : w = MAX_REDO_WAIT_LOOP → r.dispatcher.pageWorkerCount
            = GetReadyWorker wenv (oracle.threadState (MAX_REDO_WAIT_LOOP + 1))
                r1.dispatcher.totalWorkerCount := by
          intro heq
          rw [hr, (htimeout heq).2, hdisp]
        refine ⟨hpos, w, hwle, hbefore, fun hlt => ⟨(hbreak hlt).1, hpwb hlt⟩,
          fun heq => ⟨(htimeout heq).1, hpwt heq⟩, ?_⟩
        intro hkeep
        by_cases hlt : w < MAX_REDO_WAIT_LOOP
        · rw [hpwb hlt]
          apply GetReadyWorker_kept wenv oracle.threadState _ w 2
            (fun k i h1 h2 h3 h4 => hkeep k i h1 (by omega) h3 h4)
          rw [(hbreak hlt).1]
          exact hpos
        · have heq : w = MAX_REDO_WAIT_LOOP := by omega
          rw [hpwt heq]
          apply GetReadyWorker_kept wenv oracle.threadState _ MAX_REDO_WAIT_LOOP 1
            (fun k i h1 h2 h3 h4 => hkeep k i (by omega) (by omega) h3 h4)
          exact (htimeout heq).1

/-- C26 amended, at a start with recovery parallelism 4 in which the four page workers
report ready one after the other, between the polls: the fifth poll sees all of them ready
and `pageWorkerCount` is 4. -/
theorem C26_started_workers_witness :
    startedDispatcher (StartRecoveryWorkers sampleEnv sampleWorkerEnv sampleStartGradual)
      = true ∧
    sampleStartGradual.StartTxnRedoWorker = true ∧
    GetReadyWorker sampleWorkerEnv (sampleStartGradual.threadState 0) 4 = 0 ∧
    GetReadyWorker sampleWorkerEnv (sampleStartGradual.threadState 2) 4 = 2 ∧
    (∀ k i, sampleStartGradual.threadState k i = sampleWorkerEnv.PAGE_REDO_WORKER_READY →
      sampleStartGradual.threadState (k + 1) i = sampleWorkerEnv.PAGE_REDO_WORKER_READY) ∧
    ∃ r, StartRecoveryWorkers sampleEnv sampleWorkerEnv sampleStartGradual
        = Except.ok (some r) ∧
      sampleEnv.get_real_recovery_parallelism > 1 ∧
      r.state = knl_parallel_redo_state.REDO_IN_PROGRESS ∧
      1 ≤ r.dispatcher.pageWorkerCount := by
  have hkeep : ∀ k i,
      sampleStartGradual.threadState k i = sampleWorkerEnv.PAGE_REDO_WORKER_READY →
      sampleStartGradual.threadState (k + 1) i = sampleWorkerEnv.PAGE_REDO_WORKER_READY := by
    intro k i hr
    have hr2 : (if i < k then 2 else 1) = 2 := hr
    show (if i < k + 1 then 2 else 1) = 2
    by_cases hik : i < k
    · rw [if_pos (by omega)]
    · rw [if_neg hik] at hr2
      cases hr2
  obtain ⟨r, h1, h2, h3, _, h5⟩ := C26_started_workers sampleEnv sampleWorkerEnv
    sampleStartGradual (by decide)
  obtain ⟨_, w, _, _, _, _, hpos⟩ := h5 rfl
  exact ⟨by decide, rfl, by decide, by decide, hkeep, r, h1, h2, h3,
    hpos (fun k i _ _ _ hr => hkeep k i hr)⟩

theorem low4_iff (y : Nat) : y % 16 = 0 ↔ ∀ i, i < 4 → y.testBit i = false := by
  constructor
  · intro h i hi
    have h1 : (y % 2 ^ 4).testBit i = (decide (i < 4) && y.testBit i) :=
      Nat.testBit_mod_two_pow y 4 i
    have h2 : y % 2 ^ 4 = 0 := h
    rw [h2] at h1
    simp [hi] at h1
    exact h1.symm ▸ rfl
  · intro h
    have h2 : y % 2 ^ 4 = 0 := by
      apply Nat.eq_of_testBit_eq
      intro i
      rw [Nat.testBit_mod_two_pow]
      by_cases hi : i < 4
      · simp [hi, h i hi]
      · simp [hi]
    exact h2

theorem low4_and (y m : Nat) (h : y % 16 = 0) : (y &&& m) % 16 = 0 := by
  rw [low4_iff] at h ⊢
  intro i hi
  simp [Nat.testBit_and, h i hi]

/-- Clearing the bits of a mask that contains the low four bits leaves them zero. -/
theorem low4_andNot (x m : Nat) (hm : m &&& 15 = 15) : andNot x m % 16 = 0 := by
  rw [low4_iff]
  intro i hi
  have hmi : m.testBit i = true := by
    have h1 : (m &&& 15).testBit i = (15 : Nat).testBit i := by rw [hm]
    rw [Nat.testBit_and] at h1
    have h15 : (15 : Nat).testBit i = true := by
      have : i = 0 ∨ i = 1 ∨ i = 2 ∨ i = 3 := by omega
      rcases this with h | h | h | h <;> subst h <;> decide
    rw [h15] at h1
    simpa using h1
  simp [andNot, Nat.testBit_xor, Nat.testBit_and, hmi]

theorem shift_le_iff (a b : Nat) (ha : a % 16 = 0) (hb : b % 16 = 0) :
    a >>> XLOG_INFO_SHIFT_SIZE ≤ b >>> XLOG_INFO_SHIFT_SIZE ↔ a ≤ b := by
  unfold XLOG_INFO_SHIFT_SIZE
  rw [Nat.shiftRight_eq_div_pow, Nat.shiftRight_eq_div_pow]
  constructor <;> intro h <;> omega

theorem maskedOpcode_low4 (env : Env) (record : XLogReaderState)
    (hm : env.XLR_INFO_MASK &&& 15 = 15) : maskedOpcode env record % 16 = 0 := by
  have h0 : infoOp env record % 16 = 0 := low4_andNot _ _ hm
  unfold maskedOpcode
  simp only []
  split
  · split
    · exact low4_and _ _ (low4_and _ _ h0)
    · exact low4_and _ _ h0
  · split
    · exact low4_and _ _ h0
    · exact h0

theorem RmgrRecordInfoValid_iff (env : Env) (record : XLogReaderState)
    (minInfo maxInfo : Nat) :
    RmgrRecordInfoValid env record minInfo maxInfo = true ↔
      (minInfo % 256) >>> XLOG_INFO_SHIFT_SIZE
        ≤ maskedOpcode env record >>> XLOG_INFO_SHIFT_SIZE ∧
      maskedOpcode env record >>> XLOG_INFO_SHIFT_SIZE
        ≤ (maxInfo % 256) >>> XLOG_INFO_SHIFT_SIZE := by
  unfold RmgrRecordInfoValid maskedOpcode
  simp

/-- C30, as stated, fails: for an `RM_XLOG_ID` record with opcode `0x10` and the bounds
`min = max = 0x18`, `RmgrRecordInfoValid` returns true although `0x18 <= 0x10` does not
hold. -/
theorem C30_counterexample :
    RmgrRecordInfoValid sampleEnv (sampleRecord 0 0x10 100 []) 0x18 0x18 = true ∧
    maskedOpcode sampleEnv (sampleRecord 0 0x10 100 []) = 0x10 ∧
    ¬ (0x18 ≤ maskedOpcode sampleEnv (sampleRecord 0 0x10 100 []) ∧
      maskedOpcode sampleEnv (sampleRecord 0 0x10 100 []) ≤ 0x18) := by
  decide

/-- C30, amended: `RmgrRecordInfoValid` returns true exactly when the record's opcode,
after clearing the `XLR_INFO_MASK` bits and applying the mask of the resource manager
(`XLOG_HEAP_OPMASK` for `RM_HEAP_ID` and `RM_HEAP2_ID`, `XLOG_MULTIXACT_MASK` for
`RM_MULTIXACT_ID`, none otherwise), satisfies `min >> 4 <= opcode >> 4 <= max >> 4`: the
three values are compared after a right shift by `XLOG_INFO_SHIFT_SIZE`.  This is
`min <= opcode <= max` whenever the low four bits of `min` and `max` are zero and
`XLR_INFO_MASK` contains the low four bits. -/
theorem C30_masked_range_check (env : Env) (record : XLogReaderState)
    (minInfo maxInfo : Nat) :
    (RmgrRecordInfoValid env record minInfo maxInfo = true ↔
      (minInfo % 256) >>> XLOG_INFO_SHIFT_SIZE
        ≤ maskedOpcode env record >>> XLOG_INFO_SHIFT_SIZE ∧
      maskedOpcode env record >>> XLOG_INFO_SHIFT_SIZE
        ≤ (maxInfo % 256) >>> XLOG_INFO_SHIFT_SIZE) ∧
    ((XLogRecGetRmid record = env.RM_HEAP2_ID ∨ XLogRecGetRmid record = env.RM_HEAP_ID) →
      XLogRecGetRmid record ≠ env.RM_MULTIXACT_ID →
      maskedOpcode env record = infoOp env record &&& env.XLOG_HEAP_OPMASK) ∧
    (XLogRecGetRmid record = env.RM_MULTIXACT_ID →
      ¬ (XLogRecGetRmid record = env.RM_HEAP2_ID ∨ XLogRecGetRmid record = env.RM_HEAP_ID) →
      maskedOpcode env record = infoOp env record &&& env.XLOG_MULTIXACT_MASK) ∧
    (XLogRecGetRmid record ≠ env.RM_MULTIXACT_ID →
      ¬ (XLogRecGetRmid record = env.RM_HEAP2_ID ∨ XLogRecGetRmid record = env.RM_HEAP_ID) →
      maskedOpcode env record = infoOp env record) ∧
    (env.XLR_INFO_MASK &&& 15 = 15 → minInfo < 256 → maxInfo < 256 →
      minInfo % 16 = 0 → maxInfo % 16 = 0 →
      (RmgrRecordInfoValid env record minInfo maxInfo = true ↔
        minInfo ≤ maskedOpcode env record ∧ maskedOpcode env record ≤ maxInfo)) := by
  refine ⟨RmgrRecordInfoValid_iff env record minInfo maxInfo, ?_, ?_, ?_, ?_⟩
  · intro h1 h2
    simp [maskedOpcode, h1, h2]
  · intro h1 h2
    unfold maskedOpcode
    simp only []
    rw [if_neg h2, if_pos h1]
  · intro h1 h2
    unfold maskedOpcode
    simp only []
    rw [if_neg h2, if_neg h1]
  · intro hm hmin hmax hmin0 hmax0
    have hop := maskedOpcode_low4 env record hm
    rw [RmgrRecordInfoValid_iff, Nat.mod_eq_of_lt hmin, Nat.mod_eq_of_lt hmax,
      shift_le_iff _ _ hmin0 hop, shift_le_iff _ _ hop hmax0]

/-- C30 amended, at an `RM_XLOG_ID` record with opcode `0x10` and the bounds of the
`RM_XLOG_ID` row. -/
theorem C30_masked_range_check_witness :
    sampleEnv.XLR_INFO_MASK &&& 15 = 15 ∧
    (RmgrRecordInfoValid sampleEnv (sampleRecord 0 0x10 100 []) 0x00 0xB0 = true ↔
      0x00 ≤ maskedOpcode sampleEnv (sampleRecord 0 0x10 100 []) ∧
      maskedOpcode sampleEnv (sampleRecord 0 0x10 100 []) ≤ 0xB0) :=
  ⟨by decide,
    (C30_masked_range_check sampleEnv (sampleRecord 0 0x10 100 []) 0x00 0xB0).2.2.2.2
      (by decide) (by decide) (by decide) (by decide) (by decide)⟩


/-! ## Shutdown -/

theorem DispathCouldExit_iff (wenv : WorkerEnv) (ts : Nat → Nat) (totalNum : Nat) :
    DispathCouldExit wenv ts totalNum = true ↔
      ∀ i, i < totalNum → ts i ≠ wenv.PAGE_REDO_WORKER_READY := by
  simp [DispathCouldExit, List.all_eq_true]

/-- No signal is sent when no slot reads READY. -/
theorem SendSingalToPageWorker_none (wenv : WorkerEnv) (oracle : StopOracle) (ts : Nat → Nat)
    (totalNum : Nat) (signal : Signal)
    (h : ∀ i, i < totalNum → ts i ≠ wenv.PAGE_REDO_WORKER_READY) :
    SendSingalToPageWorker wenv oracle ts totalNum signal = [] := by
  have hf : (List.range totalNum).filter (fun i => decide (ts i = wenv.PAGE_REDO_WORKER_READY))
      = [] := by
    apply List.filter_eq_nil_iff.mpr
    intro i hi
    simp [h i (List.mem_range.mp hi)]
  unfold SendSingalToPageWorker
  rw [hf]
  rfl

/-- `StopRecoveryWorkers` on a state without a dispatcher in which no slot reads READY. -/
theorem StopRecoveryWorkers_destroyed (env : Env) (wenv : WorkerEnv) (oracle : StopOracle)
    (fuel : Nat) (c : RedoContext)
    (h0 : ∀ i, i < c.totalNum → oracle.threadState c.scans i ≠ wenv.PAGE_REDO_WORKER_READY)
    (h1 : ∀ i, i < c.totalNum →
      oracle.threadState (c.scans + 1) i ≠ wenv.PAGE_REDO_WORKER_READY) :
    StopRecoveryWorkers env wenv oracle (fuel + 1) (Global.destroyed c)
      = StopRes.returned [] (Global.destroyed { c with scans := c.scans + 2 }) := by
  have hs := SendSingalToPageWorker_none wenv oracle (oracle.threadState c.scans) c.totalNum
    Signal.SIGTERM h0
  have he := (DispathCouldExit_iff wenv (oracle.threadState (c.scans + 1)) c.totalNum).mpr h1
  simp only [StopRecoveryWorkers, Global.scans, Global.totalNum, hs,
    StopRecoveryWorkers_loop, he, if_true, Global.withScans, FreeAllocatedRedoItem,
    DestroyRecoveryWorkers, List.append_nil]

/-- C27: when `StopRecoveryWorkers` returns, `g_dispatcher` is `NULL`.  A second call in that
state, made while no worker slot reads READY, returns as well, sends no signal, frees
nothing and leaves the state as it is (`g_dispatcher` still `NULL`, `totalNum` and the
lifecycle state unchanged): without a dispatcher `FreeAllocatedRedoItem` and
`DestroyRecoveryWorkers` do nothing. -/
theorem C27_idempotent_shutdown (env : Env) (wenv : WorkerEnv) (oracle : StopOracle)
    (fuel : Nat) (g : Global) (calls : List StopCall) (g1 : Global)
    (h : StopRecoveryWorkers env wenv oracle fuel g = StopRes.returned calls g1) :
    DispatchPtrIsNull g1 = true ∧
    (∃ c, g1 = Global.destroyed c ∧ c.totalNum = g.totalNum ∧ c.state = g.state) ∧
    FreeAllocatedRedoItem g1 = ([], g1) ∧
    DestroyRecoveryWorkers env g1 = ([], g1) ∧
    ∀ (oracle2 : StopOracle) (fuel2 : Nat),
      (∀ i, i < g1.totalNum →
        oracle2.threadState g1.scans i ≠ wenv.PAGE_REDO_WORKER_READY) →
      (∀ i, i < g1.totalNum →
        oracle2.threadState (g1.scans + 1) i ≠ wenv.PAGE_REDO_WORKER_READY) →
      StopRecoveryWorkers env wenv oracle2 (fuel2 + 1) g1
        = StopRes.returned [] (g1.withScans (g1.scans + 2)) ∧
      DispatchPtrIsNull (g1.withScans (g1.scans + 2)) = true ∧
      (g1.withScans (g1.scans + 2)).totalNum = g1.totalNum ∧
      (g1.withScans (g1.scans + 2)).state = g1.state := by
  have hg1 : ∃ c, g1 = Global.destroyed c ∧ c.totalNum = g.totalNum ∧ c.state = g.state := by
    unfold StopRecoveryWorkers at h
    simp only [] at h
    split at h
    · cases h
    · cases h
    · rename_i scans calls0 _
      injection h with _ hg
      cases g with
      | live r =>
        simp only [Global.withScans, FreeAllocatedRedoItem, DestroyRecoveryWorkers] at hg
        exact ⟨_, hg.symm, rfl, rfl⟩
      | destroyed c =>
        simp only [Global.withScans, FreeAllocatedRedoItem, DestroyRecoveryWorkers] at hg
        exact ⟨_, hg.symm, rfl, rfl⟩
  obtain ⟨c, hc, ht, hst⟩ := hg1
  subst hc
  refine ⟨rfl, ⟨c, rfl, ht, hst⟩, rfl, rfl, ?_⟩
  intro oracle2 fuel2 h0 h1
  exact ⟨StopRecoveryWorkers_destroyed env wenv oracle2 fuel2 c h0 h1, rfl, rfl, rfl⟩

/-- C27, at a dispatcher with three page workers and two items in the inventory: the first
call frees and destroys, the second does nothing. -/
theorem C27_idempotent_shutdown_witness :
    StopRecoveryWorkers sampleEnv sampleShortWait (sampleStop 3) 10 sampleLive
      = StopRes.returned
          [StopCall.pfree_item 1, StopCall.pfree_item 0,
            StopCall.DestroyPageRedoWorker { id := 0, thid := 100 },
            StopCall.DestroyPageRedoWorker { id := 1, thid := 101 },
            StopCall.DestroyPageRedoWorker { id := 2, thid := 102 },
            StopCall.DestroyTxnRedoWorker, StopCall.MemoryContextDelete_parallelRedoCtx]
          (sampleDestroyed 5) ∧
    StopRecoveryWorkers sampleEnv sampleShortWait (sampleStop 3) (0 + 1) (sampleDestroyed 5)
      = StopRes.returned [] ((sampleDestroyed 5).withScans ((sampleDestroyed 5).scans + 2)) :=
  ⟨rfl,
    ((C27_idempotent_shutdown sampleEnv sampleShortWait (sampleStop 3) 10 sampleLive _
      (sampleDestroyed 5) rfl).2.2.2.2 (sampleStop 3) 0 (by decide) (by decide)).1⟩

/-- Bits of `a ||| b` include those of `a`. -/
theorem or_and_left_self (a b : Nat) : (a ||| b) &&& a = a := by
  apply Nat.eq_of_testBit_eq
  intro i
  simp only [Nat.testBit_and, Nat.testBit_or]
  cases a.testBit i <;> cases b.testBit i <;> rfl

/-- Bits of `a ||| b` include those of `b`. -/
theorem or_and_right_self (a b : Nat) : (a ||| b) &&& b = b := by
  apply Nat.eq_of_testBit_eq
  intro i
  simp only [Nat.testBit_and, Nat.testBit_or]
  cases a.testBit i <;> cases b.testBit i <;> rfl

/-- The counter of `StopRecoveryWorkers` has a fatal value between 1 and
`max 1 (OUTPUT_WAIT_COUNT | PRINT_ALL_WAIT_COUNT)`. -/
theorem fatalCount_exists (wenv : WorkerEnv) :
    ∃ n, 1 ≤ n ∧ n ≤ max 1 (wenv.OUTPUT_WAIT_COUNT ||| wenv.PRINT_ALL_WAIT_COUNT) ∧
      fatalCount wenv n ∧ ∀ m, 1 ≤ m → m < n → ¬ fatalCount wenv m := by
  have hex : ∃ n, 1 ≤ n ∧ fatalCount wenv n := by
    by_cases h0 : wenv.OUTPUT_WAIT_COUNT ||| wenv.PRINT_ALL_WAIT_COUNT = 0
    · have hO : wenv.OUTPUT_WAIT_COUNT = 0 := by
        have := or_and_left_self wenv.OUTPUT_WAIT_COUNT wenv.PRINT_ALL_WAIT_COUNT
        rw [h0, Nat.zero_and] at this
        exact this.symm
      have hP : wenv.PRINT_ALL_WAIT_COUNT = 0 := by
        have := or_and_right_self wenv.OUTPUT_WAIT_COUNT wenv.PRINT_ALL_WAIT_COUNT
        rw [h0, Nat.zero_and] at this
        exact this.symm
      refine ⟨1, le_refl 1, ?_, ?_⟩
      · rw [hO]; exact Nat.and_zero 1
      · rw [hP]; exact Nat.and_zero 1
    · exact ⟨_, Nat.one_le_iff_ne_zero.mpr h0, or_and_left_self _ _, or_and_right_self _ _⟩
  refine ⟨Nat.find hex, (Nat.find_spec hex).1, ?_, (Nat.find_spec hex).2, ?_⟩
  · apply Nat.find_min' hex
    refine ⟨le_max_left _ _, ?_⟩
    by_cases h0 : wenv.OUTPUT_WAIT_COUNT ||| wenv.PRINT_ALL_WAIT_COUNT = 0
    · have hO : wenv.OUTPUT_WAIT_COUNT = 0 := by
        have := or_and_left_self wenv.OUTPUT_WAIT_COUNT wenv.PRINT_ALL_WAIT_COUNT
        rw [h0, Nat.zero_and] at this
        exact this.symm
      have hP : wenv.PRINT_ALL_WAIT_COUNT = 0 := by
        have := or_and_right_self wenv.OUTPUT_WAIT_COUNT wenv.PRINT_ALL_WAIT_COUNT
        rw [h0, Nat.zero_and] at this
        exact this.symm
      refine ⟨?_, ?_⟩
      · rw [hO]; exact Nat.and_zero _
      · rw [hP]; exact Nat.and_zero _
    · have hmax : max 1 (wenv.OUTPUT_WAIT_COUNT ||| wenv.PRINT_ALL_WAIT_COUNT)
          = wenv.OUTPUT_WAIT_COUNT ||| wenv.PRINT_ALL_WAIT_COUNT :=
        max_eq_right (Nat.one_le_iff_ne_zero.mpr h0)
      rw [hmax]
      exact ⟨or_and_left_self _ _, or_and_right_self _ _⟩
  · intro m hm hlt hf
    exact Nat.find_min hex hlt ⟨hm, hf⟩

/-- The loop of `StopRecoveryWorkers` over `k` polls that all find a READY worker, while the
counter stays below its first fatal value: `k` iterations are made, the counter and the scan
number advance by `k`, and a warning is logged at each value of the counter whose bits
include `OUTPUT_WAIT_COUNT`. -/
theorem StopRecoveryWorkers_loop_wait (wenv : WorkerEnv) (oracle : StopOracle)
    (totalNum fuel : Nat) :
    ∀ (k count scans : Nat) (calls : List StopCall),
      (∀ m, count < m → m ≤ count + k → m < 2 ^ 64 ∧ ¬ fatalCount wenv m) →
      (∀ j, j < k →
        DispathCouldExit wenv (oracle.threadState (scans + j)) totalNum = false) →
      StopRecoveryWorkers_loop wenv oracle totalNum (fuel + k) count scans calls
        = StopRecoveryWorkers_loop wenv oracle totalNum fuel (count + k) (scans + k)
            (calls ++ waitWarnings wenv (count + 1) k) := by
  intro k
  induction k with
  | zero =>
    intro count scans calls _ _
    simp [waitWarnings]
  | succ k ih =>
    intro count scans calls hc hp
    have hp0 : DispathCouldExit wenv (oracle.threadState scans) totalNum = false := by
      have := hp 0 (Nat.succ_pos k)
      simpa using this
    have hc1 := hc (count + 1) (Nat.lt_succ_self count) (by omega)
    have hmod : (count + 1) % 2 ^ 64 = count + 1 := Nat.mod_eq_of_lt hc1.1
    have hrest : ∀ m, count + 1 < m → m ≤ count + 1 + k → m < 2 ^ 64 ∧ ¬ fatalCount wenv m :=
      fun m h1 h2 => hc m (by omega) (by omega)
    have hprest : ∀ j, j < k →
        DispathCouldExit wenv (oracle.threadState (scans + 1 + j)) totalNum = false := by
      intro j hj
      have := hp (j + 1) (by omega)
      rwa [show scans + (j + 1) = scans + 1 + j by omega] at this
    have hfuel : fuel + (k + 1) = (fuel + k) + 1 := by omega
    rw [hfuel]
    show (if DispathCouldExit wenv (oracle.threadState scans) totalNum = true then _ else _) = _
    rw [if_neg (by rw [hp0]; exact Bool.false_ne_true)]
    simp only []
    rw [hmod]
    by_cases hO : (count + 1) &&& wenv.OUTPUT_WAIT_COUNT = wenv.OUTPUT_WAIT_COUNT
    · have hP : ¬ (count + 1) &&& wenv.PRINT_ALL_WAIT_COUNT = wenv.PRINT_ALL_WAIT_COUNT :=
        fun hP => hc1.2 ⟨hO, hP⟩
      rw [if_pos hO, if_neg hP, ih (count + 1) (scans + 1) _ hrest hprest]
      have hw : waitWarnings wenv (count + 1) (k + 1)
          = StopCall.WARNING_StopRecoveryWorkers_wait_page_work_exit ::
              waitWarnings wenv (count + 1 + 1) k := by
        simp [waitWarnings, List.range'_succ, List.filter_cons, hO]
      rw [hw, show count + 1 + k = count + (k + 1) by omega,
        show scans + 1 + k = scans + (k + 1) by omega]
      simp
    · rw [if_neg hO, ih (count + 1) (scans + 1) _ hrest hprest]
      have hw : waitWarnings wenv (count + 1) (k + 1) = waitWarnings wenv (count + 1 + 1) k := by
        simp [waitWarnings, List.range'_succ, List.filter_cons, hO]
      rw [hw, show count + 1 + k = count + (k + 1) by omega,
        show scans + 1 + k = scans + (k + 1) by omega]

/-- `DispathCouldExit` answers `false` exactly when a slot below `totalNum` reads READY. -/
theorem DispathCouldExit_false_iff (wenv : WorkerEnv) (ts : Nat → Nat) (totalNum : Nat) :
    DispathCouldExit wenv ts totalNum = false ↔
      ∃ i, i < totalNum ∧ ts i = wenv.PAGE_REDO_WORKER_READY := by
  rw [← Bool.not_eq_true, DispathCouldExit_iff]
  constructor
  · intro h
    by_contra hc
    exact h (fun i hi heq => hc ⟨i, hi, heq⟩)
  · rintro ⟨i, hi, heq⟩ h
    exact h i hi heq

/-- C28: the wait of `StopRecoveryWorkers` is bounded.  With wait counts that fit the 64-bit
counter there is a first value `n >= 1` of the counter whose bits include both
`OUTPUT_WAIT_COUNT` and `PRINT_ALL_WAIT_COUNT`, at most
`max 1 (OUTPUT_WAIT_COUNT | PRINT_ALL_WAIT_COUNT)`.  If at each of the first `n` polls some
slot below `totalNum` reads the state READY, the call ends after exactly `n` iterations: it
calls `DumpDispatcher` once, as its last call, and raises the PANIC.  If at one of the first
`n` polls every slot below `totalNum` reads a state other than READY, the loop is left there
and the call returns without a PANIC. -/
theorem C28_shutdown_wait_bounded (env : Env) (wenv : WorkerEnv) (oracle : StopOracle)
    (g : Global)
    (hbits : wenv.OUTPUT_WAIT_COUNT ||| wenv.PRINT_ALL_WAIT_COUNT < 2 ^ 64) :
    ∃ n, 1 ≤ n ∧ n ≤ max 1 (wenv.OUTPUT_WAIT_COUNT ||| wenv.PRINT_ALL_WAIT_COUNT) ∧
      fatalCount wenv n ∧ (∀ m, 1 ≤ m → m < n → ¬ fatalCount wenv m) ∧
      ((∀ k, k < n → ∃ i, i < g.totalNum ∧
          oracle.threadState (g.scans + 1 + k) i = wenv.PAGE_REDO_WORKER_READY) →
        ∀ fuel, n ≤ fuel →
          StopRecoveryWorkers env wenv oracle fuel g
            = StopRes.panic
                (SendSingalToPageWorker wenv oracle (oracle.threadState g.scans) g.totalNum
                    Signal.SIGTERM ++ waitWarnings wenv 1 n ++ [StopCall.DumpDispatcher])
                (g.withScans (g.scans + 1 + n)).dump) ∧
      (∀ k, k < n →
        (∀ j, j < k → ∃ i, i < g.totalNum ∧
          oracle.threadState (g.scans + 1 + j) i = wenv.PAGE_REDO_WORKER_READY) →
        (∀ i, i < g.totalNum →
          oracle.threadState (g.scans + 1 + k) i ≠ wenv.PAGE_REDO_WORKER_READY) →
        ∀ fuel, k < fuel →
          StopRecoveryWorkers env wenv oracle fuel g
            = StopRes.returned
                (SendSingalToPageWorker wenv oracle (oracle.threadState g.scans) g.totalNum
                    Signal.SIGTERM ++ waitWarnings wenv 1 k ++
                  (FreeAllocatedRedoItem (g.withScans (g.scans + 1 + k + 1))).1 ++
                  (DestroyRecoveryWorkers env
                    (FreeAllocatedRedoItem (g.withScans (g.scans + 1 + k + 1))).2).1)
                (DestroyRecoveryWorkers env
                  (FreeAllocatedRedoItem (g.withScans (g.scans + 1 + k + 1))).2).2) := by
  obtain ⟨n, h1, hle, hfat, hmin⟩ := fatalCount_exists wenv
  have hn64 : n < 2 ^ 64 := by
    rcases le_max_iff.mp (le_refl (max 1 (wenv.OUTPUT_WAIT_COUNT ||| wenv.PRINT_ALL_WAIT_COUNT)))
      with h | h
    · have : n ≤ 1 := le_trans hle h
      have h2 : (1 : Nat) < 2 ^ 64 := by norm_num
      omega
    · have : n ≤ wenv.OUTPUT_WAIT_COUNT ||| wenv.PRINT_ALL_WAIT_COUNT := le_trans hle h
      omega
  refine ⟨n, h1, hle, hfat, hmin, ?_, ?_⟩
  · intro hready fuel hfuel
    have hpoll : ∀ k, k < n →
        DispathCouldExit wenv (oracle.threadState (g.scans + 1 + k)) g.totalNum = false :=
      fun k hk => (DispathCouldExit_false_iff wenv _ _).mpr (hready k hk)
    obtain ⟨f, rfl⟩ : ∃ f, fuel = (f + 1) + (n - 1) := ⟨fuel - n, by omega⟩
    have hwait := StopRecoveryWorkers_loop_wait wenv oracle g.totalNum (f + 1) (n - 1) 0
      (g.scans + 1)
      (SendSingalToPageWorker wenv oracle (oracle.threadState g.scans) g.totalNum Signal.SIGTERM)
      (fun m hm1 hm2 => ⟨by omega, hmin m (by omega) (by omega)⟩)
      (fun j hj => hpoll j (by omega))
    have hlast : DispathCouldExit wenv (oracle.threadState (g.scans + 1 + (n - 1))) g.totalNum
        = false := hpoll (n - 1) (by omega)
    have hmod : (0 + (n - 1) + 1) % 2 ^ 64 = n := by
      rw [show 0 + (n - 1) + 1 = n by omega]
      exact Nat.mod_eq_of_lt hn64
    have hw : waitWarnings wenv 1 n
        = waitWarnings wenv (0 + 1) (n - 1)
            ++ [StopCall.WARNING_StopRecoveryWorkers_wait_page_work_exit] := by
      have hn : n = (n - 1) + 1 := by omega
      have hlastv : 1 + (n - 1) = n := by omega
      conv_lhs => rw [hn]
      simp [waitWarnings, List.range'_concat, List.filter_append, hlastv, hfat.1]
    unfold StopRecoveryWorkers
    simp only []
    rw [hwait]
    have hstep : StopRecoveryWorkers_loop wenv oracle g.totalNum (f + 1) (0 + (n - 1))
        (g.scans + 1 + (n - 1))
        (SendSingalToPageWorker wenv oracle (oracle.threadState g.scans) g.totalNum
          Signal.SIGTERM ++ waitWarnings wenv (0 + 1) (n - 1))
        = StopLoop.panicked (g.scans + 1 + (n - 1) + 1)
            (SendSingalToPageWorker wenv oracle (oracle.threadState g.scans) g.totalNum
              Signal.SIGTERM ++ waitWarnings wenv (0 + 1) (n - 1)
              ++ [StopCall.WARNING_StopRecoveryWorkers_wait_page_work_exit]
              ++ [StopCall.DumpDispatcher]) := by
      show (if DispathCouldExit wenv (oracle.threadState (g.scans + 1 + (n - 1))) g.totalNum
        = true then _ else _) = _
      rw [if_neg (by rw [hlast]; exact Bool.false_ne_true)]
      simp only []
      rw [hmod, if_pos hfat.1, if_pos hfat.2]
    rw [hstep]
    simp only []
    rw [hw, show g.scans + 1 + (n - 1) + 1 = g.scans + 1 + n by omega]
    simp only [List.append_assoc]
  · intro k hk hready hleft fuel hfuel
    have hpoll : ∀ j, j < k →
        DispathCouldExit wenv (oracle.threadState (g.scans + 1 + j)) g.totalNum = false :=
      fun j hj => (DispathCouldExit_false_iff wenv _ _).mpr (hready j hj)
    have hexit : DispathCouldExit wenv (oracle.threadState (g.scans + 1 + k)) g.totalNum
        = true := (DispathCouldExit_iff wenv _ _).mpr hleft
    obtain ⟨f, rfl⟩ : ∃ f, fuel = (f + 1) + k := ⟨fuel - k - 1, by omega⟩
    have hwait := StopRecoveryWorkers_loop_wait wenv oracle g.totalNum (f + 1) k 0
      (g.scans + 1)
      (SendSingalToPageWorker wenv oracle (oracle.threadState g.scans) g.totalNum Signal.SIGTERM)
      (fun m hm1 hm2 => ⟨by omega, hmin m (by omega) (by omega)⟩)
      hpoll
    have hstep : StopRecoveryWorkers_loop wenv oracle g.totalNum (f + 1) (0 + k)
        (g.scans + 1 + k)
        (SendSingalToPageWorker wenv oracle (oracle.threadState g.scans) g.totalNum
          Signal.SIGTERM ++ waitWarnings wenv (0 + 1) k)
        = StopLoop.exited (g.scans + 1 + k + 1)
            (SendSingalToPageWorker wenv oracle (oracle.threadState g.scans) g.totalNum
              Signal.SIGTERM ++ waitWarnings wenv (0 + 1) k) := by
      show (if DispathCouldExit wenv (oracle.threadState (g.scans + 1 + k)) g.totalNum
        = true then _ else _) = _
      rw [if_pos hexit]
    unfold StopRecoveryWorkers
    simp only []
    rw [hwait, hstep]

/-- C28, with `OUTPUT_WAIT_COUNT = 3` and `PRINT_ALL_WAIT_COUNT = 7` and three page workers:
when the workers stay READY the call raises its PANIC at the count 7, after the warnings at
3 and 7 and the dump; when they stay READY for two polls and have left the state at the
third, the call returns after one warning less and destroys the workers. -/
theorem C28_shutdown_wait_bounded_witness :
    (sampleShortWait.OUTPUT_WAIT_COUNT ||| sampleShortWait.PRINT_ALL_WAIT_COUNT < 2 ^ 64) ∧
    (∀ k, k < 7 → ∃ i, i < sampleLive.totalNum ∧
      (sampleStop 100).threadState (sampleLive.scans + 1 + k) i
        = sampleShortWait.PAGE_REDO_WORKER_READY) ∧
    StopRecoveryWorkers sampleEnv sampleShortWait (sampleStop 100) 7 sampleLive
      = StopRes.panic
          [StopCall.gs_signal_send 0 Signal.SIGTERM, StopCall.gs_signal_send 1 Signal.SIGTERM,
            StopCall.gs_signal_send 2 Signal.SIGTERM,
            StopCall.WARNING_StopRecoveryWorkers_wait_page_work_exit,
            StopCall.WARNING_StopRecoveryWorkers_wait_page_work_exit,
            StopCall.DumpDispatcher]
          (sampleLive.withScans (sampleLive.scans + 1 + 7)).dump ∧
    (∀ j, j < 2 → ∃ i, i < sampleLive.totalNum ∧
      (sampleStop 6).threadState (sampleLive.scans + 1 + j) i
        = sampleShortWait.PAGE_REDO_WORKER_READY) ∧
    (∀ i, i < sampleLive.totalNum →
      (sampleStop 6).threadState (sampleLive.scans + 1 + 2) i
        ≠ sampleShortWait.PAGE_REDO_WORKER_READY) ∧
    StopRecoveryWorkers sampleEnv sampleShortWait (sampleStop 6) 3 sampleLive
      = StopRes.returned
          [StopCall.gs_signal_send 0 Signal.SIGTERM, StopCall.gs_signal_send 1 Signal.SIGTERM,
            StopCall.gs_signal_send 2 Signal.SIGTERM,
            StopCall.pfree_item 1, StopCall.pfree_item 0,
            StopCall.DestroyPageRedoWorker { id := 0, thid := 100 },
            StopCall.DestroyPageRedoWorker { id := 1, thid := 101 },
            StopCall.DestroyPageRedoWorker { id := 2, thid := 102 },
            StopCall.DestroyTxnRedoWorker, StopCall.MemoryContextDelete_parallelRedoCtx]
          (sampleDestroyed 7) := by
  have hstay : ∀ k, k < 7 → ∃ i, i < sampleLive.totalNum ∧
      (sampleStop 100).threadState (sampleLive.scans + 1 + k) i
        = sampleShortWait.PAGE_REDO_WORKER_READY := by
    intro k hk
    refine ⟨0, by decide, ?_⟩
    show (if sampleLive.scans + 1 + k < 100 then 2 else 3) = 2
    have hs : sampleLive.scans = 3 := rfl
    rw [if_pos (by omega)]
  have hstay2 : ∀ j, j < 2 → ∃ i, i < sampleLive.totalNum ∧
      (sampleStop 6).threadState (sampleLive.scans + 1 + j) i
        = sampleShortWait.PAGE_REDO_WORKER_READY := by
    intro j hj
    refine ⟨0, by decide, ?_⟩
    show (if sampleLive.scans + 1 + j < 6 then 2 else 3) = 2
    have hs : sampleLive.scans = 3 := rfl
    rw [if_pos (by omega)]
  have hleft : ∀ i, i < sampleLive.totalNum →
      (sampleStop 6).threadState (sampleLive.scans + 1 + 2) i
        ≠ sampleShortWait.PAGE_REDO_WORKER_READY := by
    intro i _
    show (if sampleLive.scans + 1 + 2 < 6 then 2 else 3) ≠ 2
    decide
  obtain ⟨n, h1, hle, hfat, _, hpanic, _⟩ :=
    C28_shutdown_wait_bounded sampleEnv sampleShortWait (sampleStop 100) sampleLive (by decide)
  obtain ⟨n2, h12, hle2, hfat2, _, _, hreturn⟩ :=
    C28_shutdown_wait_bounded sampleEnv sampleShortWait (sampleStop 6) sampleLive (by decide)
  have hn : n = 7 := by
    have hb : n ≤ 7 := hle
    have hf : n &&& 7 = 7 := hfat.2
    interval_cases n <;> first | rfl | exact absurd hf (by decide)
  have hn2 : n2 = 7 := by
    have hb : n2 ≤ 7 := hle2
    have hf : n2 &&& 7 = 7 := hfat2.2
    interval_cases n2 <;> first | rfl | exact absurd hf (by decide)
  subst hn
  subst hn2
  exact ⟨by decide, hstay, hpanic hstay 7 (le_refl 7), hstay2, hleft,
    hreturn 2 (by decide) hstay2 hleft 3 (by decide)⟩

/-! ## End of recovery -/

/-- The accepted slots of a concatenation. -/
theorem acceptedSlots_append (a b : List EndCall) :
    acceptedSlots (a ++ b) = acceptedSlots a ++ acceptedSlots b := by
  simp [acceptedSlots, List.filterMap_append]

/-- The refused slots of a concatenation. -/
theorem rejectedSlots_append (a b : List EndCall) :
    rejectedSlots (a ++ b) = rejectedSlots a ++ rejectedSlots b := by
  simp [rejectedSlots, List.filterMap_append]

/-- The waited slots of a concatenation. -/
theorem waitedSlots_append (a b : List EndCall) :
    waitedSlots (a ++ b) = waitedSlots a ++ waitedSlots b := by
  simp [waitedSlots, List.filterMap_append]

/-- A retry loop that ends has sent the end mark until the first try that was accepted. -/
theorem SendPageRedoEndMark_loop_spec (wenv : WorkerEnv) (oracle : EndOracle) (slot : Nat) :
    ∀ (fuel attempt blockcnt : Nat) (calls calls1 : List EndCall),
      SendPageRedoEndMark_loop wenv oracle slot fuel attempt blockcnt calls = some calls1 →
      ∃ a, attempt ≤ a ∧ a < attempt + fuel ∧ oracle.SendPageRedoEndMark slot a = true ∧
        (∀ k, attempt ≤ k → k < a → oracle.SendPageRedoEndMark slot k = false) ∧
        acceptedSlots calls1 = acceptedSlots calls ++ [slot] ∧
        rejectedSlots calls1 = rejectedSlots calls ++ List.replicate (a - attempt) slot ∧
        waitedSlots calls1 = waitedSlots calls := by
  intro fuel
  induction fuel with
  | zero =>
    intro attempt blockcnt calls calls1 h
    simp [SendPageRedoEndMark_loop] at h
  | succ fuel ih =>
    intro attempt blockcnt calls calls1 h
    unfold SendPageRedoEndMark_loop at h
    by_cases hacc : oracle.SendPageRedoEndMark slot attempt = true
    · rw [if_pos hacc] at h
      injection h with h
      subst h
      refine ⟨attempt, le_refl _, by omega, hacc, fun k h1 h2 => by omega, ?_, ?_, ?_⟩
      · simp [acceptedSlots]
      · simp [rejectedSlots]
      · simp [waitedSlots]
    · rw [if_neg hacc] at h
      simp only [] at h
      obtain ⟨a, ha1, ha2, hacc2, hmin, hA, hR, hW⟩ := ih _ _ _ _ h
      have hfalse : oracle.SendPageRedoEndMark slot attempt = false := by
        cases hb : oracle.SendPageRedoEndMark slot attempt
        · rfl
        · exact absurd hb hacc
      refine ⟨a, by omega, by omega, hacc2, ?_, ?_, ?_, ?_⟩
      · intro k h1 h2
        by_cases hk : k = attempt
        · rw [hk]; exact hfalse
        · exact hmin k (by omega) h2
      · rw [hA]
        split <;> simp [acceptedSlots]
      · rw [hR]
        have hrep : List.replicate (a - attempt) slot
            = slot :: List.replicate (a - (attempt + 1)) slot := by
          rw [show a - attempt = (a - (attempt + 1)) + 1 by omega, List.replicate_succ]
        rw [hrep]
        split <;> simp [rejectedSlots]
      · rw [hW]
        split <;> simp [waitedSlots]

/-- A retry loop ends when one of the tries it is given is accepted. -/
theorem SendPageRedoEndMark_loop_some (wenv : WorkerEnv) (oracle : EndOracle) (slot : Nat) :
    ∀ (fuel attempt blockcnt : Nat) (calls : List EndCall) (k : Nat),
      attempt ≤ k → k < attempt + fuel → oracle.SendPageRedoEndMark slot k = true →
      ∃ calls1,
        SendPageRedoEndMark_loop wenv oracle slot fuel attempt blockcnt calls = some calls1 := by
  intro fuel
  induction fuel with
  | zero =>
    intro attempt blockcnt calls k h1 h2 _
    omega
  | succ fuel ih =>
    intro attempt blockcnt calls k h1 h2 hk
    unfold SendPageRedoEndMark_loop
    by_cases hacc : oracle.SendPageRedoEndMark slot attempt = true
    · rw [if_pos hacc]
      exact ⟨_, rfl⟩
    · rw [if_neg hacc]
      simp only []
      have hne : k ≠ attempt := fun he => hacc (he ▸ hk)
      exact ih _ _ _ k (by omega) (by omega) hk

/-- The end marks sent to a list of distinct slots: each slot is accepted once, in the order
of the list, after as many refusals as it takes to reach its first accepted try; nobody is
waited on. -/
theorem SendPageRedoEndMark_all_spec (wenv : WorkerEnv) (oracle : EndOracle) (fuel : Nat) :
    ∀ (slots : List Nat) (calls calls1 : List EndCall), slots.Nodup →
      SendPageRedoEndMark_all wenv oracle fuel slots calls = some calls1 →
      acceptedSlots calls1 = acceptedSlots calls ++ slots ∧
      waitedSlots calls1 = waitedSlots calls ∧
      (∀ i, i ∉ slots → (rejectedSlots calls1).count i = (rejectedSlots calls).count i) ∧
      (∀ i, i ∈ slots → ∃ a, a < fuel ∧ oracle.SendPageRedoEndMark i a = true ∧
        (∀ k, k < a → oracle.SendPageRedoEndMark i k = false) ∧
        (rejectedSlots calls1).count i = (rejectedSlots calls).count i + a) := by
  intro slots
  induction slots with
  | nil =>
    intro calls calls1 _ h
    simp only [SendPageRedoEndMark_all] at h
    injection h with h
    subst h
    exact ⟨by simp, rfl, fun _ _ => rfl, fun i hi => absurd hi (List.not_mem_nil i)⟩
  | cons slot rest ih =>
    intro calls calls1 hnd h
    have hnd2 := List.nodup_cons.mp hnd
    unfold SendPageRedoEndMark_all at h
    cases hl : SendPageRedoEndMark_loop wenv oracle slot fuel 0 0 calls with
    | none => rw [hl] at h; cases h
    | some calls0 =>
      rw [hl] at h
      simp only [] at h
      obtain ⟨a, _, ha2, hacc, hmin, hA, hR, hW⟩ :=
        SendPageRedoEndMark_loop_spec wenv oracle slot fuel 0 0 calls calls0 hl
      obtain ⟨hA2, hW2, hN2, hI2⟩ := ih calls0 calls1 hnd2.2 h
      have hcount : ∀ i, (rejectedSlots calls0).count i
          = (rejectedSlots calls).count i + (if i = slot then a else 0) := by
        intro i
        rw [hR, List.count_append, List.count_replicate]
        by_cases hi : i = slot
        · subst hi; simp
        · have : ¬ slot = i := fun he => hi he.symm
          simp [hi, this]
      refine ⟨?_, ?_, ?_, ?_⟩
      · rw [hA2, hA]; simp
      · rw [hW2, hW]
      · intro i hi
        have hi1 : i ≠ slot := fun he => hi (he ▸ List.mem_cons_self _ _)
        have hi2 : i ∉ rest := fun hm => hi (List.mem_cons_of_mem _ hm)
        rw [hN2 i hi2, hcount i, if_neg hi1, Nat.add_zero]
      · intro i hi
        rcases List.mem_cons.mp hi with hi | hi
        · subst hi
          refine ⟨a, by omega, hacc, fun k hk => hmin k (Nat.zero_le k) hk, ?_⟩
          rw [hN2 i hnd2.1, hcount i, if_pos rfl]
        · obtain ⟨b, hb1, hb2, hb3, hb4⟩ := hI2 i hi
          have hi1 : i ≠ slot := fun he => hnd2.1 (he ▸ hi)
          exact ⟨b, hb1, hb2, hb3, by rw [hb4, hcount i, if_neg hi1, Nat.add_zero]⟩

/-- The end marks are all sent when every slot has an accepted try among those given. -/
theorem SendPageRedoEndMark_all_some (wenv : WorkerEnv) (oracle : EndOracle) (fuel : Nat) :
    ∀ (slots : List Nat) (calls : List EndCall),
      (∀ i, i ∈ slots → ∃ k, k < fuel ∧ oracle.SendPageRedoEndMark i k = true) →
      ∃ calls1, SendPageRedoEndMark_all wenv oracle fuel slots calls = some calls1 := by
  intro slots
  induction slots with
  | nil =>
    intro calls _
    exact ⟨calls, rfl⟩
  | cons slot rest ih =>
    intro calls h
    obtain ⟨k, hk1, hk2⟩ := h slot (List.mem_cons_self _ _)
    obtain ⟨calls0, h0⟩ := SendPageRedoEndMark_loop_some wenv oracle slot fuel 0 0 calls k
      (Nat.zero_le k) (by omega) hk2
    obtain ⟨calls1, h1⟩ := ih calls0 (fun i hi => h i (List.mem_cons_of_mem _ hi))
    refine ⟨calls1, ?_⟩
    unfold SendPageRedoEndMark_all
    rw [h0]
    exact h1

/-- The exit code read back as `int` is the `int` that was stored. -/
theorem GetDispatcherExitCode_stored (r : Recovery) (code : Int)
    (hlo : -2 ^ 31 ≤ code) (hhi : code < 2 ^ 31) :
    GetDispatcherExitCode { r with exitCode := (code % 2 ^ 32).toNat } = code := by
  unfold GetDispatcherExitCode
  simp only []
  have h0 : 0 ≤ code % 2 ^ 32 := Int.emod_nonneg _ (by norm_num)
  have h1 : code % 2 ^ 32 < 2 ^ 32 := Int.emod_lt_of_pos _ (by norm_num)
  have hn : ((code % 2 ^ 32).toNat : Int) = code % 2 ^ 32 := Int.toNat_of_nonneg h0
  have hlt : (code % 2 ^ 32).toNat < 2 ^ 32 := by
    have : ((code % 2 ^ 32).toNat : Int) < 2 ^ 32 := by rw [hn]; exact h1
    exact_mod_cast this
  rw [Nat.mod_eq_of_lt hlt]
  split
  · rename_i hs
    have hs2 : ((code % 2 ^ 32).toNat : Int) < 2 ^ 31 := by exact_mod_cast hs
    rw [hn] at hs2 ⊢
    omega
  · rename_i hs
    have hs2 : ¬ ((code % 2 ^ 32).toNat : Int) < 2 ^ 31 := by
      intro hc; apply hs; exact_mod_cast hc
    rw [hn] at hs2 ⊢
    omega

/-- The waited slots of a run of waits. -/
theorem waitedSlots_map_wait (l : List Nat) :
    waitedSlots (l.map EndCall.WaitPageRedoWorkerReachLastMark) = l := by
  induction l with
  | nil => rfl
  | cons a l ih =>
    have := ih
    simp only [waitedSlots] at this ⊢
    simp [this]

/-- A run of waits sends no end mark. -/
theorem acceptedSlots_map_wait (l : List Nat) :
    acceptedSlots (l.map EndCall.WaitPageRedoWorkerReachLastMark) = [] := by
  induction l with
  | nil => rfl
  | cons a l ih =>
    have := ih
    simp only [acceptedSlots] at this ⊢
    simp [this]

/-- A run of waits has no refused end mark. -/
theorem rejectedSlots_map_wait (l : List Nat) :
    rejectedSlots (l.map EndCall.WaitPageRedoWorkerReachLastMark) = [] := by
  induction l with
  | nil => rfl
  | cons a l ih =>
    have := ih
    simp only [rejectedSlots] at this ⊢
    simp [this]

/-- C29: in parallel mode (`get_real_recovery_parallelism() > 1`, `pageWorkerCount > 0`), a
call `SendRecoveryEndMarkToWorkersAndWaitForFinish(code)` that completes leaves the
lifecycle state `REDO_DONE` and the exit code `code` (read back by
`GetDispatcherExitCode`); the end mark of every page worker slot `0 .. pageWorkerCount - 1`
was accepted exactly once, in slot order, after a refused try for each try before the first
accepted one; then every slot was waited on once, in slot order, after all end marks were
sent.  The call completes when every slot accepts one of the tries it is given. -/
theorem C29_end_marks_then_done (env : Env) (wenv : WorkerEnv) (oracle : EndOracle)
    (fuel : Nat) (code : Int) (r : Recovery)
    (hpar : env.get_real_recovery_parallelism > 1)
    (hcnt : GetPageWorkerCount (some r.dispatcher) > 0)
    (hlo : -2 ^ 31 ≤ code) (hhi : code < 2 ^ 31) :
    (∀ calls g1,
      SendRecoveryEndMarkToWorkersAndWaitForFinish env wenv oracle fuel code (Global.live r)
        = some (calls, g1) →
      ∃ r1 sends,
        g1 = Global.live r1 ∧
        r1 = { r with exitCode := (code % 2 ^ 32).toNat,
                      state := knl_parallel_redo_state.REDO_DONE } ∧
        r1.state = knl_parallel_redo_state.REDO_DONE ∧
        GetDispatcherExitCode r1 = code ∧
        calls = sends ++ [EndCall.ApplyReadyTxnLogRecords true] ++
          (List.range r.dispatcher.pageWorkerCount).map
            EndCall.WaitPageRedoWorkerReachLastMark ∧
        waitedSlots sends = [] ∧
        acceptedSlots calls = List.range r.dispatcher.pageWorkerCount ∧
        waitedSlots calls = List.range r.dispatcher.pageWorkerCount ∧
        ∀ i, i < r.dispatcher.pageWorkerCount →
          ∃ a, a < fuel ∧ oracle.SendPageRedoEndMark i a = true ∧
            (∀ k, k < a → oracle.SendPageRedoEndMark i k = false) ∧
            (rejectedSlots calls).count i = a) ∧
    ((∀ i, i < r.dispatcher.pageWorkerCount →
        ∃ k, k < fuel ∧ oracle.SendPageRedoEndMark i k = true) →
      ∃ calls g1,
        SendRecoveryEndMarkToWorkersAndWaitForFinish env wenv oracle fuel code (Global.live r)
          = some (calls, g1)) := by
  have hguard : env.get_real_recovery_parallelism > 1 ∧
      GetPageWorkerCount (some r.dispatcher) > 0 := ⟨hpar, hcnt⟩
  refine ⟨?_, ?_⟩
  · intro calls g1 h
    unfold SendRecoveryEndMarkToWorkersAndWaitForFinish at h
    simp only [] at h
    rw [if_pos hguard] at h
    cases hall : SendPageRedoEndMark_all wenv oracle fuel
        (List.range r.dispatcher.pageWorkerCount) [EndCall.ApplyReadyTxnLogRecords true] with
    | none => rw [hall] at h; cases h
    | some sends =>
      rw [hall] at h
      simp only [] at h
      injection h with h
      injection h with hc hg
      obtain ⟨hA, hW, _, hI⟩ := SendPageRedoEndMark_all_spec wenv oracle fuel _ _ _
        (List.nodup_range _) hall
      have hW0 : waitedSlots sends = [] := by rw [hW]; rfl
      have hA0 : acceptedSlots sends = List.range r.dispatcher.pageWorkerCount := by
        rw [hA]; rfl
      refine ⟨_, sends, hg.symm, rfl, rfl,
        GetDispatcherExitCode_stored { r with state := knl_parallel_redo_state.REDO_DONE } code
          hlo hhi,
        hc.symm, hW0, ?_, ?_, ?_⟩
      · rw [← hc, acceptedSlots_append, acceptedSlots_append, acceptedSlots_map_wait, hA0]
        simp [acceptedSlots]
      · rw [← hc, waitedSlots_append, waitedSlots_append, waitedSlots_map_wait, hW0]
        simp [waitedSlots]
      · intro i hi
        obtain ⟨a, ha1, ha2, ha3, ha4⟩ := hI i (List.mem_range.mpr hi)
        refine ⟨a, ha1, ha2, ha3, ?_⟩
        rw [← hc, rejectedSlots_append, rejectedSlots_append, rejectedSlots_map_wait,
          List.count_append, List.count_append, ha4]
        simp [rejectedSlots]
  · intro h
    obtain ⟨sends, hs⟩ := SendPageRedoEndMark_all_some wenv oracle fuel
      (List.range r.dispatcher.pageWorkerCount) [EndCall.ApplyReadyTxnLogRecords true]
      (fun i hi => h i (List.mem_range.mp hi))
    have hres : SendRecoveryEndMarkToWorkersAndWaitForFinish env wenv oracle fuel code
        (Global.live r)
        = some (sends ++ [EndCall.ApplyReadyTxnLogRecords true] ++
            (List.range r.dispatcher.pageWorkerCount).map
              EndCall.WaitPageRedoWorkerReachLastMark,
          Global.live { r with exitCode := (code % 2 ^ 32).toNat,
                               state := knl_parallel_redo_state.REDO_DONE }) := by
      unfold SendRecoveryEndMarkToWorkersAndWaitForFinish
      simp only []
      rw [if_pos hguard, hs]
    exact ⟨_, _, hres⟩

/-- C29, at three page workers of which the one of slot `i` refuses the end mark `i` times,
with the exit code `-1`. -/
theorem C29_end_marks_then_done_witness :
    sampleEnv.get_real_recovery_parallelism > 1 ∧
    GetPageWorkerCount (some (samplePool 2).dispatcher) > 0 ∧
    SendRecoveryEndMarkToWorkersAndWaitForFinish sampleEnv sampleWorkerEnv sampleEnd 3 (-1)
        (Global.live (samplePool 2))
      = some
          ([EndCall.ApplyReadyTxnLogRecords true,
            EndCall.SendPageRedoEndMark 0 true,
            EndCall.SendPageRedoEndMark 1 false, EndCall.ApplyReadyTxnLogRecords false,
            EndCall.SendPageRedoEndMark 1 true,
            EndCall.SendPageRedoEndMark 2 false, EndCall.ApplyReadyTxnLogRecords false,
            EndCall.SendPageRedoEndMark 2 false, EndCall.ApplyReadyTxnLogRecords false,
            EndCall.SendPageRedoEndMark 2 true,
            EndCall.ApplyReadyTxnLogRecords true,
            EndCall.WaitPageRedoWorkerReachLastMark 0,
            EndCall.WaitPageRedoWorkerReachLastMark 1,
            EndCall.WaitPageRedoWorkerReachLastMark 2],
           Global.live { samplePool 2 with exitCode := 4294967295,
                                           state := knl_parallel_redo_state.REDO_DONE }) ∧
    GetDispatcherExitCode { samplePool 2 with exitCode := 4294967295,
                                              state := knl_parallel_redo_state.REDO_DONE }
      = -1 ∧
    ∃ calls g1,
      SendRecoveryEndMarkToWorkersAndWaitForFinish sampleEnv sampleWorkerEnv sampleEnd 3 (-1)
          (Global.live (samplePool 2))
        = some (calls, g1) :=
  ⟨by decide, by decide, rfl, by decide,
    (C29_end_marks_then_done sampleEnv sampleWorkerEnv sampleEnd 3 (-1) (samplePool 2)
      (by decide) (by decide) (by decide) (by decide)).2 (by decide)⟩

/-! ## Reader states of the pool -/

/-- Without wrap-around, `rebase` keeps the offset: the new address is as far from `base` as
`p` is from `origin`. -/
theorem rebase_offset (base p origin : Nat) (h1 : origin ≤ p) (h2 : p < 2 ^ 64)
    (h3 : base + (p - origin) < 2 ^ 64) : rebase base p origin = base + (p - origin) := by
  unfold rebase
  have hb : base % 2 ^ 64 = base := Nat.mod_eq_of_lt (by omega)
  have hp : p % 2 ^ 64 = p := Nat.mod_eq_of_lt h2
  have ho : origin % 2 ^ 64 = origin := Nat.mod_eq_of_lt (by omega)
  rw [hb, hp, ho]
  have h4 : (p + 2 ^ 64 - origin) % 2 ^ 64 = p - origin := by
    have : p + 2 ^ 64 - origin = (p - origin) + 2 ^ 64 := by omega
    rw [this, Nat.add_mod_right]
    exact Nat.mod_eq_of_lt (by omega)
  rw [h4]
  exact Nat.mod_eq_of_lt h3

/-- The loop body of `CopyDataFromOldReader` on one block: the image pointer is rebased when
the block has an image, the data pointer is the old reader's when the block has data. -/
theorem CopyDataFromOldReader_block_spec (newDecoded oldDecoded : Nat) (b o : BlockPayload) :
    (b.has_image = true →
      (CopyDataFromOldReader_block newDecoded oldDecoded b o).bkp_image
        = rebase newDecoded o.bkp_image oldDecoded) ∧
    (b.has_data = true →
      (CopyDataFromOldReader_block newDecoded oldDecoded b o).data = o.data ∧
      (CopyDataFromOldReader_block newDecoded oldDecoded b o).data_len = o.data_len) ∧
    (b.has_data = false →
      (CopyDataFromOldReader_block newDecoded oldDecoded b o).data = b.data) := by
  unfold CopyDataFromOldReader_block
  cases hI : b.has_image <;> cases hD : b.has_data <;> simp [hI, hD]

/-- The pointers `CopyDataFromOldReader` leaves after the `memcpy_s`. -/
theorem CopyDataFromOldReader_pointers_spec (n o : ReaderPayload) :
    (CopyDataFromOldReader_pointers n o).readRecordBuf = n.readRecordBuf ∧
    (CopyDataFromOldReader_pointers n o).readRecordBufSize = n.readRecordBufSize ∧
    (CopyDataFromOldReader_pointers n o).decoded_record = n.readRecordBuf ∧
    (∀ i, i < n.blocks.length → (i : Int) ≤ n.max_block_id →
      ((CopyDataFromOldReader_pointers n o).blocks.getD i default)
        = CopyDataFromOldReader_block n.readRecordBuf o.decoded_record
            (n.blocks.getD i default) (o.blocks.getD i default)) ∧
    (o.main_data_len > 0 →
      (CopyDataFromOldReader_pointers n o).main_data
        = rebase n.readRecordBuf o.main_data o.decoded_record) ∧
    (¬ o.main_data_len > 0 → (CopyDataFromOldReader_pointers n o).main_data = n.main_data) := by
  unfold CopyDataFromOldReader_pointers
  simp only []
  refine ⟨by split <;> rfl, by split <;> rfl, by split <;> rfl, ?_, ?_, ?_⟩
  · intro i hi hle
    have hb : ∀ bs : List BlockPayload,
        bs = (List.range n.blocks.length).map (fun (i : Nat) =>
          if (i : Int) ≤ n.max_block_id then
            CopyDataFromOldReader_block n.readRecordBuf o.decoded_record
              (n.blocks.getD i default) (o.blocks.getD i default)
          else n.blocks.getD i default) →
        bs.getD i default = CopyDataFromOldReader_block n.readRecordBuf o.decoded_record
          (n.blocks.getD i default) (o.blocks.getD i default) := by
      intro bs hbs
      rw [hbs, List.getD_eq_getElem?_getD, List.getElem?_map, List.getElem?_range hi]
      simp only [Option.map_some', Option.getD_some, if_pos hle]
    split <;> exact hb _ rfl
  · intro hpos
    rw [if_pos hpos]
  · intro hpos
    rw [if_neg hpos]

/-- What `InitReaderStateByOld` takes from the old reader state: the block count, and for
every slot the flags and the image pointer. -/
theorem InitReaderStateByOld_spec (XLR_MAX_BLOCK_ID : Nat) (n o : ReaderPayload)
    (isNew : Bool) :
    (InitReaderStateByOld XLR_MAX_BLOCK_ID n o isNew).max_block_id = o.max_block_id ∧
    (InitReaderStateByOld XLR_MAX_BLOCK_ID n o isNew).blocks.length = XLR_MAX_BLOCK_ID + 1 ∧
    ∀ i, i < XLR_MAX_BLOCK_ID + 1 →
      ((InitReaderStateByOld XLR_MAX_BLOCK_ID n o isNew).blocks.getD i default).has_image
        = (o.blocks.getD i default).has_image ∧
      ((InitReaderStateByOld XLR_MAX_BLOCK_ID n o isNew).blocks.getD i default).has_data
        = (o.blocks.getD i default).has_data := by
  cases isNew
  · refine ⟨rfl, by simp [InitReaderStateByOld], ?_⟩
    intro i hi
    simp only [InitReaderStateByOld, Bool.false_eq_true, if_false]
    rw [List.getD_eq_getElem?_getD, List.getElem?_map, List.getElem?_range hi]
    exact ⟨rfl, rfl⟩
  · refine ⟨rfl, by simp [InitReaderStateByOld], ?_⟩
    intro i hi
    simp only [InitReaderStateByOld, if_true]
    rw [List.getD_eq_getElem?_getD, List.getElem?_map, List.getElem?_range hi]
    exact ⟨rfl, rfl⟩

/-- A `CopyDataFromOldReader` that returns has fixed up the pointers of the state it was
given, with its record buffer replaced when one was allocated. -/
theorem CopyDataFromOldReader_returns (allocate_recordbuf : Nat → Option (Nat × Nat))
    (n o : ReaderPayload) (copy : MemCopy) (s : ReaderPayload)
    (h : CopyDataFromOldReader allocate_recordbuf n o = some (copy, s)) :
    ∃ buf size, s = CopyDataFromOldReader_pointers
      { n with readRecordBuf := buf, readRecordBufSize := size } o := by
  unfold CopyDataFromOldReader at h
  simp only [] at h
  by_cases hcond : n.readRecordBuf = 0 ∨ o.readRecordBufSize > n.readRecordBufSize
  · rw [if_pos hcond] at h
    cases ha : allocate_recordbuf o.readRecordBufSize with
    | none => rw [ha] at h; cases h
    | some bs =>
      obtain ⟨buf, size⟩ := bs
      rw [ha] at h
      simp only [] at h
      injection h with h
      injection h with _ hs
      exact ⟨buf, size, hs.symm⟩
  · rw [if_neg hcond] at h
    simp only [] at h
    injection h with h
    injection h with _ hs
    exact ⟨n.readRecordBuf, n.readRecordBufSize, hs.symm⟩

/-- The pointers of the reader state `NewReaderState(reader, true)` returns from the pool:
`decoded_record` is the start of the state's record buffer; for every block up to
`max_block_id`, the image pointer is rebased into it when the block has an image, while the
data pointer of a block that has data is the one of `reader`; `main_data` is rebased when
`reader` has main data. -/
theorem NewReaderState_pointers (wenv : WorkerEnv) (oracle : PoolOracle) (fuel : Nat)
    (allocate_recordbuf : Nat → Option (Nat × Nat)) (XLR_MAX_BLOCK_ID : Nat)
    (records : Nat → ReaderPayload) (g : Global) (reader : ReaderPayload)
    (item : Nat) (copy : Option MemCopy) (state : ReaderPayload) (r1 : Recovery)
    (h : NewReaderState wenv oracle fuel allocate_recordbuf XLR_MAX_BLOCK_ID records g reader
      true = NewReaderRes.pooled item copy state r1) :
    state.decoded_record = state.readRecordBuf ∧
    (∀ i, i < XLR_MAX_BLOCK_ID + 1 → (i : Int) ≤ reader.max_block_id →
      ((reader.blocks.getD i default).has_image = true →
        (state.blocks.getD i default).bkp_image
          = rebase state.readRecordBuf (reader.blocks.getD i default).bkp_image
              reader.decoded_record) ∧
      ((reader.blocks.getD i default).has_data = true →
        (state.blocks.getD i default).data = (reader.blocks.getD i default).data)) ∧
    (reader.main_data_len > 0 →
      state.main_data = rebase state.readRecordBuf reader.main_data reader.decoded_record) := by
  unfold NewReaderState at h
  by_cases hpr : ¬ reader.isPRProcess = true
  · rw [if_pos hpr] at h
    cases h
  · rw [if_neg hpr] at h
    cases g with
    | destroyed c => cases h
    | live r =>
      simp only [] at h
      split at h
      · cases h
      · rename_i item0 isNew r0 _
        simp only [if_true] at h
        split at h
        · cases h
        · rename_i copy0 state0 hcopy
          injection h with _ _ hstate _
          subst hstate
          obtain ⟨buf, size, hs⟩ := CopyDataFromOldReader_returns _ _ _ _ _ hcopy
          obtain ⟨hmax, hlen, hflags⟩ :=
            InitReaderStateByOld_spec XLR_MAX_BLOCK_ID (records item0) reader isNew
          obtain ⟨p1, _, p3, p4, p5, _⟩ := CopyDataFromOldReader_pointers_spec
            { InitReaderStateByOld XLR_MAX_BLOCK_ID (records item0) reader isNew with
              readRecordBuf := buf, readRecordBufSize := size } reader
          rw [hs]
          refine ⟨by rw [p3, p1], ?_, ?_⟩
          · intro i hi hle
            have hb := p4 i (by simpa [hlen] using hi) (by simpa [hmax] using hle)
            rw [hb, p1]
            have hbs := CopyDataFromOldReader_block_spec buf reader.decoded_record
              ((InitReaderStateByOld XLR_MAX_BLOCK_ID (records item0) reader isNew).blocks.getD i
                default)
              (reader.blocks.getD i default)
            refine ⟨fun hI => hbs.1 ?_, fun hD => (hbs.2.1 ?_).1⟩
            · rw [(hflags i hi).1]; exact hI
            · rw [(hflags i hi).2]; exact hD
          · intro hpos
            rw [p5 hpos, p1]

/-- C22: `NewReaderState(reader, true)` on a parallel-recovery reader whose record has a
block with an image and data, and main data, all in the decoder's record buffer
`[0x1000, 0x3000)`.  The pool item returned has its own record buffer `[0x9000, 0xb000)`;
`decoded_record`, the image pointer of the block and `main_data` point into it at the
offsets 0, 0x20 and 0x40 they have in the decoder's buffer; the data pointer of the block is
the decoder's pointer 0x1030 itself, which lies in the decoder's buffer and not in the
item's own. -/
theorem C22_block_data_not_rebased :
    ∃ r state,
      NewReaderState sampleWorkerEnv sampleQuiet 1 sampleAllocate 1 (fun _ => default)
          (Global.live (samplePool 2)) sampleDecoder true
        = NewReaderRes.pooled 0
            (some { dest := 0x9000, destMax := 0x2000, src := 0x1000, count := 0x2000 })
            state r ∧
      state.readRecordBuf = 0x9000 ∧ state.readRecordBufSize = 0x2000 ∧
      state.decoded_record = 0x9000 ∧
      state.main_data = 0x9040 ∧
      (state.blocks.getD 0 default).has_image = true ∧
      (state.blocks.getD 0 default).bkp_image = 0x9020 ∧
      (state.blocks.getD 0 default).has_data = true ∧
      (state.blocks.getD 0 default).data = (sampleDecoder.blocks.getD 0 default).data ∧
      (state.blocks.getD 0 default).data = 0x1030 ∧
      inBuffer sampleDecoder.readRecordBuf sampleDecoder.readRecordBufSize
        (state.blocks.getD 0 default).data ∧
      ¬ inBuffer state.readRecordBuf state.readRecordBufSize
        (state.blocks.getD 0 default).data :=
  ⟨_, _, rfl, by decide, by decide, by decide, by decide, by decide, by decide, by decide,
    by decide, by decide, by decide, by decide⟩

/-! ## Claims C31 to C37 -/

/-- C31: `RmgrGistRecordInfoValid` returns true exactly when the record's opcode with the
`XLR_INFO_MASK` bits cleared is `XLOG_GIST_PAGE_UPDATE`, `XLOG_GIST_PAGE_SPLIT` or
`XLOG_GIST_CREATE_INDEX`; its result is the same for all `minInfo` and `maxInfo`.  It is the
validity predicate of the gist row of `g_dispatchTable`, whose bounds are 0 and 0. -/
theorem C31_gist_enumerated_set (env : Env) (record : XLogReaderState)
    (minInfo maxInfo : Nat) :
    (RmgrGistRecordInfoValid env record minInfo maxInfo = true ↔
      (andNot (XLogRecGetInfo record) env.XLR_INFO_MASK = env.XLOG_GIST_PAGE_UPDATE ∨
       andNot (XLogRecGetInfo record) env.XLR_INFO_MASK = env.XLOG_GIST_PAGE_SPLIT ∨
       andNot (XLogRecGetInfo record) env.XLR_INFO_MASK = env.XLOG_GIST_CREATE_INDEX)) ∧
    (∀ minInfo1 maxInfo1,
      RmgrGistRecordInfoValid env record minInfo1 maxInfo1
        = RmgrGistRecordInfoValid env record minInfo maxInfo) ∧
    (∃ valid, ((g_dispatchTable env).getD 14 ⟨none, none, 0, 0, 0⟩).rm_loginfovalid
        = some valid ∧
      (∀ r a b, valid env r a b = RmgrGistRecordInfoValid env r a b) ∧
      ((g_dispatchTable env).getD 14 ⟨none, none, 0, 0, 0⟩).rm_id = env.RM_GIST_ID ∧
      ((g_dispatchTable env).getD 14 ⟨none, none, 0, 0, 0⟩).rm_mininfo = 0 ∧
      ((g_dispatchTable env).getD 14 ⟨none, none, 0, 0, 0⟩).rm_maxinfo = 0) := by
  refine ⟨?_, fun _ _ => rfl, ⟨RmgrGistRecordInfoValid, rfl, fun _ _ _ => rfl, rfl, rfl, rfl⟩⟩
  unfold RmgrGistRecordInfoValid infoOp
  simp only []
  constructor
  · intro h
    by_contra hne
    rw [if_neg hne] at h
    cases h
  · intro h
    rw [if_pos h]

/-- C33: `XLogWillChangeStandbyState` is true exactly when
`STANDBY_INITIALIZED <= standbyState`, `standbyState != STANDBY_SNAPSHOT_READY` and the
record is an `RM_XLOG_ID` record with the opcode `XLOG_CHECKPOINT_SHUTDOWN`;
`StandbyWillChangeStandbyState` is true exactly when `standbyState < STANDBY_SNAPSHOT_READY`
and the record is an `RM_STANDBY_ID` record with the opcode `XLOG_RUNNING_XACTS`.  With
`standbyState` at `STANDBY_SNAPSHOT_READY` both are false for every record. -/
theorem C33_standby_state_predicates (env : Env) (record : XLogReaderState) :
    (XLogWillChangeStandbyState env record = true ↔
      (env.STANDBY_INITIALIZED ≤ env.standbyState ∧
       env.standbyState ≠ env.STANDBY_SNAPSHOT_READY ∧
       XLogRecGetRmid record = env.RM_XLOG_ID ∧
       andNot (XLogRecGetInfo record) env.XLR_INFO_MASK = env.XLOG_CHECKPOINT_SHUTDOWN)) ∧
    (StandbyWillChangeStandbyState env record = true ↔
      (env.standbyState < env.STANDBY_SNAPSHOT_READY ∧
       XLogRecGetRmid record = env.RM_STANDBY_ID ∧
       andNot (XLogRecGetInfo record) env.XLR_INFO_MASK = env.XLOG_RUNNING_XACTS)) ∧
    (env.standbyState = env.STANDBY_SNAPSHOT_READY →
      ∀ r, XLogWillChangeStandbyState env r = false ∧
        StandbyWillChangeStandbyState env r = false) := by
  have h1 : ∀ r, XLogWillChangeStandbyState env r = true ↔
      (env.STANDBY_INITIALIZED ≤ env.standbyState ∧
       env.standbyState ≠ env.STANDBY_SNAPSHOT_READY ∧
       XLogRecGetRmid r = env.RM_XLOG_ID ∧
       andNot (XLogRecGetInfo r) env.XLR_INFO_MASK = env.XLOG_CHECKPOINT_SHUTDOWN) := by
    intro r
    unfold XLogWillChangeStandbyState infoOp
    by_cases hs : env.standbyState < env.STANDBY_INITIALIZED ∨
        env.standbyState = env.STANDBY_SNAPSHOT_READY
    · rw [if_pos hs]
      constructor
      · intro h; cases h
      · rintro ⟨ha, hb, _⟩
        rcases hs with hs | hs
        · omega
        · exact absurd hs hb
    · rw [if_neg hs]
      have ha : env.STANDBY_INITIALIZED ≤ env.standbyState := by
        by_contra hc
        exact hs (Or.inl (by omega))
      have hb : env.standbyState ≠ env.STANDBY_SNAPSHOT_READY := fun hc => hs (Or.inr hc)
      by_cases hr : XLogRecGetRmid r = env.RM_XLOG_ID ∧
          andNot (XLogRecGetInfo r) env.XLR_INFO_MASK = env.XLOG_CHECKPOINT_SHUTDOWN
      · rw [if_pos hr]
        exact ⟨fun _ => ⟨ha, hb, hr.1, hr.2⟩, fun _ => rfl⟩
      · rw [if_neg hr]
        constructor
        · intro h; cases h
        · rintro ⟨_, _, hc, hd⟩
          exact absurd ⟨hc, hd⟩ hr
  have h2 : ∀ r, StandbyWillChangeStandbyState env r = true ↔
      (env.standbyState < env.STANDBY_SNAPSHOT_READY ∧
       XLogRecGetRmid r = env.RM_STANDBY_ID ∧
       andNot (XLogRecGetInfo r) env.XLR_INFO_MASK = env.XLOG_RUNNING_XACTS) := by
    intro r
    unfold StandbyWillChangeStandbyState infoOp
    by_cases hr : env.standbyState < env.STANDBY_SNAPSHOT_READY ∧
        XLogRecGetRmid r = env.RM_STANDBY_ID ∧
        andNot (XLogRecGetInfo r) env.XLR_INFO_MASK = env.XLOG_RUNNING_XACTS
    · rw [if_pos hr]
      exact ⟨fun _ => hr, fun _ => rfl⟩
    · rw [if_neg hr]
      constructor
      · intro h; cases h
      · intro h; exact absurd h hr
  refine ⟨h1 record, h2 record, ?_⟩
  intro hs r
  constructor
  · cases hx : XLogWillChangeStandbyState env r with
    | false => rfl
    | true => exact absurd hs ((h1 r).mp hx).2.1
  · cases hx : StandbyWillChangeStandbyState env r with
    | false => rfl
    | true =>
      have := ((h2 r).mp hx).1
      omega

/-- An `AddPageRedoItem` event of a list is an entry of the queue of its worker. -/
theorem mem_pageQueue_of_event (w : Nat) (item : RedoItem) (evs : List Event)
    (h : Event.AddPageRedoItem w item ∈ evs) : item ∈ pageQueue w evs := by
  unfold pageQueue
  rw [List.mem_filterMap]
  exact ⟨_, h, by simp⟩

/-- C34: under the guard of `DispatchRedoRecordToFile` (recovery parallelism above 1, at
least one page worker) the call never ends in the PANIC of `AddWorkerToSet`: every id given
to `AddWorkerToSet` is below `pageWorkerCount`.  Every `pageWorkers[...]` index of an enqueue
the call makes is below `pageWorkerCount`, and so is every `GetWorkerId` result. -/
theorem C34_worker_indexes_in_range (env : Env) (d : LogDispatcher)
    (record : XLogReaderState) (tlis : List Nat) (xt : Int)
    (hpar : env.get_real_recovery_parallelism > 1)
    (hn : GetPageWorkerCount (some d) > 0) :
    (DispatchRedoRecordToFile env (some d) record tlis xt).panicMsg
      ≠ some PanicMsg.AddWorkerToSet_input_work_id_error ∧
    (∃ evs, (DispatchRedoRecordToFile env (some d) record tlis xt).trace = d.trace ++ evs ∧
      ∀ w item, Event.AddPageRedoItem w item ∈ evs → w < d.pageWorkerCount) ∧
    (∀ node block forkNum, GetWorkerId env (some d) node block forkNum < d.pageWorkerCount) ∧
    (∀ id d1, id < d1.pageWorkerCount → (AddWorkerToSet id d1).returned = true) ∧
    (∀ id d1, (AddWorkerToSet id d1).returned = true → id < d1.pageWorkerCount) := by
  have hn1 : 0 < d.pageWorkerCount := hn
  refine ⟨?_, ?_, fun node block forkNum => GetWorkerId_lt env d node block forkNum hn1, ?_, ?_⟩
  · cases hf : fatalerror env record with
    | true =>
      rw [dispatch_fatal env d record tlis xt hpar hn1 hf]
      simp [Res.panicMsg]
    | false =>
      obtain ⟨b, d1, evs, d2, _, _, _, _, heq, _⟩ :=
        dispatch_accepted env d record tlis xt hpar hn1 hf
      rw [heq]
      simp [Res.panicMsg]
  · cases hf : fatalerror env record with
    | true =>
      rw [dispatch_fatal env d record tlis xt hpar hn1 hf]
      refine ⟨_, rfl, ?_⟩
      intro w item hmem
      simp only [Res.trace, List.mem_append, List.mem_map, List.mem_range, List.mem_cons,
        List.mem_singleton, List.not_mem_nil, or_false] at hmem
      rcases hmem with ⟨i, hi, he⟩ | he | he | he
      · injection he with hw _
        omega
      · cases he
      · cases he
      · cases he
    | false =>
      obtain ⟨b, d1, evs, d2, _, _, hF, _, heq, _, _, htr, _⟩ :=
        dispatch_accepted env d record tlis xt hpar hn1 hf
      rw [heq]
      refine ⟨_, by simp only [Res.trace]; rw [htr, List.append_assoc], ?_⟩
      intro w item hmem
      rcases List.mem_append.mp hmem with h1 | h1
      · by_contra hw
        have hq := hF.page_bound w (by omega)
        have := mem_pageQueue_of_event w item evs h1
        rw [hq] at this
        cases this
      · exfalso
        split at h1
        · simp at h1
        · split at h1
          · simp at h1
          · simp at h1
  · intro id d1 hid
    obtain ⟨d2, h2, _⟩ := AddWorkerToSet_ok id d1 hid
    rw [h2]
    rfl
  · intro id d1 h
    by_contra hid
    have hge : id ≥ d1.pageWorkerCount := by omega
    unfold AddWorkerToSet at h
    rw [if_pos hge] at h
    cases h

/-- C34, at a commit record that removes two relation files, over three page workers. -/
theorem C34_worker_indexes_in_range_witness :
    sampleEnv.get_real_recovery_parallelism > 1 ∧
    GetPageWorkerCount (some (sampleDispatcher 3)) > 0 ∧
    (DispatchRedoRecordToFile sampleEnv (some (sampleDispatcher 3))
        (sampleRecord 1 0 300 [4, 5]) [] 0).panicMsg
      ≠ some PanicMsg.AddWorkerToSet_input_work_id_error ∧
    (DispatchRedoRecordToFile sampleEnv (some (sampleDispatcher 3))
        (sampleRecord 1 0 300 [4, 5]) [] 0).returned = true :=
  ⟨by decide, by decide,
    (C34_worker_indexes_in_range sampleEnv (sampleDispatcher 3) (sampleRecord 1 0 300 [4, 5])
      [] 0 (by decide) (by decide)).1,
    by decide⟩

/-- C35: when `DispatchRedoRecordToFile` returns (the record was accepted), on a dispatcher
whose `pendingMax` is at least 1, the pending counter is below `pendingMax`, which is
unchanged.  With `pendingMax = 1`, the value `CreateDispatcher` configures, and a counter
that is not negative at the call, `ProcessPendingRecords` is the last call made and the
counter is 0 on return, so both properties hold again at the next record. -/
theorem C35_pending_below_max (env : Env) (d : LogDispatcher) (record : XLogReaderState)
    (tlis : List Nat) (xt : Int) (hmax : 1 ≤ d.pendingMax)
    (hret : (DispatchRedoRecordToFile env (some d) record tlis xt).returned = true) :
    fatalerror env record = false ∧
    ∃ d2, DispatchRedoRecordToFile env (some d) record tlis xt = Res.ok () d2 ∧
      d2.pendingMax = d.pendingMax ∧
      d2.pendingCount < d2.pendingMax ∧
      (0 ≤ d.pendingCount → 0 ≤ d2.pendingCount) ∧
      (d.pendingMax = 1 → 0 ≤ d.pendingCount →
        d2.pendingCount = 0 ∧
        ∃ fullSync pre, d2.trace = pre ++ [Event.ProcessPendingRecords fullSync]) ∧
      (CreateDispatcher env).1.pendingMax = 1 ∧ (CreateDispatcher env).1.pendingCount = 0 := by
  have hguard : env.get_real_recovery_parallelism > 1 ∧ GetPageWorkerCount (some d) > 0 := by
    by_contra hg
    unfold DispatchRedoRecordToFile at hret
    simp only [] at hret
    rw [if_neg hg] at hret
    cases hret
  have hn1 : 0 < d.pageWorkerCount := hguard.2
  have hacc : fatalerror env record = false := by
    cases hf : fatalerror env record with
    | false => rfl
    | true =>
      rw [dispatch_fatal env d record tlis xt hguard.1 hn1 hf] at hret
      cases hret
  obtain ⟨b, d1, evs, d3, _, _, _, _, heq, _, hpm, htr, hpc⟩ :=
    dispatch_accepted env d record tlis xt hguard.1 hn1 hacc
  have hcreate : (CreateDispatcher env).1.pendingMax = 1 := by
    unfold CreateDispatcher
    by_cases hh : OnHotStandBy env = true <;> simp [hh, MAX_PENDING, MAX_PENDING_STANDBY]
  refine ⟨hacc, d3, heq, hpm, ?_, ?_, ?_, hcreate, rfl⟩
  · rw [hpm, hpc]
    split
    · omega
    · split
      · omega
      · omega
  · intro h0
    rw [hpc]
    split
    · omega
    · split
      · omega
      · omega
  · intro h1 h0
    have hge : d.pendingCount + 1 ≥ d.pendingMax := by omega
    constructor
    · rw [hpc]
      cases b with
      | true => rfl
      | false => simp only [Bool.false_eq_true, if_false, if_pos hge]
    · rw [htr]
      cases b with
      | true => exact ⟨true, _, rfl⟩
      | false =>
        simp only [Bool.false_eq_true, if_false, if_pos hge]
        exact ⟨false, _, rfl⟩

/-- C35, at a heap insert dispatched over three page workers. -/
theorem C35_pending_below_max_witness :
    (1 : Int) ≤ (sampleDispatcher 3).pendingMax ∧
    (DispatchRedoRecordToFile sampleEnv (some (sampleDispatcher 3))
        (sampleBlockRecord 10 0 100 7 5) [] 0).returned = true ∧
    ∃ d2, DispatchRedoRecordToFile sampleEnv (some (sampleDispatcher 3))
        (sampleBlockRecord 10 0 100 7 5) [] 0 = Res.ok () d2 ∧
      d2.pendingCount < d2.pendingMax ∧ d2.pendingCount = 0 :=
  ⟨by decide, by decide,
    (C35_pending_below_max sampleEnv (sampleDispatcher 3) (sampleBlockRecord 10 0 100 7 5)
      [] 0 (by decide) (by decide)).2.imp
      (fun _ h => ⟨h.1, h.2.2.1, (h.2.2.2.2.1 rfl (by decide)).1⟩)⟩

/-! ## Restart points and replay positions -/

/-- The first loop of `IsRecoveryRestartPointSafeForWorkers`: the flag stays true exactly
when every slot is safe, and one message is logged for each slot that is not. -/
theorem IsRecoveryRestartPointSafeForWorkers_check_spec (status : WorkerStatus) (p : Nat) :
    ∀ (slots : List Nat) (acc : Bool × List RestartCall),
      ((IsRecoveryRestartPointSafeForWorkers_check status p slots acc).1 = true ↔
        (acc.1 = true ∧ ∀ i ∈ slots, status.IsRecoveryRestartPointSafe i p = true)) ∧
      (IsRecoveryRestartPointSafeForWorkers_check status p slots acc).2
        = acc.2 ++ (slots.filter (fun i => !status.IsRecoveryRestartPointSafe i p)).map
            (fun i => RestartCall.LOG_IsRecoveryRestartPointSafeForWorkers i p) := by
  intro slots
  induction slots with
  | nil =>
    intro acc
    simp [IsRecoveryRestartPointSafeForWorkers_check]
  | cons x rest ih =>
    intro acc
    have hstep : IsRecoveryRestartPointSafeForWorkers_check status p (x :: rest) acc
        = IsRecoveryRestartPointSafeForWorkers_check status p rest
            (if ¬ status.IsRecoveryRestartPointSafe x p = true then
              (false, acc.2 ++ [RestartCall.LOG_IsRecoveryRestartPointSafeForWorkers x p])
             else acc) := rfl
    rw [hstep]
    cases hx : status.IsRecoveryRestartPointSafe x p with
    | true =>
      simp only [not_true_eq_false, if_false]
      obtain ⟨h1, h2⟩ := ih acc
      refine ⟨?_, ?_⟩
      · rw [h1]
        simp [hx]
      · rw [h2]
        simp [List.filter_cons, hx]
    | false =>
      simp only [Bool.false_eq_true, not_false_eq_true, if_true]
      obtain ⟨h1, h2⟩ := ih
        (false, acc.2 ++ [RestartCall.LOG_IsRecoveryRestartPointSafeForWorkers x p])
      refine ⟨?_, ?_⟩
      · rw [h1]
        simp [hx]
      · rw [h2]
        simp [List.filter_cons, hx]

/-- The second loop of `IsRecoveryRestartPointSafeForWorkers`: one `SetWorkerRestartPoint`
call for each slot, in order; the restart point of each of these slots is the new one, the
others are unchanged. -/
theorem IsRecoveryRestartPointSafeForWorkers_set_spec (p : Nat) :
    ∀ (slots : List Nat) (acc : List RestartCall × (Nat → Nat)),
      (IsRecoveryRestartPointSafeForWorkers_set p slots acc).1
        = acc.1 ++ slots.map (fun i => RestartCall.SetWorkerRestartPoint i p) ∧
      ∀ i, (IsRecoveryRestartPointSafeForWorkers_set p slots acc).2 i
        = if i ∈ slots then p else acc.2 i := by
  intro slots
  induction slots with
  | nil =>
    intro acc
    simp [IsRecoveryRestartPointSafeForWorkers_set]
  | cons x rest ih =>
    intro acc
    have hstep : IsRecoveryRestartPointSafeForWorkers_set p (x :: rest) acc
        = IsRecoveryRestartPointSafeForWorkers_set p rest
            (acc.1 ++ [RestartCall.SetWorkerRestartPoint x p], Function.update acc.2 x p) := rfl
    rw [hstep]
    obtain ⟨h1, h2⟩ := ih
      (acc.1 ++ [RestartCall.SetWorkerRestartPoint x p], Function.update acc.2 x p)
    refine ⟨?_, ?_⟩
    · rw [h1]
      simp
    · intro i
      rw [h2 i]
      by_cases hi : i ∈ rest
      · simp [hi]
      · by_cases hix : i = x
        · simp [hix, Function.update]
        · simp [hi, hix, Function.update]

/-- C36: `IsRecoveryRestartPointSafeForWorkers(p)` returns true exactly when, in parallel
mode (recovery parallelism above 1 and at least one page worker),
`IsRecoveryRestartPointSafe` holds for every page worker; outside parallel mode it returns
true and does nothing.  When it returns true in parallel mode, `SetWorkerRestartPoint` was
called once for every page worker, in slot order, so the restart point of every page worker
is `p` and no other restart point has changed; when it returns false, no
`SetWorkerRestartPoint` call was made and no restart point has changed. -/
theorem C36_restart_point_all_or_nothing (env : Env) (status : WorkerStatus)
    (g_dispatcher : Option LogDispatcher) (restartPoints : Nat → Nat) (p : Nat) :
    ((IsRecoveryRestartPointSafeForWorkers env status g_dispatcher restartPoints p).1 = true ↔
      (env.get_real_recovery_parallelism > 1 ∧ GetPageWorkerCount g_dispatcher > 0 →
        ∀ i, i < GetPageWorkerCount g_dispatcher →
          status.IsRecoveryRestartPointSafe i p = true)) ∧
    ((IsRecoveryRestartPointSafeForWorkers env status g_dispatcher restartPoints p).1 = true →
      env.get_real_recovery_parallelism > 1 ∧ GetPageWorkerCount g_dispatcher > 0 →
      (IsRecoveryRestartPointSafeForWorkers env status g_dispatcher restartPoints p).2.1
        = (List.range (GetPageWorkerCount g_dispatcher)).map
            (fun i => RestartCall.SetWorkerRestartPoint i p) ∧
      (∀ i, i < GetPageWorkerCount g_dispatcher →
        (IsRecoveryRestartPointSafeForWorkers env status g_dispatcher restartPoints p).2.2 i
          = p) ∧
      (∀ i, GetPageWorkerCount g_dispatcher ≤ i →
        (IsRecoveryRestartPointSafeForWorkers env status g_dispatcher restartPoints p).2.2 i
          = restartPoints i)) ∧
    ((IsRecoveryRestartPointSafeForWorkers env status g_dispatcher restartPoints p).1 = false →
      (IsRecoveryRestartPointSafeForWorkers env status g_dispatcher restartPoints p).2.2
        = restartPoints ∧
      ∀ i q, RestartCall.SetWorkerRestartPoint i q ∉
        (IsRecoveryRestartPointSafeForWorkers env status g_dispatcher restartPoints p).2.1) ∧
    (¬ (env.get_real_recovery_parallelism > 1 ∧ GetPageWorkerCount g_dispatcher > 0) →
      IsRecoveryRestartPointSafeForWorkers env status g_dispatcher restartPoints p
        = (true, [], restartPoints)) := by
  by_cases hg : env.get_real_recovery_parallelism > 1 ∧ GetPageWorkerCount g_dispatcher > 0
  · obtain ⟨hc1, hc2⟩ := IsRecoveryRestartPointSafeForWorkers_check_spec status p
      (List.range (GetPageWorkerCount g_dispatcher)) (true, [])
    have hc1a : (IsRecoveryRestartPointSafeForWorkers_check status p
        (List.range (GetPageWorkerCount g_dispatcher)) (true, [])).1 = true ↔
        ∀ i, i < GetPageWorkerCount g_dispatcher →
          status.IsRecoveryRestartPointSafe i p = true := by
      rw [hc1]
      simp [List.mem_range]
    obtain ⟨hs1, hs2⟩ := IsRecoveryRestartPointSafeForWorkers_set_spec p
      (List.range (GetPageWorkerCount g_dispatcher))
      ((IsRecoveryRestartPointSafeForWorkers_check status p
        (List.range (GetPageWorkerCount g_dispatcher)) (true, [])).2, restartPoints)
    cases hchk : (IsRecoveryRestartPointSafeForWorkers_check status p
        (List.range (GetPageWorkerCount g_dispatcher)) (true, [])).1 with
    | true =>
      have hall := hc1a.mp hchk
      have hnolog : (IsRecoveryRestartPointSafeForWorkers_check status p
          (List.range (GetPageWorkerCount g_dispatcher)) (true, [])).2 = [] := by
        rw [hc2]
        have : (List.range (GetPageWorkerCount g_dispatcher)).filter
            (fun i => !status.IsRecoveryRestartPointSafe i p) = [] := by
          apply List.filter_eq_nil_iff.mpr
          intro i hi
          simp [hall i (List.mem_range.mp hi)]
        rw [this]
        rfl
      have hres : IsRecoveryRestartPointSafeForWorkers env status g_dispatcher restartPoints p
          = (true,
              (IsRecoveryRestartPointSafeForWorkers_set p
                (List.range (GetPageWorkerCount g_dispatcher))
                ((IsRecoveryRestartPointSafeForWorkers_check status p
                  (List.range (GetPageWorkerCount g_dispatcher)) (true, [])).2,
                  restartPoints)).1,
              (IsRecoveryRestartPointSafeForWorkers_set p
                (List.range (GetPageWorkerCount g_dispatcher))
                ((IsRecoveryRestartPointSafeForWorkers_check status p
                  (List.range (GetPageWorkerCount g_dispatcher)) (true, [])).2,
                  restartPoints)).2) := by
        unfold IsRecoveryRestartPointSafeForWorkers
        rw [if_pos hg]
        simp only [hchk, if_true]
      rw [hres]
      refine ⟨⟨fun _ _ => hall, fun _ => rfl⟩, fun _ _ => ⟨?_, ?_, ?_⟩,
        (fun hf => by cases hf), fun hn => absurd hg hn⟩
      · show (IsRecoveryRestartPointSafeForWorkers_set p _ _).1 = _
        rw [hs1, hnolog]
        rfl
      · intro i hi
        show (IsRecoveryRestartPointSafeForWorkers_set p _ _).2 i = _
        rw [hs2 i, if_pos (List.mem_range.mpr hi)]
      · intro i hi
        show (IsRecoveryRestartPointSafeForWorkers_set p _ _).2 i = _
        rw [hs2 i, if_neg (fun hm => by have := List.mem_range.mp hm; omega)]
    | false =>
      have hres : IsRecoveryRestartPointSafeForWorkers env status g_dispatcher restartPoints p
          = (false,
              (IsRecoveryRestartPointSafeForWorkers_check status p
                (List.range (GetPageWorkerCount g_dispatcher)) (true, [])).2,
              restartPoints) := by
        unfold IsRecoveryRestartPointSafeForWorkers
        rw [if_pos hg]
        simp only [hchk, Bool.false_eq_true, if_false]
      have hnot : ¬ ∀ i, i < GetPageWorkerCount g_dispatcher →
          status.IsRecoveryRestartPointSafe i p = true := by
        intro hall
        have := hc1a.mpr hall
        rw [hchk] at this
        cases this
      rw [hres]
      refine ⟨⟨(fun hf => by cases hf), fun hall => absurd (hall hg) hnot⟩,
        (fun hf => by cases hf), fun _ => ⟨rfl, ?_⟩, fun hn => absurd hg hn⟩
      intro i q hmem
      have hmem2 : RestartCall.SetWorkerRestartPoint i q ∈
          (IsRecoveryRestartPointSafeForWorkers_check status p
            (List.range (GetPageWorkerCount g_dispatcher)) (true, [])).2 := hmem
      rw [hc2] at hmem2
      simp at hmem2
  · have hres : IsRecoveryRestartPointSafeForWorkers env status g_dispatcher restartPoints p
        = (true, [], restartPoints) := by
      unfold IsRecoveryRestartPointSafeForWorkers
      rw [if_neg hg]
    rw [hres]
    exact ⟨⟨fun _ hg2 => absurd hg2 hg, fun _ => rfl⟩, fun _ hg2 => absurd hg2 hg,
      (fun hf => by cases hf), fun _ => rfl⟩

/-- The loop of `GetReplayedRecPtrFromWorkers` after `n` page workers: either it still holds
the initial pair, and no worker so far is busy with an end position below the initial one,
or it holds the pair of the first busy worker whose end position is minimal. -/
theorem GetReplayedRecPtrFromWorkers_loop (M : Nat) (status : WorkerStatus) (n : Nat) :
    ((List.range n).foldl (fun (acc : Nat × Nat) i =>
        if ¬ status.RedoWorkerIsIdle i then
          if (status.GetCompletedReadEndPtr i).2 < acc.2 then
            ((status.GetCompletedReadEndPtr i).1, (status.GetCompletedReadEndPtr i).2)
          else acc
        else acc) (M, M) = (M, M) ∧
      ∀ i, i < n → status.RedoWorkerIsIdle i = false →
        M ≤ (status.GetCompletedReadEndPtr i).2) ∨
    ∃ j, j < n ∧ status.RedoWorkerIsIdle j = false ∧
      (List.range n).foldl (fun (acc : Nat × Nat) i =>
        if ¬ status.RedoWorkerIsIdle i then
          if (status.GetCompletedReadEndPtr i).2 < acc.2 then
            ((status.GetCompletedReadEndPtr i).1, (status.GetCompletedReadEndPtr i).2)
          else acc
        else acc) (M, M) = status.GetCompletedReadEndPtr j ∧
      (status.GetCompletedReadEndPtr j).2 < M ∧
      (∀ i, i < n → status.RedoWorkerIsIdle i = false →
        (status.GetCompletedReadEndPtr j).2 ≤ (status.GetCompletedReadEndPtr i).2) ∧
      (∀ i, i < j → status.RedoWorkerIsIdle i = false →
        (status.GetCompletedReadEndPtr j).2 < (status.GetCompletedReadEndPtr i).2) := by
  induction n with
  | zero =>
    left
    exact ⟨rfl, fun i hi => absurd hi (Nat.not_lt_zero i)⟩
  | succ n ih =>
    rw [List.range_succ, List.foldl_append]
    simp only [List.foldl_cons, List.foldl_nil]
    cases hidle : status.RedoWorkerIsIdle n with
    | true =>
      simp only [not_true_eq_false, if_false]
      rcases ih with ⟨h1, h2⟩ | ⟨j, hj, hb, h1, h2, h3, h4⟩
      · left
        refine ⟨h1, fun i hi hbusy => ?_⟩
        by_cases hin : i = n
        · rw [hin, hidle] at hbusy
          cases hbusy
        · exact h2 i (by omega) hbusy
      · right
        refine ⟨j, by omega, hb, h1, h2, fun i hi hbusy => ?_, h4⟩
        by_cases hin : i = n
        · rw [hin, hidle] at hbusy
          cases hbusy
        · exact h3 i (by omega) hbusy
    | false =>
      simp only [Bool.false_eq_true, not_false_eq_true, if_true]
      rcases ih with ⟨h1, h2⟩ | ⟨j, hj, hb, h1, h2, h3, h4⟩
      · rw [h1]
        by_cases hlt : (status.GetCompletedReadEndPtr n).2 < M
        · right
          refine ⟨n, Nat.lt_succ_self n, hidle, ?_, hlt, fun i hi hbusy => ?_,
            fun i hi hbusy => ?_⟩
          · simp only [hlt, if_true]
          · by_cases hin : i = n
            · rw [hin]
            · have := h2 i (by omega) hbusy
              omega
          · have := h2 i hi hbusy
            omega
        · left
          refine ⟨by simp only [hlt, if_false], fun i hi hbusy => ?_⟩
          by_cases hin : i = n
          · rw [hin]
            omega
          · exact h2 i (by omega) hbusy
      · rw [h1]
        by_cases hlt : (status.GetCompletedReadEndPtr n).2 < (status.GetCompletedReadEndPtr j).2
        · right
          refine ⟨n, Nat.lt_succ_self n, hidle, ?_, by omega, fun i hi hbusy => ?_,
            fun i hi hbusy => ?_⟩
          · simp only [hlt, if_true]
          · by_cases hin : i = n
            · rw [hin]
            · have := h3 i (by omega) hbusy
              omega
          · have := h3 i hi hbusy
            omega
        · right
          refine ⟨j, by omega, hb, by simp only [hlt, if_false], h2, fun i hi hbusy => ?_, h4⟩
          by_cases hin : i = n
          · rw [hin]
            omega
          · exact h3 i (by omega) hbusy

/-- C37, as stated, fails: with one page worker, not idle, whose completed pair is
`(5, MAX_XLOG_REC_PTR)`, the pair returned is `(MAX_XLOG_REC_PTR, MAX_XLOG_REC_PTR)`; it is
the pair of no worker, although a page worker is not idle. -/
theorem C37_counterexample :
    (sampleDispatcher 1).pageWorkerCount = 1 ∧
    sampleStatusAtMax.RedoWorkerIsIdle 0 = false ∧
    sampleStatusAtMax.GetCompletedReadEndPtr 0 = (5, 18446744073709551615) ∧
    GetReplayedRecPtrFromWorkers 18446744073709551615 sampleStatusAtMax (sampleDispatcher 1)
      = (18446744073709551615, 18446744073709551615) ∧
    ¬ ∃ j, j < (sampleDispatcher 1).pageWorkerCount ∧
      sampleStatusAtMax.RedoWorkerIsIdle j = false ∧
      GetReplayedRecPtrFromWorkers 18446744073709551615 sampleStatusAtMax (sampleDispatcher 1)
        = sampleStatusAtMax.GetCompletedReadEndPtr j := by
  decide

/-- C37, amended: the `endPtr` that `GetReplayedRecPtrFromWorkers` returns is at most
`MAX_XLOG_REC_PTR` and at most the completed end position of every page worker that is not
idle.  When some worker that is not idle has a completed end position below
`MAX_XLOG_REC_PTR`, the pair returned is the `(read, end)` pair of the first such worker
whose end position is minimal.  Otherwise (every worker is idle or reports an end position
not below `MAX_XLOG_REC_PTR`, or there is no worker) both values are `MAX_XLOG_REC_PTR`. -/
theorem C37_replayed_min_end (MAX_XLOG_REC_PTR : Nat) (status : WorkerStatus)
    (d : LogDispatcher) :
    (GetReplayedRecPtrFromWorkers MAX_XLOG_REC_PTR status d).2 ≤ MAX_XLOG_REC_PTR ∧
    (∀ i, i < d.pageWorkerCount → status.RedoWorkerIsIdle i = false →
      (GetReplayedRecPtrFromWorkers MAX_XLOG_REC_PTR status d).2
        ≤ (status.GetCompletedReadEndPtr i).2) ∧
    ((∃ i, i < d.pageWorkerCount ∧ status.RedoWorkerIsIdle i = false ∧
        (status.GetCompletedReadEndPtr i).2 < MAX_XLOG_REC_PTR) →
      ∃ j, j < d.pageWorkerCount ∧ status.RedoWorkerIsIdle j = false ∧
        GetReplayedRecPtrFromWorkers MAX_XLOG_REC_PTR status d
          = status.GetCompletedReadEndPtr j ∧
        (∀ i, i < d.pageWorkerCount → status.RedoWorkerIsIdle i = false →
          (status.GetCompletedReadEndPtr j).2 ≤ (status.GetCompletedReadEndPtr i).2) ∧
        (∀ i, i < j → status.RedoWorkerIsIdle i = false →
          (status.GetCompletedReadEndPtr j).2 < (status.GetCompletedReadEndPtr i).2)) ∧
    ((¬ ∃ i, i < d.pageWorkerCount ∧ status.RedoWorkerIsIdle i = false ∧
        (status.GetCompletedReadEndPtr i).2 < MAX_XLOG_REC_PTR) →
      GetReplayedRecPtrFromWorkers MAX_XLOG_REC_PTR status d
        = (MAX_XLOG_REC_PTR, MAX_XLOG_REC_PTR)) := by
  have hloop := GetReplayedRecPtrFromWorkers_loop MAX_XLOG_REC_PTR status d.pageWorkerCount
  have hdef : GetReplayedRecPtrFromWorkers MAX_XLOG_REC_PTR status d
      = (List.range d.pageWorkerCount).foldl (fun (acc : Nat × Nat) i =>
        if ¬ status.RedoWorkerIsIdle i then
          if (status.GetCompletedReadEndPtr i).2 < acc.2 then
            ((status.GetCompletedReadEndPtr i).1, (status.GetCompletedReadEndPtr i).2)
          else acc
        else acc) (MAX_XLOG_REC_PTR, MAX_XLOG_REC_PTR) := rfl
  rw [← hdef] at hloop
  rcases hloop with ⟨h1, h2⟩ | ⟨j, hj, hb, h1, h2, h3, h4⟩
  · rw [h1]
    refine ⟨le_refl _, fun i hi hbusy => h2 i hi hbusy, ?_, fun _ => rfl⟩
    rintro ⟨i, hi, hbusy, hlt⟩
    have := h2 i hi hbusy
    omega
  · rw [h1]
    refine ⟨by omega, h3, fun _ => ⟨j, hj, hb, rfl, h3, h4⟩, ?_⟩
    intro hno
    exact absurd ⟨j, hj, hb, h2⟩ hno

/-- C37, amended, at four page workers of which slot 1 is idle and the slots 2 and 3 both
report the least end position 80: the pair returned is the pair `(70, 80)` of slot 2. -/
theorem C37_replayed_min_end_witness :
    GetReplayedRecPtrFromWorkers 18446744073709551615 sampleStatus (sampleDispatcher 4)
      = (70, 80) ∧
    ∃ j, j < (sampleDispatcher 4).pageWorkerCount ∧ sampleStatus.RedoWorkerIsIdle j = false ∧
      GetReplayedRecPtrFromWorkers 18446744073709551615 sampleStatus (sampleDispatcher 4)
        = sampleStatus.GetCompletedReadEndPtr j ∧
      (∀ i, i < (sampleDispatcher 4).pageWorkerCount → sampleStatus.RedoWorkerIsIdle i = false →
        (sampleStatus.GetCompletedReadEndPtr j).2 ≤ (sampleStatus.GetCompletedReadEndPtr i).2) ∧
      (∀ i, i < j → sampleStatus.RedoWorkerIsIdle i = false →
        (sampleStatus.GetCompletedReadEndPtr j).2 < (sampleStatus.GetCompletedReadEndPtr i).2) :=
  ⟨by decide,
    (C37_replayed_min_end 18446744073709551615 sampleStatus (sampleDispatcher 4)).2.2.1
      ⟨0, by decide, by decide, by decide⟩⟩

/-! ## Expected consumers -/

/-- The enqueued items of a concatenation. -/
theorem enqueued_append (a b : List Event) : enqueued (a ++ b) = enqueued a ++ enqueued b := by
  simp [enqueued, List.filterMap_append]

/-- The enqueue count over a concatenation. -/
theorem enqueueCount_append (id : Nat) (a b : List Event) :
    enqueueCount id (a ++ b) = enqueueCount id a + enqueueCount id b := by
  simp [enqueueCount, enqueued_append, List.filter_append]

/-- Warnings enqueue nothing. -/
theorem enqueued_warnings (ws : List WarnMsg) : enqueued (ws.map Event.WARNING) = [] := by
  induction ws with
  | nil => rfl
  | cons w rest ih =>
    have := ih
    simp only [enqueued] at this ⊢
    simp [this]

/-- The items of a run of enqueues to page workers. -/
theorem enqueued_map_page (l : List Nat) (f : Nat → RedoItem) :
    enqueued (l.map (fun i => Event.AddPageRedoItem i (f i))) = l.map f := by
  induction l with
  | nil => rfl
  | cons x rest ih =>
    have := ih
    simp only [enqueued] at this ⊢
    simp [this]

/-- The item of one enqueue to the transaction worker. -/
theorem enqueued_txn (item : RedoItem) : enqueued [Event.AddTxnRedoItem item] = [item] := rfl

/-- The item of one enqueue to a page worker. -/
theorem enqueued_page (w : Nat) (item : RedoItem) :
    enqueued [Event.AddPageRedoItem w item] = [item] := rfl

/-- The entries with the id of `R` in a list that holds `R` for the chosen workers and items
with other ids for the others: as many as there are chosen workers. -/
theorem count_chosen (n : Nat) (hits : Nat → Nat) (R : RedoItem) (m : Nat → RedoItem)
    (hm : ∀ i, (m i).id ≠ R.id) :
    (((List.range n).map (fun i => if hits i > 0 then R else m i)).filter
      (fun it => decide (it.id = R.id))).length = distinctChosen n hits := by
  induction n with
  | zero => rfl
  | succ k ih =>
    rw [List.range_succ, List.map_append, List.filter_append, List.length_append, ih,
      distinctChosen_succ]
    by_cases h : hits k > 0
    · simp [h]
    · simp [h, hm k]

/-- The entries with the id of `R` in a list of copies of `R`, one for each chosen worker. -/
theorem count_filter_const (n : Nat) (hits : Nat → Nat) (R : RedoItem) :
    ((((List.range n).filter (fun i => decide (hits i > 0))).map (fun _ => R)).filter
      (fun it => decide (it.id = R.id))).length = distinctChosen n hits := by
  unfold distinctChosen
  rw [List.filter_eq_self.mpr]
  · simp
  · intro a ha
    obtain ⟨_, _, h⟩ := List.mem_map.mp ha
    rw [← h]
    simp

/-- The entries with the id of `R` in `n` copies of `R`. -/
theorem count_all (n : Nat) (R : RedoItem) :
    (((List.range n).map (fun _ => R)).filter (fun it => decide (it.id = R.id))).length = n := by
  rw [List.filter_eq_self.mpr]
  · simp
  · intro a ha
    obtain ⟨_, _, h⟩ := List.mem_map.mp ha
    rw [← h]
    simp

/-- No entry has the id `k` in a list of items with other ids. -/
theorem count_none (l : List Nat) (m : Nat → RedoItem) (k : Nat)
    (hm : ∀ i ∈ l, (m i).id ≠ k) :
    ((l.map m).filter (fun it => decide (it.id = k))).length = 0 := by
  rw [List.length_eq_zero, List.filter_eq_nil_iff]
  intro a ha
  obtain ⟨i, hi, h⟩ := List.mem_map.mp ha
  rw [← h]
  simp [hm i hi]

/-- A pattern's real items carry the number of their enqueues. -/
theorem PatternShare.shareOK {K : Nat} {evs : List Event} (h : PatternShare K evs) :
    ShareOK evs := by
  intro it hit hk
  obtain ⟨h1, h2⟩ := h.1 it hit hk
  rw [h1, h2]

/-- Warnings ahead of the events change no count. -/
theorem ShareOK.with_warnings {evs : List Event} (ws : List WarnMsg) (h : ShareOK evs) :
    ShareOK (ws.map Event.WARNING ++ evs) := by
  intro it hit hk
  rw [enqueued_append, enqueued_warnings, List.nil_append] at hit
  have := h it hit hk
  rw [this]
  simp [enqueueCount, enqueued_append, enqueued_warnings]

/-- Warnings ahead of a pattern change no count. -/
theorem PatternShare.pattern_with_warnings {K : Nat} {evs : List Event} (ws : List WarnMsg)
    (h : PatternShare K evs) : PatternShare K (ws.map Event.WARNING ++ evs) := by
  have he : enqueued (ws.map Event.WARNING ++ evs) = enqueued evs := by
    rw [enqueued_append, enqueued_warnings, List.nil_append]
  have hc : ∀ id, enqueueCount id (ws.map Event.WARNING ++ evs) = enqueueCount id evs := by
    intro id
    simp [enqueueCount, he]
  constructor
  · intro it hit hk
    rw [he] at hit
    rw [hc]
    exact h.1 it hit hk
  · intro hno
    rw [he] at hno
    exact h.2 hno

/-- A pattern whose only real item is `R`, created with `K` and enqueued `K` times. -/
theorem PatternShare.of_item {K : Nat} {evs : List Event} (R : RedoItem)
    (hreal : ∀ it ∈ enqueued evs, it.kind = ItemKind.real → it = R)
    (hK : R.shareCount = K) (hcount : enqueueCount R.id evs = K)
    (hzero : (∀ it ∈ enqueued evs, it.kind ≠ ItemKind.real) → K = 0) :
    PatternShare K evs := by
  refine ⟨?_, hzero⟩
  intro it hit hk
  rw [hreal it hit hk]
  exact ⟨hK, hcount⟩

/-- `DispatchTxnRecord`: `expectedConsumers` is 1, the real item goes to one queue. -/
theorem DispatchTxnRecord_share (env : Env) (record : XLogReaderState) (tlis : List Nat)
    (xt : Int) (im : Bool) (d : LogDispatcher) :
    ∃ E, (DispatchTxnRecord env record tlis xt im d).trace = d.trace ++ E ∧
      PatternShare 1 E := by
  refine ⟨_, by rw [DispatchTxnRecord_eq], ?_⟩
  refine PatternShare.of_item
    { realItem record 1 env.ANY_WORKER tlis xt (d.itemSeq + d.pageWorkerCount) with
      imcheckpoint := im } ?_ rfl ?_ ?_
  · intro it hit hk
    rw [enqueued_append, enqueued_map_page, enqueued_txn] at hit
    rcases List.mem_append.mp hit with h | h
    · obtain ⟨i, _, hi⟩ := List.mem_map.mp h
      rw [← hi] at hk
      cases hk
    · exact List.mem_singleton.mp h
  · rw [enqueueCount, enqueued_append, enqueued_map_page, enqueued_txn, List.filter_append,
      List.length_append, count_none]
    · simp [realItem]
    · intro i hi
      have := List.mem_range.mp hi
      simp only [markerItem, realItem]
      omega
  · intro hno
    exfalso
    refine hno { realItem record 1 env.ANY_WORKER tlis xt (d.itemSeq + d.pageWorkerCount) with
      imcheckpoint := im } ?_ rfl
    rw [enqueued_append, enqueued_txn]
    simp

/-- `DispatchToOnePageWorker`: `expectedConsumers` is 1, the real item goes to one queue. -/
theorem DispatchToOnePageWorker_share (env : Env) (record : XLogReaderState)
    (rnode : RelFileNode) (tlis : List Nat) (d : LogDispatcher) :
    ∃ E, (DispatchToOnePageWorker env record rnode tlis d).trace = d.trace ++ E ∧
      PatternShare 1 E := by
  refine ⟨_, by rw [DispatchToOnePageWorker_eq], ?_⟩
  refine PatternShare.of_item (realItem record 1 env.ANY_WORKER tlis 0 d.itemSeq) ?_ rfl ?_ ?_
  · intro it hit _
    rw [enqueued_page] at hit
    exact List.mem_singleton.mp hit
  · simp [enqueueCount, enqueued_page]
  · intro hno
    exfalso
    exact hno (realItem record 1 env.ANY_WORKER tlis 0 d.itemSeq) (by simp [enqueued_page]) rfl

/-- The same item for each of `n` page workers, followed by `tail`, whose items have other
ids and are no real items: the item is enqueued `n` times. -/
theorem PatternShare.range_then (n : Nat) (R : RedoItem) (tail : List Event)
    (hkind : R.kind = ItemKind.real) (hK : R.shareCount = n)
    (htail : ∀ it ∈ enqueued tail, it.kind ≠ ItemKind.real ∧ it.id ≠ R.id) :
    PatternShare n ((List.range n).map (fun i => Event.AddPageRedoItem i R) ++ tail) := by
  refine PatternShare.of_item R ?_ hK ?_ ?_
  · intro it hit hk
    rw [enqueued_append, enqueued_map_page] at hit
    rcases List.mem_append.mp hit with h | h
    · obtain ⟨i, _, hi⟩ := List.mem_map.mp h
      exact hi.symm
    · exact absurd hk (htail it h).1
  · rw [enqueueCount, enqueued_append, enqueued_map_page, List.filter_append,
      List.length_append, count_all]
    have : (enqueued tail).filter (fun it => decide (it.id = R.id)) = [] := by
      rw [List.filter_eq_nil_iff]
      intro a ha
      simp [(htail a ha).2]
    rw [this]
    rfl
  · intro hno
    by_contra hn
    have hpos : 0 < n := Nat.pos_of_ne_zero hn
    refine hno R ?_ hkind
    rw [enqueued_append, enqueued_map_page]
    exact List.mem_append_left _ (List.mem_map.mpr ⟨0, List.mem_range.mpr hpos, rfl⟩)

/-- `DispatchRecordWithoutPage`: `expectedConsumers` is `pageWorkerCount`, the real item
goes to every page worker. -/
theorem DispatchRecordWithoutPage_share (env : Env) (record : XLogReaderState)
    (tlis : List Nat) (d : LogDispatcher) :
    ∃ E, (DispatchRecordWithoutPage env record tlis d).trace = d.trace ++ E ∧
      PatternShare d.pageWorkerCount E := by
  refine ⟨_, by rw [DispatchRecordWithoutPage_eq], ?_⟩
  have h := PatternShare.range_then d.pageWorkerCount
    (realItem record d.pageWorkerCount env.ANY_WORKER tlis 0 d.itemSeq) [] rfl rfl
    (fun it hit => by cases hit)
  simpa using h

/-- The broadcast of checkpoints and database drops: `expectedConsumers` is
`pageWorkerCount + 1`, the real item goes to every page worker and the transaction worker. -/
theorem PatternShare.broadcast (n : Nat) (R : RedoItem) (hkind : R.kind = ItemKind.real)
    (hK : R.shareCount = n + 1) :
    PatternShare (n + 1)
      ((List.range n).map (fun i => Event.AddPageRedoItem i R) ++ [Event.AddTxnRedoItem R]) := by
  refine PatternShare.of_item R ?_ hK ?_ ?_
  · intro it hit _
    rw [enqueued_append, enqueued_map_page, enqueued_txn] at hit
    rcases List.mem_append.mp hit with h | h
    · obtain ⟨i, _, hi⟩ := List.mem_map.mp h
      exact hi.symm
    · exact List.mem_singleton.mp h
  · rw [enqueueCount, enqueued_append, enqueued_map_page, enqueued_txn, List.filter_append,
      List.length_append, count_all]
    simp
  · intro hno
    exfalso
    refine hno R ?_ hkind
    rw [enqueued_append, enqueued_txn]
    simp

/-- `DispatchSyncTxnRecord` on a dispatcher whose chosen count is right:
`expectedConsumers` is `chosedWorkerCount + 1`, the real item goes to the chosen page
workers and to the transaction worker. -/
theorem DispatchSyncTxnRecord_share (env : Env) (record : XLogReaderState) (tlis : List Nat)
    (xt : Int) (dw : Nat) (d : LogDispatcher) (hcnt : ChosenCounted d) :
    ∃ E, (DispatchSyncTxnRecord env record tlis xt dw d).trace = d.trace ++ E ∧
      PatternShare (d.chosedWorkerCount + 1) E := by
  refine ⟨_, by rw [DispatchSyncTxnRecord_eq], ?_⟩
  have hcore : PatternShare (d.chosedWorkerCount + 1)
      ((List.range d.pageWorkerCount).map (fun i =>
         Event.AddPageRedoItem i
          (if d.chosedWorkerIds i > 0 then
            { realItem record (d.chosedWorkerCount + 1) dw tlis xt d.itemSeq with
              sharewithtrxn := true, blockbytrxn := false }
           else markerItem env record tlis
            (d.itemSeq + 1 + unchosenBelow d.chosedWorkerIds i))) ++
       [Event.AddTxnRedoItem
          { realItem record (d.chosedWorkerCount + 1) dw tlis xt d.itemSeq with
            sharewithtrxn := true, blockbytrxn := false }]) := by
    refine PatternShare.of_item
      { realItem record (d.chosedWorkerCount + 1) dw tlis xt d.itemSeq with
        sharewithtrxn := true, blockbytrxn := false } ?_ rfl ?_ ?_
    · intro it hit hk
      rw [enqueued_append, enqueued_map_page, enqueued_txn] at hit
      rcases List.mem_append.mp hit with h | h
      · obtain ⟨i, _, hi⟩ := List.mem_map.mp h
        by_cases hc : d.chosedWorkerIds i > 0
        · rw [if_pos hc] at hi
          exact hi.symm
        · rw [if_neg hc] at hi
          rw [← hi] at hk
          cases hk
      · exact List.mem_singleton.mp h
    · rw [enqueueCount, enqueued_append, enqueued_map_page, enqueued_txn, List.filter_append,
        List.length_append]
      have h1 := count_chosen d.pageWorkerCount d.chosedWorkerIds
        { realItem record (d.chosedWorkerCount + 1) dw tlis xt d.itemSeq with
          sharewithtrxn := true, blockbytrxn := false }
        (fun i => markerItem env record tlis
          (d.itemSeq + 1 + unchosenBelow d.chosedWorkerIds i))
        (fun i => by simp only [markerItem, realItem]; omega)
      rw [h1, hcnt]
      simp
    · intro hno
      exfalso
      refine hno { realItem record (d.chosedWorkerCount + 1) dw tlis xt d.itemSeq with
        sharewithtrxn := true, blockbytrxn := false } ?_ rfl
      rw [enqueued_append, enqueued_txn]
      simp
  by_cases hw : d.chosedWorkerCount ≠ 1 ∧ XLogRecGetRmid record ≠ env.RM_XACT_ID
  · rw [if_pos hw]
    exact hcore.pattern_with_warnings [WarnMsg.DispatchSyncTxnRecord_maybe_some_error]
  · rw [if_neg hw]
    exact hcore

/-- `DispatchToSpecPageWorker` on a dispatcher whose chosen count is right:
`expectedConsumers` is `chosedWorkerCount`, the real item goes to the chosen page workers;
the other page workers and the transaction worker get LSN markers. -/
theorem DispatchToSpecPageWorker_share (env : Env) (record : XLogReaderState)
    (tlis : List Nat) (wait : Bool) (d : LogDispatcher) (hcnt : ChosenCounted d) :
    ∃ E, (DispatchToSpecPageWorker env record tlis wait d).trace = d.trace ++ E ∧
      PatternShare d.chosedWorkerCount E := by
  refine ⟨_, by rw [DispatchToSpecPageWorker_eq], ?_⟩
  have hcore : PatternShare d.chosedWorkerCount
      ((List.range d.pageWorkerCount).map (fun i =>
         Event.AddPageRedoItem i
          (if d.chosedWorkerIds i > 0 then
            { realItem record d.chosedWorkerCount env.ANY_WORKER tlis 0 d.itemSeq with
              sharewithtrxn := false, blockbytrxn := wait }
           else markerItem env record tlis
            (d.itemSeq + 1 + unchosenBelow d.chosedWorkerIds i))) ++
       [Event.AddTxnRedoItem (markerItem env record tlis
          (d.itemSeq + 1 + unchosenBelow d.chosedWorkerIds d.pageWorkerCount))]) := by
    have hcount : enqueueCount d.itemSeq
        ((List.range d.pageWorkerCount).map (fun i =>
         Event.AddPageRedoItem i
          (if d.chosedWorkerIds i > 0 then
            { realItem record d.chosedWorkerCount env.ANY_WORKER tlis 0 d.itemSeq with
              sharewithtrxn := false, blockbytrxn := wait }
           else markerItem env record tlis
            (d.itemSeq + 1 + unchosenBelow d.chosedWorkerIds i))) ++
         [Event.AddTxnRedoItem (markerItem env record tlis
          (d.itemSeq + 1 + unchosenBelow d.chosedWorkerIds d.pageWorkerCount))])
        = d.chosedWorkerCount := by
      rw [enqueueCount, enqueued_append, enqueued_map_page, enqueued_txn, List.filter_append,
        List.length_append]
      have h1 := count_chosen d.pageWorkerCount d.chosedWorkerIds
        { realItem record d.chosedWorkerCount env.ANY_WORKER tlis 0 d.itemSeq with
          sharewithtrxn := false, blockbytrxn := wait }
        (fun i => markerItem env record tlis
          (d.itemSeq + 1 + unchosenBelow d.chosedWorkerIds i))
        (fun i => by simp only [markerItem, realItem]; omega)
      have h1a : (List.filter (fun it => decide (it.id = d.itemSeq))
          (List.map (fun i => if d.chosedWorkerIds i > 0 then
            { realItem record d.chosedWorkerCount env.ANY_WORKER tlis 0 d.itemSeq with
              sharewithtrxn := false, blockbytrxn := wait }
           else markerItem env record tlis
            (d.itemSeq + 1 + unchosenBelow d.chosedWorkerIds i))
            (List.range d.pageWorkerCount))).length
          = distinctChosen d.pageWorkerCount d.chosedWorkerIds := h1
      rw [h1a, hcnt]
      have hne : ¬ d.itemSeq + 1 + unchosenBelow d.chosedWorkerIds d.pageWorkerCount
          = d.itemSeq := by omega
      simp [markerItem, hne]
    refine PatternShare.of_item
      { realItem record d.chosedWorkerCount env.ANY_WORKER tlis 0 d.itemSeq with
        sharewithtrxn := false, blockbytrxn := wait } ?_ rfl hcount ?_
    · intro it hit hk
      rw [enqueued_append, enqueued_map_page, enqueued_txn] at hit
      rcases List.mem_append.mp hit with h | h
      · obtain ⟨i, _, hi⟩ := List.mem_map.mp h
        by_cases hc : d.chosedWorkerIds i > 0
        · rw [if_pos hc] at hi
          exact hi.symm
        · rw [if_neg hc] at hi
          rw [← hi] at hk
          cases hk
      · rw [List.mem_singleton.mp h] at hk
        cases hk
    · intro hno
      rw [hcnt]
      apply distinctChosen_zero_of
      intro w hw
      by_contra hne
      have hpos : d.chosedWorkerIds w > 0 := Nat.pos_of_ne_zero hne
      refine hno { realItem record d.chosedWorkerCount env.ANY_WORKER tlis 0 d.itemSeq with
        sharewithtrxn := false, blockbytrxn := wait } ?_ rfl
      rw [enqueued_append, enqueued_map_page]
      refine List.mem_append_left _ (List.mem_map.mpr ⟨w, List.mem_range.mpr hw, ?_⟩)
      rw [if_pos hpos]
  by_cases hw : d.chosedWorkerCount ≠ 1
  · rw [if_pos hw]
    exact hcore.pattern_with_warnings [WarnMsg.DispatchToSpecPageWorker_maybe_some_error]
  · rw [if_neg hw]
    exact hcore

/-! ## The chosen count along a dispatch -/

/-- After `ResetChosedWorkerList` the chosen count is right: no worker is chosen. -/
theorem ChosenCounted_reset (d : LogDispatcher) : ChosenCounted (ResetChosedWorkerList d) := by
  unfold ChosenCounted
  have h0 : distinctChosen (ResetChosedWorkerList d).pageWorkerCount
      (ResetChosedWorkerList d).chosedWorkerIds = 0 :=
    distinctChosen_zero_of _ _ (fun w hw => by
      have hw1 : w < d.pageWorkerCount := hw
      simp [ResetChosedWorkerList, hw1])
  rw [h0]
  rfl

/-- `AddWorkerToSet` keeps the chosen count right. -/
theorem AddWorkerToSet_counted (id : Nat) (d : LogDispatcher) (hid : id < d.pageWorkerCount)
    (hc : ChosenCounted d) :
    ∃ d1, AddWorkerToSet id d = Res.ok () d1 ∧ ChosenOnly d d1 ∧ ChosenCounted d1 := by
  obtain ⟨d1, h1, h2, _, _⟩ := AddWorkerToSet_ok id d hid
  refine ⟨d1, h1, h2, ?_⟩
  have heq := AddWorkerToSet_eq id d hid
  rw [h1] at heq
  injection heq with _ hd
  rw [hd]
  unfold ChosenCounted at hc ⊢
  show d.chosedWorkerCount + (if d.chosedWorkerIds id = 0 then 1 else 0)
    = distinctChosen d.pageWorkerCount
        (Function.update d.chosedWorkerIds id (d.chosedWorkerIds id + 1))
  rw [distinctChosen_update d.pageWorkerCount id d.chosedWorkerIds hid, hc]

/-- A loop of `AddWorkerToSet` calls with ids below the worker count keeps the chosen count
right. -/
theorem addWorkers_counted {α : Type} (xs : List α) (ident : α → LogDispatcher → Nat)
    (d : LogDispatcher)
    (hid : ∀ x ∈ xs, ∀ acc, acc.pageWorkerCount = d.pageWorkerCount →
      ident x acc < acc.pageWorkerCount)
    (hc : ChosenCounted d) :
    ∃ d1, forEachRes xs (fun x acc => AddWorkerToSet (ident x acc) acc) d = Res.ok () d1 ∧
      ChosenOnly d d1 ∧ ChosenCounted d1 := by
  obtain ⟨d1, h1, h2, h3⟩ := forEachRes_inv (fun acc => ChosenOnly d acc ∧ ChosenCounted acc)
    xs _ (fun x hx acc hacc => by
      obtain ⟨acc1, ha, hb, hcnt⟩ := AddWorkerToSet_counted (ident x acc) acc
        (hid x hx acc hacc.1.count_eq) hacc.2
      exact ⟨acc1, ha, hacc.1.trans hb, hcnt⟩) d ⟨ChosenOnly.chosen_refl d, hc⟩
  exact ⟨d1, h1, h2, h3⟩

/-- `GetWorkerIds` without a designated worker keeps the chosen count right. -/
theorem GetWorkerIds_counted (env : Env) (record : XLogReaderState) (rd : Bool)
    (d : LogDispatcher) (hn : 0 < d.pageWorkerCount) (hc : ChosenCounted d) :
    ∃ d1, GetWorkerIds env record env.ANY_WORKER rd d = Res.ok () d1 ∧ ChosenOnly d d1 ∧
      ChosenCounted d1 := by
  obtain ⟨d1, h1, h2, _, h4⟩ := addWorkersToSet_ok (blockWorkerIds env (some d) record rd) d
    (blockWorkerIds_lt env record rd d hn)
  refine ⟨d1, by rw [GetWorkerIds_eq_addWorkers env record rd d hn]; exact h1, h2, ?_⟩
  unfold ChosenCounted at hc ⊢
  rw [h2.count_eq]
  omega

/-! ## Expected consumers of the strategies -/

/-- A prepared state followed by the events of one pattern. -/
theorem ShareStrat.of_pattern {d d1 d2 : LogDispatcher} {K : Nat} {E : List Event} (b : Bool)
    (hprep : Prepared d d1) (hE : d2.trace = d1.trace ++ E) (hS : PatternShare K E) :
    ShareStrat d (Res.ok b d2) := by
  obtain ⟨ws, hws⟩ := hprep
  refine ⟨b, d2, ws.map Event.WARNING ++ E, rfl, ?_, (hS.pattern_with_warnings ws).shareOK⟩
  rw [hE, hws]
  simp

/-- A prepared state and nothing more. -/
theorem ShareStrat.nothing {d d1 : LogDispatcher} (b : Bool) (hprep : Prepared d d1) :
    ShareStrat d (Res.ok b d1) := by
  obtain ⟨ws, hws⟩ := hprep
  refine ⟨b, d1, ws.map Event.WARNING, rfl, by rw [hws], ?_⟩
  intro it hit _
  rw [enqueued_warnings] at hit
  cases hit

/-- `DispatchTxnRecord` from a prepared state. -/
theorem Share_txn (env : Env) {record : XLogReaderState} {d d1 : LogDispatcher}
    (tlis : List Nat) (xt : Int) (im b : Bool) (hprep : Prepared d d1) :
    ShareStrat d (Res.ok b (DispatchTxnRecord env record tlis xt im d1)) := by
  obtain ⟨E, hE, hS⟩ := DispatchTxnRecord_share env record tlis xt im d1
  exact ShareStrat.of_pattern b hprep hE hS

/-- `DispatchRecordWithoutPage` from a prepared state. -/
theorem Share_withoutPage (env : Env) {record : XLogReaderState} {d d1 : LogDispatcher}
    (tlis : List Nat) (b : Bool) (hprep : Prepared d d1) :
    ShareStrat d (Res.ok b (DispatchRecordWithoutPage env record tlis d1)) := by
  obtain ⟨E, hE, hS⟩ := DispatchRecordWithoutPage_share env record tlis d1
  exact ShareStrat.of_pattern b hprep hE hS

/-- `DispatchToOnePageWorker` from a prepared state. -/
theorem Share_onePage (env : Env) {record : XLogReaderState} {d d1 : LogDispatcher}
    (rnode : RelFileNode) (tlis : List Nat) (b : Bool) (hprep : Prepared d d1) :
    ShareStrat d (Res.ok b (DispatchToOnePageWorker env record rnode tlis d1)) := by
  obtain ⟨E, hE, hS⟩ := DispatchToOnePageWorker_share env record rnode tlis d1
  exact ShareStrat.of_pattern b hprep hE hS

/-- `DispatchSyncTxnRecord` from a prepared state with a right chosen count. -/
theorem Share_sync (env : Env) {record : XLogReaderState} {d d1 : LogDispatcher}
    (tlis : List Nat) (xt : Int) (dw : Nat) (b : Bool) (hprep : Prepared d d1)
    (hcnt : ChosenCounted d1) :
    ShareStrat d (Res.ok b (DispatchSyncTxnRecord env record tlis xt dw d1)) := by
  obtain ⟨E, hE, hS⟩ := DispatchSyncTxnRecord_share env record tlis xt dw d1 hcnt
  exact ShareStrat.of_pattern b hprep hE hS

/-- `DispatchToSpecPageWorker` from a prepared state with a right chosen count. -/
theorem Share_spec (env : Env) {record : XLogReaderState} {d d1 : LogDispatcher}
    (tlis : List Nat) (wait b : Bool) (hprep : Prepared d d1) (hcnt : ChosenCounted d1) :
    ShareStrat d (Res.ok b (DispatchToSpecPageWorker env record tlis wait d1)) := by
  obtain ⟨E, hE, hS⟩ := DispatchToSpecPageWorker_share env record tlis wait d1 hcnt
  exact ShareStrat.of_pattern b hprep hE hS

/-- `DispatchRecordWithoutPage` followed by an LSN marker for the transaction worker:
`expectedConsumers` is `pageWorkerCount`, the marker does not count. -/
theorem Share_withoutPage_marker (env : Env) {record : XLogReaderState}
    {d d1 : LogDispatcher} (tlis : List Nat) (b : Bool) (hprep : Prepared d d1) :
    ShareStrat d
      (Res.ok b (AddTxnRedoItem
        { (CreateLSNMarker env record tlis false
            (DispatchRecordWithoutPage env record tlis d1)).1 with imcheckpoint := true }
        (CreateLSNMarker env record tlis false
            (DispatchRecordWithoutPage env record tlis d1)).2)) := by
  refine ShareStrat.of_pattern b hprep ?_
    (PatternShare.range_then d1.pageWorkerCount
      (realItem record d1.pageWorkerCount env.ANY_WORKER tlis 0 d1.itemSeq)
      [Event.AddTxnRedoItem
        { markerItem env record tlis (d1.itemSeq + 1) with imcheckpoint := true }]
      rfl rfl ?_)
  · rw [DispatchRecordWithoutPage_eq]
    simp [AddTxnRedoItem, CreateLSNMarker, markerItem]
  · intro it hit
    rw [enqueued_txn] at hit
    rw [List.mem_singleton.mp hit]
    refine ⟨(fun h => by cases h), ?_⟩
    simp only [markerItem, realItem]
    omega

/-- The broadcast of one real item created with `pageWorkerCount + 1`. -/
theorem Share_broadcast {d d1 : LogDispatcher} (item : RedoItem) (b : Bool) (k : Nat)
    (hprep : Prepared d d1) (p2 : LogDispatcher) (hp2 : p2 = { d1 with itemSeq := k })
    (hkind : item.kind = ItemKind.real) (hK : item.shareCount = d1.pageWorkerCount + 1) :
    ShareStrat d
      (Res.ok b (AddTxnRedoItem item
        (forWorkers p2.pageWorkerCount (fun i acc => AddPageRedoItem i item acc) p2))) := by
  subst hp2
  refine ShareStrat.of_pattern b hprep ?_ (PatternShare.broadcast d1.pageWorkerCount item hkind hK)
  rw [forWorkers_broadcast]
  simp [AddTxnRedoItem]

/-- A continuation run after `GetWorkerIds`. -/
theorem Share_afterIds (env : Env) {record : XLogReaderState} {d d1 : LogDispatcher}
    (rd : Bool) (k : LogDispatcher → Res Bool) (hprep : Prepared d d1)
    (hn : 0 < d.pageWorkerCount) (hcnt : ChosenCounted d1)
    (hk : ∀ d2, Prepared d d2 → ChosenCounted d2 → ShareStrat d (k d2)) :
    ShareStrat d
      ((GetWorkerIds env record env.ANY_WORKER rd d1).andThen (fun _ d2 => k d2)) := by
  have hn1 : 0 < d1.pageWorkerCount := by rw [hprep.prep_count_eq]; exact hn
  obtain ⟨d2, hd2, hc2, hcnt2⟩ := GetWorkerIds_counted env record rd d1 hn1 hcnt
  rw [hd2, Res.andThen_ok]
  exact hk d2 (hprep.then_chosen hc2) hcnt2

/-- `DispatchRecordWithPages` on a dispatcher whose chosen count is right:
`expectedConsumers` is the chosen count `GetWorkerIds` leaves, the real item goes to the
chosen page workers. -/
theorem DispatchRecordWithPages_share (env : Env) (record : XLogReaderState)
    (tlis : List Nat) (rd : Bool) (d : LogDispatcher) (hn : 0 < d.pageWorkerCount)
    (hcnt : ChosenCounted d) :
    ∃ d1 d2 E, GetWorkerIds env record env.ANY_WORKER rd d = Res.ok () d1 ∧
      DispatchRecordWithPages env record tlis rd d = Res.ok () d2 ∧
      d2.trace = d.trace ++ E ∧ PatternShare d1.chosedWorkerCount E := by
  obtain ⟨d1, hd1, hc1, hcnt1⟩ := GetWorkerIds_counted env record rd d hn hcnt
  have hres : DispatchRecordWithPages env record tlis rd d
      = Res.ok () { d1 with
          trace := d1.trace ++
            ((List.range d1.pageWorkerCount).filter
              (fun i => decide (d1.chosedWorkerIds i > 0))).map
              (fun i => Event.AddPageRedoItem i
                (realItem record d1.chosedWorkerCount env.ANY_WORKER tlis 0 d1.itemSeq)),
          itemSeq := d1.itemSeq + 1 } := by
    unfold DispatchRecordWithPages
    rw [hd1]
    simp only [Res.andThen_ok]
    rw [forWorkers_chosen_only]
    simp [CreateRedoItem, realItem]
  refine ⟨d1, _, _, hd1, hres, by simp only []; rw [hc1.trace_eq], ?_⟩
  refine PatternShare.of_item
    (realItem record d1.chosedWorkerCount env.ANY_WORKER tlis 0 d1.itemSeq) ?_ rfl ?_ ?_
  · intro it hit _
    rw [enqueued_map_page] at hit
    obtain ⟨i, _, hi⟩ := List.mem_map.mp hit
    exact hi.symm
  · rw [enqueueCount, enqueued_map_page]
    have := count_filter_const d1.pageWorkerCount d1.chosedWorkerIds
      (realItem record d1.chosedWorkerCount env.ANY_WORKER tlis 0 d1.itemSeq)
    rw [this, hcnt1]
  · intro hno
    rw [hcnt1]
    apply distinctChosen_zero_of
    intro w hw
    by_contra hne
    have hpos : d1.chosedWorkerIds w > 0 := Nat.pos_of_ne_zero hne
    refine hno (realItem record d1.chosedWorkerCount env.ANY_WORKER tlis 0 d1.itemSeq) ?_ rfl
    rw [enqueued_map_page]
    exact List.mem_map.mpr ⟨w, List.mem_filter.mpr ⟨List.mem_range.mpr hw, by simp [hpos]⟩, rfl⟩

/-- `DispatchRecordWithPages` from a prepared state with a right chosen count. -/
theorem Share_withPages (env : Env) {record : XLogReaderState} {d d1 : LogDispatcher}
    (tlis : List Nat) (rd b : Bool) (hprep : Prepared d d1) (hn : 0 < d.pageWorkerCount)
    (hcnt : ChosenCounted d1) :
    ShareStrat d
      ((DispatchRecordWithPages env record tlis rd d1).andThen (fun _ d2 => Res.ok b d2)) := by
  have hn1 : 0 < d1.pageWorkerCount := by rw [hprep.prep_count_eq]; exact hn
  obtain ⟨d2, d3, E, _, hres, hE, hS⟩ :=
    DispatchRecordWithPages_share env record tlis rd d1 hn1 hcnt
  rw [hres, Res.andThen_ok]
  exact ShareStrat.of_pattern b hprep hE hS

/-! ## Every dispatch strategy gives the right expected consumers -/

theorem DispatchTxnFamily_share (env : Env) (record : XLogReaderState) (tlis : List Nat)
    (xt : Int) (b : Bool) (d : LogDispatcher) :
    ShareStrat d (Res.ok b (DispatchTxnRecord env record tlis xt false d)) :=
  Share_txn env tlis xt false b (Prepared.prep_refl d)

theorem DispatchXLogRecord_share (env : Env) (record : XLogReaderState) (tlis : List Nat)
    (xt : Int) (d : LogDispatcher) (hn : 0 < d.pageWorkerCount) (hcnt : ChosenCounted d) :
    ShareStrat d (DispatchXLogRecord env record tlis xt d) := by
  unfold DispatchXLogRecord
  simp only []
  split
  · exact Share_broadcast _ _ (d.itemSeq + 1) (Prepared.prep_refl d) _ rfl rfl rfl
  · split
    · split
      · exact Share_withPages env tlis true false (Prepared.prep_refl d) hn hcnt
      · exact Share_withoutPage env tlis false (Prepared.prep_refl d)
    · exact Share_txn env tlis xt false false (Prepared.prep_refl d)

theorem DispatchXactRecord_share (env : Env) (record : XLogReaderState) (tlis : List Nat)
    (xt : Int) (d : LogDispatcher) (hn : 0 < d.pageWorkerCount) (hcnt : ChosenCounted d) :
    ShareStrat d (DispatchXactRecord env record tlis xt d) := by
  unfold DispatchXactRecord
  simp only []
  split
  · split
    · cases hx : (env.XactGetRelFiles record).1 with
      | none =>
        simp only [Res.andThen_ok]
        exact Share_sync env tlis xt env.ALL_WORKER false (Prepared.prep_refl d) hcnt
      | some nodes =>
        obtain ⟨d1, hd1, hc1, hcnt1⟩ := addWorkers_counted
          (List.range (env.XactGetRelFiles record).2.toNat)
          (fun i acc => GetWorkerId env (some acc) (nodes.getD i default) 0 0) d
          (fun i _ acc hacc => GetWorkerId_lt env acc _ 0 0 (by rw [hacc]; exact hn)) hcnt
        simp only [hd1, Res.andThen_ok]
        exact Share_sync env tlis xt env.ALL_WORKER false hc1.prepared hcnt1
    · obtain ⟨d1, hd1, hc1, hcnt1⟩ := addWorkers_counted (List.range d.pageWorkerCount)
        (fun i _ => i) d
        (fun i hi acc hacc => by rw [hacc]; exact List.mem_range.mp hi) hcnt
      simp only [hd1, Res.andThen_ok]
      exact Share_sync env tlis xt env.ALL_WORKER false hc1.prepared hcnt1
  · exact Share_txn env tlis xt false false (Prepared.prep_refl d)

theorem DispatchSmgrRecord_share (env : Env) (record : XLogReaderState) (tlis : List Nat)
    (xt : Int) (d : LogDispatcher) (hn : 0 < d.pageWorkerCount) (hcnt : ChosenCounted d) :
    ShareStrat d (DispatchSmgrRecord env record tlis xt d) := by
  unfold DispatchSmgrRecord
  simp only []
  split
  · split
    · exact Share_onePage env _ tlis false (Prepared.prep_refl d)
    · exact Share_withoutPage env tlis false (Prepared.prep_refl d)
  · split
    · split
      · obtain ⟨d1, hd1, hc1, hcnt1⟩ := AddWorkerToSet_counted
          (GetWorkerId env (some d) (env.xl_smgr_truncate_rnode record) 0 0) d
          (GetWorkerId_lt env d _ 0 0 hn) hcnt
        simp only [hd1, Res.andThen_ok]
        exact Share_sync env tlis xt env.ALL_WORKER false hc1.prepared hcnt1
      · obtain ⟨d1, hd1, hc1, hcnt1⟩ := addWorkers_counted (List.range d.pageWorkerCount)
          (fun i _ => i) d
          (fun i hi acc hacc => by rw [hacc]; exact List.mem_range.mp hi) hcnt
        simp only [hd1, Res.andThen_ok]
        exact Share_sync env tlis xt env.ALL_WORKER false hc1.prepared hcnt1
    · exact ShareStrat.nothing false (Prepared.prep_refl d)

theorem DispatchDataBaseRecord_share (env : Env) (record : XLogReaderState)
    (tlis : List Nat) (xt : Int) (d : LogDispatcher) :
    ShareStrat d (DispatchDataBaseRecord env record tlis xt d) := by
  unfold DispatchDataBaseRecord
  simp only []
  split
  · exact Share_broadcast _ _ (d.itemSeq + 1) (Prepared.prep_refl d) _ rfl rfl rfl
  · exact Share_withoutPage_marker env tlis false (Prepared.prep_refl d)

theorem DispatchTableSpaceRecord_share (env : Env) (record : XLogReaderState)
    (tlis : List Nat) (xt : Int) (d : LogDispatcher) :
    ShareStrat d (DispatchTableSpaceRecord env record tlis xt d) := by
  unfold DispatchTableSpaceRecord
  simp only []
  split
  · exact Share_txn env tlis xt true true (Prepared.prep_refl d)
  · exact Share_withoutPage_marker env tlis false (Prepared.prep_refl d)

theorem DispatchHeapRecord_share (env : Env) (record : XLogReaderState) (tlis : List Nat)
    (xt : Int) (d : LogDispatcher) (hn : 0 < d.pageWorkerCount) (hcnt : ChosenCounted d) :
    ShareStrat d (DispatchHeapRecord env record tlis xt d) := by
  unfold DispatchHeapRecord
  split
  · exact Share_withPages env tlis _ false (Prepared.prep_refl d) hn hcnt
  · exact Share_withoutPage env tlis false (Prepared.prep_refl d)

theorem DispatchSeqRecord_share (env : Env) (record : XLogReaderState) (tlis : List Nat)
    (xt : Int) (d : LogDispatcher) (hn : 0 < d.pageWorkerCount) (hcnt : ChosenCounted d) :
    ShareStrat d (DispatchSeqRecord env record tlis xt d) :=
  Share_withPages env tlis _ false (Prepared.prep_refl d) hn hcnt

theorem DispatchBtreeRecord_share (env : Env) (record : XLogReaderState) (tlis : List Nat)
    (xt : Int) (d : LogDispatcher) (hn : 0 < d.pageWorkerCount) (hcnt : ChosenCounted d) :
    ShareStrat d (DispatchBtreeRecord env record tlis xt d) := by
  unfold DispatchBtreeRecord
  simp only []
  split
  · exact Share_txn env tlis xt false false (Prepared.prep_refl d)
  · exact Share_withPages env tlis true false (Prepared.prep_refl d) hn hcnt

/-- A warning leaves the chosen count as it is. -/
theorem ChosenCounted.counted_ite_warn (c : Prop) [Decidable c] (m : WarnMsg) (d : LogDispatcher)
    (hcnt : ChosenCounted d) : ChosenCounted (if c then ereportWARNING m d else d) := by
  split
  · exact hcnt
  · exact hcnt

theorem DispatchGinRecord_share (env : Env) (record : XLogReaderState) (tlis : List Nat)
    (xt : Int) (d : LogDispatcher) (hn : 0 < d.pageWorkerCount) (hcnt : ChosenCounted d) :
    ShareStrat d (DispatchGinRecord env record tlis xt d) := by
  unfold DispatchGinRecord
  simp only []
  have hprep0 := Prepared.ite_warn (infoOp env record = env.XLOG_GIN_DELETE_LISTPAGE ∧
      env.ginxlogDeleteListPages_ndeleted record ≠ record.max_block_id)
    WarnMsg.DispatchGinRecord_warnninginfo d
  have hcnt0 := ChosenCounted.counted_ite_warn (infoOp env record = env.XLOG_GIN_DELETE_LISTPAGE ∧
      env.ginxlogDeleteListPages_ndeleted record ≠ record.max_block_id)
    WarnMsg.DispatchGinRecord_warnninginfo d hcnt
  generalize (if infoOp env record = env.XLOG_GIN_DELETE_LISTPAGE ∧
      env.ginxlogDeleteListPages_ndeleted record ≠ record.max_block_id
    then ereportWARNING WarnMsg.DispatchGinRecord_warnninginfo d else d) = d0
    at hprep0 hcnt0 ⊢
  split
  · exact Share_afterIds env true _ hprep0 hn hcnt0
      (fun d2 hp hc => Share_spec env tlis true false hp hc)
  · exact Share_withPages env tlis true false hprep0 hn hcnt0

theorem DispatchGistRecord_share (env : Env) (record : XLogReaderState) (tlis : List Nat)
    (xt : Int) (d : LogDispatcher) (hn : 0 < d.pageWorkerCount) (hcnt : ChosenCounted d) :
    ShareStrat d (DispatchGistRecord env record tlis xt d) := by
  unfold DispatchGistRecord
  simp only []
  have hprep0 := Prepared.ite_warn (infoOp env record = env.XLOG_GIST_PAGE_SPLIT ∧
      env.gistxlogPageSplit_npage record ≠ record.max_block_id)
    WarnMsg.DispatchGistRecord_warnninginfo d
  have hcnt0 := ChosenCounted.counted_ite_warn (infoOp env record = env.XLOG_GIST_PAGE_SPLIT ∧
      env.gistxlogPageSplit_npage record ≠ record.max_block_id)
    WarnMsg.DispatchGistRecord_warnninginfo d hcnt
  generalize (if infoOp env record = env.XLOG_GIST_PAGE_SPLIT ∧
      env.gistxlogPageSplit_npage record ≠ record.max_block_id
    then ereportWARNING WarnMsg.DispatchGistRecord_warnninginfo d else d) = d0
    at hprep0 hcnt0 ⊢
  split
  · exact Share_afterIds env true _ hprep0 hn hcnt0
      (fun d2 hp hc => Share_spec env tlis true false hp hc)
  · exact Share_withPages env tlis true false hprep0 hn hcnt0

theorem DispatchSpgistRecord_share (env : Env) (record : XLogReaderState) (tlis : List Nat)
    (xt : Int) (d : LogDispatcher) (hn : 0 < d.pageWorkerCount) (hcnt : ChosenCounted d) :
    ShareStrat d (DispatchSpgistRecord env record tlis xt d) := by
  unfold DispatchSpgistRecord
  simp only []
  split
  · refine Share_afterIds env true _ (Prepared.prep_refl d) hn hcnt (fun d2 hp hc => ?_)
    split
    · exact Share_sync env tlis xt env.TRXN_WORKER false hp hc
    · exact Share_spec env tlis true false hp hc
  · exact Share_withPages env tlis true false (Prepared.prep_refl d) hn hcnt

theorem DispatchHeap2VacuumRecord_share (env : Env) (record : XLogReaderState)
    (tlis : List Nat) (xt : Int) (d : LogDispatcher) (hn : 0 < d.pageWorkerCount)
    (hcnt : ChosenCounted d) :
    ShareStrat d (DispatchHeap2VacuumRecord env record tlis xt d) := by
  unfold DispatchHeap2VacuumRecord
  simp only []
  split
  · exact Share_txn env tlis xt false false (Prepared.prep_refl d)
  · exact Share_withPages env tlis _ false (Prepared.prep_refl d) hn hcnt

theorem DispatchHeap2Record_share (env : Env) (record : XLogReaderState) (tlis : List Nat)
    (xt : Int) (d : LogDispatcher) (hn : 0 < d.pageWorkerCount) (hcnt : ChosenCounted d) :
    ShareStrat d (DispatchHeap2Record env record tlis xt d) := by
  unfold DispatchHeap2Record
  simp only []
  split
  · exact Share_withPages env tlis _ false (Prepared.prep_refl d) hn hcnt
  · split
    · split
      · exact Share_onePage env _ tlis false (Prepared.prep_refl d)
      · exact Share_withoutPage env tlis false (Prepared.prep_refl d)
    · split
      · split
        · split
          · split
            · exact Share_onePage env _ tlis false (Prepared.prep_refl d)
            · exact Share_withoutPage env tlis false (Prepared.prep_refl d)
          · exact ShareStrat.nothing false (Prepared.prep_refl d)
        · split
          · exact Share_txn env tlis xt false true (Prepared.prep_refl d)
          · exact ShareStrat.nothing false (Prepared.prep_refl d)
      · exact DispatchHeap2VacuumRecord_share env record tlis xt d hn hcnt

/-- Every initialised row of the table has a strategy, and that strategy gives every real
item it enqueues the number of its enqueues as `expectedConsumers`. -/
theorem share_rows_ok (env : Env) (record : XLogReaderState) (tlis : List Nat) (xt : Int)
    (d : LogDispatcher) (hn : 0 < d.pageWorkerCount) (hcnt : ChosenCounted d)
    (row : RmgrDispatchData) (hrow : row ∈ g_dispatchTable env) :
    ∃ S, row.rm_dispatch = some S ∧ ShareStrat d (S env record tlis xt d) := by
  simp only [g_dispatchTable, List.mem_append, List.mem_cons, List.mem_singleton,
    List.not_mem_nil, or_false] at hrow
  rcases hrow with ((h | h | h | h | h | h | h | h | h | h | h | h | h | h | h | h | h | h | h) |
    h) | h
  · subst h
    exact ⟨_, rfl, DispatchXLogRecord_share env record tlis xt d hn hcnt⟩
  · subst h
    exact ⟨_, rfl, DispatchXactRecord_share env record tlis xt d hn hcnt⟩
  · subst h
    exact ⟨_, rfl, DispatchSmgrRecord_share env record tlis xt d hn hcnt⟩
  · subst h
    exact ⟨_, rfl, DispatchTxnFamily_share env record tlis xt false d⟩
  · subst h
    exact ⟨_, rfl, DispatchDataBaseRecord_share env record tlis xt d⟩
  · subst h
    exact ⟨_, rfl, DispatchTableSpaceRecord_share env record tlis xt d⟩
  · subst h
    exact ⟨_, rfl, DispatchTxnFamily_share env record tlis xt false d⟩
  · subst h
    exact ⟨_, rfl, DispatchTxnFamily_share env record tlis xt false d⟩
  · have hd : row.rm_dispatch = some DispatchStandbyRecord := by
      rw [h]
      split <;> rfl
    exact ⟨_, hd, DispatchTxnFamily_share env record tlis xt _ d⟩
  · subst h
    exact ⟨_, rfl, DispatchHeap2Record_share env record tlis xt d hn hcnt⟩
  · subst h
    exact ⟨_, rfl, DispatchHeapRecord_share env record tlis xt d hn hcnt⟩
  · subst h
    exact ⟨_, rfl, DispatchBtreeRecord_share env record tlis xt d hn hcnt⟩
  · subst h
    exact ⟨_, rfl, DispatchTxnFamily_share env record tlis xt true d⟩
  · subst h
    exact ⟨_, rfl, DispatchGinRecord_share env record tlis xt d hn hcnt⟩
  · subst h
    exact ⟨_, rfl, DispatchGistRecord_share env record tlis xt d hn hcnt⟩
  · subst h
    exact ⟨_, rfl, DispatchSeqRecord_share env record tlis xt d hn hcnt⟩
  · subst h
    exact ⟨_, rfl, DispatchSpgistRecord_share env record tlis xt d hn hcnt⟩
  · subst h
    exact ⟨_, rfl, DispatchTxnFamily_share env record tlis xt false d⟩
  · subst h
    exact ⟨_, rfl, DispatchTxnFamily_share env record tlis xt false d⟩
  · by_cases hm : env.ENABLE_MULTIPLE_NODES = true
    · simp only [hm, if_true, List.mem_singleton] at h
      subst h
      exact ⟨_, rfl, DispatchTxnFamily_share env record tlis xt false d⟩
    · simp [hm] at h
  · subst h
    exact ⟨_, rfl, DispatchTxnFamily_share env record tlis xt false d⟩

/-- The strategy call of `DispatchRedoRecordToFile`, for an accepted and for a malformed
record alike, gives every real item it enqueues the number of its enqueues. -/
theorem runStrategy_share (env : Env) (record : XLogReaderState) (tlis : List Nat)
    (xt : Int) (d : LogDispatcher) (hn : 0 < d.pageWorkerCount) (hcnt : ChosenCounted d) :
    ShareStrat d (runStrategy env record tlis xt d) := by
  cases hf : fatalerror env record with
  | true =>
    rw [runStrategy_fatal env record tlis xt d hf]
    exact Share_txn env tlis xt false true (Prepared.prep_refl d)
  | false =>
    obtain ⟨hmem, _⟩ := accepted_row env record hf
    obtain ⟨S, hS, hok⟩ := share_rows_ok env record tlis xt d hn hcnt _ hmem
    unfold runStrategy
    simp only [hf, hS]
    exact hok

/-- Events that enqueue nothing, after the events of a dispatch, change no count. -/
theorem ShareOK.append_tail {evs tail : List Event} (ht : enqueued tail = [])
    (h : ShareOK evs) : ShareOK (evs ++ tail) := by
  intro it hit hk
  rw [enqueued_append, ht, List.append_nil] at hit
  rw [h it hit hk]
  simp [enqueueCount, enqueued_append, ht]

/-- What `DispatchRedoRecordToFile` appends after the strategy has returned: the drain and
the dump, no enqueue. -/
theorem dispatch_trace_tail (env : Env) (d d1 : LogDispatcher) (record : XLogReaderState)
    (tlis : List Nat) (xt : Int) (b : Bool)
    (hguard : env.get_real_recovery_parallelism > 1 ∧ GetPageWorkerCount (some d) > 0)
    (h1 : runStrategy env record tlis xt (ResetChosedWorkerList d) = Res.ok b d1) :
    ∃ tail, (DispatchRedoRecordToFile env (some d) record tlis xt).trace = d1.trace ++ tail ∧
      enqueued tail = [] ∧ (∀ w, pageQueue w tail = []) ∧ txnQueue tail = [] := by
  have hppr : ∀ fs (x : LogDispatcher),
      (ProcessPendingRecords env fs x).trace = x.trace ++ [Event.ProcessPendingRecords fs] := by
    intro fs x
    unfold ProcessPendingRecords
    simp only []
    split <;> rfl
  unfold DispatchRedoRecordToFile
  simp only [hguard, and_self, if_true, h1, Res.andThen_ok]
  cases b with
  | true =>
    simp only [if_true]
    by_cases hf : fatalerror env record = true
    · rw [if_pos hf]
      refine ⟨[Event.ProcessPendingRecords true, Event.DumpDispatcher], ?_, rfl,
        fun _ => rfl, rfl⟩
      simp [Res.trace, DumpDispatcher, hppr]
    · rw [if_neg hf]
      exact ⟨[Event.ProcessPendingRecords true], by simp [Res.trace, hppr], rfl,
        fun _ => rfl, rfl⟩
  | false =>
    simp only [Bool.false_eq_true, if_false]
    by_cases hp : d1.pendingCount + 1 ≥ d1.pendingMax
    · simp only [hp, if_true]
      by_cases hf : fatalerror env record = true
      · rw [if_pos hf]
        refine ⟨[Event.ProcessPendingRecords false, Event.DumpDispatcher], ?_, rfl,
          fun _ => rfl, rfl⟩
        simp [Res.trace, DumpDispatcher, hppr]
      · rw [if_neg hf]
        exact ⟨[Event.ProcessPendingRecords false], by simp [Res.trace, hppr], rfl,
          fun _ => rfl, rfl⟩
    · simp only [hp, if_false]
      by_cases hf : fatalerror env record = true
      · rw [if_pos hf]
        exact ⟨[Event.DumpDispatcher], by simp [Res.trace, DumpDispatcher], rfl,
          fun _ => rfl, rfl⟩
      · rw [if_neg hf]
        exact ⟨[], by simp [Res.trace], rfl, fun _ => rfl, rfl⟩

/-- C32: in every dispatch under the guard, each real item enqueued carries as
`expectedConsumers` (`shareCount`) the number of its enqueues, and no queue receives more
than one item of the call, so that number is the number of worker queues holding the item.
Pattern by pattern, with `K` the value given to `CreateRedoItem`, every real item enqueued
carries `K` and is enqueued `K` times (and `K = 0` if none is enqueued): `K = 1` in
`DispatchTxnRecord` and `DispatchToOnePageWorker`, `pageWorkerCount` in
`DispatchRecordWithoutPage`, `chosedWorkerCount + 1` in `DispatchSyncTxnRecord`,
`chosedWorkerCount` in `DispatchToSpecPageWorker` and `DispatchRecordWithPages`,
`pageWorkerCount + 1` in the broadcasts of checkpoints and database drops.  The patterns
that read `chosedWorkerCount` are run with a count that matches the chosen set, which holds
after `ResetChosedWorkerList` and is kept by `AddWorkerToSet`. -/
theorem C32_expected_consumers (env : Env) (d : LogDispatcher) (record : XLogReaderState)
    (tlis : List Nat) (xt : Int) (hpar : env.get_real_recovery_parallelism > 1)
    (hn : GetPageWorkerCount (some d) > 0) :
    (∃ evs, (DispatchRedoRecordToFile env (some d) record tlis xt).trace = d.trace ++ evs ∧
      (∀ it ∈ enqueued evs, it.kind = ItemKind.real →
        it.shareCount = enqueueCount it.id evs) ∧
      (∀ w, (pageQueue w evs).length ≤ 1) ∧ (txnQueue evs).length ≤ 1) ∧
    (∀ d0 xt0 im, ∃ E,
      (DispatchTxnRecord env record tlis xt0 im d0).trace = d0.trace ++ E ∧
      PatternShare 1 E) ∧
    (∀ d0 rnode, ∃ E,
      (DispatchToOnePageWorker env record rnode tlis d0).trace = d0.trace ++ E ∧
      PatternShare 1 E) ∧
    (∀ d0, ∃ E,
      (DispatchRecordWithoutPage env record tlis d0).trace = d0.trace ++ E ∧
      PatternShare d0.pageWorkerCount E) ∧
    (∀ d0 xt0 dw, ChosenCounted d0 → ∃ E,
      (DispatchSyncTxnRecord env record tlis xt0 dw d0).trace = d0.trace ++ E ∧
      PatternShare (d0.chosedWorkerCount + 1) E) ∧
    (∀ d0 wait, ChosenCounted d0 → ∃ E,
      (DispatchToSpecPageWorker env record tlis wait d0).trace = d0.trace ++ E ∧
      PatternShare d0.chosedWorkerCount E) ∧
    (∀ d0 rd, 0 < d0.pageWorkerCount → ChosenCounted d0 → ∃ d1 d2 E,
      GetWorkerIds env record env.ANY_WORKER rd d0 = Res.ok () d1 ∧
      DispatchRecordWithPages env record tlis rd d0 = Res.ok () d2 ∧
      d2.trace = d0.trace ++ E ∧ PatternShare d1.chosedWorkerCount E) ∧
    (∀ d0 xt0, env.IsCheckPoint record = true → ∃ b d2 E,
      DispatchXLogRecord env record tlis xt0 d0 = Res.ok b d2 ∧
      d2.trace = d0.trace ++ E ∧ PatternShare (d0.pageWorkerCount + 1) E) ∧
    (∀ d0 xt0, env.IsDataBaseDrop record = true → ∃ b d2 E,
      DispatchDataBaseRecord env record tlis xt0 d0 = Res.ok b d2 ∧
      d2.trace = d0.trace ++ E ∧ PatternShare (d0.pageWorkerCount + 1) E) ∧
    ChosenCounted (ResetChosedWorkerList d) ∧
    (∀ id d0, id < d0.pageWorkerCount → ChosenCounted d0 →
      ∃ d1, AddWorkerToSet id d0 = Res.ok () d1 ∧ ChosenCounted d1) := by
  have hn1 : 0 < d.pageWorkerCount := hn
  have hn0 : 0 < (ResetChosedWorkerList d).pageWorkerCount := hn
  refine ⟨?_, fun d0 xt0 im => DispatchTxnRecord_share env record tlis xt0 im d0,
    fun d0 rnode => DispatchToOnePageWorker_share env record rnode tlis d0,
    fun d0 => DispatchRecordWithoutPage_share env record tlis d0,
    fun d0 xt0 dw hc => DispatchSyncTxnRecord_share env record tlis xt0 dw d0 hc,
    fun d0 wait hc => DispatchToSpecPageWorker_share env record tlis wait d0 hc,
    fun d0 rd h0 hc => DispatchRecordWithPages_share env record tlis rd d0 h0 hc,
    ?_, ?_, ChosenCounted_reset d, ?_⟩
  · obtain ⟨b, d1, evs, h1, h2, hS⟩ :=
      runStrategy_share env record tlis xt (ResetChosedWorkerList d) hn0
        (ChosenCounted_reset d)
    have h2a : d1.trace = d.trace ++ evs := h2
    have hF : Fanout d.pageWorkerCount record evs := by
      cases hf : fatalerror env record with
      | true =>
        have hs : StratOK record (ResetChosedWorkerList d)
            (Res.ok true (DispatchTxnRecord env record tlis xt false (ResetChosedWorkerList d)))
            False :=
          StratOK_txn env tlis xt false true (Prepared.prep_refl _)
        obtain ⟨b2, d2, evs2, e1, _, _, _, e5, e6, _⟩ := hs
        rw [runStrategy_fatal env record tlis xt _ hf] at h1
        rw [h1] at e1
        injection e1 with _ hd
        subst hd
        have : evs2 = evs := by
          have e5a : d1.trace = d.trace ++ evs2 := e5
          rw [h2a] at e5a
          exact (List.append_cancel_left e5a).symm
        rw [← this]
        exact e6
      | false =>
        obtain ⟨b2, d2, evs2, e1, _, _, _, e5, e6, _⟩ :=
          runStrategy_accepted env record tlis xt (ResetChosedWorkerList d) hn0 hf
        rw [h1] at e1
        injection e1 with _ hd
        subst hd
        have : evs2 = evs := by
          have e5a : d1.trace = d.trace ++ evs2 := e5
          rw [h2a] at e5a
          exact (List.append_cancel_left e5a).symm
        rw [← this]
        exact e6
    obtain ⟨tail, ht1, ht2, ht3, ht4⟩ :=
      dispatch_trace_tail env d d1 record tlis xt b ⟨hpar, hn⟩ h1
    refine ⟨evs ++ tail, by rw [ht1, h2a, List.append_assoc], hS.append_tail ht2, ?_, ?_⟩
    · intro w
      rw [pageQueue_append, ht3 w, List.append_nil]
      exact hF.page_le_one w
    · rw [txnQueue_append, ht4, List.append_nil]
      exact hF.txn_le_one
  · intro d0 xt0 hck
    have hres : DispatchXLogRecord env record tlis xt0 d0
        = Res.ok (XLogWillChangeStandbyState env record)
            { d0 with
              trace := d0.trace ++
                ((List.range d0.pageWorkerCount).map (fun i => Event.AddPageRedoItem i
                    (realItem record (d0.pageWorkerCount + 1) env.ALL_WORKER tlis xt0
                      d0.itemSeq)) ++
                  [Event.AddTxnRedoItem
                    (realItem record (d0.pageWorkerCount + 1) env.ALL_WORKER tlis xt0
                      d0.itemSeq)]),
              itemSeq := d0.itemSeq + 1 } := by
      unfold DispatchXLogRecord
      simp only [hck, if_true]
      rw [forWorkers_broadcast]
      simp [AddTxnRedoItem, CreateRedoItem, realItem]
    exact ⟨_, _, _, hres, rfl, PatternShare.broadcast d0.pageWorkerCount
      (realItem record (d0.pageWorkerCount + 1) env.ALL_WORKER tlis xt0 d0.itemSeq) rfl rfl⟩
  · intro d0 xt0 hdrop
    have hres : DispatchDataBaseRecord env record tlis xt0 d0
        = Res.ok true
            { d0 with
              trace := d0.trace ++
                ((List.range d0.pageWorkerCount).map (fun i => Event.AddPageRedoItem i
                    { realItem record (d0.pageWorkerCount + 1) env.ALL_WORKER tlis xt0
                        d0.itemSeq with imcheckpoint := true }) ++
                  [Event.AddTxnRedoItem
                    { realItem record (d0.pageWorkerCount + 1) env.ALL_WORKER tlis xt0
                        d0.itemSeq with imcheckpoint := true }]),
              itemSeq := d0.itemSeq + 1 } := by
      unfold DispatchDataBaseRecord
      simp only [hdrop, if_true]
      rw [forWorkers_broadcast]
      simp [AddTxnRedoItem, CreateRedoItem, realItem]
    exact ⟨_, _, _, hres, rfl, PatternShare.broadcast d0.pageWorkerCount
      { realItem record (d0.pageWorkerCount + 1) env.ALL_WORKER tlis xt0 d0.itemSeq with
        imcheckpoint := true } rfl rfl⟩
  · intro id d0 hid hc
    obtain ⟨d1, h1, _, h3⟩ := AddWorkerToSet_counted id d0 hid hc
    exact ⟨d1, h1, h3⟩

/-- C32, at a commit record that removes two relation files, dispatched over three page
workers: the real item has `expectedConsumers` 3 and is enqueued 3 times, to the page
workers 1 and 2 and to the transaction worker. -/
theorem C32_expected_consumers_witness :
    sampleEnv.get_real_recovery_parallelism > 1 ∧
    GetPageWorkerCount (some (sampleDispatcher 3)) > 0 ∧
    ((enqueued (DispatchRedoRecordToFile sampleEnv (some (sampleDispatcher 3))
        (sampleRecord 1 0 300 [4, 5]) [] 0).trace).map
        (fun it => (it.id, it.kind, it.shareCount))
      = [(1, ItemKind.lsnMarker, 0), (0, ItemKind.real, 3), (0, ItemKind.real, 3),
          (0, ItemKind.real, 3)]) ∧
    enqueueCount 0 (DispatchRedoRecordToFile sampleEnv (some (sampleDispatcher 3))
        (sampleRecord 1 0 300 [4, 5]) [] 0).trace = 3 ∧
    ∃ evs, (DispatchRedoRecordToFile sampleEnv (some (sampleDispatcher 3))
        (sampleRecord 1 0 300 [4, 5]) [] 0).trace = (sampleDispatcher 3).trace ++ evs ∧
      (∀ it ∈ enqueued evs, it.kind = ItemKind.real →
        it.shareCount = enqueueCount it.id evs) ∧
      (∀ w, (pageQueue w evs).length ≤ 1) ∧ (txnQueue evs).length ≤ 1 :=
  ⟨by decide, by decide, by decide, by decide,
    (C32_expected_consumers sampleEnv (sampleDispatcher 3) (sampleRecord 1 0 300 [4, 5]) [] 0
      (by decide) (by decide)).1⟩

/-! ## Every strategy runs the fan-out of its branch -/

theorem pageQueue_after_warnings (w : Nat) (ws : List WarnMsg) (evs : List Event) :
    pageQueue w (ws.map Event.WARNING ++ evs) = pageQueue w evs := by
  simp [pageQueue_append]

theorem txnQueue_after_warnings (ws : List WarnMsg) (evs : List Event) :
    txnQueue (ws.map Event.WARNING ++ evs) = txnQueue evs := by
  simp [txnQueue_append]

theorem PatternEffect_warnings {env : Env} {record : XLogReaderState} {d : LogDispatcher}
    {p : FanoutPattern} {evs : List Event} (ws : List WarnMsg)
    (h : PatternEffect env record d p evs) :
    PatternEffect env record d p (ws.map Event.WARNING ++ evs) := by
  cases p <;>
    simp only [PatternEffect, realDelivered, pageQueue_after_warnings,
      txnQueue_after_warnings] at h ⊢ <;>
    exact h

/-- A prepared state followed by the events `E` of the fan-out `p`. -/
theorem RunsPattern_intro {env : Env} {record : XLogReaderState} {d d1 d2 : LogDispatcher}
    {p : FanoutPattern} (b : Bool) (E : List Event) (k : Nat) (hprep : Prepared d d1)
    (hd2 : d2 = { d1 with trace := d1.trace ++ E, itemSeq := k })
    (hE : PatternEffect env record d p E) : RunsPattern env record d (Res.ok b d2) p := by
  obtain ⟨ws, hws⟩ := hprep
  refine ⟨b, d2, ws.map Event.WARNING ++ E, rfl, ?_, PatternEffect_warnings ws hE⟩
  rw [hd2, hws]
  simp

theorem Unchosen_ite_warn (c : Prop) [Decidable c] (m : WarnMsg) (d : LogDispatcher)
    (h : Unchosen d) : Unchosen (if c then ereportWARNING m d else d) := by
  split
  · exact h
  · exact h

theorem blockWorkerIds_congr (env : Env) (record : XLogReaderState) (rd : Bool)
    (d d1 : LogDispatcher) (h : d1.pageWorkerCount = d.pageWorkerCount) :
    blockWorkerIds env (some d1) record rd = blockWorkerIds env (some d) record rd := by
  simp [blockWorkerIds, GetWorkerId, GetPageWorkerCount, h]

theorem blockWorkerIds_ne_nil (env : Env) (g : Option LogDispatcher) (record : XLogReaderState)
    (rd : Bool) :
    (∃ w, w ∈ blockWorkerIds env g record rd) ↔ hasInUseBlock record = true := by
  simp only [blockWorkerIds, hasInUseBlock, List.mem_map, List.mem_filter, List.any_eq_true]
  constructor
  · rintro ⟨w, i, ⟨hi, hu⟩, _⟩
    exact ⟨i, hi, hu⟩
  · rintro ⟨i, hi, hu⟩
    exact ⟨_, i, ⟨hi, hu⟩, rfl⟩

/-- On a dispatcher with a page worker and an empty chosen set, `GetWorkerIds` without a
designated worker chooses exactly the workers of the block references in use. -/
theorem GetWorkerIds_chosen (env : Env) (record : XLogReaderState) (rd : Bool)
    (d : LogDispatcher) (hn : 0 < d.pageWorkerCount) (hz : Unchosen d) :
    ∃ d1, GetWorkerIds env record env.ANY_WORKER rd d = Res.ok () d1 ∧ ChosenOnly d d1 ∧
      ∀ w, w < d.pageWorkerCount →
        (d1.chosedWorkerIds w > 0 ↔ w ∈ blockWorkerIds env (some d) record rd) := by
  obtain ⟨d1, hd1, hc1, hhits, _⟩ :=
    addWorkersToSet_ok (blockWorkerIds env (some d) record rd) d
      (blockWorkerIds_lt env record rd d hn)
  refine ⟨d1, ?_, hc1, ?_⟩
  · rw [GetWorkerIds_eq_addWorkers env record rd d hn]
    exact hd1
  · intro w hw
    rw [hhits w, hz w hw, Nat.zero_add]
    exact List.count_pos_iff

theorem Runs_nothing {env : Env} {record : XLogReaderState} {d d1 : LogDispatcher}
    (b : Bool) (hprep : Prepared d d1) :
    RunsPattern env record d (Res.ok b d1) FanoutPattern.nobody :=
  RunsPattern_intro b [] d1.itemSeq hprep (by simp) ⟨fun _ => rfl, rfl⟩

theorem Runs_txn (env : Env) {record : XLogReaderState} {d d1 : LogDispatcher}
    (tlis : List Nat) (xt : Int) (im b : Bool) (hprep : Prepared d d1) :
    RunsPattern env record d (Res.ok b (DispatchTxnRecord env record tlis xt im d1))
      FanoutPattern.everyWorker := by
  refine RunsPattern_intro b _ _ hprep (DispatchTxnRecord_eq env record tlis xt im d1) ⟨?_, ?_⟩
  · intro w hw
    rw [pageQueue_append, pageQueue_range_map, hprep.prep_count_eq, if_pos hw]
    simp
  · right
    refine ⟨{ realItem record 1 env.ANY_WORKER tlis xt (d1.itemSeq + d1.pageWorkerCount) with
      imcheckpoint := im }, ?_, rfl, rfl⟩
    rw [txnQueue_append, txnQueue_range_map]
    simp

theorem Runs_withoutPage (env : Env) {record : XLogReaderState} {d d1 : LogDispatcher}
    (tlis : List Nat) (b : Bool) (hprep : Prepared d d1) (hn : 0 < d.pageWorkerCount) :
    RunsPattern env record d (Res.ok b (DispatchRecordWithoutPage env record tlis d1))
      FanoutPattern.everyWorker := by
  refine RunsPattern_intro b _ _ hprep (DispatchRecordWithoutPage_eq env record tlis d1)
    ⟨?_, ?_⟩
  · intro w hw
    rw [pageQueue_range_map, hprep.prep_count_eq, if_pos hw]
    simp
  · left
    refine ⟨0, realItem record d1.pageWorkerCount env.ANY_WORKER tlis 0 d1.itemSeq, ?_,
      rfl, rfl⟩
    rw [pageQueue_range_map, hprep.prep_count_eq]
    simp [hn]

theorem Runs_withoutPage_marker (env : Env) {record : XLogReaderState}
    {d d1 : LogDispatcher} (tlis : List Nat) (b : Bool) (hprep : Prepared d d1)
    (hn : 0 < d.pageWorkerCount) :
    RunsPattern env record d
      (Res.ok b (AddTxnRedoItem
        { (CreateLSNMarker env record tlis false
            (DispatchRecordWithoutPage env record tlis d1)).1 with imcheckpoint := true }
        (CreateLSNMarker env record tlis false
            (DispatchRecordWithoutPage env record tlis d1)).2)) FanoutPattern.everyWorker := by
  refine RunsPattern_intro b
    ((List.range d1.pageWorkerCount).map (fun i => Event.AddPageRedoItem i
        (realItem record d1.pageWorkerCount env.ANY_WORKER tlis 0 d1.itemSeq)) ++
      [Event.AddTxnRedoItem
        { markerItem env record tlis (d1.itemSeq + 1) with imcheckpoint := true }])
    (d1.itemSeq + 1 + 1) hprep ?_ ⟨?_, ?_⟩
  · rw [DispatchRecordWithoutPage_eq]
    simp [AddTxnRedoItem, CreateLSNMarker, markerItem]
  · intro w hw
    rw [pageQueue_append, pageQueue_range_map, hprep.prep_count_eq, if_pos hw]
    simp
  · left
    refine ⟨0, realItem record d1.pageWorkerCount env.ANY_WORKER tlis 0 d1.itemSeq, ?_,
      rfl, rfl⟩
    rw [pageQueue_append, pageQueue_range_map, hprep.prep_count_eq]
    simp [hn]

theorem Runs_broadcast {env : Env} {record : XLogReaderState} {d d1 : LogDispatcher}
    (item : RedoItem) (b : Bool) (k : Nat) (hprep : Prepared d d1) (p2 : LogDispatcher)
    (hp2 : p2 = { d1 with itemSeq := k })
    (hkind : item.kind = ItemKind.real) (hrec : item.record = record) :
    RunsPattern env record d
      (Res.ok b (AddTxnRedoItem item
        (forWorkers p2.pageWorkerCount (fun i acc => AddPageRedoItem i item acc) p2)))
      FanoutPattern.everyWorker := by
  subst hp2
  refine RunsPattern_intro b
    ((List.range d1.pageWorkerCount).map (fun i => Event.AddPageRedoItem i item) ++
      [Event.AddTxnRedoItem item]) k hprep ?_ ⟨?_, ?_⟩
  · rw [forWorkers_broadcast]
    simp [AddTxnRedoItem]
  · intro w hw
    rw [pageQueue_append, pageQueue_range_map, hprep.prep_count_eq, if_pos hw]
    simp
  · right
    refine ⟨item, ?_, hkind, hrec⟩
    rw [txnQueue_append, txnQueue_range_map]
    simp

theorem Runs_onePage (env : Env) {record : XLogReaderState} {d d1 : LogDispatcher}
    (rnode : RelFileNode) (tlis : List Nat) (b : Bool) (hprep : Prepared d d1) :
    RunsPattern env record d (Res.ok b (DispatchToOnePageWorker env record rnode tlis d1))
      (FanoutPattern.oneWorker rnode) := by
  have hg : GetWorkerId env (some d1) rnode 0 0 = GetWorkerId env (some d) rnode 0 0 :=
    GetWorkerId_congr env _ _ rnode 0 0 hprep.prep_count_eq
  refine RunsPattern_intro b _ _ hprep (DispatchToOnePageWorker_eq env record rnode tlis d1)
    ⟨?_, ?_, rfl⟩
  · intro w
    rw [hg]
    by_cases hw : GetWorkerId env (some d) rnode 0 0 = w
    · simp [pageQueue, hw]
    · have hw2 : ¬ w = GetWorkerId env (some d) rnode 0 0 := fun hc => hw hc.symm
      simp [pageQueue, hw, hw2]
  · intro w it hit
    by_cases hw : GetWorkerId env (some d1) rnode 0 0 = w
    · simp [pageQueue, hw] at hit
      rw [hit]
      exact ⟨rfl, rfl⟩
    · simp [pageQueue, hw] at hit

theorem Runs_sync (env : Env) {record : XLogReaderState} {d d1 : LogDispatcher}
    (tlis : List Nat) (xt : Int) (dw : Nat) (b : Bool) (hprep : Prepared d d1) :
    RunsPattern env record d (Res.ok b (DispatchSyncTxnRecord env record tlis xt dw d1))
      FanoutPattern.everyWorker := by
  refine RunsPattern_intro b _ _ hprep (DispatchSyncTxnRecord_eq env record tlis xt dw d1)
    ⟨?_, ?_⟩
  · intro w hw
    have hw1 : w < d1.pageWorkerCount := by rw [hprep.prep_count_eq]; exact hw
    by_cases hc : d1.chosedWorkerCount ≠ 1 ∧ XLogRecGetRmid record ≠ env.RM_XACT_ID <;>
      simp [pageQueue_append, pageQueue_range_map, hw1, hc]
  · right
    refine ⟨{ realItem record (d1.chosedWorkerCount + 1) dw tlis xt d1.itemSeq with
      sharewithtrxn := true, blockbytrxn := false }, ?_, rfl, rfl⟩
    by_cases hc : d1.chosedWorkerCount ≠ 1 ∧ XLogRecGetRmid record ≠ env.RM_XACT_ID <;>
      simp [txnQueue_append, txnQueue_range_map, hc]

theorem Runs_spec (env : Env) {record : XLogReaderState} {d d1 : LogDispatcher}
    (tlis : List Nat) (wait b : Bool) (hprep : Prepared d d1)
    (hch : ∀ w, w < d.pageWorkerCount →
      (d1.chosedWorkerIds w > 0 ↔ w ∈ blockWorkerIds env (some d) record true)) :
    RunsPattern env record d (Res.ok b (DispatchToSpecPageWorker env record tlis wait d1))
      FanoutPattern.specWorkers := by
  have hq : ∀ w, pageQueue w
      ((if d1.chosedWorkerCount ≠ 1 then
          [Event.WARNING WarnMsg.DispatchToSpecPageWorker_maybe_some_error] else []) ++
        (List.range d1.pageWorkerCount).map (fun i => Event.AddPageRedoItem i
          (if d1.chosedWorkerIds i > 0 then
            { realItem record d1.chosedWorkerCount env.ANY_WORKER tlis 0 d1.itemSeq with
              sharewithtrxn := false, blockbytrxn := wait }
           else markerItem env record tlis (d1.itemSeq + 1 + unchosenBelow d1.chosedWorkerIds i))) ++
        [Event.AddTxnRedoItem (markerItem env record tlis
          (d1.itemSeq + 1 + unchosenBelow d1.chosedWorkerIds d1.pageWorkerCount))])
      = if w < d.pageWorkerCount then
          [if d1.chosedWorkerIds w > 0 then
            { realItem record d1.chosedWorkerCount env.ANY_WORKER tlis 0 d1.itemSeq with
              sharewithtrxn := false, blockbytrxn := wait }
           else markerItem env record tlis (d1.itemSeq + 1 + unchosenBelow d1.chosedWorkerIds w)]
        else [] := by
    intro w
    by_cases hc : d1.chosedWorkerCount ≠ 1 <;>
      simp [pageQueue_append, pageQueue_range_map, hprep.prep_count_eq, hc]
  refine RunsPattern_intro b _ _ hprep (DispatchToSpecPageWorker_eq env record tlis wait d1)
    ⟨?_, ?_, ?_⟩
  · intro w hw
    rw [hq, if_pos hw]
    simp
  · intro w it hit
    rw [hq] at hit
    by_cases hw : w < d.pageWorkerCount
    · rw [if_pos hw] at hit
      have hit1 := List.mem_singleton.mp hit
      by_cases hpos : d1.chosedWorkerIds w > 0
      · rw [if_pos hpos] at hit1
        rw [hit1]
        exact ⟨⟨fun _ => (hch w hw).mp hpos, fun _ => rfl⟩, fun _ => rfl⟩
      · rw [if_neg hpos] at hit1
        rw [hit1]
        refine ⟨⟨fun hk => ?_, fun hm => absurd ((hch w hw).mpr hm) hpos⟩, fun hk => ?_⟩
        · cases hk
        · cases hk
    · rw [if_neg hw] at hit
      cases hit
  · intro it hit
    by_cases hc : d1.chosedWorkerCount ≠ 1
    · simp [txnQueue_append, txnQueue_range_map, hc] at hit
      rw [hit]
      rfl
    · simp [txnQueue_append, txnQueue_range_map, hc] at hit
      rw [hit]
      rfl

theorem Runs_withPages (env : Env) {record : XLogReaderState} {d d1 : LogDispatcher}
    (tlis : List Nat) (rd b : Bool) (hprep : Prepared d d1) (hn : 0 < d.pageWorkerCount)
    (hz : Unchosen d1) :
    RunsPattern env record d
      ((DispatchRecordWithPages env record tlis rd d1).andThen (fun _ d2 => Res.ok b d2))
      (FanoutPattern.withPages rd) := by
  have hcnt : d1.pageWorkerCount = d.pageWorkerCount := hprep.prep_count_eq
  have hn1 : 0 < d1.pageWorkerCount := by rw [hcnt]; exact hn
  obtain ⟨d2, hd2, hc2, hch⟩ := GetWorkerIds_chosen env record rd d1 hn1 hz
  rw [blockWorkerIds_congr env record rd d d1 hcnt] at hch
  have hprep2 : Prepared d d2 := hprep.then_chosen hc2
  have hcnt2 : d2.pageWorkerCount = d.pageWorkerCount := hprep2.prep_count_eq
  have hlt := blockWorkerIds_lt env record rd d hn
  have hq : ∀ w, pageQueue w
      (((List.range d2.pageWorkerCount).filter (fun i => decide (d2.chosedWorkerIds i > 0))).map
        (fun i => Event.AddPageRedoItem i
          (realItem record d2.chosedWorkerCount env.ANY_WORKER tlis 0 d2.itemSeq)))
      = if w ∈ blockWorkerIds env (some d) record rd then
          [realItem record d2.chosedWorkerCount env.ANY_WORKER tlis 0 d2.itemSeq]
        else [] := by
    intro w
    rw [pageQueue_range_filter_map, hcnt2]
    by_cases hw : w < d.pageWorkerCount
    · have hw1 : w < d1.pageWorkerCount := by rw [hcnt]; exact hw
      by_cases hm : w ∈ blockWorkerIds env (some d) record rd
      · have hpos := (hch w hw1).mpr hm
        simp [hw, hm, hpos]
      · have hpos : ¬ d2.chosedWorkerIds w > 0 := fun hc => hm ((hch w hw1).mp hc)
        simp [hw, hm, hpos]
    · have hm : w ∉ blockWorkerIds env (some d) record rd := fun hc => hw (hlt w hc)
      simp [hw, hm]
  unfold DispatchRecordWithPages
  rw [hd2]
  simp only [Res.andThen_ok]
  rw [forWorkers_chosen_only]
  refine RunsPattern_intro b
    (((List.range d2.pageWorkerCount).filter (fun i => decide (d2.chosedWorkerIds i > 0))).map
      (fun i => Event.AddPageRedoItem i
        (realItem record d2.chosedWorkerCount env.ANY_WORKER tlis 0 d2.itemSeq)))
    (d2.itemSeq + 1) hprep2 ?_ ⟨?_, ?_, ?_⟩
  · simp [CreateRedoItem, realItem]
  · intro w
    rw [hq]
    by_cases hm : w ∈ blockWorkerIds env (some d) record rd <;> simp [hm]
  · intro w it hit
    rw [hq] at hit
    by_cases hm : w ∈ blockWorkerIds env (some d) record rd
    · rw [if_pos hm] at hit
      rw [List.mem_singleton.mp hit]
      exact ⟨rfl, rfl⟩
    · rw [if_neg hm] at hit
      cases hit
  · exact txnQueue_filter_map _ _

/-- A continuation run after `GetWorkerIds` by relation, started on an empty chosen set. -/
theorem Runs_afterIds (env : Env) {record : XLogReaderState} {d d1 : LogDispatcher}
    {p : FanoutPattern} (k : LogDispatcher → Res Bool) (hprep : Prepared d d1)
    (hn : 0 < d.pageWorkerCount) (hz : Unchosen d1)
    (hk : ∀ d2, Prepared d d2 →
      (∀ w, w < d.pageWorkerCount →
        (d2.chosedWorkerIds w > 0 ↔ w ∈ blockWorkerIds env (some d) record true)) →
      RunsPattern env record d (k d2) p) :
    RunsPattern env record d
      ((GetWorkerIds env record env.ANY_WORKER true d1).andThen (fun _ d2 => k d2)) p := by
  have hcnt : d1.pageWorkerCount = d.pageWorkerCount := hprep.prep_count_eq
  have hn1 : 0 < d1.pageWorkerCount := by rw [hcnt]; exact hn
  obtain ⟨d2, hd2, hc2, hch⟩ := GetWorkerIds_chosen env record true d1 hn1 hz
  rw [blockWorkerIds_congr env record true d d1 hcnt] at hch
  rw [hd2, Res.andThen_ok]
  exact hk d2 (hprep.then_chosen hc2) (fun w hw => hch w (by rw [hcnt]; exact hw))

theorem DispatchXLogRecord_runs (env : Env) (record : XLogReaderState) (tlis : List Nat)
    (xt : Int) (d : LogDispatcher) (hn : 0 < d.pageWorkerCount) (hz : Unchosen d) :
    RunsPattern env record d (DispatchXLogRecord env record tlis xt d)
      (patternOfXLog env record) := by
  unfold DispatchXLogRecord patternOfXLog
  simp only []
  split
  · exact Runs_broadcast _ _ (d.itemSeq + 1) (Prepared.prep_refl d) _ rfl rfl rfl
  · split
    · split
      · exact Runs_withPages env tlis true false (Prepared.prep_refl d) hn hz
      · exact Runs_withoutPage env tlis false (Prepared.prep_refl d) hn
    · exact Runs_txn env tlis xt false false (Prepared.prep_refl d)

theorem DispatchXactRecord_runs (env : Env) (record : XLogReaderState) (tlis : List Nat)
    (xt : Int) (d : LogDispatcher) (hn : 0 < d.pageWorkerCount) :
    RunsPattern env record d (DispatchXactRecord env record tlis xt d)
      FanoutPattern.everyWorker := by
  by_cases hx : XactWillRemoveRelFiles env record = true
  · obtain ⟨d1, hc1, heq⟩ := DispatchXactRecord_sync env record tlis xt d hn hx
    rw [heq]
    exact Runs_sync env tlis xt env.ALL_WORKER false hc1.prepared
  · unfold DispatchXactRecord
    rw [if_neg hx]
    exact Runs_txn env tlis xt false false (Prepared.prep_refl d)

theorem DispatchSmgrRecord_runs (env : Env) (record : XLogReaderState) (tlis : List Nat)
    (xt : Int) (d : LogDispatcher) (hn : 0 < d.pageWorkerCount) :
    RunsPattern env record d (DispatchSmgrRecord env record tlis xt d)
      (patternOfSmgr env record) := by
  unfold DispatchSmgrRecord patternOfSmgr
  simp only []
  split
  · split
    · exact Runs_onePage env _ tlis false (Prepared.prep_refl d)
    · exact Runs_withoutPage env tlis false (Prepared.prep_refl d) hn
  · split
    · split
      · obtain ⟨d1, hd1, hc1, _, _⟩ := AddWorkerToSet_ok
          (GetWorkerId env (some d) (env.xl_smgr_truncate_rnode record) 0 0) d
          (GetWorkerId_lt env d _ 0 0 hn)
        simp only [hd1, Res.andThen_ok]
        exact Runs_sync env tlis xt env.ALL_WORKER false hc1.prepared
      · obtain ⟨d1, hd1, hc1⟩ := addWorkers_ok (List.range d.pageWorkerCount)
          (fun i _ => i) d
          (fun i hi acc hacc => by rw [hacc]; exact List.mem_range.mp hi)
        simp only [hd1, Res.andThen_ok]
        exact Runs_sync env tlis xt env.ALL_WORKER false hc1.prepared
    · exact Runs_nothing false (Prepared.prep_refl d)

theorem DispatchDataBaseRecord_runs (env : Env) (record : XLogReaderState) (tlis : List Nat)
    (xt : Int) (d : LogDispatcher) (hn : 0 < d.pageWorkerCount) :
    RunsPattern env record d (DispatchDataBaseRecord env record tlis xt d)
      FanoutPattern.everyWorker := by
  unfold DispatchDataBaseRecord
  simp only []
  split
  · exact Runs_broadcast _ _ (d.itemSeq + 1) (Prepared.prep_refl d) _ rfl rfl rfl
  · exact Runs_withoutPage_marker env tlis false (Prepared.prep_refl d) hn

theorem DispatchTableSpaceRecord_runs (env : Env) (record : XLogReaderState)
    (tlis : List Nat) (xt : Int) (d : LogDispatcher) (hn : 0 < d.pageWorkerCount) :
    RunsPattern env record d (DispatchTableSpaceRecord env record tlis xt d)
      FanoutPattern.everyWorker := by
  unfold DispatchTableSpaceRecord
  simp only []
  split
  · exact Runs_txn env tlis xt true true (Prepared.prep_refl d)
  · exact Runs_withoutPage_marker env tlis false (Prepared.prep_refl d) hn

theorem DispatchHeapRecord_runs (env : Env) (record : XLogReaderState) (tlis : List Nat)
    (xt : Int) (d : LogDispatcher) (hn : 0 < d.pageWorkerCount) (hz : Unchosen d) :
    RunsPattern env record d (DispatchHeapRecord env record tlis xt d)
      (patternOfHeap env record) := by
  unfold DispatchHeapRecord patternOfHeap
  split
  · exact Runs_withPages env tlis _ false (Prepared.prep_refl d) hn hz
  · exact Runs_withoutPage env tlis false (Prepared.prep_refl d) hn

theorem DispatchSeqRecord_runs (env : Env) (record : XLogReaderState) (tlis : List Nat)
    (xt : Int) (d : LogDispatcher) (hn : 0 < d.pageWorkerCount) (hz : Unchosen d) :
    RunsPattern env record d (DispatchSeqRecord env record tlis xt d)
      (FanoutPattern.withPages env.SUPPORT_FPAGE_DISPATCH) :=
  Runs_withPages env tlis _ false (Prepared.prep_refl d) hn hz

theorem DispatchBtreeRecord_runs (env : Env) (record : XLogReaderState) (tlis : List Nat)
    (xt : Int) (d : LogDispatcher) (hn : 0 < d.pageWorkerCount) (hz : Unchosen d) :
    RunsPattern env record d (DispatchBtreeRecord env record tlis xt d)
      (patternOfBtree env record) := by
  unfold DispatchBtreeRecord patternOfBtree
  simp only []
  split
  · exact Runs_txn env tlis xt false false (Prepared.prep_refl d)
  · exact Runs_withPages env tlis true false (Prepared.prep_refl d) hn hz

theorem DispatchGinRecord_runs (env : Env) (record : XLogReaderState) (tlis : List Nat)
    (xt : Int) (d : LogDispatcher) (hn : 0 < d.pageWorkerCount) (hz : Unchosen d) :
    RunsPattern env record d (DispatchGinRecord env record tlis xt d)
      (patternOfGin env record) := by
  unfold DispatchGinRecord patternOfGin
  simp only []
  have hprep0 := Prepared.ite_warn (infoOp env record = env.XLOG_GIN_DELETE_LISTPAGE ∧
      env.ginxlogDeleteListPages_ndeleted record ≠ record.max_block_id)
    WarnMsg.DispatchGinRecord_warnninginfo d
  have hz0 := Unchosen_ite_warn (infoOp env record = env.XLOG_GIN_DELETE_LISTPAGE ∧
      env.ginxlogDeleteListPages_ndeleted record ≠ record.max_block_id)
    WarnMsg.DispatchGinRecord_warnninginfo d hz
  generalize (if infoOp env record = env.XLOG_GIN_DELETE_LISTPAGE ∧
      env.ginxlogDeleteListPages_ndeleted record ≠ record.max_block_id
    then ereportWARNING WarnMsg.DispatchGinRecord_warnninginfo d else d) = d0 at hprep0 hz0 ⊢
  split
  · exact Runs_afterIds env _ hprep0 hn hz0
      (fun d2 hp hch => Runs_spec env tlis true false hp hch)
  · exact Runs_withPages env tlis true false hprep0 hn hz0

theorem DispatchGistRecord_runs (env : Env) (record : XLogReaderState) (tlis : List Nat)
    (xt : Int) (d : LogDispatcher) (hn : 0 < d.pageWorkerCount) (hz : Unchosen d) :
    RunsPattern env record d (DispatchGistRecord env record tlis xt d)
      (patternOfGist env record) := by
  unfold DispatchGistRecord patternOfGist
  simp only []
  have hprep0 := Prepared.ite_warn (infoOp env record = env.XLOG_GIST_PAGE_SPLIT ∧
      env.gistxlogPageSplit_npage record ≠ record.max_block_id)
    WarnMsg.DispatchGistRecord_warnninginfo d
  have hz0 := Unchosen_ite_warn (infoOp env record = env.XLOG_GIST_PAGE_SPLIT ∧
      env.gistxlogPageSplit_npage record ≠ record.max_block_id)
    WarnMsg.DispatchGistRecord_warnninginfo d hz
  generalize (if infoOp env record = env.XLOG_GIST_PAGE_SPLIT ∧
      env.gistxlogPageSplit_npage record ≠ record.max_block_id
    then ereportWARNING WarnMsg.DispatchGistRecord_warnninginfo d else d) = d0 at hprep0 hz0 ⊢
  split
  · exact Runs_afterIds env _ hprep0 hn hz0
      (fun d2 hp hch => Runs_spec env tlis true false hp hch)
  · exact Runs_withPages env tlis true false hprep0 hn hz0

theorem DispatchSpgistRecord_runs (env : Env) (record : XLogReaderState) (tlis : List Nat)
    (xt : Int) (d : LogDispatcher) (hn : 0 < d.pageWorkerCount) (hz : Unchosen d) :
    RunsPattern env record d (DispatchSpgistRecord env record tlis xt d)
      (patternOfSpgist env record) := by
  unfold DispatchSpgistRecord patternOfSpgist
  simp only []
  by_cases hv : env.IsSpgistVacuum record = true ∧ env.SUPPORT_HOT_STANDBY = true
  · rw [if_pos hv, if_pos hv]
    by_cases hr : infoOp env record = env.XLOG_SPGIST_VACUUM_REDIRECT ∧ env.InHotStandby = true
    · simp only [hr, and_self, if_true]
      exact Runs_afterIds env _ (Prepared.prep_refl d) hn hz
        (fun d2 hp _ => Runs_sync env tlis xt env.TRXN_WORKER false hp)
    · simp only [hr, if_false]
      exact Runs_afterIds env _ (Prepared.prep_refl d) hn hz
        (fun d2 hp hch => Runs_spec env tlis true false hp hch)
  · rw [if_neg hv, if_neg hv]
    exact Runs_withPages env tlis true false (Prepared.prep_refl d) hn hz

theorem DispatchHeap2Record_runs (env : Env) (record : XLogReaderState) (tlis : List Nat)
    (xt : Int) (d : LogDispatcher) (hn : 0 < d.pageWorkerCount) (hz : Unchosen d) :
    RunsPattern env record d (DispatchHeap2Record env record tlis xt d)
      (patternOfHeap2 env record) := by
  unfold DispatchHeap2Record patternOfHeap2
  simp only []
  split
  · exact Runs_withPages env tlis _ false (Prepared.prep_refl d) hn hz
  · split
    · split
      · exact Runs_onePage env _ tlis false (Prepared.prep_refl d)
      · exact Runs_withoutPage env tlis false (Prepared.prep_refl d) hn
    · split
      · split
        · split
          · split
            · exact Runs_onePage env _ tlis false (Prepared.prep_refl d)
            · exact Runs_withoutPage env tlis false (Prepared.prep_refl d) hn
          · exact Runs_nothing false (Prepared.prep_refl d)
        · split
          · exact Runs_txn env tlis xt false true (Prepared.prep_refl d)
          · exact Runs_nothing false (Prepared.prep_refl d)
      · unfold DispatchHeap2VacuumRecord
        simp only []
        split
        · exact Runs_txn env tlis xt false false (Prepared.prep_refl d)
        · exact Runs_withPages env tlis _ false (Prepared.prep_refl d) hn hz

theorem g_dispatchTable_length_le (env : Env) : (g_dispatchTable env).length ≤ 21 := by
  unfold g_dispatchTable
  cases env.ENABLE_MULTIPLE_NODES <;> simp

/-- The resource-manager id of an accepted record is the index of an initialised row. -/
theorem accepted_rmid_lt (env : Env) (record : XLogReaderState)
    (h : fatalerror env record = false) :
    XLogRecGetRmid record < (g_dispatchTable env).length := by
  obtain ⟨_, hid⟩ := accepted_row env record h
  by_contra hlen
  have hdef : dispatchRow env (XLogRecGetRmid record) = ⟨none, none, 0, 0, 0⟩ := by
    unfold dispatchRow
    exact List.getD_eq_default _ _ (by omega)
  rw [hdef] at hid
  have := g_dispatchTable_length_pos env
  simp at hid
  omega

/-- The strategy an accepted record selects, started on an empty chosen set, runs the
fan-out `patternOf` names. -/
theorem runStrategy_runs (env : Env) (record : XLogReaderState) (tlis : List Nat)
    (xt : Int) (d : LogDispatcher) (hn : 0 < d.pageWorkerCount) (hz : Unchosen d)
    (h : fatalerror env record = false) :
    RunsPattern env record d (runStrategy env record tlis xt d) (patternOf env record) := by
  have hlt := accepted_rmid_lt env record h
  have hle := g_dispatchTable_length_le env
  obtain ⟨k, hk⟩ : ∃ k, XLogRecGetRmid record = k := ⟨_, rfl⟩
  have hk21 : k < 21 := by omega
  unfold runStrategy patternOf
  simp only [h, Bool.false_eq_true, if_false, ne_eq, not_false_eq_true, if_true]
  rw [hk]
  interval_cases k
  · exact DispatchXLogRecord_runs env record tlis xt d hn hz
  · exact DispatchXactRecord_runs env record tlis xt d hn
  · exact DispatchSmgrRecord_runs env record tlis xt d hn
  · exact Runs_txn env tlis xt false false (Prepared.prep_refl d)
  · exact DispatchDataBaseRecord_runs env record tlis xt d hn
  · exact DispatchTableSpaceRecord_runs env record tlis xt d hn
  · exact Runs_txn env tlis xt false false (Prepared.prep_refl d)
  · exact Runs_txn env tlis xt false false (Prepared.prep_refl d)
  · have hd : (dispatchRow env 8).rm_dispatch = some DispatchStandbyRecord := by
      unfold dispatchRow g_dispatchTable
      cases env.ENABLE_MULTIPLE_NODES <;> rfl
    rw [hd]
    exact Runs_txn env tlis xt false _ (Prepared.prep_refl d)
  · exact DispatchHeap2Record_runs env record tlis xt d hn hz
  · exact DispatchHeapRecord_runs env record tlis xt d hn hz
  · exact DispatchBtreeRecord_runs env record tlis xt d hn hz
  · exact Runs_txn env tlis xt false true (Prepared.prep_refl d)
  · exact DispatchGinRecord_runs env record tlis xt d hn hz
  · exact DispatchGistRecord_runs env record tlis xt d hn hz
  · exact DispatchSeqRecord_runs env record tlis xt d hn hz
  · exact DispatchSpgistRecord_runs env record tlis xt d hn hz
  · exact Runs_txn env tlis xt false false (Prepared.prep_refl d)
  · exact Runs_txn env tlis xt false false (Prepared.prep_refl d)
  · have hd : (dispatchRow env 19).rm_dispatch = some DispatchBarrierRecord ∨
        (dispatchRow env 19).rm_dispatch = some DispatchMotRecord := by
      unfold dispatchRow g_dispatchTable
      cases env.ENABLE_MULTIPLE_NODES
      · right; rfl
      · left; rfl
    rcases hd with hd | hd <;> rw [hd] <;>
      exact Runs_txn env tlis xt false false (Prepared.prep_refl d)
  · have hm : env.ENABLE_MULTIPLE_NODES = true := by
      by_contra hc
      have hlen : (g_dispatchTable env).length = 20 := by
        unfold g_dispatchTable
        simp [hc]
      rw [hk] at hlt
      omega
    have hd : (dispatchRow env 20).rm_dispatch = some DispatchMotRecord := by
      unfold dispatchRow g_dispatchTable
      rw [hm]
      rfl
    rw [hd]
    exact Runs_txn env tlis xt false false (Prepared.prep_refl d)

theorem Unchosen_reset (d : LogDispatcher) : Unchosen (ResetChosedWorkerList d) := by
  intro w hw
  have hw1 : w < d.pageWorkerCount := hw
  simp [ResetChosedWorkerList, hw1]

theorem pageQueue_no_enqueue (w : Nat) (l : List Event) (h : ∀ e ∈ l, e.isEnqueue = false) :
    pageQueue w l = [] := by
  induction l with
  | nil => rfl
  | cons e rest ih =>
    have he := h e (List.mem_cons_self _ _)
    have hrest := ih (fun x hx => h x (List.mem_cons_of_mem _ hx))
    cases e with
    | AddPageRedoItem v it => cases he
    | AddTxnRedoItem it => cases he
    | WARNING m => simpa using hrest
    | ProcessPendingRecords b => simpa using hrest
    | DumpDispatcher => simpa using hrest

/-- An accepted record under the guard: the call returns after the fan-out `patternOf`
names, followed by the drain. -/
theorem dispatch_accepted_pattern (env : Env) (d : LogDispatcher) (record : XLogReaderState)
    (tlis : List Nat) (xt : Int) (hpar : env.get_real_recovery_parallelism > 1)
    (hn : 0 < d.pageWorkerCount) (hacc : fatalerror env record = false) :
    ∃ d2 evs drain,
      DispatchRedoRecordToFile env (some d) record tlis xt = Res.ok () d2 ∧
      d2.trace = d.trace ++ evs ++ drain ∧
      (∀ e ∈ drain, e.isEnqueue = false) ∧
      Fanout d.pageWorkerCount record evs ∧
      PatternEffect env record d (patternOf env record) evs := by
  obtain ⟨b, d1, evs, d2, hrun, htr1, hF, _, heq, _, _, htr, _⟩ :=
    dispatch_accepted env d record tlis xt hpar hn hacc
  obtain ⟨b1, d3, evs1, hrun1, htr3, hE⟩ :=
    runStrategy_runs env record tlis xt (ResetChosedWorkerList d) hn (Unchosen_reset d) hacc
  rw [hrun] at hrun1
  injection hrun1 with _ hd
  have hev : evs1 = evs := by
    have h1 : d.trace ++ evs1 = d.trace ++ evs := by
      rw [← htr1, hd]
      exact htr3.symm
    exact List.append_cancel_left h1
  rw [hev] at hE
  refine ⟨d2, evs, _, heq, htr, ?_, hF, ?_⟩
  · intro e he
    by_cases hb : b = true
    · rw [if_pos hb] at he
      simp at he
      rw [he]
      rfl
    · rw [if_neg hb] at he
      by_cases hp : d.pendingCount + 1 ≥ d.pendingMax
      · rw [if_pos hp] at he
        simp at he
        rw [he]
        rfl
      · rw [if_neg hp] at he
        simp at he
  · cases hp : patternOf env record <;> rw [hp] at hE <;> exact hE

/-- Every call under the guard, of an accepted or of a malformed record: the trace grows by
the fan-out `patternOf` names, followed by events that are not enqueues. -/
theorem dispatch_call_pattern (env : Env) (d : LogDispatcher) (record : XLogReaderState)
    (tlis : List Nat) (xt : Int) (hpar : env.get_real_recovery_parallelism > 1)
    (hn : 0 < d.pageWorkerCount) :
    ∃ evs rest,
      (DispatchRedoRecordToFile env (some d) record tlis xt).trace = d.trace ++ evs ++ rest ∧
      (∀ e ∈ rest, e.isEnqueue = false) ∧
      Fanout d.pageWorkerCount record evs ∧
      PatternEffect env record d (patternOf env record) evs := by
  cases hf : fatalerror env record with
  | false =>
    obtain ⟨d2, evs, drain, heq, htr, hdrain, hF, hE⟩ :=
      dispatch_accepted_pattern env d record tlis xt hpar hn hf
    refine ⟨evs, drain, ?_, hdrain, hF, hE⟩
    rw [heq]
    exact htr
  | true =>
    have hp : patternOf env record = FanoutPattern.everyWorker := by
      unfold patternOf
      rw [if_pos hf]
    rw [hp, dispatch_fatal env d record tlis xt hpar hn hf]
    refine ⟨(List.range d.pageWorkerCount).map (fun i =>
        Event.AddPageRedoItem i (markerItem env record tlis (d.itemSeq + i))) ++
      [Event.AddTxnRedoItem
        (realItem record 1 env.ANY_WORKER tlis xt (d.itemSeq + d.pageWorkerCount))],
      [Event.ProcessPendingRecords true, Event.DumpDispatcher], ?_, ?_, ?_, ?_, ?_⟩
    · simp [Res.trace]
    · intro e he
      simp at he
      rcases he with he | he <;> rw [he] <;> rfl
    · exact Fanout.range_then_txn _ _ _ _ (fun i => rfl) rfl
    · intro w hw
      rw [pageQueue_append, pageQueue_range_map, if_pos hw]
      simp
    · right
      refine ⟨realItem record 1 env.ANY_WORKER tlis xt (d.itemSeq + d.pageWorkerCount), ?_,
        rfl, rfl⟩
      rw [txnQueue_append, txnQueue_range_map]
      simp

/-- The real item reaches a worker exactly when the fan-out is not one that gives it to
nobody. -/
theorem PatternEffect_delivered (env : Env) (record : XLogReaderState) (d : LogDispatcher)
    (evs : List Event) (hn : 0 < d.pageWorkerCount)
    (h : PatternEffect env record d (patternOf env record) evs) :
    realDelivered record evs ↔ reachesNobody env record = false := by
  unfold reachesNobody
  generalize patternOf env record = p at h
  cases p with
  | everyWorker => exact ⟨fun _ => rfl, fun _ => h.2⟩
  | specWorkers =>
    obtain ⟨hcov, hitems, htxn⟩ := h
    constructor
    · rintro (⟨w, it, hit, hk, _⟩ | ⟨it, hit, hk, _⟩)
      · have hm := ((hitems w it hit).1).mp hk
        have hb := (blockWorkerIds_ne_nil env (some d) record true).mp ⟨w, hm⟩
        simp [hb]
      · rw [htxn it hit] at hk
        cases hk
    · intro hb
      have hb1 : hasInUseBlock record = true := by simpa using hb
      obtain ⟨w, hm⟩ := (blockWorkerIds_ne_nil env (some d) record true).mpr hb1
      have hw := blockWorkerIds_lt env record true d hn w hm
      obtain ⟨it, hit⟩ := List.exists_mem_of_ne_nil _ (hcov w hw)
      have hk := ((hitems w it hit).1).mpr hm
      exact Or.inl ⟨w, it, hit, hk, (hitems w it hit).2 hk⟩
  | withPages rd =>
    obtain ⟨hiff, hitems, htxn⟩ := h
    constructor
    · rintro (⟨w, it, hit, _, _⟩ | ⟨it, hit, _, _⟩)
      · have hne : pageQueue w evs ≠ [] := List.ne_nil_of_mem hit
        have hb := (blockWorkerIds_ne_nil env (some d) record rd).mp ⟨w, (hiff w).mp hne⟩
        simp [hb]
      · rw [htxn] at hit
        cases hit
    · intro hb
      have hb1 : hasInUseBlock record = true := by simpa using hb
      obtain ⟨w, hm⟩ := (blockWorkerIds_ne_nil env (some d) record rd).mpr hb1
      obtain ⟨it, hit⟩ := List.exists_mem_of_ne_nil _ ((hiff w).mpr hm)
      exact Or.inl ⟨w, it, hit, (hitems w it hit).1, (hitems w it hit).2⟩
  | oneWorker rnode =>
    obtain ⟨hiff, hitems, _⟩ := h
    refine ⟨fun _ => rfl, fun _ => ?_⟩
    obtain ⟨it, hit⟩ := List.exists_mem_of_ne_nil _
      ((hiff (GetWorkerId env (some d) rnode 0 0)).mpr rfl)
    exact Or.inl ⟨_, it, hit, (hitems _ it hit).1, (hitems _ it hit).2⟩
  | nobody =>
    obtain ⟨hpage, htxn⟩ := h
    constructor
    · rintro (⟨w, it, hit, _, _⟩ | ⟨it, hit, _, _⟩)
      · rw [hpage w] at hit
        cases hit
      · rw [htxn] at hit
        cases hit
    · intro hc
      cases hc

/-- A queue of at most one entry that is not empty. -/
theorem singleton_of_le_one {α : Type} (q : List α) (hlen : q.length ≤ 1) (hne : q ≠ []) :
    ∃ it, q = [it] := by
  match q, hlen, hne with
  | [], _, hne => exact absurd rfl hne
  | [it], _, _ => exact ⟨it, rfl⟩
  | _ :: _ :: _, hlen, _ => simp at hlen

/-! ## Coverage and delivery, record by record -/

theorem reachesNobody_iff (env : Env) (record : XLogReaderState) :
    reachesNobody env record = true ↔
      patternOf env record = FanoutPattern.nobody ∨
      ((patternOf env record = FanoutPattern.specWorkers ∨
          ∃ rd, patternOf env record = FanoutPattern.withPages rd) ∧
        hasInUseBlock record = false) := by
  unfold reachesNobody
  cases patternOf env record <;> simp

/-- C3, as stated, fails: a heap insert with one block reference (relation 7) is accepted
and dispatched over three page workers by `DispatchRecordWithPages`; page worker 0 gets the
real item, page worker 1 is not in the chosen set and gets no entry at all, not even an LSN
marker.  An accepted `RM_HEAP2` `XLOG_HEAP2_LOGICAL_NEWPAGE` record for a row-store page, in
multi-standby mode, gives no page worker an entry. -/
theorem C3_counterexample :
    (DispatchRedoRecordToFile sampleEnv (some (sampleDispatcher 3))
        (sampleBlockRecord 10 0 100 7 5) [] 0).returned = true ∧
    (pageQueue 0 (DispatchRedoRecordToFile sampleEnv (some (sampleDispatcher 3))
        (sampleBlockRecord 10 0 100 7 5) [] 0).trace).length = 1 ∧
    pageQueue 1 (DispatchRedoRecordToFile sampleEnv (some (sampleDispatcher 3))
        (sampleBlockRecord 10 0 100 7 5) [] 0).trace = [] ∧
    (DispatchRedoRecordToFile sampleEnv (some (sampleDispatcher 3))
        (sampleRecord 9 0x70 100 [1, 2, 3, 0, 0]) [] 0).returned = true ∧
    pageQueue 0 (DispatchRedoRecordToFile sampleEnv (some (sampleDispatcher 3))
        (sampleRecord 9 0x70 100 [1, 2, 3, 0, 0]) [] 0).trace = [] ∧
    pageQueue 1 (DispatchRedoRecordToFile sampleEnv (some (sampleDispatcher 3))
        (sampleRecord 9 0x70 100 [1, 2, 3, 0, 0]) [] 0).trace = [] ∧
    pageQueue 2 (DispatchRedoRecordToFile sampleEnv (some (sampleDispatcher 3))
        (sampleRecord 9 0x70 100 [1, 2, 3, 0, 0]) [] 0).trace = [] := by
  decide

/-- C3, amended: every call of `DispatchRedoRecordToFile` under its guard, for an accepted
or a malformed record, enqueues at most one entry for the record to each page worker.  When
the branch the record takes ends in a fan-out to every worker (every malformed record, and
every accepted one whose branch is not a targeted dispatch or a skip), every page worker
receives exactly one entry, the real item or an LSN marker; after `GetWorkerIds` and
`DispatchToSpecPageWorker` the entry is the real item exactly for the workers of the block
references in use.  In a targeted dispatch only the chosen workers receive an entry, the real
item: `DispatchRecordWithPages` gives it to the workers of the block references in use,
`DispatchToOnePageWorker` to the worker of its relation, and a page worker outside receives
nothing, in particular no LSN marker.  A skipped record gives no page worker an entry. -/
theorem C3_coverage_by_pattern (env : Env) (d : LogDispatcher) (record : XLogReaderState)
    (tlis : List Nat) (xt : Int) (hpar : env.get_real_recovery_parallelism > 1)
    (hn : GetPageWorkerCount (some d) > 0) :
    (∀ w, ∃ new,
      pageQueue w (DispatchRedoRecordToFile env (some d) record tlis xt).trace
        = pageQueue w d.trace ++ new ∧
      new.length ≤ 1 ∧ ∀ it ∈ new, lsnOf it.record = lsnOf record) ∧
    (patternOf env record = FanoutPattern.everyWorker →
      ∀ w, w < d.pageWorkerCount → ∃ it,
        pageQueue w (DispatchRedoRecordToFile env (some d) record tlis xt).trace
          = pageQueue w d.trace ++ [it] ∧
        lsnOf it.record = lsnOf record) ∧
    (patternOf env record = FanoutPattern.specWorkers →
      ∀ w, w < d.pageWorkerCount → ∃ it,
        pageQueue w (DispatchRedoRecordToFile env (some d) record tlis xt).trace
          = pageQueue w d.trace ++ [it] ∧
        lsnOf it.record = lsnOf record ∧
        (it.kind = ItemKind.real ↔ w ∈ blockWorkerIds env (some d) record true)) ∧
    (∀ rd, patternOf env record = FanoutPattern.withPages rd →
      ∀ w,
        (w ∈ blockWorkerIds env (some d) record rd → ∃ it,
          pageQueue w (DispatchRedoRecordToFile env (some d) record tlis xt).trace
            = pageQueue w d.trace ++ [it] ∧
          it.kind = ItemKind.real ∧ it.record = record) ∧
        (w ∉ blockWorkerIds env (some d) record rd →
          pageQueue w (DispatchRedoRecordToFile env (some d) record tlis xt).trace
            = pageQueue w d.trace)) ∧
    (∀ rnode, patternOf env record = FanoutPattern.oneWorker rnode →
      ∀ w,
        (w = GetWorkerId env (some d) rnode 0 0 → ∃ it,
          pageQueue w (DispatchRedoRecordToFile env (some d) record tlis xt).trace
            = pageQueue w d.trace ++ [it] ∧
          it.kind = ItemKind.real ∧ it.record = record) ∧
        (w ≠ GetWorkerId env (some d) rnode 0 0 →
          pageQueue w (DispatchRedoRecordToFile env (some d) record tlis xt).trace
            = pageQueue w d.trace)) ∧
    (patternOf env record = FanoutPattern.nobody →
      ∀ w, pageQueue w (DispatchRedoRecordToFile env (some d) record tlis xt).trace
        = pageQueue w d.trace) := by
  obtain ⟨evs, rest, htr, hrest, hF, hE⟩ :=
    dispatch_call_pattern env d record tlis xt hpar hn
  have hq : ∀ w, pageQueue w (DispatchRedoRecordToFile env (some d) record tlis xt).trace
      = pageQueue w d.trace ++ pageQueue w evs := by
    intro w
    rw [htr, pageQueue_append, pageQueue_append, pageQueue_no_enqueue w rest hrest,
      List.append_nil]
  refine ⟨?_, ?_, ?_, ?_, ?_, ?_⟩
  · intro w
    exact ⟨pageQueue w evs, hq w, hF.page_le_one w, hF.page_lsn w⟩
  · intro hp w hw
    rw [hp] at hE
    obtain ⟨it, hit⟩ := singleton_of_le_one _ (hF.page_le_one w) (hE.1 w hw)
    refine ⟨it, by rw [hq w, hit], ?_⟩
    exact hF.page_lsn w it (by rw [hit]; exact List.mem_singleton.mpr rfl)
  · intro hp w hw
    rw [hp] at hE
    obtain ⟨it, hit⟩ := singleton_of_le_one _ (hF.page_le_one w) (hE.1 w hw)
    have hmem : it ∈ pageQueue w evs := by rw [hit]; exact List.mem_singleton.mpr rfl
    exact ⟨it, by rw [hq w, hit], hF.page_lsn w it hmem, (hE.2.1 w it hmem).1⟩
  · intro rd hp w
    rw [hp] at hE
    constructor
    · intro hm
      obtain ⟨it, hit⟩ := singleton_of_le_one _ (hF.page_le_one w) ((hE.1 w).mpr hm)
      have hmem : it ∈ pageQueue w evs := by rw [hit]; exact List.mem_singleton.mpr rfl
      exact ⟨it, by rw [hq w, hit], (hE.2.1 w it hmem).1, (hE.2.1 w it hmem).2⟩
    · intro hm
      have hnil : pageQueue w evs = [] := by
        by_contra hne
        exact hm ((hE.1 w).mp hne)
      rw [hq w, hnil, List.append_nil]
  · intro rnode hp w
    rw [hp] at hE
    constructor
    · intro hm
      obtain ⟨it, hit⟩ := singleton_of_le_one _ (hF.page_le_one w) ((hE.1 w).mpr hm)
      have hmem : it ∈ pageQueue w evs := by rw [hit]; exact List.mem_singleton.mpr rfl
      exact ⟨it, by rw [hq w, hit], (hE.2.1 w it hmem).1, (hE.2.1 w it hmem).2⟩
    · intro hm
      have hnil : pageQueue w evs = [] := by
        by_contra hne
        exact hm ((hE.1 w).mp hne)
      rw [hq w, hnil, List.append_nil]
  · intro hp w
    rw [hp] at hE
    rw [hq w, hE.1 w, List.append_nil]

/-- C3 amended, over three page workers: an `RM_CLOG` record, dispatched by
`DispatchTxnRecord`, gives every page worker one entry; a heap insert with one block
reference, dispatched by `DispatchRecordWithPages`, gives the real item to the worker of
the block and nothing to the other page workers. -/
theorem C3_coverage_by_pattern_witness :
    sampleEnv.get_real_recovery_parallelism > 1 ∧
    GetPageWorkerCount (some (sampleDispatcher 3)) > 0 ∧
    patternOf sampleEnv (sampleRecord 3 0 100 []) = FanoutPattern.everyWorker ∧
    (∀ w, w < (sampleDispatcher 3).pageWorkerCount → ∃ it,
      pageQueue w (DispatchRedoRecordToFile sampleEnv (some (sampleDispatcher 3))
          (sampleRecord 3 0 100 []) [] 0).trace
        = pageQueue w (sampleDispatcher 3).trace ++ [it] ∧
      lsnOf it.record = lsnOf (sampleRecord 3 0 100 [])) ∧
    patternOf sampleEnv (sampleBlockRecord 10 0 100 7 5) = FanoutPattern.withPages true ∧
    blockWorkerIds sampleEnv (some (sampleDispatcher 3)) (sampleBlockRecord 10 0 100 7 5) true
      = [0] ∧
    (∀ w,
      (w ∈ blockWorkerIds sampleEnv (some (sampleDispatcher 3))
            (sampleBlockRecord 10 0 100 7 5) true → ∃ it,
        pageQueue w (DispatchRedoRecordToFile sampleEnv (some (sampleDispatcher 3))
            (sampleBlockRecord 10 0 100 7 5) [] 0).trace
          = pageQueue w (sampleDispatcher 3).trace ++ [it] ∧
        it.kind = ItemKind.real ∧ it.record = sampleBlockRecord 10 0 100 7 5) ∧
      (w ∉ blockWorkerIds sampleEnv (some (sampleDispatcher 3))
            (sampleBlockRecord 10 0 100 7 5) true →
        pageQueue w (DispatchRedoRecordToFile sampleEnv (some (sampleDispatcher 3))
            (sampleBlockRecord 10 0 100 7 5) [] 0).trace
          = pageQueue w (sampleDispatcher 3).trace)) :=
  ⟨by decide, by decide, by decide,
    (C3_coverage_by_pattern sampleEnv (sampleDispatcher 3) (sampleRecord 3 0 100 []) [] 0
      (by decide) (by decide)).2.1 (by decide),
    by decide, by decide,
    (C3_coverage_by_pattern sampleEnv (sampleDispatcher 3) (sampleBlockRecord 10 0 100 7 5)
      [] 0 (by decide) (by decide)).2.2.2.1 true (by decide)⟩

/-- C4, as stated, fails: an `RM_HEAP2` `XLOG_HEAP2_LOGICAL_NEWPAGE` record for a
row-store page, in multi-standby mode, is accepted by the routing table, the call returns,
and the record is enqueued to nobody: the only event is the drain.  The same holds for an
accepted heap record whose only slot, `blocks[0]`, is not in use: `DispatchRecordWithPages`
finds no worker to give it to. -/
theorem C4_counterexample :
    ¬ malformed sampleEnv (sampleRecord 9 0x70 100 [1, 2, 3, 0, 0]) ∧
    XLogRecGetRmid (sampleRecord 9 0x70 100 [1, 2, 3, 0, 0]) = sampleEnv.RM_HEAP2_ID ∧
    infoOp sampleEnv (sampleRecord 9 0x70 100 [1, 2, 3, 0, 0]) &&& sampleEnv.XLOG_HEAP_OPMASK
      = sampleEnv.XLOG_HEAP2_LOGICAL_NEWPAGE ∧
    (DispatchRedoRecordToFile sampleEnv (some (sampleDispatcher 3))
        (sampleRecord 9 0x70 100 [1, 2, 3, 0, 0]) [] 0).returned = true ∧
    (DispatchRedoRecordToFile sampleEnv (some (sampleDispatcher 3))
        (sampleRecord 9 0x70 100 [1, 2, 3, 0, 0]) [] 0).trace
      = [Event.ProcessPendingRecords false] ∧
    ¬ malformed sampleEnv (sampleUnusedSlotRecord 10 0 100 7) ∧
    XLogRecGetRmid (sampleUnusedSlotRecord 10 0 100 7) = sampleEnv.RM_HEAP_ID ∧
    (DispatchRedoRecordToFile sampleEnv (some (sampleDispatcher 3))
        (sampleUnusedSlotRecord 10 0 100 7) [] 0).returned = true ∧
    (DispatchRedoRecordToFile sampleEnv (some (sampleDispatcher 3))
        (sampleUnusedSlotRecord 10 0 100 7) [] 0).trace
      = [Event.ProcessPendingRecords false] :=
  ⟨(fatalerror_false_iff _ _).mp (by decide), by decide, by decide, by decide, by decide,
    (fatalerror_false_iff _ _).mp (by decide), by decide, by decide, by decide⟩

/-- C4, amended: for every record the routing table accepts, `DispatchRedoRecordToFile`
returns after the one fan-out of the branch the row's strategy takes (at most one entry per
worker, nothing but the drain after it), and the record's real item is enqueued to at least
one page worker or to the transaction worker exactly when the record is not one of these:
a record whose strategy returns without an enqueue (an `RM_HEAP2` record that reaches the
`XLOG_HEAP2_LOGICAL_NEWPAGE` branch and fails its guards, an `RM_SMGR` record that is
neither a create nor a truncate), or a record without a block reference in use whose branch
hands the real item to the workers of the block references (`DispatchRecordWithPages`, or
`GetWorkerIds` followed by `DispatchToSpecPageWorker`). -/
theorem C4_accepted_record_delivered (env : Env) (d : LogDispatcher)
    (record : XLogReaderState) (tlis : List Nat) (xt : Int)
    (hpar : env.get_real_recovery_parallelism > 1) (hn : GetPageWorkerCount (some d) > 0)
    (hacc : ¬ malformed env record) :
    ∃ d1 evs drain,
      DispatchRedoRecordToFile env (some d) record tlis xt = Res.ok () d1 ∧
      d1.trace = d.trace ++ evs ++ drain ∧
      (∀ e ∈ drain, e.isEnqueue = false) ∧
      Fanout d.pageWorkerCount record evs ∧
      PatternEffect env record d (patternOf env record) evs ∧
      (realDelivered record evs ↔ reachesNobody env record = false) ∧
      (reachesNobody env record = true ↔
        patternOf env record = FanoutPattern.nobody ∨
        ((patternOf env record = FanoutPattern.specWorkers ∨
            ∃ rd, patternOf env record = FanoutPattern.withPages rd) ∧
          hasInUseBlock record = false)) := by
  have hf := (fatalerror_false_iff env record).mpr hacc
  obtain ⟨d2, evs, drain, heq, htr, hdrain, hF, hE⟩ :=
    dispatch_accepted_pattern env d record tlis xt hpar hn hf
  exact ⟨d2, evs, drain, heq, htr, hdrain, hF, hE,
    PatternEffect_delivered env record d evs hn hE, reachesNobody_iff env record⟩

/-- C4 amended, over three page workers, at three accepted records without a block
reference: a heap record with `max_block_id < 0`, a checkpoint and a btree `REUSE_PAGE`
record are each enqueued to a worker. -/
theorem C4_accepted_record_delivered_witness :
    sampleEnv.get_real_recovery_parallelism > 1 ∧
    GetPageWorkerCount (some (sampleDispatcher 3)) > 0 ∧
    ¬ malformed sampleEnv (sampleRecord 10 0 100 []) ∧
    hasInUseBlock (sampleRecord 10 0 100 []) = false ∧
    (∃ d1 evs drain,
      DispatchRedoRecordToFile sampleEnv (some (sampleDispatcher 3))
        (sampleRecord 10 0 100 []) [] 0 = Res.ok () d1 ∧
      d1.trace = (sampleDispatcher 3).trace ++ evs ++ drain ∧
      realDelivered (sampleRecord 10 0 100 []) evs) ∧
    ¬ malformed sampleEnv (sampleRecord 0 0 100 []) ∧
    (∃ d1 evs drain,
      DispatchRedoRecordToFile sampleEnv (some (sampleDispatcher 3))
        (sampleRecord 0 0 100 []) [] 0 = Res.ok () d1 ∧
      d1.trace = (sampleDispatcher 3).trace ++ evs ++ drain ∧
      realDelivered (sampleRecord 0 0 100 []) evs) ∧
    ¬ malformed sampleEnv (sampleRecord 11 0xD0 100 []) ∧
    (∃ d1 evs drain,
      DispatchRedoRecordToFile sampleEnv (some (sampleDispatcher 3))
        (sampleRecord 11 0xD0 100 []) [] 0 = Res.ok () d1 ∧
      d1.trace = (sampleDispatcher 3).trace ++ evs ++ drain ∧
      realDelivered (sampleRecord 11 0xD0 100 []) evs) :=
  ⟨by decide, by decide, (fatalerror_false_iff _ _).mp (by decide), by decide,
    (let ⟨d1, evs, drain, h1, h2, _, _, _, h6, _⟩ :=
      C4_accepted_record_delivered sampleEnv (sampleDispatcher 3) (sampleRecord 10 0 100 [])
        [] 0 (by decide) (by decide) ((fatalerror_false_iff _ _).mp (by decide))
    ⟨d1, evs, drain, h1, h2, h6.mpr (by decide)⟩),
    (fatalerror_false_iff _ _).mp (by decide),
    (let ⟨d1, evs, drain, h1, h2, _, _, _, h6, _⟩ :=
      C4_accepted_record_delivered sampleEnv (sampleDispatcher 3) (sampleRecord 0 0 100 [])
        [] 0 (by decide) (by decide) ((fatalerror_false_iff _ _).mp (by decide))
    ⟨d1, evs, drain, h1, h2, h6.mpr (by decide)⟩),
    (fatalerror_false_iff _ _).mp (by decide),
    (let ⟨d1, evs, drain, h1, h2, _, _, _, h6, _⟩ :=
      C4_accepted_record_delivered sampleEnv (sampleDispatcher 3)
        (sampleRecord 11 0xD0 100 []) [] 0 (by decide) (by decide)
        ((fatalerror_false_iff _ _).mp (by decide))
    ⟨d1, evs, drain, h1, h2, h6.mpr (by decide)⟩)⟩

end parallel_recovery
